import Mathlib

/-!
# MODPLAY: a shallow embedding of the Protracker playback engine

The definitions below follow `src/modplay.c`.  C integers are embedded as
`Nat` (unsigned types) and `Int` (`int`, `int8_t`, `int16_t`); a store
that can exceed an unsigned type of width `w` is written with an explicit
`% 2^w`, and arithmetic on `int` is exact (the values the player computes
stay far inside 32 bits; a signed overflow would be undefined in C).
The width of `size_t` differs between the build targets of the repository
(the DOS sink `AUDIODOS.H` and the Windows sink `audiowin.h`), so it is a
parameter `sz` (number of bits) of every function that stores a `size_t`.
Operations whose behaviour is undefined in C (division by zero, a read
through `NULL`, an index outside a declared array or an allocated block)
are results `Except.error` of type `Fault`.

The loader is given twice: `LoadMOD_loops` follows the statements of the C
function with its running index `imod`, `LoadMOD` is the closed form in
which every header, slot and data block is named by its offset; the lemma
`LoadMOD_loops_eq` shows that the two agree on every file.
-/

namespace Modplay

/-- Run-time faults of the C program: the operations the C standard leaves
undefined and that the player can reach. -/
inductive Fault where
  | divByZero
  | nullDeref
  | outOfBounds
  deriving DecidableEq

/-- Results of fallible operations can be compared. -/
instance instDecidableEqExcept {ε α : Type} [DecidableEq ε] [DecidableEq α] :
    DecidableEq (Except ε α)
  | .ok a, .ok b =>
    if h : a = b then isTrue (by rw [h]) else isFalse (by intro h2; cases h2; exact h rfl)
  | .error a, .error b =>
    if h : a = b then isTrue (by rw [h]) else isFalse (by intro h2; cases h2; exact h rfl)
  | .ok _, .error _ => isFalse (by intro h; cases h)
  | .error _, .ok _ => isFalse (by intro h; cases h)

/-- Value `enum {PAL, NTSC}`: `PAL = 0`. -/
def PAL : Nat := 0

/-- Value `enum {PAL, NTSC}`: `NTSC = 1`. -/
def NTSC : Nat := 1

/-- Number of audio buffers of the sink (`#define MAXAUDIOBUFFERS 4`). -/
def MAXAUDIOBUFFERS : Nat := 4

/-- Conversion of an integer value to `uint8_t`. -/
def u8 (x : Int) : Nat := (x % 256).toNat

/-- Conversion of an integer value to `uint16_t`. -/
def u16 (x : Int) : Nat := (x % 65536).toNat

/-- Conversion of an integer value to `int16_t` (two's complement). -/
def i16 (x : Int) : Int := (x + 32768) % 65536 - 32768

/-- Value of a byte read as `int8_t` (two's complement). -/
def toInt8 (b : Nat) : Int :=
  if b % 256 < 128 then ((b % 256 : Nat) : Int) else ((b % 256 : Nat) : Int) - 256

/-- Sample information (`TSample`).  `Sampledata = none` is the `NULL`
pointer; otherwise it is the allocated block, one byte per element (read
as `int8_t` through `toInt8`). -/
structure TSample where
  Samplename : List Nat
  Samplelength : Nat
  Finetune : Nat
  Volume : Nat
  Repeatpoint : Nat
  Repeatlength : Nat
  Sampledata : Option (List Nat)

/-- Slot information (`TChannelData`). -/
structure TChannelData where
  Samplenumber : Nat
  Noteperiod : Nat
  Effect : Nat
  EffectArg : Nat
  NoteIndex : Nat
  Note : List Nat
  Octave : Nat

/-- A row: four slots (`TRow`, `TChannelData chan[4]`). -/
structure TRow where
  chan : Fin 4 → TChannelData

/-- A pattern: 64 rows (`TPattern`, `TRow row[64]`). -/
structure TPattern where
  row : Fin 64 → TRow

/-- The whole module (`TModule`).  `pattern` is the allocated vector of
patterns, the other arrays have the sizes the C declaration gives them. -/
structure TModule where
  Songname : List Nat
  sample : Fin 31 → TSample
  Songpositions : Fin 128 → Nat
  Songlength : Nat
  pattern : List TPattern
  Numpatterns : Nat

/-- Playing state of one channel (`TChanPlay`).  `sample` is the pointer
`TSample *sample`: `none` is `NULL`, `some k` is `&mod.sample[k]`.  The C
field `end` is `end_` here. -/
structure TChanPlay where
  faseacum : Nat
  fase : Nat
  noteperiod : Nat
  finetune : Nat
  volume : Int
  volbase : Int
  sample : Option (Fin 31)
  position : Nat
  end_ : Nat
  pslide : Int
  vslideup : Int
  vslidedown : Int
  vbspeed : Int
  vbamp : Int
  vbpos : Nat
  trspeed : Int
  tramp : Int
  trpos : Nat
  noteperiodslideto : Nat

/-- State of the player (`TModPlay`). -/
structure TModPlay where
  format : Nat
  sfreq : Nat
  finished : Int
  newrow : Int
  newsongpos : Int
  songpos : Int
  newpatrow : Int
  patrow : Int
  tick : Int
  ticksperdiv : Int
  bpm : Int
  vbwave : Int
  vbretrig : Int
  trwave : Int
  trretrig : Int
  tambufplay : Nat
  chan : Fin 4 → TChanPlay

/-- Assignment through the pointer `chan = &mplay.chan[ch]`. -/
def TModPlay.setChan (mp : TModPlay) (ch : Fin 4) (c : TChanPlay) : TModPlay :=
  { mp with chan := Function.update mp.chan ch c }

/-- Table `waveforms[3][64]`: sine, ramp down and square. -/
def waveforms : List (List Int) :=
  [ [0,24,49,74,97,120,141,161,180,197,212,224,235,244,250,253,255,253,250,244,235,
     224,212,197,180,161,141,120,97,74,49,24,0,-24,-49,-74,-97,-120,-141,-161,-180,
     -197,-212,-224,-235,-244,-250,-253,-255,-253,-250,-244,-235,-224,-212,-197,
     -180,-161,-141,-120,-97,-74,-49,-24],
    [255,246,237,228,219,210,201,192,191,182,173,164,155,146,137,128,127,118,109,
     100,91,82,73,64,63,54,45,36,27,18,9,0,-1,-10,-19,-28,-37,-46,-55,-64,-65,-74,
     -83,-92,-101,-110,-119,-128,-129,-138,-147,-156,-165,-174,-183,-192,-193,
     -202,-211,-220,-229,-238,-247,-255],
    [255,255,255,255,255,255,255,255,255,255,255,255,255,255,255,255,255,255,255,
     255,255,255,255,255,255,255,255,255,255,255,255,255,-255,-255,-255,-255,-255,
     -255,-255,-255,-255,-255,-255,-255,-255,-255,-255,-255,-255,-255,-255,-255,
     -255,-255,-255,-255,-255,-255,-255,-255,-255,-255,-255,-255] ]

/-- Table `finetune_table[16][36]`. -/
def finetune_table : List (List Nat) :=
  [ [856,808,762,720,678,640,604,570,538,508,480,453,
     428,404,381,360,339,320,302,285,269,254,240,226,
     214,202,190,180,170,160,151,143,135,127,120,113],
    [850,802,757,715,674,637,601,567,535,505,477,450,
     425,401,379,357,337,318,300,284,268,253,239,225,
     213,201,189,179,169,159,150,142,134,126,119,113],
    [844,796,752,709,670,632,597,563,532,502,474,447,
     422,398,376,355,335,316,298,282,266,251,237,224,
     211,199,188,177,167,158,149,141,133,125,118,112],
    [838,791,746,704,665,628,592,559,528,498,470,444,
     419,395,373,352,332,314,296,280,264,249,235,222,
     209,198,187,176,166,157,148,140,132,125,118,111],
    [832,785,741,699,660,623,588,555,524,495,467,441,
     416,392,370,350,330,312,294,278,262,247,233,220,
     208,196,185,175,165,156,147,139,131,124,117,110],
    [826,779,736,694,655,619,584,551,520,491,463,437,
     413,390,368,347,328,309,292,276,260,245,232,219,
     206,195,184,174,164,155,146,138,130,123,116,109],
    [820,774,730,689,651,614,580,547,516,487,460,434,
     410,387,365,345,325,307,290,274,258,244,230,217,
     205,193,183,172,163,154,145,137,129,122,115,109],
    [814,768,725,684,646,610,575,543,513,484,457,431,
     407,384,363,342,323,305,288,272,256,242,228,216,
     204,192,181,171,161,152,144,136,128,121,114,108],
    [907,856,808,762,720,678,640,604,570,538,504,480,
     453,428,404,381,360,339,320,302,285,269,254,240,
     226,214,202,190,180,170,160,151,143,135,127,120],
    [900,850,802,757,715,675,636,601,567,535,505,477,
     450,425,401,379,357,337,318,300,284,268,253,238,
     225,212,200,189,179,169,159,150,142,134,126,119],
    [894,844,796,752,709,670,632,597,563,532,502,474,
     447,422,398,376,355,335,316,298,282,266,251,237,
     223,211,199,188,177,167,158,149,141,133,125,118],
    [887,838,791,746,704,665,628,592,559,528,498,470,
     444,419,395,373,352,332,314,296,280,264,249,235,
     222,209,198,187,176,166,157,148,140,132,125,118],
    [881,832,785,741,699,660,623,588,555,524,494,467,
     441,416,392,370,350,330,312,294,278,262,247,233,
     220,208,196,185,175,165,156,147,139,131,123,117],
    [875,826,779,736,694,655,619,584,551,520,491,463,
     437,413,390,368,347,338,309,292,276,260,245,232,
     219,206,195,184,174,164,155,146,138,130,123,116],
    [868,820,774,730,689,651,614,580,547,516,487,460,
     434,410,387,365,345,325,307,290,274,258,244,230,
     217,205,193,183,172,163,154,145,137,129,122,115],
    [862,814,768,725,684,646,610,575,543,513,484,457,
     431,407,384,363,342,323,305,288,272,256,242,228,
     216,203,192,181,171,161,152,144,136,128,121,114] ]

/-- Table `pot[16]` of `DoArpeggio_00`: `2^24 / 2^(i/12)`. -/
def pot : List Nat :=
  [16777216,15835583,14946800,14107900,13316085,
   12568710,11863283,11197448,10568983,9975792,
   9415894,8887420,8388608,7917791,7473400,7053950]

/-- Read of `finetune_table[ft][i]`; a fault when an index is outside the
declared `[16][36]`. -/
def ftLookup (ft i : Nat) : Except Fault Nat :=
  match finetune_table[ft]? with
  | none => .error .outOfBounds
  | some r =>
    match r[i]? with
    | none => .error .outOfBounds
    | some p => .ok p

/-- Read of `waveforms[w][pos]` for an `int` selector `w`; a fault when an
index is outside the declared `[3][64]`. -/
def waveLookup (w : Int) (pos : Nat) : Except Fault Int :=
  if w < 0 then .error .outOfBounds
  else
    match waveforms[w.toNat]? with
    | none => .error .outOfBounds
    | some r =>
      match r[pos]? with
      | none => .error .outOfBounds
      | some v => .ok v

/-- The expression
`((mplay.format==PAL)? 32768LL * 3546895LL : 32768LL * 3579545LL) / (mplay.sfreq * period)`
stored into the `size_t` field `fase`.  The divisor is a `uint32_t` product
(taken modulo `2^32`); the quotient is a `long long`; the store keeps its
low `sz` bits. -/
def calcFase (sz format sfreq period : Nat) : Except Fault Nat :=
  if (sfreq * period) % 2 ^ 32 = 0 then .error .divByZero
  else
    .ok (((if format = PAL then 32768 * 3546895 else 32768 * 3579545)
            / ((sfreq * period) % 2 ^ 32)) % 2 ^ sz)

/-- Function `DoArpeggio_00`.  `arg & 0xF` is `arg % 16`, `(arg>>4) & 0xF` is
`arg / 16 % 16`; `tick % 3` is the C remainder of an `int`. -/
def DoArpeggio_00 (sz : Nat) (chd : TChannelData) (mp : TModPlay) (ch : Fin 4) :
    Except Fault TModPlay :=
  let chan := mp.chan ch
  if mp.tick ≠ 0 then
    if chd.EffectArg ≠ 0 then
      let newperiod : Nat :=
        if Int.tmod mp.tick 3 = 0 then chan.noteperiod
        else if Int.tmod mp.tick 3 = 1 then
          (chan.noteperiod * pot.getD (chd.EffectArg % 16) 0 / 16777216) % 65536
        else if Int.tmod mp.tick 3 = 2 then
          (chan.noteperiod * pot.getD (chd.EffectArg / 16 % 16) 0 / 16777216) % 65536
        else chan.noteperiod
      match calcFase sz mp.format mp.sfreq newperiod with
      | .error e => .error e
      | .ok f => .ok (mp.setChan ch { chan with fase := f })
    else .ok mp
  else .ok mp

/-- Function `DoSlideUp_01`. -/
def DoSlideUp_01 (sz : Nat) (chd : TChannelData) (mp : TModPlay) (ch : Fin 4) :
    Except Fault TModPlay :=
  let chan := mp.chan ch
  if mp.tick = 0 then
    .ok (mp.setChan ch { chan with pslide := chd.EffectArg })
  else
    match ftLookup chan.finetune 35 with
    | .error e => .error e
    | .ok lim =>
      let np : Nat :=
        if (chan.noteperiod : Int) - chan.pslide ≥ (lim : Int) then
          u16 ((chan.noteperiod : Int) - chan.pslide)
        else lim
      match calcFase sz mp.format mp.sfreq np with
      | .error e => .error e
      | .ok f => .ok (mp.setChan ch { chan with noteperiod := np, fase := f })

/-- Function `DoSlideDown_02`. -/
def DoSlideDown_02 (sz : Nat) (chd : TChannelData) (mp : TModPlay) (ch : Fin 4) :
    Except Fault TModPlay :=
  let chan := mp.chan ch
  if mp.tick = 0 then
    .ok (mp.setChan ch { chan with pslide := chd.EffectArg })
  else
    match ftLookup chan.finetune 0 with
    | .error e => .error e
    | .ok lim =>
      let np : Nat :=
        if (chan.noteperiod : Int) + chan.pslide ≤ (lim : Int) then
          u16 ((chan.noteperiod : Int) + chan.pslide)
        else lim
      match calcFase sz mp.format mp.sfreq np with
      | .error e => .error e
      | .ok f => .ok (mp.setChan ch { chan with noteperiod := np, fase := f })

/-- Function `DoSlideToNote_03`. -/
def DoSlideToNote_03 (sz : Nat) (chd : TChannelData) (mp : TModPlay) (ch : Fin 4) :
    Except Fault TModPlay :=
  let chan := mp.chan ch
  if mp.tick = 0 then
    match (if chd.Noteperiod ≠ 0 then ftLookup chan.finetune chd.NoteIndex
           else .ok chan.noteperiodslideto) with
    | .error e => .error e
    | .ok target =>
      .ok (mp.setChan ch
        { chan with
          noteperiodslideto := target
          pslide := if chd.EffectArg ≠ 0 then (chd.EffectArg : Int) else chan.pslide })
  else
    let np : Nat :=
      if chan.noteperiod < chan.noteperiodslideto then
        if (chan.noteperiod : Int) + chan.pslide ≤ (chan.noteperiodslideto : Int) then
          u16 ((chan.noteperiod : Int) + chan.pslide)
        else chan.noteperiodslideto
      else if chan.noteperiod > chan.noteperiodslideto then
        if (chan.noteperiod : Int) - chan.pslide ≥ (chan.noteperiodslideto : Int) then
          u16 ((chan.noteperiod : Int) - chan.pslide)
        else chan.noteperiodslideto
      else chan.noteperiod
    match calcFase sz mp.format mp.sfreq np with
    | .error e => .error e
    | .ok f => .ok (mp.setChan ch { chan with noteperiod := np, fase := f })

/-- Function `DoVibrato_04`.  The quotient by `128L` is the truncating C
division; `& 0x3F` on the `int` sum is `% 64`. -/
def DoVibrato_04 (sz : Nat) (chd : TChannelData) (mp : TModPlay) (ch : Fin 4) :
    Except Fault TModPlay :=
  let chan := mp.chan ch
  if mp.tick = 0 then
    .ok (mp.setChan ch
      { chan with
        vbspeed := if chd.EffectArg / 16 % 16 ≠ 0 then ((chd.EffectArg / 16 % 16 : Nat) : Int)
                   else chan.vbspeed
        vbamp := if chd.EffectArg % 16 ≠ 0 then ((chd.EffectArg % 16 : Nat) : Int)
                 else chan.vbamp
        vbpos := if mp.vbretrig = 1 then 0 else chan.vbpos })
  else
    match waveLookup mp.vbwave chan.vbpos with
    | .error e => .error e
    | .ok w =>
      let newperiod : Nat := u16 ((chan.noteperiod : Int) + Int.tdiv (w * chan.vbamp) 128)
      let vbpos : Nat := u8 (((chan.vbpos : Int) + chan.vbspeed) % 64)
      match calcFase sz mp.format mp.sfreq newperiod with
      | .error e => .error e
      | .ok f => .ok (mp.setChan ch { chan with vbpos := vbpos, fase := f })

/-- Function `DoTremolo_07`. -/
def DoTremolo_07 (chd : TChannelData) (mp : TModPlay) (ch : Fin 4) :
    Except Fault TModPlay :=
  let chan := mp.chan ch
  if mp.tick = 0 then
    .ok (mp.setChan ch
      { chan with
        trspeed := if chd.EffectArg / 16 % 16 ≠ 0 then ((chd.EffectArg / 16 % 16 : Nat) : Int)
                   else chan.trspeed
        tramp := if chd.EffectArg % 16 ≠ 0 then ((chd.EffectArg % 16 : Nat) : Int)
                 else chan.tramp
        trpos := if mp.trretrig = 1 then 0 else chan.trpos })
  else
    match waveLookup mp.trwave chan.trpos with
    | .error e => .error e
    | .ok w =>
      let newvol0 : Int := i16 (chan.volbase + Int.tdiv (w * chan.tramp) 64)
      let newvol : Int := if newvol0 < 0 then 0 else if newvol0 > 64 then 64 else newvol0
      let trpos : Nat := u8 (((chan.trpos : Int) + chan.trspeed) % 64)
      .ok (mp.setChan ch { chan with trpos := trpos, volume := newvol })

/-- Function `DoVolumeSlide_10`. -/
def DoVolumeSlide_10 (chd : TChannelData) (mp : TModPlay) (ch : Fin 4) : TModPlay :=
  let chan := mp.chan ch
  if mp.tick = 0 then
    mp.setChan ch
      { chan with
        vslideup := ((chd.EffectArg / 16 % 16 : Nat) : Int)
        vslidedown := ((chd.EffectArg % 16 : Nat) : Int) }
  else
    let volume : Int :=
      if chan.vslideup ≠ 0 ∧ chan.volume + chan.vslideup ≤ 64 then
        chan.volume + chan.vslideup
      else if chan.vslidedown ≠ 0 ∧ chan.volume - chan.vslidedown ≥ 0 then
        chan.volume - chan.vslidedown
      else chan.volume
    mp.setChan ch { chan with volume := volume, volbase := volume }

/-- Function `DoSlideToNoteAndVolumeSlide_05`. -/
def DoSlideToNoteAndVolumeSlide_05 (sz : Nat) (chd : TChannelData) (mp : TModPlay)
    (ch : Fin 4) : Except Fault TModPlay :=
  let chan := mp.chan ch
  let r : Except Fault TModPlay :=
    if mp.tick = 0 then
      if chd.Noteperiod ≠ 0 then
        match ftLookup chan.finetune chd.NoteIndex with
        | .error e => .error e
        | .ok target => .ok (mp.setChan ch { chan with noteperiodslideto := target })
      else .ok mp
    else DoSlideToNote_03 sz chd mp ch
  match r with
  | .error e => .error e
  | .ok mp1 => .ok (DoVolumeSlide_10 chd mp1 ch)

/-- Function `DoVibratoAndVolumeSlide_06`. -/
def DoVibratoAndVolumeSlide_06 (sz : Nat) (chd : TChannelData) (mp : TModPlay)
    (ch : Fin 4) : Except Fault TModPlay :=
  let chan := mp.chan ch
  let r : Except Fault TModPlay :=
    if mp.tick = 0 then
      if mp.vbretrig = 1 then .ok (mp.setChan ch { chan with vbpos := 0 }) else .ok mp
    else DoVibrato_04 sz chd mp ch
  match r with
  | .error e => .error e
  | .ok mp1 => .ok (DoVolumeSlide_10 chd mp1 ch)

/-- Function `DoSampleOffset_09`: `(arg * 256) << 15` stored into a `size_t`. -/
def DoSampleOffset_09 (sz : Nat) (chd : TChannelData) (mp : TModPlay) (ch : Fin 4) :
    TModPlay :=
  let chan := mp.chan ch
  if mp.tick = 0 then
    if chd.EffectArg ≠ 0 then
      mp.setChan ch { chan with faseacum := (chd.EffectArg * 256 * 32768) % 2 ^ sz }
    else mp
  else mp

/-- Function `DoJumpSongposition_11`. -/
def DoJumpSongposition_11 (chd : TChannelData) (mp : TModPlay) : TModPlay :=
  if mp.tick = 0 then { mp with newsongpos := chd.EffectArg, newpatrow := 0 } else mp

/-- Function `DoVolume_12`. -/
def DoVolume_12 (chd : TChannelData) (mp : TModPlay) (ch : Fin 4) : TModPlay :=
  let chan := mp.chan ch
  if mp.tick = 0 then
    mp.setChan ch { chan with volume := chd.EffectArg, volbase := chd.EffectArg }
  else mp

/-- Function `DoPatternBreak_13`. -/
def DoPatternBreak_13 (chd : TChannelData) (mp : TModPlay) : TModPlay :=
  if mp.tick = 0 then
    { mp with
      newsongpos := mp.songpos + 1
      newpatrow := ((chd.EffectArg / 16 % 16 * 10 + chd.EffectArg % 16 : Nat) : Int) }
  else mp

/-- Function `DoFineSlideUp_14_01`. -/
def DoFineSlideUp_14_01 (sz : Nat) (chd : TChannelData) (mp : TModPlay) (ch : Fin 4) :
    Except Fault TModPlay :=
  if mp.tick = 0 then
    let mp1 : TModPlay := { mp with tick := 1 }
    let mp2 := mp1.setChan ch { mp1.chan ch with pslide := ((chd.EffectArg % 16 : Nat) : Int) }
    match DoSlideUp_01 sz chd mp2 ch with
    | .error e => .error e
    | .ok mp3 => .ok { mp3 with tick := 0 }
  else .ok mp

/-- Function `DoFineSlideDown_14_02`. -/
def DoFineSlideDown_14_02 (sz : Nat) (chd : TChannelData) (mp : TModPlay) (ch : Fin 4) :
    Except Fault TModPlay :=
  if mp.tick = 0 then
    let mp1 : TModPlay := { mp with tick := 1 }
    let mp2 := mp1.setChan ch { mp1.chan ch with pslide := ((chd.EffectArg % 16 : Nat) : Int) }
    match DoSlideDown_02 sz chd mp2 ch with
    | .error e => .error e
    | .ok mp3 => .ok { mp3 with tick := 0 }
  else .ok mp

/-- Function `DoSetVibratoWaveform_14_04`; `rnd` is the value `rand()` returns
when it is called. -/
def DoSetVibratoWaveform_14_04 (rnd : Nat) (chd : TChannelData) (mp : TModPlay) : TModPlay :=
  { mp with
    vbwave := if chd.EffectArg % 4 = 3 then ((rnd % 3 : Nat) : Int)
              else ((chd.EffectArg % 4 : Nat) : Int)
    vbretrig := if chd.EffectArg / 4 % 2 ≠ 0 then 0 else 1 }

/-- Function `DoSetFinetune_14_05`: a store through `chan->sample`. -/
def DoSetFinetune_14_05 (chd : TChannelData) (m : TModule) (mp : TModPlay) (ch : Fin 4) :
    Except Fault TModule :=
  match (mp.chan ch).sample with
  | none => .error .nullDeref
  | some k =>
    .ok { m with sample := Function.update m.sample k
                   { m.sample k with Finetune := chd.EffectArg % 16 } }

/-- Function `DoSetTremoloWaveform_14_07`. -/
def DoSetTremoloWaveform_14_07 (rnd : Nat) (chd : TChannelData) (mp : TModPlay) : TModPlay :=
  { mp with
    trwave := if chd.EffectArg % 4 = 3 then ((rnd % 3 : Nat) : Int)
              else ((chd.EffectArg % 4 : Nat) : Int)
    trretrig := if chd.EffectArg / 4 % 2 ≠ 0 then 0 else 1 }

/-- Function `DoNoteRetrig_14_09`. -/
def DoNoteRetrig_14_09 (chd : TChannelData) (mp : TModPlay) (ch : Fin 4) : TModPlay :=
  let chan := mp.chan ch
  if mp.tick = ((chd.EffectArg % 16 : Nat) : Int) then
    mp.setChan ch { chan with faseacum := 0, position := 0 }
  else mp

/-- Function `DoFineVolumeSlideUp_14_10`. -/
def DoFineVolumeSlideUp_14_10 (chd : TChannelData) (mp : TModPlay) (ch : Fin 4) : TModPlay :=
  let chan := mp.chan ch
  if mp.tick = 0 then
    let volume : Int :=
      if chan.volume + ((chd.EffectArg % 16 : Nat) : Int) ≤ 64 then
        chan.volume + ((chd.EffectArg % 16 : Nat) : Int)
      else 64
    mp.setChan ch { chan with volume := volume, volbase := volume }
  else mp

/-- Function `DoFineVolumeSlideDown_14_11`. -/
def DoFineVolumeSlideDown_14_11 (chd : TChannelData) (mp : TModPlay) (ch : Fin 4) : TModPlay :=
  let chan := mp.chan ch
  if mp.tick = 0 then
    let volume : Int :=
      if chan.volume - ((chd.EffectArg % 16 : Nat) : Int) ≥ 0 then
        chan.volume - ((chd.EffectArg % 16 : Nat) : Int)
      else 0
    mp.setChan ch { chan with volume := volume, volbase := volume }
  else mp

/-- Function `DoCutNote_14_12`. -/
def DoCutNote_14_12 (chd : TChannelData) (mp : TModPlay) (ch : Fin 4) : TModPlay :=
  let chan := mp.chan ch
  if mp.tick > ((chd.EffectArg % 16 : Nat) : Int) then
    mp.setChan ch { chan with volume := 0 }
  else mp

/-- Function `DoDelayNote_14_13`. -/
def DoDelayNote_14_13 (sz : Nat) (chd : TChannelData) (mp : TModPlay) (ch : Fin 4) :
    Except Fault TModPlay :=
  let chan := mp.chan ch
  if mp.tick = 1 + ((chd.EffectArg % 16 : Nat) : Int) then
    match calcFase sz mp.format mp.sfreq chan.noteperiod with
    | .error e => .error e
    | .ok f =>
      .ok (mp.setChan ch
        { chan with volume := chan.volbase, faseacum := 0, position := 0, fase := f })
  else
    .ok (mp.setChan ch { chan with volume := 0, faseacum := 0, position := 0, fase := 0 })

/-- Function `DoSetSpeedBPM_15`.  `mplay.sfreq*15L` and `6*mplay.bpm` meet in an
unsigned 32-bit division (`long` has 32 bits on both build targets); the
quotient is stored into a `size_t`. -/
def DoSetSpeedBPM_15 (sz : Nat) (chd : TChannelData) (mp : TModPlay) : TModPlay :=
  if mp.tick = 0 then
    if chd.EffectArg < 32 then { mp with ticksperdiv := chd.EffectArg }
    else
      { mp with
        bpm := chd.EffectArg
        tambufplay := ((mp.sfreq * 15) % 2 ^ 32 / ((6 * chd.EffectArg) % 2 ^ 32)) % 2 ^ sz }
  else mp

/-- Function `ProcessEffect`.  The module is part of the result because effect
14.5 writes into `mod.sample`. -/
def ProcessEffect (sz rnd : Nat) (chd : TChannelData) (m : TModule) (mp : TModPlay)
    (ch : Fin 4) : Except Fault (TModule × TModPlay) :=
  let SubEffect := chd.EffectArg / 16 % 16
  let keep (r : Except Fault TModPlay) : Except Fault (TModule × TModPlay) :=
    match r with
    | .error e => .error e
    | .ok mp1 => .ok (m, mp1)
  if chd.Effect = 0 then keep (DoArpeggio_00 sz chd mp ch)
  else if chd.Effect = 1 then keep (DoSlideUp_01 sz chd mp ch)
  else if chd.Effect = 2 then keep (DoSlideDown_02 sz chd mp ch)
  else if chd.Effect = 3 then keep (DoSlideToNote_03 sz chd mp ch)
  else if chd.Effect = 4 then keep (DoVibrato_04 sz chd mp ch)
  else if chd.Effect = 5 then keep (DoSlideToNoteAndVolumeSlide_05 sz chd mp ch)
  else if chd.Effect = 6 then keep (DoVibratoAndVolumeSlide_06 sz chd mp ch)
  else if chd.Effect = 7 then keep (DoTremolo_07 chd mp ch)
  else if chd.Effect = 9 then .ok (m, DoSampleOffset_09 sz chd mp ch)
  else if chd.Effect = 10 then .ok (m, DoVolumeSlide_10 chd mp ch)
  else if chd.Effect = 11 then .ok (m, DoJumpSongposition_11 chd mp)
  else if chd.Effect = 12 then .ok (m, DoVolume_12 chd mp ch)
  else if chd.Effect = 13 then .ok (m, DoPatternBreak_13 chd mp)
  else if chd.Effect = 14 then
    if SubEffect = 1 then keep (DoFineSlideUp_14_01 sz chd mp ch)
    else if SubEffect = 2 then keep (DoFineSlideDown_14_02 sz chd mp ch)
    else if SubEffect = 4 then .ok (m, DoSetVibratoWaveform_14_04 rnd chd mp)
    else if SubEffect = 5 then
      match DoSetFinetune_14_05 chd m mp ch with
      | .error e => .error e
      | .ok m1 => .ok (m1, mp)
    else if SubEffect = 7 then .ok (m, DoSetTremoloWaveform_14_07 rnd chd mp)
    else if SubEffect = 9 then .ok (m, DoNoteRetrig_14_09 chd mp ch)
    else if SubEffect = 10 then .ok (m, DoFineVolumeSlideUp_14_10 chd mp ch)
    else if SubEffect = 11 then .ok (m, DoFineVolumeSlideDown_14_11 chd mp ch)
    else if SubEffect = 12 then .ok (m, DoCutNote_14_12 chd mp ch)
    else if SubEffect = 13 then keep (DoDelayNote_14_13 sz chd mp ch)
    else .ok (m, mp)
  else if chd.Effect = 15 then .ok (m, DoSetSpeedBPM_15 sz chd mp)
  else .ok (m, mp)

/-- The slot `mod.pattern[mod.Songpositions[mplay.songpos]].row[mplay.patrow].chan[ch]`
that `PlayTick` reads; a fault when one of the three indices is outside its
array (`Songpositions[128]`, the allocated patterns, `row[64]`). -/
def currentSlot (m : TModule) (mp : TModPlay) (ch : Fin 4) : Except Fault TChannelData :=
  if mp.songpos < 0 then .error .outOfBounds
  else if h : mp.songpos.toNat < 128 then
    match m.pattern[m.Songpositions ⟨mp.songpos.toNat, h⟩]? with
    | none => .error .outOfBounds
    | some pat =>
      if mp.patrow < 0 then .error .outOfBounds
      else if h2 : mp.patrow.toNat < 64 then .ok ((pat.row ⟨mp.patrow.toNat, h2⟩).chan ch)
      else .error .outOfBounds
  else .error .outOfBounds

/-- The block of `PlayTick` under `if (mplay.tick >= mplay.ticksperdiv)`, up to
the test of `mplay.songpos` against `mod.Songlength`. -/
def advanceRow (mp : TModPlay) : TModPlay :=
  let mp0 : TModPlay := { mp with tick := 0 }
  if mp0.newpatrow ≥ 0 ∨ mp0.newsongpos ≥ 0 then
    let mp1 : TModPlay :=
      if mp0.newpatrow ≥ 0 then { mp0 with patrow := mp0.newpatrow, newpatrow := -1 } else mp0
    if mp1.newsongpos ≥ 0 then { mp1 with songpos := mp1.newsongpos, newsongpos := -1 } else mp1
  else if mp0.patrow ≥ 63 then { mp0 with patrow := 0, songpos := mp0.songpos + 1 }
  else { mp0 with patrow := mp0.patrow + 1 }

/-- First part of the tick-0 block of `PlayTick`: `if (chd->Samplenumber != 0)`.
The read of `mod.sample[chd->Samplenumber-1]` is a fault when the index is
outside `sample[31]`. -/
def bindSample (m : TModule) (chd : TChannelData) (c : TChanPlay) : Except Fault TChanPlay :=
  if chd.Samplenumber ≠ 0 then
    if h : chd.Samplenumber - 1 < 31 then
      let s := m.sample ⟨chd.Samplenumber - 1, h⟩
      .ok { c with
            sample := some ⟨chd.Samplenumber - 1, h⟩
            finetune := s.Finetune
            end_ := s.Samplelength
            volume := s.Volume
            volbase := s.Volume }
    else .error .outOfBounds
  else .ok c

/-- Second part of the tick-0 block of `PlayTick`:
`if (chd->Noteperiod != 0 && chd->Effect != 3 && chd->Effect != 5)`. -/
def triggerNote (sz format sfreq : Nat) (chd : TChannelData) (c : TChanPlay) :
    Except Fault TChanPlay :=
  if chd.Noteperiod ≠ 0 ∧ chd.Effect ≠ 3 ∧ chd.Effect ≠ 5 then
    match ftLookup c.finetune chd.NoteIndex with
    | .error e => .error e
    | .ok ActualNotePeriod =>
      match calcFase sz format sfreq ActualNotePeriod with
      | .error e => .error e
      | .ok f =>
        .ok { c with
              noteperiodslideto := ActualNotePeriod
              noteperiod := ActualNotePeriod
              faseacum := 0
              position := 0
              fase := f }
  else .ok c

/-- The tick-0 block of `PlayTick` for one channel (row setup). -/
def rowSetup (sz : Nat) (m : TModule) (mp : TModPlay) (chd : TChannelData) (c : TChanPlay) :
    Except Fault TChanPlay :=
  match bindSample m chd c with
  | .error e => .error e
  | .ok c1 => triggerNote sz mp.format mp.sfreq chd c1

/-- Body of the loop `for (ch=0; ch<4; ch++)` of `PlayTick` that processes one
channel: row setup at tick 0, then `ProcessEffect`. -/
def processChannel (sz rnd : Nat) (m : TModule) (mp : TModPlay) (ch : Fin 4) :
    Except Fault (TModule × TModPlay) :=
  match currentSlot m mp ch with
  | .error e => .error e
  | .ok chd =>
    if mp.tick = 0 then
      match rowSetup sz m mp chd (mp.chan ch) with
      | .error e => .error e
      | .ok c => ProcessEffect sz rnd chd m (mp.setChan ch c) ch
    else ProcessEffect sz rnd chd m mp ch

/-- The loop `for (ch=0; ch<4; ch++)` of `PlayTick` over the four channels;
`rnd ch` is what `rand()` returns if it is called for channel `ch`. -/
def processChannels (sz : Nat) (rnd : Fin 4 → Nat) (m : TModule) (mp : TModPlay) :
    Except Fault (TModule × TModPlay) :=
  match processChannel sz (rnd 0) m mp 0 with
  | .error e => .error e
  | .ok (m1, mp1) =>
    match processChannel sz (rnd 1) m1 mp1 1 with
    | .error e => .error e
    | .ok (m2, mp2) =>
      match processChannel sz (rnd 2) m2 mp2 2 with
      | .error e => .error e
      | .ok (m3, mp3) => processChannel sz (rnd 3) m3 mp3 3

/-- Body of the inner mixing loop of `PlayTick` for one channel: the sample
`muestra` it adds to the mix (`0` when the channel is skipped) and the
channel after the phase accumulator has advanced.  The read of
`Sampledata[position]` is a fault outside the allocated block. -/
def mixChannel (sz : Nat) (m : TModule) (c : TChanPlay) : Except Fault (TChanPlay × Int) :=
  match c.sample with
  | none => .ok (c, 0)
  | some k =>
    match (m.sample k).Sampledata with
    | none => .ok (c, 0)
    | some data =>
      match data[c.position]? with
      | none => .error .outOfBounds
      | some d =>
        let muestra : Int := toInt8 d * c.volume
        let faseacum : Nat := (c.faseacum + c.fase) % 2 ^ sz
        let position : Nat := faseacum / 32768
        if position ≥ c.end_ then
          .ok ({ c with
                 faseacum := ((m.sample k).Repeatpoint * 32768) % 2 ^ sz
                 position := (m.sample k).Repeatpoint
                 end_ := ((m.sample k).Repeatpoint + (m.sample k).Repeatlength) % 2 ^ sz },
               muestra)
        else .ok ({ c with faseacum := faseacum, position := position }, muestra)

/-- One pass of the outer mixing loop of `PlayTick`: the four channels in
order and the byte `muestrafinal = 128 + (mezcla / (4*64))` (truncating
division, stored into a `uint8_t`). -/
def mixSample (sz : Nat) (m : TModule) (cs : Fin 4 → TChanPlay) :
    Except Fault ((Fin 4 → TChanPlay) × Nat) :=
  match mixChannel sz m (cs 0) with
  | .error e => .error e
  | .ok (c0, s0) =>
    match mixChannel sz m (cs 1) with
    | .error e => .error e
    | .ok (c1, s1) =>
      match mixChannel sz m (cs 2) with
      | .error e => .error e
      | .ok (c2, s2) =>
        match mixChannel sz m (cs 3) with
        | .error e => .error e
        | .ok (c3, s3) =>
          let mezcla : Int := 0 + s0 + s1 + s2 + s3
          .ok (Function.update (Function.update (Function.update
                 (Function.update cs 0 c0) 1 c1) 2 c2) 3 c3,
               u8 (128 + Int.tdiv mezcla (4 * 64)))

/-- The outer mixing loop `for (i=0; i<mplay.tambufplay; i++)` of `PlayTick`,
with `n` passes left and `i` the index of the next byte.  The store into
`sbuffer[i]` is a fault outside `sbuffer[44100]`. -/
def mixLoop (sz : Nat) (m : TModule) :
    Nat → Nat → (Fin 4 → TChanPlay) → Except Fault ((Fin 4 → TChanPlay) × List Nat)
  | 0, _, cs => .ok (cs, [])
  | n + 1, i, cs =>
    match mixSample sz m cs with
    | .error e => .error e
    | .ok (cs1, b) =>
      if i ≥ 44100 then .error .outOfBounds
      else
        match mixLoop sz m n (i + 1) cs1 with
        | .error e => .error e
        | .ok (cs2, rest) => .ok (cs2, b :: rest)

/-- Result of one call of `PlayTick`: the module, the player state, and the
block handed to `ReproducirAudio` (`none` when the call returns early). -/
structure TickResult where
  mod : TModule
  mplay : TModPlay
  audio : Option (List Nat)

/-- The part of `PlayTick` after the row advance: `newrow`, the channel loop,
the mixing loop, `ReproducirAudio` and `mplay.tick++`. -/
def tickBody (sz : Nat) (rnd : Fin 4 → Nat) (m : TModule) (mp : TModPlay) :
    Except Fault TickResult :=
  let mp0 : TModPlay := if mp.tick = 0 then { mp with newrow := 1 } else mp
  match processChannels sz rnd m mp0 with
  | .error e => .error e
  | .ok (m1, mp1) =>
    match mixLoop sz m1 mp1.tambufplay 0 mp1.chan with
    | .error e => .error e
    | .ok (cs, buf) =>
      .ok { mod := m1
            mplay := { mp1 with chan := cs, tick := mp1.tick + 1 }
            audio := some buf }

/-- Function `PlayTick`. -/
def PlayTick (sz : Nat) (rnd : Fin 4 → Nat) (m : TModule) (mp : TModPlay) :
    Except Fault TickResult :=
  if mp.finished ≠ 0 then .ok { mod := m, mplay := mp, audio := none }
  else if mp.tick ≥ mp.ticksperdiv then
    if (advanceRow mp).songpos ≥ (m.Songlength : Int) then
      .ok { mod := m, mplay := { advanceRow mp with finished := 1 }, audio := none }
    else tickBody sz rnd m (advanceRow mp)
  else tickBody sz rnd m mp

/-- A file as `LoadMOD` holds it in memory after `fread`: `lfich` bytes
(`uint8_t`) at `buffer[0 .. lfich-1]`.  A read at an index `>= lfich` is
outside the allocated block (a fault); `LoadMOD` below tests the bound
before it uses `buffer`. -/
structure TFile where
  lfich : Nat
  buffer : Nat → Fin 256

/-- The byte `buffer[i]` as a number. -/
def TFile.byteAt (f : TFile) (i : Nat) : Nat := (f.buffer i).val

/-- The loop and final test of `NotePeriodToNoteName` over the base row
`finetune_table[0]`: `i` is the loop index, `ibest` the best approximation
so far, the list holds the entries not yet visited.  The result is the
final value of `i` (`ibest` when the loop runs to `i == 36`). -/
def noteLoop (period : Nat) : Nat → Nat → List Nat → Nat
  | _, ibest, [] => ibest
  | i, ibest, t :: ts =>
    if period = t then i
    else
      noteLoop period (i + 1)
        (if Int.natAbs ((period : Int) - (t : Int))
              < Int.natAbs ((period : Int) - ((finetune_table.getD 0 []).getD ibest 0 : Nat))
         then i else ibest)
        ts

/-- Table `nombres[12][3]` of `NotePeriodToNoteName` (ASCII codes of the two
characters of each name). -/
def nombres : List (List Nat) :=
  [[67,45],[67,35],[68,45],[68,35],[69,45],[70,45],[70,35],[71,45],[71,35],[65,45],[65,35],[66,45]]

/-- Function `NotePeriodToNoteName`.  With `Noteperiod == 0` the C function
leaves `NoteIndex` as it is in the freshly allocated pattern (an
indeterminate value the player never reads); it is kept as given here. -/
def NotePeriodToNoteName (chd : TChannelData) : TChannelData :=
  if chd.Noteperiod = 0 then { chd with Note := [32, 32, 0], Octave := 0 }
  else
    let i := noteLoop chd.Noteperiod 0 0 (finetune_table.getD 0 [])
    { chd with Octave := (1 + i / 12) % 256, NoteIndex := i % 256,
               Note := nombres.getD (i % 12) [] ++ [0] }

/-- Function `Sanitize` on the character array `s` with length argument `l`:
`s[l-1] = 0`, and every `s[i]` with `i < l-1` that is not printable ASCII
becomes a space.  Elements from index `l` on are untouched. -/
def Sanitize (s : List Nat) (l : Nat) : List Nat :=
  (List.range s.length).map fun i =>
    if i < l - 1 then (if s.getD i 0 < 32 ∨ s.getD i 0 > 126 then 32 else s.getD i 0)
    else if i = l - 1 then 0
    else s.getD i 0

/-- Body of the sample-header loop of `LoadMOD` for the header at offset
`imod` (sample data is filled in later).  `mod.sample` has been wiped, so
the fields that are only assigned under `Samplelength > 0` are `0`
otherwise. -/
def loadSampleHeader (f : TFile) (imod : Nat) : TSample :=
  let len := 2 * (f.byteAt (imod + 22) * 256 + f.byteAt (imod + 23))
  { Samplename := Sanitize ((List.range 22).map (fun k => f.byteAt (imod + k)) ++ [0]) 22
    Samplelength := len
    Finetune := if len > 0 then f.byteAt (imod + 24) else 0
    Volume := if len > 0 then f.byteAt (imod + 25) else 0
    Repeatpoint :=
      if len > 0 then 2 * (f.byteAt (imod + 26) * 256 + f.byteAt (imod + 27)) else 0
    Repeatlength :=
      if len > 0 then 2 * (f.byteAt (imod + 28) * 256 + f.byteAt (imod + 29)) else 0
    Sampledata := none }

/-- The wiped `TSample` that `memset (mod.sample, 0, sizeof mod.sample)` leaves. -/
def zeroSample : TSample :=
  { Samplename := List.replicate 23 0, Samplelength := 0, Finetune := 0, Volume := 0,
    Repeatpoint := 0, Repeatlength := 0, Sampledata := none }

/-- Value of `numsamples` in `LoadMOD`: 31 when bytes 1080..1083 are `"M.K."`
or `"FLT4"`, else 15. -/
def numSamples (f : TFile) : Nat :=
  if (f.byteAt 1080 = 77 ∧ f.byteAt 1081 = 46 ∧ f.byteAt 1082 = 75 ∧ f.byteAt 1083 = 46)
      ∨ (f.byteAt 1080 = 70 ∧ f.byteAt 1081 = 76 ∧ f.byteAt 1082 = 84 ∧ f.byteAt 1083 = 52)
  then 31 else 15

/-- Entry `mod.sample[i]` after the header loop of `LoadMOD`. -/
def headerOf (f : TFile) (i : Nat) : TSample :=
  if i < numSamples f then loadSampleHeader f (20 + 30 * i) else zeroSample

/-- Value of `imod` after the header loop of `LoadMOD`: the offset of the song
length byte. -/
def songInfoStart (f : TFile) : Nat := 20 + 30 * numSamples f

/-- Value of `mod.Numpatterns` after `LoadMOD`: the largest entry of
`Songpositions` plus one, in a `uint8_t`. -/
def numPatterns (f : TFile) : Nat :=
  (((List.range 127).map (fun k => f.byteAt (songInfoStart f + 2 + (k + 1)))).foldl
      (fun best x => if x > best then x else best) (f.byteAt (songInfoStart f + 2)) + 1)
    % 256

/-- Value of `imod` when the pattern loop of `LoadMOD` starts. -/
def patternStart (f : TFile) : Nat :=
  songInfoStart f + 2 + 128 + (if numSamples f = 31 then 4 else 0)

/-- Body of the innermost pattern loop of `LoadMOD` for the four bytes at
`imod`.  `x & 0xF0` is `x / 16 % 16 * 16`, `(x>>4) & 0x0F` is `x / 16 % 16`. -/
def loadSlot (f : TFile) (imod : Nat) : TChannelData :=
  NotePeriodToNoteName
    { Samplenumber := f.byteAt imod / 16 % 16 * 16 + f.byteAt (imod + 2) / 16 % 16
      Noteperiod := f.byteAt imod % 16 * 256 + f.byteAt (imod + 1)
      Effect := f.byteAt (imod + 2) % 16
      EffectArg := f.byteAt (imod + 3)
      NoteIndex := 0
      Note := [0, 0, 0]
      Octave := 0 }

/-- Pattern `i` as the pattern loop of `LoadMOD` fills it: the slot of row
`patrow` and channel `ch` is read at `imod = start + 1024*i + 16*patrow + 4*ch`. -/
def loadPattern (f : TFile) (i : Nat) : TPattern :=
  { row := fun patrow =>
      { chan := fun ch =>
          loadSlot f (patternStart f + 1024 * i + 16 * patrow.val + 4 * ch.val) } }

/-- Value of `imod` when the sample-data loop of `LoadMOD` reaches sample `i`:
the patterns are followed by the data of the samples before `i`. -/
def sampleDataStart (f : TFile) (i : Nat) : Nat :=
  patternStart f + 1024 * numPatterns f
    + ((List.range i).map (fun j => (headerOf f j).Samplelength)).sum

/-- Function `LoadMOD` on the bytes of a file that `fopen` could open.  Every
read of `buffer` at an index `>= lfich` is a fault: the first 1084 bytes
cover the name, the headers, the song positions and the four bytes the
`memcmp` calls read; the patterns and the sample data follow. -/
def LoadMOD (f : TFile) : Except Fault TModule :=
  if f.lfich < 1084 then .error .outOfBounds
  else if f.lfich < patternStart f + 1024 * numPatterns f then .error .outOfBounds
  else if f.lfich < sampleDataStart f 31 then .error .outOfBounds
  else
    .ok
      { Songname := Sanitize ((List.range 20).map (fun k => f.byteAt k) ++ [0]) 20
        sample := fun i =>
          let h := headerOf f i.val
          if h.Samplelength > 0 then
            { h with
              Sampledata := some ((List.range h.Samplelength).map fun k =>
                if k < 2 then 0 else f.byteAt (sampleDataStart f i.val + k)) }
          else h
        Songpositions := fun k => f.byteAt (songInfoStart f + 2 + k.val)
        Songlength := f.byteAt (songInfoStart f)
        pattern := (List.range (numPatterns f)).map (loadPattern f)
        Numpatterns := numPatterns f }

/-- The value `Sampledata[position] * volume` that the mixing loop of
`PlayTick` reads for a channel, `0` for a channel the loop skips (no sample
bound, or a sample without data). -/
def muestraOf (m : TModule) (c : TChanPlay) : Int :=
  match c.sample with
  | none => 0
  | some k =>
    match (m.sample k).Sampledata with
    | none => 0
    | some data => toInt8 (data.getD c.position 0) * c.volume

/-- The channels after `j` passes of the outer mixing loop of `PlayTick`. -/
def mixStates (sz : Nat) (m : TModule) :
    Nat → (Fin 4 → TChanPlay) → Except Fault (Fin 4 → TChanPlay)
  | 0, cs => .ok cs
  | j + 1, cs =>
    match mixSample sz m cs with
    | .error e => .error e
    | .ok (cs1, _) => mixStates sz m j cs1

/-- The condition under which the mixing loop of `PlayTick` reads a channel's
sample inside its allocated block, now and after any number of passes: the
position, the current end and the repeat region lie inside the block. -/
def fetchInBounds (sz : Nat) (m : TModule) (c : TChanPlay) : Prop :=
  match c.sample with
  | none => True
  | some k =>
    match (m.sample k).Sampledata with
    | none => True
    | some data =>
      c.position < data.length ∧ c.end_ ≤ data.length ∧
      (m.sample k).Repeatpoint < data.length ∧
      ((m.sample k).Repeatpoint + (m.sample k).Repeatlength) % 2 ^ sz ≤ data.length

/-- The all-zero channel that `memset (mplay.chan, 0, sizeof mplay.chan)` leaves. -/
def zeroChan : TChanPlay :=
  { faseacum := 0, fase := 0, noteperiod := 0, finetune := 0, volume := 0, volbase := 0,
    sample := none, position := 0, end_ := 0, pslide := 0, vslideup := 0, vslidedown := 0,
    vbspeed := 0, vbamp := 0, vbpos := 0, trspeed := 0, tramp := 0, trpos := 0,
    noteperiodslideto := 0 }

/-- The static `mplay` as `main` leaves it before `BeginPlayMOD`: zero
initialised, then `mplay.format = PAL`. -/
def mplayStatic : TModPlay :=
  { format := PAL, sfreq := 0, finished := 0, newrow := 0, newsongpos := 0, songpos := 0,
    newpatrow := 0, patrow := 0, tick := 0, ticksperdiv := 0, bpm := 0, vbwave := 0,
    vbretrig := 0, trwave := 0, trretrig := 0, tambufplay := 0, chan := fun _ => zeroChan }

/-- The assignments of `BeginPlayMOD` before the audio device is opened.  The
fields `format`, `newrow` and `tick` are not assigned. -/
def beginInit (sz sfreq : Nat) (mp : TModPlay) : TModPlay :=
  { mp with
    chan := fun _ => { zeroChan with volume := 64 }
    sfreq := sfreq % 2 ^ 32
    songpos := 0
    patrow := 0
    newsongpos := -1
    newpatrow := -1
    ticksperdiv := 6
    bpm := 125
    vbwave := 0
    vbretrig := 1
    trwave := 0
    trretrig := 1
    tambufplay := (((sfreq % 2 ^ 32) * 15) % 2 ^ 32 / (6 * 125)) % 2 ^ sz
    finished := 0 }

/-- A sequence of calls of `PlayTick`, one per element of `rnds` (the values
`rand()` would return during that call); the blocks handed to the sink are
collected in order. -/
def runTicks (sz : Nat) (m : TModule) (mp : TModPlay) :
    List (Fin 4 → Nat) → Except Fault (TModule × TModPlay × List (List Nat))
  | [] => .ok (m, mp, [])
  | rnd :: rest =>
    match PlayTick sz rnd m mp with
    | .error e => .error e
    | .ok r =>
      match runTicks sz r.mod r.mplay rest with
      | .error e => .error e
      | .ok (m2, mp2, bufs) =>
        .ok (m2, mp2, (match r.audio with | none => bufs | some b => b :: bufs))

/-- The static `mod` before any load: zero initialised. -/
def modStatic : TModule :=
  { Songname := List.replicate 21 0, sample := fun _ => zeroSample,
    Songpositions := fun _ => 0, Songlength := 0, pattern := [], Numpatterns := 0 }

/-- The program `main` runs, up to a given number of calls of `PlayTick`:
`LoadMOD`, the assignments of `BeginPlayMOD (sfreq)` on the static `mplay`,
then one call of `PlayTick` per element of `rnds` (the first
`MAXAUDIOBUFFERS` by `BeginPlayMOD`, the others by the sink's callback). -/
def playFile (sz sfreq : Nat) (f : TFile) (rnds : List (Fin 4 → Nat)) :
    Except Fault (TModule × TModPlay × List (List Nat)) :=
  match LoadMOD f with
  | .error e => .error e
  | .ok m => runTicks sz m (beginInit sz sfreq mplayStatic) rnds

/-- The module `LoadMOD` leaves in `mod` (the static one if it faults). -/
def moduleOf (f : TFile) : TModule :=
  match LoadMOD f with
  | .error _ => modStatic
  | .ok m => m

/-- The player state of a run (for examples). -/
def stateOf (r : Except Fault (TModule × TModPlay × List (List Nat))) : Option TModPlay :=
  match r with
  | .error _ => none
  | .ok (_, mp, _) => some mp

/-- The blocks handed to the sink during a run (for examples). -/
def audioOf (r : Except Fault (TModule × TModPlay × List (List Nat))) :
    Except Fault (List (List Nat)) :=
  match r with
  | .error e => .error e
  | .ok (_, _, bufs) => .ok bufs

/-- A file given by its length and the bytes that are not zero (for examples). -/
def sparseFile (lfich : Nat) (bytes : List (Nat × Fin 256)) : TFile :=
  { lfich := lfich, buffer := fun i => (bytes.lookup i).getD 0 }

/-- Header bytes of the example files: sample 1 has 8 bytes, finetune 0,
volume 64 and loops over bytes 4..7; sample 2 has 2 bytes, finetune 1,
volume 32 and repeat length 2; one song position playing pattern 0; the
mark `M.K.`; ten bytes of sample data after the pattern. -/
def exampleHeader : List (Nat × Fin 256) :=
  [(43, 4), (45, 64), (47, 2), (49, 2),
   (73, 1), (74, 1), (75, 32), (79, 1),
   (950, 1), (951, 127),
   (1080, 77), (1081, 46), (1082, 75), (1083, 46),
   (2108, 5), (2109, 7), (2110, 100), (2111, 156), (2112, 50), (2113, 206),
   (2114, 127), (2115, 128), (2116, 9), (2117, 200)]

/-- Example file: row 0, channel 0 is `01 AC 10 00` (sample 1, period 428 = C-2). -/
def fileNote : TFile :=
  sparseFile 2118 (exampleHeader ++ [(1084, 0x01), (1085, 0xAC), (1086, 0x10)])

/-- Example file: row 0, channel 0 is `00 00 0C 50` (effect 12, argument 80). -/
def fileVolume80 : TFile :=
  sparseFile 2118 (exampleHeader ++ [(1086, 0x0C), (1087, 0x50)])

/-- Example file: row 0, channel 0 is `01 AC 03 08` (period 428 with tone
portamento at speed 8, no sample). -/
def filePortamento : TFile :=
  sparseFile 2118 (exampleHeader ++ [(1084, 0x01), (1085, 0xAC), (1086, 0x03), (1087, 0x08)])

/-- Example file: row 0, channel 0 is `01 AC 10 00` (sample 1, period 428);
row 1, channel 0 is `00 00 20 00` (sample 2, no note). -/
def fileSampleSwitch : TFile :=
  sparseFile 2118
    (exampleHeader ++ [(1084, 0x01), (1085, 0xAC), (1086, 0x10), (1102, 0x20)])

/-- Example file: as the example header, but sample 2 has 8 bytes (finetune
1); row 0, channel 0 is `03 58 10 00` (sample 1, period 856 = C-1); row 1,
channel 0 is `00 00 20 00` (sample 2, no note). -/
def fileFinetuneSwitch : TFile :=
  sparseFile 2124
    ([(73, 4), (1084, 0x03), (1085, 0x58), (1086, 0x10), (1102, 0x20)] ++ exampleHeader)

/-- Example file: row 0, channel 0 is `00 00 00 37` (arpeggio, no note). -/
def fileArpeggio : TFile :=
  sparseFile 2118 (exampleHeader ++ [(1087, 0x37)])

/-- Example file: row 0, channel 0 is `20 00 00 00` (sample number 32). -/
def fileSample32 : TFile :=
  sparseFile 2118 (exampleHeader ++ [(1084, 0x20)])

/-- Example file: row 0, channel 0 is `00 78 11 0A` (sample 1, period 120,
slide up by 10). -/
def fileSlideUp : TFile :=
  sparseFile 2118 (exampleHeader ++ [(1085, 0x78), (1086, 0x11), (1087, 0x0A)])

/-- Example file: 1624 zero bytes.  Bytes 1080..1083 are not a mark, the 128
song positions are 0 and every sample header declares length 0. -/
def fileNoMagic : TFile := sparseFile 1624 []

/-- A slot holding effect 15 with the given argument (for examples). -/
def speedSlot (arg : Nat) : TChannelData :=
  { Samplenumber := 0, Noteperiod := 0, Effect := 15, EffectArg := arg, NoteIndex := 0,
    Note := [32, 32, 0], Octave := 0 }

/-- The state `BeginPlayMOD (32000)` establishes, with every channel at period
120 (for the slide-up scenario). -/
def stateS2 : TModPlay :=
  { beginInit 32 32000 mplayStatic with chan := fun _ => { zeroChan with noteperiod := 120 } }

/-- A slot holding an arpeggio (effect 0) with argument `0x37` (for examples). -/
def arpSlot : TChannelData :=
  { Samplenumber := 0, Noteperiod := 0, Effect := 0, EffectArg := 0x37, NoteIndex := 0,
    Note := [32, 32, 0], Octave := 0 }

/-- The state `BeginPlayMOD (32000)` establishes, at tick 1 and with every
channel at period 428 (for the arpeggio example). -/
def stateArp : TModPlay :=
  { beginInit 32 32000 mplayStatic with
    tick := 1, chan := fun _ => { zeroChan with noteperiod := 428 } }

/-- A run of `n` passes of the inner mixing loop of `PlayTick` on one
channel: the channel before pass `n` (counted from 0), whose `position` is
the one that pass fetches. -/
def mixChannelSteps (sz : Nat) (m : TModule) : Nat → TChanPlay → Except Fault TChanPlay
  | 0, c => .ok c
  | n + 1, c =>
    match mixChannel sz m c with
    | .error e => .error e
    | .ok (c1, _) => mixChannelSteps sz m n c1

/-- A sample of 8 bytes that loops over bytes 4..7 (for examples). -/
def sampleLoop8 : TSample :=
  { Samplename := List.replicate 22 0, Samplelength := 8, Finetune := 0, Volume := 64,
    Repeatpoint := 4, Repeatlength := 4,
    Sampledata := some [5, 7, 100, 156, 50, 206, 127, 128] }

/-- A module whose sample 1 is `sampleLoop8` (for examples). -/
def modLoop8 : TModule :=
  { modStatic with sample := fun k => if k = 0 then sampleLoop8 else zeroSample }

/-- A channel bound to sample 1 of `modLoop8` and started at position 0 with
`fase = 1 << 15` (for examples). -/
def chanLoop8 : TChanPlay :=
  { zeroChan with sample := some 0, end_ := 8, fase := 32768, volume := 64, volbase := 64 }

/-- The loop invariant of a channel that plays a looping sample at one
position per pass: before pass `j` it is on the first run through the
sample (`j < Samplelength`) or inside the loop. -/
def loopInv (m : TModule) (k : Fin 31) (f0 j : Nat) (c : TChanPlay) : Prop :=
  c.sample = some k ∧ c.fase = 32768 ∧
  ((j < (m.sample k).Samplelength ∧ c.position = j ∧ c.faseacum = j * 32768 + f0 ∧
      c.end_ = (m.sample k).Samplelength) ∨
   ((m.sample k).Samplelength ≤ j ∧
      c.position = (m.sample k).Repeatpoint
        + (j - (m.sample k).Samplelength) % (m.sample k).Repeatlength ∧
      c.faseacum = c.position * 32768 ∧
      c.end_ = (m.sample k).Repeatpoint + (m.sample k).Repeatlength))

/-- Range of the slide fields of a channel: `pslide` holds an effect argument
(never negative) and the two periods are `uint16_t`. -/
def chanOK (c : TChanPlay) : Prop :=
  0 ≤ c.pslide ∧ c.noteperiod < 65536 ∧ c.noteperiodslideto < 65536

/-- Every effect argument of the module is a byte (`uint8_t EffectArg`). -/
def slotBytes (m : TModule) : Prop :=
  ∀ pat ∈ m.pattern, ∀ (r : Fin 64) (c : Fin 4), ((pat.row r).chan c).EffectArg < 256

/-- The tempo fields of a player state: `bpm` is in `32..255` and `tambufplay`
is the quotient of `sfreq * 15` (in 32 bits) by `6 * bpm`, as stored into a
`size_t`. -/
def tempoOK (sz : Nat) (mp : TModPlay) : Prop :=
  32 ≤ mp.bpm ∧ mp.bpm < 256 ∧
  mp.tambufplay = ((mp.sfreq * 15) % 2 ^ 32 / (6 * mp.bpm.toNat)) % 2 ^ sz

/-- Invariant of the player between and inside calls of `PlayTick`. -/
def playInv (sz sf : Nat) (mp : TModPlay) : Prop :=
  mp.sfreq = sf ∧ tempoOK sz mp ∧ ∀ ch, chanOK (mp.chan ch)

/-- A module of one pattern in which every slot is effect 15 with argument 40
(for examples). -/
def modSpeed40 : TModule :=
  { modStatic with
    Songlength := 1, Numpatterns := 1
    pattern := [{ row := fun _ => { chan := fun _ => speedSlot 40 } }] }

/-- A slot holding effect 1 (slide up) with the given argument (for examples). -/
def slideSlot (arg : Nat) : TChannelData :=
  { Samplenumber := 0, Noteperiod := 0, Effect := 1, EffectArg := arg, NoteIndex := 0,
    Note := [32, 32, 0], Octave := 0 }

/-- The state `BeginPlayMOD (32000)` establishes, at tick 1 and with every
channel at period 120 and `pslide = 3` (for the slide-up example). -/
def stateSlide : TModPlay :=
  { beginInit 32 32000 mplayStatic with
    tick := 1, chan := fun _ => { zeroChan with noteperiod := 120, pslide := 3 } }

/-- A slot holding only a note period, as the pattern loop of `LoadMOD` has it
before `NotePeriodToNoteName` (for examples). -/
def periodSlot (p : Nat) : TChannelData :=
  { Samplenumber := 0, Noteperiod := p, Effect := 0, EffectArg := 0, NoteIndex := 0,
    Note := [0, 0, 0], Octave := 0 }

/-- A `for` loop of `n` passes whose index starts at `i`, with a body that can
fault: `for (k = i; k < i + n; k++) body`. -/
def forLoop {σ : Type} (body : Nat → σ → Except Fault σ) : Nat → Nat → σ → Except Fault σ
  | 0, _, s => .ok s
  | n + 1, i, s =>
    match body i s with
    | .error e => .error e
    | .ok s1 => forLoop body n (i + 1) s1

/-- Body of the sample-header loop of `LoadMOD`: `mod.sample[i]` is read from
the 30 bytes at `imod`, then `imod += 30`.  The state is `mod.sample` and
`imod`. -/
def headerBody (f : TFile) (i : Nat) (st : (Fin 31 → TSample) × Nat) :
    Except Fault ((Fin 31 → TSample) × Nat) :=
  .ok ((if h : i < 31 then Function.update st.1 ⟨i, h⟩ (loadSampleHeader f st.2) else st.1),
       st.2 + 30)

/-- The computation of `mod.Numpatterns` in `LoadMOD` when `Songpositions` has
been copied from the 128 bytes at `imod`: the loop that finds the largest
entry, then `mod.Numpatterns++` in a `uint8_t`. -/
def numPatternsAt (f : TFile) (imod : Nat) : Nat :=
  (((List.range 127).map (fun k => f.byteAt (imod + (k + 1)))).foldl
      (fun best x => if x > best then x else best) (f.byteAt imod) + 1)
    % 256

/-- Body of the loop `for (ch=0; ch<4; ch++)` of the pattern loop of `LoadMOD`:
the slot of channel `ch` is read from `buffer[imod .. imod+3]` (a fault when
`imod + 3` is outside the file), then `imod += 4`.  The state is the row
being filled and `imod`. -/
def slotBody (f : TFile) (ch : Nat) (st : (Fin 4 → TChannelData) × Nat) :
    Except Fault ((Fin 4 → TChannelData) × Nat) :=
  if st.2 + 3 < f.lfich then
    .ok ((if h : ch < 4 then Function.update st.1 ⟨ch, h⟩ (loadSlot f st.2) else st.1),
         st.2 + 4)
  else .error .outOfBounds

/-- Body of the loop `for (patrow=0; patrow<64; patrow++)` of `LoadMOD`: the
four slots of row `patrow`.  The state is the pattern being filled and
`imod`. -/
def rowBody (f : TFile) (patrow : Nat) (st : (Fin 64 → TRow) × Nat) :
    Except Fault ((Fin 64 → TRow) × Nat) :=
  if h : patrow < 64 then
    match forLoop (slotBody f) 4 0 ((st.1 ⟨patrow, h⟩).chan, st.2) with
    | .error e => .error e
    | .ok (chan, imod) => .ok (Function.update st.1 ⟨patrow, h⟩ { chan := chan }, imod)
  else .ok st

/-- The content of a freshly allocated pattern before `LoadMOD` fills it (every
slot is written before it is read, so the value does not matter). -/
def blankPattern : TPattern :=
  { row := fun _ =>
      { chan := fun _ =>
          { Samplenumber := 0, Noteperiod := 0, Effect := 0, EffectArg := 0, NoteIndex := 0,
            Note := [0, 0, 0], Octave := 0 } } }

/-- Body of the loop `for (i=0; i<mod.Numpatterns; i++)` of `LoadMOD`: the 64
rows of pattern `i`.  The state is the patterns filled so far and `imod`. -/
def patternBody (f : TFile) (_i : Nat) (st : List TPattern × Nat) :
    Except Fault (List TPattern × Nat) :=
  match forLoop (rowBody f) 64 0 (blankPattern.row, st.2) with
  | .error e => .error e
  | .ok (rows, imod) => .ok (st.1 ++ [{ row := rows }], imod)

/-- Body of the sample-data loop of `LoadMOD`: when `mod.sample[i]` has a
length above 0, its `Samplelength` bytes are copied from `buffer + imod` (a
fault when the block ends outside the file), the first two are set to 0
and `imod` advances by the length.  The state is `mod.sample` and `imod`. -/
def dataBody (f : TFile) (i : Nat) (st : (Fin 31 → TSample) × Nat) :
    Except Fault ((Fin 31 → TSample) × Nat) :=
  if h : i < 31 then
    if (st.1 ⟨i, h⟩).Samplelength > 0 then
      if st.2 + (st.1 ⟨i, h⟩).Samplelength ≤ f.lfich then
        .ok (Function.update st.1 ⟨i, h⟩
               { st.1 ⟨i, h⟩ with
                 Sampledata := some ((List.range (st.1 ⟨i, h⟩).Samplelength).map fun k =>
                   if k < 2 then 0 else f.byteAt (st.2 + k)) },
             st.2 + (st.1 ⟨i, h⟩).Samplelength)
      else .error .outOfBounds
    else .ok st
  else .ok st

/-- Function `LoadMOD`, statement by statement, with the running index `imod`
into the file.  The reads of the first 1084 bytes (name, headers, song
positions, and the four bytes the `memcmp` calls compare) are inside the
file exactly when `lfich >= 1084`; the reads of the pattern loop and of the
sample-data loop are tested where they happen. -/
def LoadMOD_loops (f : TFile) : Except Fault TModule :=
  if f.lfich < 1084 then .error .outOfBounds
  else
    match forLoop (headerBody f) (numSamples f) 0 (fun _ => zeroSample, 20) with
    | .error e => .error e
    | .ok (sample1, imod1) =>
      match forLoop (patternBody f) (numPatternsAt f (imod1 + 2)) 0
          ([], imod1 + 2 + 128 + (if numSamples f = 31 then 4 else 0)) with
      | .error e => .error e
      | .ok (pattern, imod2) =>
        match forLoop (dataBody f) (numSamples f) 0 (sample1, imod2) with
        | .error e => .error e
        | .ok (sample2, _) =>
          .ok { Songname := Sanitize ((List.range 20).map (fun k => f.byteAt k) ++ [0]) 20
                sample := sample2
                Songpositions := fun k => f.byteAt (imod1 + 2 + k.val)
                Songlength := f.byteAt imod1
                pattern := pattern
                Numpatterns := numPatternsAt f (imod1 + 2) }

/-- Example file: the first 1084 bytes of an `M.K.` file whose song positions
are all 0, so that one pattern (1024 bytes) should follow; nothing does. -/
def fileTruncated : TFile :=
  sparseFile 1084 [(1080, 77), (1081, 46), (1082, 75), (1083, 46)]

/-- Example file: an `M.K.` file of one empty pattern whose first sample header
declares length 0 but carries volume 64, repeat point 2 and repeat length 2
(bytes 45, 47 and 49). -/
def fileEmptySample : TFile :=
  sparseFile 2108 [(45, 64), (47, 1), (49, 1), (1080, 77), (1081, 46), (1082, 75), (1083, 46)]

/-- Example file: as `fileNote`, but the finetune byte of sample 1 (offset 44)
is `0x1F`. -/
def fileFinetune31 : TFile :=
  sparseFile 2118 ([(44, 0x1F), (1084, 0x01), (1085, 0xAC), (1086, 0x10)] ++ exampleHeader)

/-- Example file: an `M.K.` header of 1084 bytes whose first song position
(offset 952) is 255. -/
def filePattern255 : TFile :=
  sparseFile 1084 [(952, 255), (1080, 77), (1081, 46), (1082, 75), (1083, 46)]

/-- Example file: an `M.K.` file of one empty pattern whose song name is twenty
times `A` (bytes 0..19) and whose first sample name is twenty-two times `B`
(bytes 20..41). -/
def fileLongName : TFile :=
  sparseFile 2108
    ((List.range 20).map (fun k => (k, (65 : Fin 256)))
      ++ (List.range 22).map (fun k => (20 + k, (66 : Fin 256)))
      ++ [(1080, 77), (1081, 46), (1082, 75), (1083, 46)])

/-- Example file: as `fileNote`, but the repeat point of sample 1 is 8 (word 4
at offset 46), its length; the repeat length is 4. -/
def fileLoopPastEnd : TFile :=
  sparseFile 2118 ([(47, 4), (1084, 0x01), (1085, 0xAC), (1086, 0x10)] ++ exampleHeader)

/-- The rows of `finetune_table` in the order of the signed finetune
`-8, .., -1, 0, .., +7`: rows `8..15`, then rows `0..7`. -/
def finetuneOrder : List Nat := [8, 9, 10, 11, 12, 13, 14, 15, 0, 1, 2, 3, 4, 5, 6, 7]

/-- The places where the period rises from one finetune to the next: the
triples `(i, r, r2)` with `r2` the row after `r` in `finetuneOrder` and
`finetune_table[r][i] < finetune_table[r2][i]`. -/
def finetuneRises : List (Nat × Nat × Nat) :=
  (List.range 36).flatMap fun i =>
    (List.range 15).filterMap fun k =>
      if (finetune_table.getD (finetuneOrder.getD k 0) []).getD i 0
          < (finetune_table.getD (finetuneOrder.getD (k + 1) 0) []).getD i 0
      then some (i, finetuneOrder.getD k 0, finetuneOrder.getD (k + 1) 0) else none

/-- The monitoring loop `while (mplay.finished == 0)` of `main`.  Each element
of the list is what one turn observes: the value of `mplay.finished` at the
loop test (the audio callback changes it) and the key `_getch()` returns
when `_kbhit()` is true.  The result tells whether the loop has ended
within these turns, by `finished != 0` or by the key 27. -/
def monitorLoop : List (Int × Option Nat) → Bool
  | [] => false
  | (finished, key) :: rest =>
    if finished ≠ 0 then true
    else if key = some 27 then true
    else monitorLoop rest

/-- Function `main`, as far as its exit code goes.  `named` tells whether the
arguments hold a file name, `res` is the value `LoadMOD (fname)` returns,
`begin` the value `BeginPlayMOD (sfreq)` returns, `turns` the turns of the
monitoring loop.  The result is the value of the `return` statement that is
reached, `none` while the monitoring loop is still running. -/
def main (named : Bool) (res begin : Int) (turns : List (Int × Option Nat)) : Option Int :=
  if named = false then some 0
  else if res ≠ 1 then some 0
  else if begin ≠ 1 then some 0
  else if monitorLoop turns then some 0
  else none

/-- Example file: as the example header, but with song length 2 (both
positions play pattern 0); row 0, channel 0 is `00 00 0D 64` (pattern break
with argument `0x64`). -/
def filePatternBreak64 : TFile :=
  sparseFile 2118 ([(950, 2), (1086, 0x0D), (1087, 0x64)] ++ exampleHeader)

/-- A sample of 4 bytes without a loop: repeat point 0, repeat length 2, first
two bytes 0 (for examples). -/
def sampleOnce : TSample :=
  { Samplename := List.replicate 23 0, Samplelength := 4, Finetune := 0, Volume := 64,
    Repeatpoint := 0, Repeatlength := 2, Sampledata := some [0, 0, 100, 50] }

/-- A module whose sample 1 is `sampleOnce` (for examples). -/
def modOnce : TModule :=
  { modStatic with sample := fun k => if k = 0 then sampleOnce else zeroSample }

/-- A channel bound to sample 1 of `modOnce` at position 3 of 4, stepping three
positions per pass at volume 64 (for examples). -/
def chanOnce : TChanPlay :=
  { zeroChan with
    sample := some 0, end_ := 4, faseacum := 3 * 32768, position := 3, fase := 3 * 32768,
    volume := 64, volbase := 64 }

/-- The channel `chanOnce` after the pass in which it wraps (for examples). -/
def chanOnceWrapped : TChanPlay :=
  { chanOnce with faseacum := 0, position := 0, end_ := 2 }

/-- A slot holding effect 10 (volume slide) with the given argument (for
examples). -/
def volSlot (arg : Nat) : TChannelData :=
  { Samplenumber := 0, Noteperiod := 0, Effect := 10, EffectArg := arg, NoteIndex := 0,
    Note := [32, 32, 0], Octave := 0 }

/-- The state `BeginPlayMOD (32000)` establishes, at tick 1 and with every
channel at volume 60 with `vslideup = 3` (for the volume-slide example). -/
def stateVolume : TModPlay :=
  { beginInit 32 32000 mplayStatic with
    tick := 1
    chan := fun _ => { zeroChan with volume := 60, volbase := 60, vslideup := 3 } }

/-- A slot holding effect 7 (tremolo) with the given argument (for examples). -/
def tremoloSlot (arg : Nat) : TChannelData :=
  { Samplenumber := 0, Noteperiod := 0, Effect := 7, EffectArg := arg, NoteIndex := 0,
    Note := [32, 32, 0], Octave := 0 }

/-- The state `BeginPlayMOD (32000)` establishes, at tick 1 and with every
channel at base volume 60 with tremolo speed 4 and depth 8 at position 62
of the sine wave (for the tremolo example). -/
def stateTremolo : TModPlay :=
  { beginInit 32 32000 mplayStatic with
    tick := 1
    chan := fun _ =>
      { zeroChan with volume := 60, volbase := 60, trspeed := 4, tramp := 8, trpos := 62 } }

/-- The position of a channel is the integer part of its phase accumulator:
`position == faseacum >> 15`. -/
def chanSync (c : TChanPlay) : Prop := c.position = c.faseacum / 32768

/-- The fields of the player that schedule the rows: the state `b` has the
same `finished`, `tick`, `patrow`, `songpos`, `newsongpos`, `newpatrow`
and `ticksperdiv` as the state `a`. -/
def sameSchedule (a b : TModPlay) : Prop :=
  b.finished = a.finished ∧ b.tick = a.tick ∧ b.patrow = a.patrow ∧ b.songpos = a.songpos ∧
  b.newsongpos = a.newsongpos ∧ b.newpatrow = a.newpatrow ∧ b.ticksperdiv = a.ticksperdiv

/-- The part of a module the effects leave alone: the patterns, the song
length, the song positions, and the repeat point and volume of every sample
(effect 14.5 writes a finetune, nothing else). -/
def sameModule (m m2 : TModule) : Prop :=
  m2.pattern = m.pattern ∧ m2.Songlength = m.Songlength ∧
  m2.Songpositions = m.Songpositions ∧
  ∀ k, (m2.sample k).Repeatpoint = (m.sample k).Repeatpoint ∧
    (m2.sample k).Volume = (m.sample k).Volume

/-- No slot of the module carries effect 9 with an argument other than 0. -/
def noOffset (m : TModule) : Prop :=
  ∀ pat ∈ m.pattern, ∀ (r : Fin 64) (c : Fin 4),
    ¬ (((pat.row r).chan c).Effect = 9 ∧ ((pat.row r).chan c).EffectArg ≠ 0)

/-- The repeat point of every sample, shifted left by 15, fits a `size_t`. -/
def repeatFits (sz : Nat) (m : TModule) : Prop :=
  ∀ k, (m.sample k).Repeatpoint * 32768 < 2 ^ sz

/-- No slot of a pattern the song plays (the patterns of the positions below
`Songlength`) carries effect 11, 13 or 15. -/
def plainSong (m : TModule) : Prop :=
  ∀ p : Fin 128, p.val < m.Songlength →
    ∀ pat, m.pattern[m.Songpositions p]? = some pat →
      ∀ (r : Fin 64) (c : Fin 4),
        ((pat.row r).chan c).Effect ≠ 11 ∧ ((pat.row r).chan c).Effect ≠ 13 ∧
        ((pat.row r).chan c).Effect ≠ 15

/-- Example file: as the example header, but sample 1 has 512 bytes (length
word `01 00` at offset 42) and byte 256 of its data (offset 2364) is 50;
row 0, channel 0 is `01 AC 19 01` (sample 1, period 428, effect 9 with
argument 1: offset 256). -/
def fileSampleOffset : TFile :=
  sparseFile 2622
    ([(42, 1), (43, 0), (2364, 50), (1084, 0x01), (1085, 0xAC), (1086, 0x19), (1087, 0x01)]
      ++ exampleHeader)

/-- The schedule of a song played without jumps at 6 ticks per row, after
`n` calls of `PlayTick` that each played a tick: `tick`, `patrow` and
`songpos` are those of call number `n` (`(n-1) % 6 + 1` ticks played of row
`(n-1) / 6 % 64` at position `(n-1) / 384`), the start values before the
first call. -/
def scheduleAt (n : Nat) (mp : TModPlay) : Prop :=
  mp.finished = 0 ∧ mp.newsongpos = -1 ∧ mp.newpatrow = -1 ∧ mp.ticksperdiv = 6 ∧
  mp.tick = (if n = 0 then 0 else (((n - 1) % 6 + 1 : Nat) : Int)) ∧
  mp.patrow = (((n - 1) / 6 % 64 : Nat) : Int) ∧
  mp.songpos = (((n - 1) / 384 : Nat) : Int)

/-- Every position of the song names a loaded pattern, and every slot of
those patterns is empty: no sample, no note, effect 0 with argument 0. -/
def silentSong (m : TModule) : Prop :=
  ∀ p : Fin 128, p.val < m.Songlength →
    ∃ pat, m.pattern[m.Songpositions p]? = some pat ∧
      ∀ (r : Fin 64) (c : Fin 4),
        ((pat.row r).chan c).Samplenumber = 0 ∧ ((pat.row r).chan c).Noteperiod = 0 ∧
        ((pat.row r).chan c).Effect = 0 ∧ ((pat.row r).chan c).EffectArg = 0

/-- A module of one song position playing one pattern of empty slots (for
examples). -/
def modSilent : TModule :=
  { modStatic with Songlength := 1, Numpatterns := 1, pattern := [blankPattern] }

/-- Ranges of the volume and tremolo fields of a channel: the slide amounts
and the tremolo depth hold nibbles, the tremolo position is below 64, the
volume and the base volume hold values of `0 .. 255`. -/
def chanVol (c : TChanPlay) : Prop :=
  0 ≤ c.vslideup ∧ c.vslideup ≤ 15 ∧ 0 ≤ c.vslidedown ∧ c.vslidedown ≤ 15 ∧
  0 ≤ c.tramp ∧ c.tramp ≤ 15 ∧ c.trpos < 64 ∧
  0 ≤ c.volume ∧ c.volume ≤ 255 ∧ 0 ≤ c.volbase ∧ c.volbase ≤ 255

/-- Invariant of the volume and tremolo fields of the player: the tremolo
waveform selector is 0, 1 or 2 and every channel meets `chanVol`. -/
def volInv (mp : TModPlay) : Prop :=
  0 ≤ mp.trwave ∧ mp.trwave ≤ 2 ∧ ∀ ch, chanVol (mp.chan ch)

/-- Every sample volume of the module is a byte (`uint8_t Volume`). -/
def sampleBytes (m : TModule) : Prop := ∀ k, (m.sample k).Volume < 256

/-- The places where the row of finetune -8 is not the row of finetune 0 moved
by one note: the indices `i < 35` with
`finetune_table[8][i+1] != finetune_table[0][i]`. -/
def finetuneShiftBreaks : List Nat :=
  (List.range 35).filter fun i =>
    (finetune_table.getD 8 []).getD (i + 1) 0 ≠ (finetune_table.getD 0 []).getD i 0

/-- The places where a period is not twice the period one octave up, within
1: the pairs `(r, i)`, `i < 24`, with
`|2 * finetune_table[r][i+12] - finetune_table[r][i]| > 1`. -/
def finetuneOctaveBreaks : List (Nat × Nat) :=
  (List.range 16).flatMap fun r =>
    (List.range 24).filterMap fun i =>
      if 2 * (finetune_table.getD r []).getD (i + 12) 0 ≤ (finetune_table.getD r []).getD i 0 + 1
          ∧ (finetune_table.getD r []).getD i 0
            ≤ 2 * (finetune_table.getD r []).getD (i + 12) 0 + 1
      then none else some (r, i)

/-- Example file: as `fileNote`, but the finetune byte of sample 1 (offset 44)
is 8 (finetune -8) and row 0, channel 0 is `01 E0 10 00` (sample 1, period
480, note index 10). -/
def fileFinetuneMinus8 : TFile :=
  sparseFile 2118 ([(44, 8), (1084, 0x01), (1085, 0xE0), (1086, 0x10)] ++ exampleHeader)

/-- Example file: as `fileFinetuneMinus8`, but the finetune byte is 9
(finetune -7). -/
def fileFinetuneMinus7 : TFile :=
  sparseFile 2118 ([(44, 9), (1084, 0x01), (1085, 0xE0), (1086, 0x10)] ++ exampleHeader)

/-- Example file: as the example header, but the finetune byte of sample 1
(offset 44) is `0x1F`; row 0, channel 0 is `00 00 11 08` (sample 1, no
note, slide up by 8). -/
def fileFinetune31Slide : TFile :=
  sparseFile 2118 ([(44, 0x1F), (1086, 0x11), (1087, 0x08)] ++ exampleHeader)

/-! ## Theorems -/

/-! ### Auxiliary lemmas -/

/-- Reading back the channel just stored through `chan`. -/
theorem setChan_same (mp : TModPlay) (ch : Fin 4) (c : TChanPlay) :
    (mp.setChan ch c).chan ch = c := by
  simp [TModPlay.setChan]

/-- A store through `chan` leaves the other channels alone. -/
theorem setChan_other (mp : TModPlay) (ch ch2 : Fin 4) (c : TChanPlay) (h : ch2 ≠ ch) :
    (mp.setChan ch c).chan ch2 = mp.chan ch2 := by
  simp [TModPlay.setChan, Function.update_noteq h]

/-- The phase stored by `DoSlideUp_01` is the phase expression of the period it stores. -/
theorem slideUp_fase (sz : Nat) (chd : TChannelData) (mp mp2 : TModPlay) (ch : Fin 4)
    (ht : mp.tick ≠ 0) (h : DoSlideUp_01 sz chd mp ch = .ok mp2) :
    calcFase sz mp.format mp.sfreq (mp2.chan ch).noteperiod = .ok (mp2.chan ch).fase := by
  unfold DoSlideUp_01 at h
  simp only [if_neg ht] at h
  split at h
  · cases h
  · split at h
    · cases h
    · rename_i f hf
      cases h
      rw [setChan_same]
      exact hf

/-- The phase stored by `DoSlideDown_02` is the phase expression of the period it stores. -/
theorem slideDown_fase (sz : Nat) (chd : TChannelData) (mp mp2 : TModPlay) (ch : Fin 4)
    (ht : mp.tick ≠ 0) (h : DoSlideDown_02 sz chd mp ch = .ok mp2) :
    calcFase sz mp.format mp.sfreq (mp2.chan ch).noteperiod = .ok (mp2.chan ch).fase := by
  unfold DoSlideDown_02 at h
  simp only [if_neg ht] at h
  split at h
  · cases h
  · split at h
    · cases h
    · rename_i f hf
      cases h
      rw [setChan_same]
      exact hf

/-- The phase stored by `DoSlideToNote_03` is the phase expression of the period it stores. -/
theorem slideToNote_fase (sz : Nat) (chd : TChannelData) (mp mp2 : TModPlay) (ch : Fin 4)
    (ht : mp.tick ≠ 0) (h : DoSlideToNote_03 sz chd mp ch = .ok mp2) :
    calcFase sz mp.format mp.sfreq (mp2.chan ch).noteperiod = .ok (mp2.chan ch).fase := by
  unfold DoSlideToNote_03 at h
  simp only [if_neg ht] at h
  split at h
  · cases h
  · rename_i f hf
    cases h
    rw [setChan_same]
    exact hf

/-- The phase stored by `DoVibrato_04` is the phase expression of the period
displaced by the waveform. -/
theorem vibrato_fase (sz : Nat) (chd : TChannelData) (mp mp2 : TModPlay) (ch : Fin 4)
    (ht : mp.tick ≠ 0) (h : DoVibrato_04 sz chd mp ch = .ok mp2) :
    ∃ w, waveLookup mp.vbwave (mp.chan ch).vbpos = .ok w ∧
      calcFase sz mp.format mp.sfreq
        (u16 (((mp.chan ch).noteperiod : Int) + Int.tdiv (w * (mp.chan ch).vbamp) 128))
        = .ok (mp2.chan ch).fase ∧
      (mp2.chan ch).noteperiod = (mp.chan ch).noteperiod := by
  unfold DoVibrato_04 at h
  simp only [if_neg ht] at h
  split at h
  · cases h
  · rename_i w hw
    split at h
    · cases h
    · rename_i f hf
      cases h
      rw [setChan_same]
      exact ⟨w, hw, hf, rfl⟩

/-- The phase stored by `DoArpeggio_00` is the phase expression of the period
chosen by `tick % 3`; the channel's period is not changed. -/
theorem arpeggio_fase (sz : Nat) (chd : TChannelData) (mp mp2 : TModPlay) (ch : Fin 4)
    (ht : mp.tick ≠ 0) (ha : chd.EffectArg ≠ 0) (h : DoArpeggio_00 sz chd mp ch = .ok mp2) :
    calcFase sz mp.format mp.sfreq
        (if Int.tmod mp.tick 3 = 0 then (mp.chan ch).noteperiod
         else if Int.tmod mp.tick 3 = 1 then
           ((mp.chan ch).noteperiod * pot.getD (chd.EffectArg % 16) 0 / 16777216) % 65536
         else if Int.tmod mp.tick 3 = 2 then
           ((mp.chan ch).noteperiod * pot.getD (chd.EffectArg / 16 % 16) 0 / 16777216) % 65536
         else (mp.chan ch).noteperiod)
        = .ok (mp2.chan ch).fase ∧
      (mp2.chan ch).noteperiod = (mp.chan ch).noteperiod := by
  unfold DoArpeggio_00 at h
  simp only [if_pos ht, if_pos ha] at h
  split at h
  · cases h
  · rename_i f hf
    cases h
    rw [setChan_same]
    exact ⟨hf, rfl⟩

/-- The phase stored by `DoDelayNote_14_13` on the tick the note starts is the
phase expression of the channel's period. -/
theorem delayNote_fase (sz : Nat) (chd : TChannelData) (mp mp2 : TModPlay) (ch : Fin 4)
    (ht : mp.tick = 1 + ((chd.EffectArg % 16 : Nat) : Int))
    (h : DoDelayNote_14_13 sz chd mp ch = .ok mp2) :
    calcFase sz mp.format mp.sfreq (mp.chan ch).noteperiod = .ok (mp2.chan ch).fase ∧
      (mp2.chan ch).noteperiod = (mp.chan ch).noteperiod := by
  unfold DoDelayNote_14_13 at h
  simp only [if_pos ht] at h
  split at h
  · cases h
  · rename_i f hf
    cases h
    rw [setChan_same]
    exact ⟨hf, rfl⟩

/-- The phase stored by the note trigger of row setup is the phase expression
of the period it stores. -/
theorem triggerNote_fase (sz format sfreq : Nat) (chd : TChannelData) (c c2 : TChanPlay)
    (hc : chd.Noteperiod ≠ 0 ∧ chd.Effect ≠ 3 ∧ chd.Effect ≠ 5)
    (h : triggerNote sz format sfreq chd c = .ok c2) :
    calcFase sz format sfreq c2.noteperiod = .ok c2.fase := by
  unfold triggerNote at h
  simp only [if_pos hc] at h
  split at h
  · cases h
  · split at h
    · cases h
    · rename_i f hf
      cases h
      exact hf

/-- The phase expression for `sfreq > 0`, `period > 0` and
`sfreq * period < 2^32`: the quotient `floor (clock * 2^15 / (sfreq * period))`
reduced modulo `2^sz`; the quotient is below `2^37`. -/
theorem calcFase_formula (sz format sfreq period : Nat)
    (hs : 0 < sfreq) (hp : 0 < period) (hlt : sfreq * period < 2 ^ 32) :
    calcFase sz format sfreq period =
      .ok (((if format = PAL then 3546895 else 3579545) * 2 ^ 15 / (sfreq * period)) % 2 ^ sz) ∧
    (if format = PAL then 3546895 else 3579545) * 2 ^ 15 / (sfreq * period) < 2 ^ 37 ∧
    ((if format = PAL then 3546895 else 3579545) * 2 ^ 15 / (sfreq * period) < 2 ^ sz →
      calcFase sz format sfreq period =
        .ok ((if format = PAL then 3546895 else 3579545) * 2 ^ 15 / (sfreq * period))) ∧
    (37 ≤ sz →
      calcFase sz format sfreq period =
        .ok ((if format = PAL then 3546895 else 3579545) * 2 ^ 15 / (sfreq * period))) ∧
    (28 ≤ sfreq * period → 32 ≤ sz →
      calcFase sz format sfreq period =
        .ok ((if format = PAL then 3546895 else 3579545) * 2 ^ 15 / (sfreq * period))) := by
  have hpos : 0 < sfreq * period := Nat.mul_pos hs hp
  have hmod : (sfreq * period) % 2 ^ 32 = sfreq * period := Nat.mod_eq_of_lt hlt
  have hne : ¬ ((sfreq * period) % 2 ^ 32 = 0) := by rw [hmod]; omega
  have hcalc : calcFase sz format sfreq period =
      .ok (((if format = PAL then 3546895 else 3579545) * 2 ^ 15 / (sfreq * period)) % 2 ^ sz) := by
    unfold calcFase
    rw [if_neg hne, hmod]
    by_cases hf : format = PAL <;> simp [hf]
  have hq : (if format = PAL then 3546895 else 3579545) * 2 ^ 15 / (sfreq * period) < 2 ^ 37 := by
    apply lt_of_le_of_lt (Nat.div_le_self _ _)
    by_cases hf : format = PAL <;> simp [hf]
  have hfit : (if format = PAL then 3546895 else 3579545) * 2 ^ 15 / (sfreq * period) < 2 ^ sz →
      calcFase sz format sfreq period =
        .ok ((if format = PAL then 3546895 else 3579545) * 2 ^ 15 / (sfreq * period)) := by
    intro h
    rw [hcalc, Nat.mod_eq_of_lt h]
  refine ⟨hcalc, hq, hfit, ?_, ?_⟩
  · intro h37
    exact hfit (lt_of_lt_of_le hq (Nat.pow_le_pow_right (by norm_num) h37))
  · intro h28 h32
    apply hfit
    apply lt_of_lt_of_le _ (Nat.pow_le_pow_right (by norm_num) h32)
    apply lt_of_le_of_lt (Nat.div_le_div_left h28 (by norm_num))
    by_cases hf : format = PAL <;> simp [hf]

/-- A byte read as `int8_t` lies in `-128 .. 127`. -/
theorem toInt8_range (b : Nat) : -128 ≤ toInt8 b ∧ toInt8 b ≤ 127 := by
  unfold toInt8
  split_ifs <;> omega

/-- Truncating division by 256 of a mix in the `int16_t` range, re-centred at 128. -/
theorem tdiv_mix_range (x : Int) (h1 : -32768 ≤ x) (h2 : x ≤ 32512) :
    0 ≤ 128 + Int.tdiv x 256 ∧ 128 + Int.tdiv x 256 ≤ 255 := by
  rcases le_or_lt 0 x with h | h
  · rw [Int.tdiv_eq_ediv h (by norm_num)]; omega
  · have : Int.tdiv x 256 = -((-x) / 256) := by
      rw [← Int.tdiv_eq_ediv (by omega) (by norm_num), Int.neg_tdiv, neg_neg]
    rw [this]; omega

/-- The product `Sampledata[position] * volume` for a volume in `0 .. 64`. -/
theorem muestraOf_range (m : TModule) (c : TChanPlay) (h0 : 0 ≤ c.volume) (h64 : c.volume ≤ 64) :
    -8192 ≤ muestraOf m c ∧ muestraOf m c ≤ 8128 := by
  unfold muestraOf
  split
  · constructor <;> norm_num
  · split
    · constructor <;> norm_num
    · rename_i data _
      have hr := toInt8_range (data.getD c.position 0)
      constructor <;> nlinarith [hr.1, hr.2]

/-- A channel without a bound sample adds nothing to the mix. -/
theorem muestraOf_unbound (m : TModule) (c : TChanPlay) (h : c.sample = none) :
    muestraOf m c = 0 := by
  unfold muestraOf
  rw [h]

/-- One channel of a mixing pass: the value added to the mix, and the fields
the pass does not touch. -/
theorem mixChannel_spec (sz : Nat) (m : TModule) (c c2 : TChanPlay) (x : Int)
    (h : mixChannel sz m c = .ok (c2, x)) :
    x = muestraOf m c ∧ c2.volume = c.volume ∧ c2.sample = c.sample := by
  unfold mixChannel at h
  unfold muestraOf
  split at h
  · rename_i hs
    cases h
    simp [hs]
  · rename_i k hs
    split at h
    · rename_i hd
      cases h
      simp [hs, hd]
    · rename_i data hd
      split at h
      · cases h
      · rename_i d hg
        have hgd : data.getD c.position 0 = d := by
          rw [List.getD_eq_getElem?_getD, hg]; rfl
        dsimp only at h
        split at h <;> cases h <;> exact ⟨by rw [hgd], rfl, rfl⟩

/-- One mixing pass: the byte produced is `128 + mezcla / 256` stored into a
`uint8_t`, with `mezcla` the sum of the four channel values; volumes and
sample bindings are not touched. -/
theorem mixSample_spec (sz : Nat) (m : TModule) (cs cs2 : Fin 4 → TChanPlay) (b : Nat)
    (h : mixSample sz m cs = .ok (cs2, b)) :
    b = u8 (128 + Int.tdiv (muestraOf m (cs 0) + muestraOf m (cs 1) + muestraOf m (cs 2)
          + muestraOf m (cs 3)) 256) ∧
    (∀ ch, (cs2 ch).volume = (cs ch).volume) ∧
    (∀ ch, (cs2 ch).sample = (cs ch).sample) := by
  unfold mixSample at h
  split at h
  · cases h
  · rename_i c0 s0 h0
    split at h
    · cases h
    · rename_i c1 s1 h1
      split at h
      · cases h
      · rename_i c2 s2 h2
        split at h
        · cases h
        · rename_i c3 s3 h3
          have e0 := mixChannel_spec sz m _ _ _ h0
          have e1 := mixChannel_spec sz m _ _ _ h1
          have e2 := mixChannel_spec sz m _ _ _ h2
          have e3 := mixChannel_spec sz m _ _ _ h3
          simp only [Except.ok.injEq, Prod.mk.injEq] at h
          obtain ⟨hcs, hb⟩ := h
          subst hcs
          refine ⟨?_, ?_, ?_⟩
          · rw [← hb, e0.1, e1.1, e2.1, e3.1]
            norm_num
          · intro ch
            fin_cases ch <;> simp [Function.update, e0.2.1, e1.2.1, e2.2.1, e3.2.1]
          · intro ch
            fin_cases ch <;> simp [Function.update, e0.2.2, e1.2.2, e2.2.2, e3.2.2]

/-- A channel whose fetches are in bounds passes one mixing step and stays so. -/
theorem mixChannel_total (sz : Nat) (m : TModule) (c : TChanPlay)
    (h : fetchInBounds sz m c) :
    ∃ c2 x, mixChannel sz m c = .ok (c2, x) ∧ fetchInBounds sz m c2 := by
  unfold fetchInBounds at h
  unfold mixChannel
  split
  · rename_i hs
    exact ⟨c, 0, rfl, by unfold fetchInBounds; simp [hs]⟩
  · rename_i k hs
    simp only [hs] at h
    split
    · rename_i hd
      exact ⟨c, 0, rfl, by unfold fetchInBounds; simp [hs, hd]⟩
    · rename_i data hd
      simp only [hd] at h
      obtain ⟨h1, h2, h3, h4⟩ := h
      have hg : data[c.position]? = some (data[c.position]) := by
        simp [h1]
      rw [hg]
      dsimp only
      split
      · refine ⟨_, _, rfl, ?_⟩
        unfold fetchInBounds
        simp only [hs, hd]
        exact ⟨h3, h4, h3, h4⟩
      · rename_i hlt
        refine ⟨_, _, rfl, ?_⟩
        unfold fetchInBounds
        simp only [hs, hd]
        exact ⟨by omega, h2, h3, h4⟩

/-- One mixing pass succeeds on four channels whose fetches are in bounds. -/
theorem mixSample_total (sz : Nat) (m : TModule) (cs : Fin 4 → TChanPlay)
    (h : ∀ ch, fetchInBounds sz m (cs ch)) :
    ∃ cs2 b, mixSample sz m cs = .ok (cs2, b) ∧ ∀ ch, fetchInBounds sz m (cs2 ch) := by
  obtain ⟨c0, x0, e0, s0⟩ := mixChannel_total sz m (cs 0) (h 0)
  obtain ⟨c1, x1, e1, s1⟩ := mixChannel_total sz m (cs 1) (h 1)
  obtain ⟨c2, x2, e2, s2⟩ := mixChannel_total sz m (cs 2) (h 2)
  obtain ⟨c3, x3, e3, s3⟩ := mixChannel_total sz m (cs 3) (h 3)
  refine ⟨_, _, by simp only [mixSample, e0, e1, e2, e3]; rfl, ?_⟩
  intro ch
  fin_cases ch <;> simp [Function.update, s0, s1, s2, s3]

/-- The mixing loop returns a block when the fetches are in bounds and the
block fits `sbuffer`. -/
theorem mixLoop_total (sz : Nat) (m : TModule) :
    ∀ (n i : Nat) (cs : Fin 4 → TChanPlay), (∀ ch, fetchInBounds sz m (cs ch)) →
      n + i ≤ 44100 → ∃ cs2 buf, mixLoop sz m n i cs = .ok (cs2, buf) := by
  intro n
  induction n with
  | zero => intro i cs _ _; exact ⟨cs, [], rfl⟩
  | succ n ih =>
    intro i cs h hi
    obtain ⟨cs1, b, e, s1⟩ := mixSample_total sz m cs h
    obtain ⟨cs2, rest, e2⟩ := ih (i + 1) cs1 s1 (by omega)
    refine ⟨cs2, b :: rest, ?_⟩
    simp only [mixLoop, e]
    rw [if_neg (by omega)]
    simp only [e2]

/-- The block built by the mixing loop: its length, and each byte as the
result of one pass from the channels reached after the passes before it. -/
theorem mixLoop_spec (sz : Nat) (m : TModule) :
    ∀ (n i : Nat) (cs cs2 : Fin 4 → TChanPlay) (buf : List Nat),
      mixLoop sz m n i cs = .ok (cs2, buf) →
      buf.length = n ∧ mixStates sz m n cs = .ok cs2 ∧
      ∀ j, j < n → ∃ csj cs3 b, mixStates sz m j cs = .ok csj ∧
        mixSample sz m csj = .ok (cs3, b) ∧ buf[j]? = some b := by
  intro n
  induction n with
  | zero =>
    intro i cs cs2 buf h
    simp only [mixLoop, Except.ok.injEq, Prod.mk.injEq] at h
    refine ⟨by rw [← h.2]; rfl, by rw [← h.1]; rfl, ?_⟩
    intro j hj
    omega
  | succ n ih =>
    intro i cs cs2 buf h
    unfold mixLoop at h
    split at h
    · cases h
    · rename_i cs1 b e
      split at h
      · cases h
      · split at h
        · cases h
        · rename_i cs3 rest e2
          simp only [Except.ok.injEq, Prod.mk.injEq] at h
          obtain ⟨hcs, hbuf⟩ := h
          obtain ⟨hl, hfin, hj⟩ := ih (i + 1) cs1 cs3 rest e2
          subst hbuf
          subst hcs
          refine ⟨by simp [hl], by simp only [mixStates, e]; exact hfin, ?_⟩
          intro j hjn
          cases j with
          | zero => exact ⟨cs, cs1, b, rfl, e, by simp⟩
          | succ j =>
            obtain ⟨csj, cs4, b2, a1, a2, a3⟩ := hj j (by omega)
            refine ⟨csj, cs4, b2, ?_, a2, ?_⟩
            · simp only [mixStates, e]
              exact a1
            · simpa using a3

/-- Mixing passes change neither volumes nor sample bindings. -/
theorem mixStates_keeps (sz : Nat) (m : TModule) :
    ∀ (j : Nat) (cs csj : Fin 4 → TChanPlay), mixStates sz m j cs = .ok csj →
      ∀ ch, (csj ch).volume = (cs ch).volume ∧ (csj ch).sample = (cs ch).sample := by
  intro j
  induction j with
  | zero =>
    intro cs csj h ch
    simp only [mixStates, Except.ok.injEq] at h
    subst h
    exact ⟨rfl, rfl⟩
  | succ j ih =>
    intro cs csj h ch
    unfold mixStates at h
    split at h
    · cases h
    · rename_i cs1 b e
      have k := mixSample_spec sz m cs cs1 b e
      have := ih cs1 csj h ch
      exact ⟨by rw [this.1, k.2.1 ch], by rw [this.2, k.2.2 ch]⟩

/-- A call of `PlayTick` that hands a block to the sink has built it with the
mixing loop, from the state `mp1` the effects left, for `mp1.tambufplay`
bytes; the state it returns differs from `mp1` in the channels the loop
advanced and in `tick`. -/
theorem PlayTick_audio (sz : Nat) (rnd : Fin 4 → Nat) (m : TModule) (mp : TModPlay)
    (r : TickResult) (buf : List Nat) (h : PlayTick sz rnd m mp = .ok r)
    (hb : r.audio = some buf) :
    ∃ mp1 : TModPlay, mixLoop sz r.mod mp1.tambufplay 0 mp1.chan = .ok (r.mplay.chan, buf) ∧
      r.mplay = { mp1 with chan := r.mplay.chan, tick := mp1.tick + 1 } := by
  have key : ∀ mp0, tickBody sz rnd m mp0 = .ok r →
      ∃ mp1 : TModPlay, mixLoop sz r.mod mp1.tambufplay 0 mp1.chan = .ok (r.mplay.chan, buf) ∧
        r.mplay = { mp1 with chan := r.mplay.chan, tick := mp1.tick + 1 } := by
    intro mp0 h0
    unfold tickBody at h0
    dsimp only at h0
    split at h0
    · cases h0
    · rename_i m1 mp1 e1
      split at h0
      · cases h0
      · rename_i cs buf2 e2
        cases h0
        simp only [Option.some.injEq] at hb
        subst hb
        exact ⟨mp1, e2, rfl⟩
  unfold PlayTick at h
  split_ifs at h
  · cases h; simp at hb
  · cases h; simp at hb
  · exact key _ h
  · exact key _ h

/-- Storing the channel it already holds changes nothing. -/
theorem setChan_self (mp : TModPlay) (ch : Fin 4) : mp.setChan ch (mp.chan ch) = mp := by
  simp [TModPlay.setChan]

/-- An integer in the `uint16_t` range is stored unchanged. -/
theorem u16_of_range (x : Int) (h0 : 0 ≤ x) (h1 : x < 65536) : ((u16 x : Nat) : Int) = x := by
  unfold u16
  rw [Int.toNat_of_nonneg (Int.emod_nonneg _ (by norm_num)), Int.emod_eq_of_lt h0 h1]

/-- Successor modulo a positive number. -/
theorem succ_mod_cases (a r : Nat) (hr : 0 < r) :
    (a % r + 1 = r → (a + 1) % r = 0) ∧ (a % r + 1 ≠ r → (a + 1) % r = a % r + 1) := by
  have hlt := Nat.mod_lt a hr
  have hda := Nat.div_add_mod a r
  constructor
  · intro h
    have e : a + 1 = r * (a / r + 1) := by
      rw [Nat.mul_add, Nat.mul_one]; omega
    rw [e, Nat.mul_mod_right]
  · intro h
    have e : a + 1 = (a % r + 1) + r * (a / r) := by omega
    rw [e, Nat.add_mul_mod_self_left, Nat.mod_eq_of_lt (by omega)]

/-- One pass keeps the loop invariant and fetches inside the sample data. -/
theorem loopInv_step (sz : Nat) (m : TModule) (k : Fin 31) (data : List Nat) (f0 : Nat)
    (hd : (m.sample k).Sampledata = some data)
    (hl : (m.sample k).Samplelength ≤ data.length)
    (hr : 0 < (m.sample k).Repeatlength)
    (hb : (m.sample k).Repeatpoint + (m.sample k).Repeatlength ≤ (m.sample k).Samplelength)
    (hz : ((m.sample k).Samplelength + 1) * 32768 ≤ 2 ^ sz) (hf : f0 < 32768)
    (j : Nat) (c : TChanPlay) (hi : loopInv m k f0 j c) :
    ∃ c1 x, mixChannel sz m c = .ok (c1, x) ∧ loopInv m k f0 (j + 1) c1 ∧
      c1.volume = c.volume := by
  obtain ⟨hs, hfa, hcase⟩ := hi
  have hpos : c.position < data.length := by
    rcases hcase with ⟨a, b, _, _⟩ | ⟨_, b, _, _⟩
    · omega
    · have := Nat.mod_lt (j - (m.sample k).Samplelength) hr
      omega
  have hget : data[c.position]? = some (data[c.position]) := List.getElem?_eq_getElem hpos
  simp only [mixChannel, hs, hd, hget, hfa]
  rcases hcase with ⟨a, b, e, g⟩ | ⟨a, b, e, g⟩
  · have h1 : (c.faseacum + 32768) % 2 ^ sz = (j + 1) * 32768 + f0 := by
      rw [Nat.mod_eq_of_lt (by rw [e]; omega), e]; ring
    have h2 : ((j + 1) * 32768 + f0) / 32768 = j + 1 := by omega
    rw [h1, h2, g]
    by_cases hj : j + 1 ≥ (m.sample k).Samplelength
    · rw [if_pos hj]
      refine ⟨_, _, rfl, ⟨rfl, rfl, Or.inr ⟨hj, ?_, ?_, ?_⟩⟩, rfl⟩
      · have : j + 1 - (m.sample k).Samplelength = 0 := by omega
        simp [this]
      · dsimp only
        exact Nat.mod_eq_of_lt (by nlinarith)
      · dsimp only
        exact Nat.mod_eq_of_lt (by nlinarith)
    · rw [if_neg hj]
      exact ⟨_, _, rfl, ⟨rfl, rfl, Or.inl ⟨by omega, rfl, rfl, rfl⟩⟩, rfl⟩
  · have hm := Nat.mod_lt (j - (m.sample k).Samplelength) hr
    have h1 : (c.faseacum + 32768) % 2 ^ sz = (c.position + 1) * 32768 := by
      rw [Nat.mod_eq_of_lt (by rw [e, b]; nlinarith), e]; ring
    have h2 : ((c.position + 1) * 32768) / 32768 = c.position + 1 := by omega
    have hsub : j + 1 - (m.sample k).Samplelength = (j - (m.sample k).Samplelength) + 1 := by
      omega
    obtain ⟨s1, s2⟩ := succ_mod_cases (j - (m.sample k).Samplelength) _ hr
    rw [h1, h2, g]
    by_cases hj : c.position + 1 ≥ (m.sample k).Repeatpoint + (m.sample k).Repeatlength
    · rw [if_pos hj]
      refine ⟨_, _, rfl, ⟨rfl, rfl, Or.inr ⟨by omega, ?_, ?_, ?_⟩⟩, rfl⟩
      · dsimp only
        rw [hsub, s1 (by omega)]; rfl
      · dsimp only
        exact Nat.mod_eq_of_lt (by nlinarith)
      · dsimp only
        exact Nat.mod_eq_of_lt (by nlinarith)
    · rw [if_neg hj]
      refine ⟨_, _, rfl, ⟨rfl, rfl, Or.inr ⟨by omega, ?_, rfl, rfl⟩⟩, rfl⟩
      dsimp only
      rw [hsub, s2 (by omega), b]; ring

/-- A run of passes keeps the loop invariant. -/
theorem loopInv_run (sz : Nat) (m : TModule) (k : Fin 31) (data : List Nat) (f0 : Nat)
    (hd : (m.sample k).Sampledata = some data)
    (hl : (m.sample k).Samplelength ≤ data.length)
    (hr : 0 < (m.sample k).Repeatlength)
    (hb : (m.sample k).Repeatpoint + (m.sample k).Repeatlength ≤ (m.sample k).Samplelength)
    (hz : ((m.sample k).Samplelength + 1) * 32768 ≤ 2 ^ sz) (hf : f0 < 32768) :
    ∀ (n j : Nat) (c : TChanPlay), loopInv m k f0 j c →
      ∃ c2, mixChannelSteps sz m n c = .ok c2 ∧ loopInv m k f0 (j + n) c2 ∧
        c2.volume = c.volume := by
  intro n
  induction n with
  | zero => intro j c hi; exact ⟨c, rfl, hi, rfl⟩
  | succ n ih =>
    intro j c hi
    obtain ⟨c1, x, e, hi1, hv1⟩ := loopInv_step sz m k data f0 hd hl hr hb hz hf j c hi
    obtain ⟨c2, e2, hi2, hv2⟩ := ih (j + 1) c1 hi1
    refine ⟨c2, ?_, ?_, by rw [hv2, hv1]⟩
    · simp only [mixChannelSteps, e]; exact e2
    · have : j + (n + 1) = j + 1 + n := by omega
      rw [this]; exact hi2

/-- A `uint16_t` store is below `65536`. -/
theorem u16_lt (x : Int) : u16 x < 65536 := by
  unfold u16
  have h := Int.emod_lt_of_pos x (show (0 : Int) < 65536 by norm_num)
  have h0 := Int.emod_nonneg x (show (65536 : Int) ≠ 0 by norm_num)
  omega

/-- Every entry of `finetune_table` fits a `uint16_t`. -/
theorem ftLookup_lt (ft i p : Nat) (h : ftLookup ft i = .ok p) : p < 65536 := by
  have hall : ∀ r ∈ finetune_table, ∀ q ∈ r, q < 65536 := by decide
  unfold ftLookup at h
  split at h
  · cases h
  · rename_i r hr
    split at h
    · cases h
    · rename_i q hq
      cases h
      exact hall r (List.getElem?_mem hr) p (List.getElem?_mem hq)

/-- Storing a channel in range keeps the invariant. -/
theorem playInv_setChan (sz sf : Nat) (mp : TModPlay) (ch : Fin 4) (c : TChanPlay)
    (h : playInv sz sf mp) (hc : chanOK c) : playInv sz sf (mp.setChan ch c) := by
  refine ⟨h.1, h.2.1, fun ch2 => ?_⟩
  by_cases e : ch2 = ch
  · subst e; rw [setChan_same]; exact hc
  · rw [setChan_other _ _ _ _ e]; exact h.2.2 ch2

/-- The invariant only reads `sfreq`, `bpm`, `tambufplay` and the channels. -/
theorem playInv_of_eq (sz sf : Nat) (mp mp2 : TModPlay) (h : playInv sz sf mp)
    (h1 : mp2.sfreq = mp.sfreq) (h2 : mp2.bpm = mp.bpm) (h3 : mp2.tambufplay = mp.tambufplay)
    (h4 : mp2.chan = mp.chan) : playInv sz sf mp2 := by
  obtain ⟨a, ⟨b1, b2, b3⟩, c⟩ := h
  refine ⟨h1.trans a, ⟨?_, ?_, ?_⟩, ?_⟩
  · rw [h2]; exact b1
  · rw [h2]; exact b2
  · rw [h3, h2, h1]; exact b3
  · intro ch; rw [h4]; exact c ch

/-- `DoArpeggio_00` keeps the invariant. -/
theorem inv_Arpeggio (sz sf : Nat) (chd : TChannelData) (mp mp2 : TModPlay) (ch : Fin 4)
    (h : playInv sz sf mp) (e : DoArpeggio_00 sz chd mp ch = .ok mp2) : playInv sz sf mp2 := by
  unfold DoArpeggio_00 at e
  dsimp only at e
  split_ifs at e <;>
    first
    | (cases e; exact h)
    | (split at e
       · cases e
       · cases e; exact playInv_setChan sz sf mp ch _ h (h.2.2 ch))

/-- `DoSlideUp_01` keeps the invariant. -/
theorem inv_SlideUp (sz sf : Nat) (chd : TChannelData) (mp mp2 : TModPlay) (ch : Fin 4)
    (h : playInv sz sf mp) (e : DoSlideUp_01 sz chd mp ch = .ok mp2) : playInv sz sf mp2 := by
  unfold DoSlideUp_01 at e
  dsimp only at e
  by_cases ht : mp.tick = 0
  · rw [if_pos ht] at e
    cases e
    exact playInv_setChan sz sf mp ch _ h ⟨Int.natCast_nonneg _, (h.2.2 ch).2.1, (h.2.2 ch).2.2⟩
  · rw [if_neg ht] at e
    split at e
    · cases e
    · rename_i lim hl
      split at e
      · cases e
      · cases e
        refine playInv_setChan sz sf mp ch _ h ⟨(h.2.2 ch).1, ?_, (h.2.2 ch).2.2⟩
        dsimp only
        split_ifs
        · exact u16_lt _
        · exact ftLookup_lt _ _ _ hl

/-- `DoSlideDown_02` keeps the invariant. -/
theorem inv_SlideDown (sz sf : Nat) (chd : TChannelData) (mp mp2 : TModPlay) (ch : Fin 4)
    (h : playInv sz sf mp) (e : DoSlideDown_02 sz chd mp ch = .ok mp2) : playInv sz sf mp2 := by
  unfold DoSlideDown_02 at e
  dsimp only at e
  by_cases ht : mp.tick = 0
  · rw [if_pos ht] at e
    cases e
    exact playInv_setChan sz sf mp ch _ h ⟨Int.natCast_nonneg _, (h.2.2 ch).2.1, (h.2.2 ch).2.2⟩
  · rw [if_neg ht] at e
    split at e
    · cases e
    · rename_i lim hl
      split at e
      · cases e
      · cases e
        refine playInv_setChan sz sf mp ch _ h ⟨(h.2.2 ch).1, ?_, (h.2.2 ch).2.2⟩
        dsimp only
        split_ifs
        · exact u16_lt _
        · exact ftLookup_lt _ _ _ hl

/-- `DoSlideToNote_03` keeps the invariant. -/
theorem inv_SlideToNote (sz sf : Nat) (chd : TChannelData) (mp mp2 : TModPlay) (ch : Fin 4)
    (h : playInv sz sf mp) (e : DoSlideToNote_03 sz chd mp ch = .ok mp2) : playInv sz sf mp2 := by
  unfold DoSlideToNote_03 at e
  dsimp only at e
  by_cases ht : mp.tick = 0
  · rw [if_pos ht] at e
    split at e
    · cases e
    · rename_i target htg
      cases e
      refine playInv_setChan sz sf mp ch _ h ⟨?_, (h.2.2 ch).2.1, ?_⟩
      · dsimp only
        split_ifs
        · exact Int.natCast_nonneg _
        · exact (h.2.2 ch).1
      · dsimp only
        split_ifs at htg
        · exact ftLookup_lt _ _ _ htg
        · cases htg; exact (h.2.2 ch).2.2
  · rw [if_neg ht] at e
    split at e
    · cases e
    · cases e
      refine playInv_setChan sz sf mp ch _ h ⟨(h.2.2 ch).1, ?_, (h.2.2 ch).2.2⟩
      dsimp only
      have := (h.2.2 ch).2.1
      have := (h.2.2 ch).2.2
      split_ifs <;> first | exact u16_lt _ | assumption

/-- `DoVibrato_04` keeps the invariant. -/
theorem inv_Vibrato (sz sf : Nat) (chd : TChannelData) (mp mp2 : TModPlay) (ch : Fin 4)
    (h : playInv sz sf mp) (e : DoVibrato_04 sz chd mp ch = .ok mp2) : playInv sz sf mp2 := by
  unfold DoVibrato_04 at e
  dsimp only at e
  by_cases ht : mp.tick = 0
  · rw [if_pos ht] at e
    cases e; exact playInv_setChan sz sf mp ch _ h (h.2.2 ch)
  · rw [if_neg ht] at e
    split at e
    · cases e
    · split at e
      · cases e
      · cases e; exact playInv_setChan sz sf mp ch _ h (h.2.2 ch)

/-- `DoTremolo_07` keeps the invariant. -/
theorem inv_Tremolo (sz sf : Nat) (chd : TChannelData) (mp mp2 : TModPlay) (ch : Fin 4)
    (h : playInv sz sf mp) (e : DoTremolo_07 chd mp ch = .ok mp2) : playInv sz sf mp2 := by
  unfold DoTremolo_07 at e
  dsimp only at e
  by_cases ht : mp.tick = 0
  · rw [if_pos ht] at e
    cases e; exact playInv_setChan sz sf mp ch _ h (h.2.2 ch)
  · rw [if_neg ht] at e
    split at e
    · cases e
    · cases e; exact playInv_setChan sz sf mp ch _ h (h.2.2 ch)

/-- `DoVolumeSlide_10` keeps the invariant. -/
theorem inv_VolumeSlide (sz sf : Nat) (chd : TChannelData) (mp : TModPlay) (ch : Fin 4)
    (h : playInv sz sf mp) : playInv sz sf (DoVolumeSlide_10 chd mp ch) := by
  unfold DoVolumeSlide_10
  dsimp only
  split_ifs <;> exact playInv_setChan sz sf mp ch _ h (h.2.2 ch)

/-- `DoSlideToNoteAndVolumeSlide_05` keeps the invariant. -/
theorem inv_SlideToNoteAndVolumeSlide (sz sf : Nat) (chd : TChannelData) (mp mp2 : TModPlay)
    (ch : Fin 4) (h : playInv sz sf mp)
    (e : DoSlideToNoteAndVolumeSlide_05 sz chd mp ch = .ok mp2) : playInv sz sf mp2 := by
  unfold DoSlideToNoteAndVolumeSlide_05 at e
  dsimp only at e
  split at e
  · cases e
  · rename_i mp1 h1
    cases e
    apply inv_VolumeSlide
    by_cases ht : mp.tick = 0
    · rw [if_pos ht] at h1
      by_cases hn : chd.Noteperiod ≠ 0
      · rw [if_pos hn] at h1
        split at h1
        · cases h1
        · rename_i target htg
          cases h1
          exact playInv_setChan sz sf mp ch _ h
            ⟨(h.2.2 ch).1, (h.2.2 ch).2.1, ftLookup_lt _ _ _ htg⟩
      · rw [if_neg hn] at h1
        cases h1; exact h
    · rw [if_neg ht] at h1
      exact inv_SlideToNote sz sf chd mp mp1 ch h h1

/-- `DoVibratoAndVolumeSlide_06` keeps the invariant. -/
theorem inv_VibratoAndVolumeSlide (sz sf : Nat) (chd : TChannelData) (mp mp2 : TModPlay)
    (ch : Fin 4) (h : playInv sz sf mp)
    (e : DoVibratoAndVolumeSlide_06 sz chd mp ch = .ok mp2) : playInv sz sf mp2 := by
  unfold DoVibratoAndVolumeSlide_06 at e
  dsimp only at e
  split at e
  · cases e
  · rename_i mp1 h1
    cases e
    apply inv_VolumeSlide
    by_cases ht : mp.tick = 0
    · rw [if_pos ht] at h1
      by_cases hv : mp.vbretrig = 1
      · rw [if_pos hv] at h1
        cases h1; exact playInv_setChan sz sf mp ch _ h (h.2.2 ch)
      · rw [if_neg hv] at h1
        cases h1; exact h
    · rw [if_neg ht] at h1
      exact inv_Vibrato sz sf chd mp mp1 ch h h1

/-- `DoSampleOffset_09` keeps the invariant. -/
theorem inv_SampleOffset (sz sf : Nat) (chd : TChannelData) (mp : TModPlay) (ch : Fin 4)
    (h : playInv sz sf mp) : playInv sz sf (DoSampleOffset_09 sz chd mp ch) := by
  unfold DoSampleOffset_09
  dsimp only
  split_ifs <;> first | exact h | exact playInv_setChan sz sf mp ch _ h (h.2.2 ch)

/-- `DoJumpSongposition_11` keeps the invariant. -/
theorem inv_JumpSongposition (sz sf : Nat) (chd : TChannelData) (mp : TModPlay)
    (h : playInv sz sf mp) : playInv sz sf (DoJumpSongposition_11 chd mp) := by
  unfold DoJumpSongposition_11
  split_ifs <;> exact h

/-- `DoVolume_12` keeps the invariant. -/
theorem inv_Volume (sz sf : Nat) (chd : TChannelData) (mp : TModPlay) (ch : Fin 4)
    (h : playInv sz sf mp) : playInv sz sf (DoVolume_12 chd mp ch) := by
  unfold DoVolume_12
  dsimp only
  split_ifs <;> first | exact h | exact playInv_setChan sz sf mp ch _ h (h.2.2 ch)

/-- `DoPatternBreak_13` keeps the invariant. -/
theorem inv_PatternBreak (sz sf : Nat) (chd : TChannelData) (mp : TModPlay)
    (h : playInv sz sf mp) : playInv sz sf (DoPatternBreak_13 chd mp) := by
  unfold DoPatternBreak_13
  split_ifs <;> exact h

/-- `DoFineSlideUp_14_01` keeps the invariant. -/
theorem inv_FineSlideUp (sz sf : Nat) (chd : TChannelData) (mp mp2 : TModPlay) (ch : Fin 4)
    (h : playInv sz sf mp) (e : DoFineSlideUp_14_01 sz chd mp ch = .ok mp2) :
    playInv sz sf mp2 := by
  unfold DoFineSlideUp_14_01 at e
  dsimp only at e
  by_cases ht : mp.tick = 0
  · rw [if_pos ht] at e
    split at e
    · cases e
    · rename_i mp3 h3
      cases e
      have h1 : playInv sz sf { mp with tick := 1 } := playInv_of_eq sz sf mp _ h rfl rfl rfl rfl
      have h2 := playInv_setChan sz sf { mp with tick := 1 } ch
        { ({ mp with tick := 1 } : TModPlay).chan ch with
          pslide := ((chd.EffectArg % 16 : Nat) : Int) } h1
        ⟨Int.natCast_nonneg _, (h.2.2 ch).2.1, (h.2.2 ch).2.2⟩
      exact playInv_of_eq sz sf mp3 _ (inv_SlideUp sz sf chd _ mp3 ch h2 h3) rfl rfl rfl rfl
  · rw [if_neg ht] at e
    cases e; exact h

/-- `DoFineSlideDown_14_02` keeps the invariant. -/
theorem inv_FineSlideDown (sz sf : Nat) (chd : TChannelData) (mp mp2 : TModPlay) (ch : Fin 4)
    (h : playInv sz sf mp) (e : DoFineSlideDown_14_02 sz chd mp ch = .ok mp2) :
    playInv sz sf mp2 := by
  unfold DoFineSlideDown_14_02 at e
  dsimp only at e
  by_cases ht : mp.tick = 0
  · rw [if_pos ht] at e
    split at e
    · cases e
    · rename_i mp3 h3
      cases e
      have h1 : playInv sz sf { mp with tick := 1 } := playInv_of_eq sz sf mp _ h rfl rfl rfl rfl
      have h2 := playInv_setChan sz sf { mp with tick := 1 } ch
        { ({ mp with tick := 1 } : TModPlay).chan ch with
          pslide := ((chd.EffectArg % 16 : Nat) : Int) } h1
        ⟨Int.natCast_nonneg _, (h.2.2 ch).2.1, (h.2.2 ch).2.2⟩
      exact playInv_of_eq sz sf mp3 _ (inv_SlideDown sz sf chd _ mp3 ch h2 h3) rfl rfl rfl rfl
  · rw [if_neg ht] at e
    cases e; exact h

/-- `DoNoteRetrig_14_09` keeps the invariant. -/
theorem inv_NoteRetrig (sz sf : Nat) (chd : TChannelData) (mp : TModPlay) (ch : Fin 4)
    (h : playInv sz sf mp) : playInv sz sf (DoNoteRetrig_14_09 chd mp ch) := by
  unfold DoNoteRetrig_14_09
  dsimp only
  split_ifs <;> first | exact h | exact playInv_setChan sz sf mp ch _ h (h.2.2 ch)

/-- `DoFineVolumeSlideUp_14_10` keeps the invariant. -/
theorem inv_FineVolumeSlideUp (sz sf : Nat) (chd : TChannelData) (mp : TModPlay) (ch : Fin 4)
    (h : playInv sz sf mp) : playInv sz sf (DoFineVolumeSlideUp_14_10 chd mp ch) := by
  unfold DoFineVolumeSlideUp_14_10
  dsimp only
  split_ifs <;> first | exact h | exact playInv_setChan sz sf mp ch _ h (h.2.2 ch)

/-- `DoFineVolumeSlideDown_14_11` keeps the invariant. -/
theorem inv_FineVolumeSlideDown (sz sf : Nat) (chd : TChannelData) (mp : TModPlay) (ch : Fin 4)
    (h : playInv sz sf mp) : playInv sz sf (DoFineVolumeSlideDown_14_11 chd mp ch) := by
  unfold DoFineVolumeSlideDown_14_11
  dsimp only
  split_ifs <;> first | exact h | exact playInv_setChan sz sf mp ch _ h (h.2.2 ch)

/-- `DoCutNote_14_12` keeps the invariant. -/
theorem inv_CutNote (sz sf : Nat) (chd : TChannelData) (mp : TModPlay) (ch : Fin 4)
    (h : playInv sz sf mp) : playInv sz sf (DoCutNote_14_12 chd mp ch) := by
  unfold DoCutNote_14_12
  dsimp only
  split_ifs <;> first | exact h | exact playInv_setChan sz sf mp ch _ h (h.2.2 ch)

/-- `DoDelayNote_14_13` keeps the invariant. -/
theorem inv_DelayNote (sz sf : Nat) (chd : TChannelData) (mp mp2 : TModPlay) (ch : Fin 4)
    (h : playInv sz sf mp) (e : DoDelayNote_14_13 sz chd mp ch = .ok mp2) :
    playInv sz sf mp2 := by
  unfold DoDelayNote_14_13 at e
  dsimp only at e
  by_cases ht : mp.tick = 1 + ((chd.EffectArg % 16 : Nat) : Int)
  · rw [if_pos ht] at e
    split at e
    · cases e
    · cases e; exact playInv_setChan sz sf mp ch _ h (h.2.2 ch)
  · rw [if_neg ht] at e
    cases e; exact playInv_setChan sz sf mp ch _ h (h.2.2 ch)

/-- `DoSetSpeedBPM_15` with a byte argument keeps the invariant: it stores
`bpm` and `tambufplay` together. -/
theorem inv_SetSpeedBPM (sz sf : Nat) (chd : TChannelData) (mp : TModPlay)
    (ha : chd.EffectArg < 256) (h : playInv sz sf mp) :
    playInv sz sf (DoSetSpeedBPM_15 sz chd mp) := by
  unfold DoSetSpeedBPM_15
  by_cases ht : mp.tick = 0
  · rw [if_pos ht]
    by_cases h32 : chd.EffectArg < 32
    · rw [if_pos h32]
      exact playInv_of_eq sz sf mp _ h rfl rfl rfl rfl
    · rw [if_neg h32]
      refine ⟨h.1, ⟨?_, ?_, ?_⟩, h.2.2⟩
      · dsimp only; omega
      · dsimp only; omega
      · dsimp only
        rw [Int.toNat_ofNat, Nat.mod_eq_of_lt (show 6 * chd.EffectArg < 2 ^ 32 by omega)]
  · rw [if_neg ht]; exact h

/-- `ProcessEffect` with a byte argument keeps the invariant and the patterns. -/
theorem inv_ProcessEffect (sz sf rnd : Nat) (chd : TChannelData) (m m2 : TModule)
    (mp mp2 : TModPlay) (ch : Fin 4) (ha : chd.EffectArg < 256) (h : playInv sz sf mp)
    (e : ProcessEffect sz rnd chd m mp ch = .ok (m2, mp2)) :
    playInv sz sf mp2 ∧ m2.pattern = m.pattern := by
  have keep : ∀ r : Except Fault TModPlay,
      (match r with
        | .error e => (.error e : Except Fault (TModule × TModPlay))
        | .ok mp1 => .ok (m, mp1)) = .ok (m2, mp2) →
      (∀ mp1, r = .ok mp1 → playInv sz sf mp1) → playInv sz sf mp2 ∧ m2.pattern = m.pattern := by
    intro r hr hk
    cases r with
    | error x => cases hr
    | ok mp1 => cases hr; exact ⟨hk _ rfl, rfl⟩
  unfold ProcessEffect at e
  dsimp only at e
  by_cases c0 : chd.Effect = 0
  · rw [if_pos c0] at e
    exact keep _ e (fun mp1 h1 => inv_Arpeggio sz sf chd mp mp1 ch h h1)
  rw [if_neg c0] at e
  by_cases c1 : chd.Effect = 1
  · rw [if_pos c1] at e
    exact keep _ e (fun mp1 h1 => inv_SlideUp sz sf chd mp mp1 ch h h1)
  rw [if_neg c1] at e
  by_cases c2 : chd.Effect = 2
  · rw [if_pos c2] at e
    exact keep _ e (fun mp1 h1 => inv_SlideDown sz sf chd mp mp1 ch h h1)
  rw [if_neg c2] at e
  by_cases c3 : chd.Effect = 3
  · rw [if_pos c3] at e
    exact keep _ e (fun mp1 h1 => inv_SlideToNote sz sf chd mp mp1 ch h h1)
  rw [if_neg c3] at e
  by_cases c4 : chd.Effect = 4
  · rw [if_pos c4] at e
    exact keep _ e (fun mp1 h1 => inv_Vibrato sz sf chd mp mp1 ch h h1)
  rw [if_neg c4] at e
  by_cases c5 : chd.Effect = 5
  · rw [if_pos c5] at e
    exact keep _ e (fun mp1 h1 => inv_SlideToNoteAndVolumeSlide sz sf chd mp mp1 ch h h1)
  rw [if_neg c5] at e
  by_cases c6 : chd.Effect = 6
  · rw [if_pos c6] at e
    exact keep _ e (fun mp1 h1 => inv_VibratoAndVolumeSlide sz sf chd mp mp1 ch h h1)
  rw [if_neg c6] at e
  by_cases c7 : chd.Effect = 7
  · rw [if_pos c7] at e
    exact keep _ e (fun mp1 h1 => inv_Tremolo sz sf chd mp mp1 ch h h1)
  rw [if_neg c7] at e
  by_cases c9 : chd.Effect = 9
  · rw [if_pos c9] at e
    cases e; exact ⟨inv_SampleOffset sz sf chd mp ch h, rfl⟩
  rw [if_neg c9] at e
  by_cases c10 : chd.Effect = 10
  · rw [if_pos c10] at e
    cases e; exact ⟨inv_VolumeSlide sz sf chd mp ch h, rfl⟩
  rw [if_neg c10] at e
  by_cases c11 : chd.Effect = 11
  · rw [if_pos c11] at e
    cases e; exact ⟨inv_JumpSongposition sz sf chd mp h, rfl⟩
  rw [if_neg c11] at e
  by_cases c12 : chd.Effect = 12
  · rw [if_pos c12] at e
    cases e; exact ⟨inv_Volume sz sf chd mp ch h, rfl⟩
  rw [if_neg c12] at e
  by_cases c13 : chd.Effect = 13
  · rw [if_pos c13] at e
    cases e; exact ⟨inv_PatternBreak sz sf chd mp h, rfl⟩
  rw [if_neg c13] at e
  by_cases c14 : chd.Effect = 14
  · rw [if_pos c14] at e
    by_cases s1 : chd.EffectArg / 16 % 16 = 1
    · rw [if_pos s1] at e
      exact keep _ e (fun mp1 h1 => inv_FineSlideUp sz sf chd mp mp1 ch h h1)
    rw [if_neg s1] at e
    by_cases s2 : chd.EffectArg / 16 % 16 = 2
    · rw [if_pos s2] at e
      exact keep _ e (fun mp1 h1 => inv_FineSlideDown sz sf chd mp mp1 ch h h1)
    rw [if_neg s2] at e
    by_cases s4 : chd.EffectArg / 16 % 16 = 4
    · rw [if_pos s4] at e
      cases e; exact ⟨playInv_of_eq sz sf mp _ h rfl rfl rfl rfl, rfl⟩
    rw [if_neg s4] at e
    by_cases s5 : chd.EffectArg / 16 % 16 = 5
    · rw [if_pos s5] at e
      unfold DoSetFinetune_14_05 at e
      split at e
      · cases e
      · rename_i m1 h1
        split at h1
        · cases h1
        · cases h1; cases e; exact ⟨h, rfl⟩
    rw [if_neg s5] at e
    by_cases s7 : chd.EffectArg / 16 % 16 = 7
    · rw [if_pos s7] at e
      cases e; exact ⟨playInv_of_eq sz sf mp _ h rfl rfl rfl rfl, rfl⟩
    rw [if_neg s7] at e
    by_cases s9 : chd.EffectArg / 16 % 16 = 9
    · rw [if_pos s9] at e
      cases e; exact ⟨inv_NoteRetrig sz sf chd mp ch h, rfl⟩
    rw [if_neg s9] at e
    by_cases s10 : chd.EffectArg / 16 % 16 = 10
    · rw [if_pos s10] at e
      cases e; exact ⟨inv_FineVolumeSlideUp sz sf chd mp ch h, rfl⟩
    rw [if_neg s10] at e
    by_cases s11 : chd.EffectArg / 16 % 16 = 11
    · rw [if_pos s11] at e
      cases e; exact ⟨inv_FineVolumeSlideDown sz sf chd mp ch h, rfl⟩
    rw [if_neg s11] at e
    by_cases s12 : chd.EffectArg / 16 % 16 = 12
    · rw [if_pos s12] at e
      cases e; exact ⟨inv_CutNote sz sf chd mp ch h, rfl⟩
    rw [if_neg s12] at e
    by_cases s13 : chd.EffectArg / 16 % 16 = 13
    · rw [if_pos s13] at e
      exact keep _ e (fun mp1 h1 => inv_DelayNote sz sf chd mp mp1 ch h h1)
    rw [if_neg s13] at e
    cases e; exact ⟨h, rfl⟩
  rw [if_neg c14] at e
  by_cases c15 : chd.Effect = 15
  · rw [if_pos c15] at e
    cases e; exact ⟨inv_SetSpeedBPM sz sf chd mp ha h, rfl⟩
  rw [if_neg c15] at e
  cases e; exact ⟨h, rfl⟩

/-- The slot `PlayTick` reads is one of the module's patterns. -/
theorem currentSlot_arg (m : TModule) (mp : TModPlay) (ch : Fin 4) (chd : TChannelData)
    (hb : slotBytes m) (e : currentSlot m mp ch = .ok chd) : chd.EffectArg < 256 := by
  unfold currentSlot at e
  by_cases h1 : mp.songpos < 0
  · rw [if_pos h1] at e; cases e
  rw [if_neg h1] at e
  by_cases h2 : mp.songpos.toNat < 128
  · rw [dif_pos h2] at e
    split at e
    · cases e
    · rename_i pat hp
      by_cases h3 : mp.patrow < 0
      · rw [if_pos h3] at e; cases e
      rw [if_neg h3] at e
      by_cases h4 : mp.patrow.toNat < 64
      · rw [dif_pos h4] at e
        cases e
        exact hb pat (List.getElem?_mem hp) _ _
      · rw [dif_neg h4] at e; cases e
  · rw [dif_neg h2] at e; cases e

/-- Row setup keeps the slide fields in range. -/
theorem rowSetup_chanOK (sz : Nat) (m : TModule) (mp : TModPlay) (chd : TChannelData)
    (c c2 : TChanPlay) (hc : chanOK c) (e : rowSetup sz m mp chd c = .ok c2) : chanOK c2 := by
  unfold rowSetup at e
  split at e
  · cases e
  · rename_i c1 h1
    have hc1 : chanOK c1 := by
      unfold bindSample at h1
      split_ifs at h1
      · cases h1; exact hc
      · cases h1; exact hc
    unfold triggerNote at e
    split_ifs at e
    · split at e
      · cases e
      · rename_i p hp
        split at e
        · cases e
        · cases e
          exact ⟨hc1.1, ftLookup_lt _ _ _ hp, ftLookup_lt _ _ _ hp⟩
    · cases e; exact hc1

/-- One channel of the channel loop keeps the invariant and the patterns. -/
theorem inv_processChannel (sz sf rnd : Nat) (m m2 : TModule) (mp mp2 : TModPlay) (ch : Fin 4)
    (hb : slotBytes m) (h : playInv sz sf mp)
    (e : processChannel sz rnd m mp ch = .ok (m2, mp2)) :
    playInv sz sf mp2 ∧ m2.pattern = m.pattern := by
  unfold processChannel at e
  split at e
  · cases e
  · rename_i chd hs
    have ha := currentSlot_arg m mp ch chd hb hs
    split_ifs at e
    · split at e
      · cases e
      · rename_i c hc
        exact inv_ProcessEffect sz sf rnd chd m m2 _ mp2 ch ha
          (playInv_setChan sz sf mp ch c h (rowSetup_chanOK sz m mp chd _ c (h.2.2 ch) hc)) e
    · exact inv_ProcessEffect sz sf rnd chd m m2 mp mp2 ch ha h e

/-- The byte condition only reads the patterns. -/
theorem slotBytes_of_eq (m m2 : TModule) (hb : slotBytes m) (e : m2.pattern = m.pattern) :
    slotBytes m2 := by
  unfold slotBytes
  rw [e]
  exact hb

/-- The channel loop keeps the invariant and the patterns. -/
theorem inv_processChannels (sz sf : Nat) (rnd : Fin 4 → Nat) (m m2 : TModule)
    (mp mp2 : TModPlay) (hb : slotBytes m) (h : playInv sz sf mp)
    (e : processChannels sz rnd m mp = .ok (m2, mp2)) :
    playInv sz sf mp2 ∧ m2.pattern = m.pattern := by
  unfold processChannels at e
  split at e
  · cases e
  · rename_i ma mpa ea
    obtain ⟨ia, pa⟩ := inv_processChannel sz sf _ m ma mp mpa 0 hb h ea
    split at e
    · cases e
    · rename_i mb mpb eb
      obtain ⟨ib, pb⟩ := inv_processChannel sz sf _ ma mb mpa mpb 1
        (slotBytes_of_eq m ma hb pa) ia eb
      split at e
      · cases e
      · rename_i mc mpc ec
        obtain ⟨ic, pc⟩ := inv_processChannel sz sf _ mb mc mpb mpc 2
          (slotBytes_of_eq m mb hb (pb.trans pa)) ib ec
        obtain ⟨id, pd⟩ := inv_processChannel sz sf _ mc m2 mpc mp2 3
          (slotBytes_of_eq m mc hb (pc.trans (pb.trans pa))) ic e
        exact ⟨id, pd.trans (pc.trans (pb.trans pa))⟩

/-- A mixing pass of one channel leaves the slide fields alone. -/
theorem mixChannel_chanOK (sz : Nat) (m : TModule) (c c2 : TChanPlay) (x : Int)
    (hc : chanOK c) (e : mixChannel sz m c = .ok (c2, x)) : chanOK c2 := by
  unfold mixChannel at e
  split at e
  · cases e; exact hc
  · split at e
    · cases e; exact hc
    · split at e
      · cases e
      · dsimp only at e
        split_ifs at e <;> (cases e; exact hc)

/-- A mixing pass leaves the slide fields of the four channels alone. -/
theorem mixSample_chanOK (sz : Nat) (m : TModule) (cs cs2 : Fin 4 → TChanPlay) (b : Nat)
    (hc : ∀ ch, chanOK (cs ch)) (e : mixSample sz m cs = .ok (cs2, b)) :
    ∀ ch, chanOK (cs2 ch) := by
  unfold mixSample at e
  split at e
  · cases e
  · rename_i c0 s0 e0
    split at e
    · cases e
    · rename_i c1 s1 e1
      split at e
      · cases e
      · rename_i c2 s2 e2
        split at e
        · cases e
        · rename_i c3 s3 e3
          cases e
          have k0 := mixChannel_chanOK sz m _ _ _ (hc 0) e0
          have k1 := mixChannel_chanOK sz m _ _ _ (hc 1) e1
          have k2 := mixChannel_chanOK sz m _ _ _ (hc 2) e2
          have k3 := mixChannel_chanOK sz m _ _ _ (hc 3) e3
          intro ch
          fin_cases ch <;> simp [Function.update] <;> assumption

/-- The mixing loop leaves the slide fields of the four channels alone. -/
theorem mixLoop_chanOK (sz : Nat) (m : TModule) :
    ∀ (n i : Nat) (cs cs2 : Fin 4 → TChanPlay) (buf : List Nat),
      (∀ ch, chanOK (cs ch)) → mixLoop sz m n i cs = .ok (cs2, buf) → ∀ ch, chanOK (cs2 ch) := by
  intro n
  induction n with
  | zero =>
    intro i cs cs2 buf hc e
    cases e; exact hc
  | succ n ih =>
    intro i cs cs2 buf hc e
    unfold mixLoop at e
    split at e
    · cases e
    · rename_i cs1 b e1
      split_ifs at e
      split at e
      · cases e
      · rename_i cs3 rest e3
        cases e
        exact ih (i + 1) cs1 _ rest (mixSample_chanOK sz m cs cs1 b hc e1) e3

/-- The part of `PlayTick` after the row advance keeps the invariant and the
patterns. -/
theorem inv_tickBody (sz sf : Nat) (rnd : Fin 4 → Nat) (m : TModule) (mp : TModPlay)
    (r : TickResult) (hb : slotBytes m) (h : playInv sz sf mp)
    (e : tickBody sz rnd m mp = .ok r) :
    playInv sz sf r.mplay ∧ r.mod.pattern = m.pattern := by
  unfold tickBody at e
  dsimp only at e
  have h0 : playInv sz sf (if mp.tick = 0 then { mp with newrow := 1 } else mp) := by
    split_ifs
    · exact playInv_of_eq sz sf mp _ h rfl rfl rfl rfl
    · exact h
  split at e
  · cases e
  · rename_i m1 mp1 e1
    obtain ⟨i1, p1⟩ := inv_processChannels sz sf rnd m m1 _ mp1 hb h0 e1
    split at e
    · cases e
    · rename_i cs buf e2
      cases e
      exact ⟨⟨i1.1, i1.2.1, mixLoop_chanOK sz m1 _ _ _ _ _ i1.2.2 e2⟩, p1⟩

/-- The row advance keeps the invariant. -/
theorem inv_advanceRow (sz sf : Nat) (mp : TModPlay) (h : playInv sz sf mp) :
    playInv sz sf (advanceRow mp) := by
  unfold advanceRow
  dsimp only
  split_ifs <;> exact playInv_of_eq sz sf mp _ h rfl rfl rfl rfl

/-- `PlayTick` keeps the invariant and the patterns. -/
theorem inv_PlayTick (sz sf : Nat) (rnd : Fin 4 → Nat) (m : TModule) (mp : TModPlay)
    (r : TickResult) (hb : slotBytes m) (h : playInv sz sf mp)
    (e : PlayTick sz rnd m mp = .ok r) :
    playInv sz sf r.mplay ∧ r.mod.pattern = m.pattern := by
  unfold PlayTick at e
  by_cases hf : mp.finished ≠ 0
  · rw [if_pos hf] at e
    cases e; exact ⟨h, rfl⟩
  rw [if_neg hf] at e
  by_cases ht : mp.tick ≥ mp.ticksperdiv
  · rw [if_pos ht] at e
    by_cases hs : (advanceRow mp).songpos ≥ (m.Songlength : Int)
    · rw [if_pos hs] at e
      cases e
      exact ⟨playInv_of_eq sz sf (advanceRow mp) _ (inv_advanceRow sz sf mp h) rfl rfl rfl rfl,
        rfl⟩
    · rw [if_neg hs] at e
      exact inv_tickBody sz sf rnd m _ r hb (inv_advanceRow sz sf mp h) e
  · rw [if_neg ht] at e
    exact inv_tickBody sz sf rnd m mp r hb h e

/-- A sequence of calls of `PlayTick` keeps the invariant and the patterns. -/
theorem inv_runTicks (sz sf : Nat) :
    ∀ (rnds : List (Fin 4 → Nat)) (m m2 : TModule) (mp mp2 : TModPlay) (bufs : List (List Nat)),
      slotBytes m → playInv sz sf mp → runTicks sz m mp rnds = .ok (m2, mp2, bufs) →
      playInv sz sf mp2 ∧ m2.pattern = m.pattern := by
  intro rnds
  induction rnds with
  | nil =>
    intro m m2 mp mp2 bufs _ h e
    cases e; exact ⟨h, rfl⟩
  | cons rnd rest ih =>
    intro m m2 mp mp2 bufs hb h e
    unfold runTicks at e
    split at e
    · cases e
    · rename_i r e1
      obtain ⟨i1, p1⟩ := inv_PlayTick sz sf rnd m mp r hb h e1
      split at e
      · cases e
      · rename_i m3 mp3 bufs3 e3
        obtain ⟨i3, p3⟩ := ih r.mod m3 r.mplay mp3 bufs3 (slotBytes_of_eq m r.mod hb p1) i1 e3
        cases e
        exact ⟨i3, p3.trans p1⟩

/-- The state `BeginPlayMOD` establishes meets the invariant. -/
theorem inv_beginInit (sz sfreq : Nat) (mp : TModPlay) :
    playInv sz (sfreq % 2 ^ 32) (beginInit sz sfreq mp) := by
  refine ⟨rfl, ⟨show (32 : Int) ≤ 125 by norm_num, show (125 : Int) < 256 by norm_num, rfl⟩,
    fun ch => ⟨le_refl _, ?_, ?_⟩⟩ <;>
    exact (show (0 : Nat) < 65536 by norm_num)

/-- The loop of `NotePeriodToNoteName`: started at index `i` with the entries
before `i` visited without an exact match and `ibest` the first nearest
entry among them, it returns the first nearest entry of the whole row. -/
theorem noteLoop_nearest (p : Nat) :
    ∀ (suf pre : List Nat) (ibest : Nat),
      pre ++ suf = finetune_table.getD 0 [] → 0 < (finetune_table.getD 0 []).length →
      (pre.length = 0 → ibest = 0) → (0 < pre.length → ibest < pre.length) →
      (∀ j, j < pre.length →
        Int.natAbs ((p : Int) - ((finetune_table.getD 0 []).getD ibest 0 : Nat))
            ≤ Int.natAbs ((p : Int) - ((finetune_table.getD 0 []).getD j 0 : Nat)) ∧
        (Int.natAbs ((p : Int) - ((finetune_table.getD 0 []).getD j 0 : Nat))
            = Int.natAbs ((p : Int) - ((finetune_table.getD 0 []).getD ibest 0 : Nat)) →
          ibest ≤ j)) →
      (∀ j, j < pre.length → (finetune_table.getD 0 []).getD j 0 ≠ p) →
      noteLoop p pre.length ibest suf < (finetune_table.getD 0 []).length ∧
      ∀ j, j < (finetune_table.getD 0 []).length →
        Int.natAbs ((p : Int)
            - ((finetune_table.getD 0 []).getD (noteLoop p pre.length ibest suf) 0 : Nat))
          ≤ Int.natAbs ((p : Int) - ((finetune_table.getD 0 []).getD j 0 : Nat)) ∧
        (Int.natAbs ((p : Int) - ((finetune_table.getD 0 []).getD j 0 : Nat))
            = Int.natAbs ((p : Int)
                - ((finetune_table.getD 0 []).getD (noteLoop p pre.length ibest suf) 0 : Nat)) →
          noteLoop p pre.length ibest suf ≤ j) := by
  intro suf
  induction suf with
  | nil =>
    intro pre ibest hsplit hpos h1 h2 h3 _
    have hlen : pre.length = (finetune_table.getD 0 []).length := by
      rw [← hsplit, List.append_nil]
    simp only [noteLoop]
    rw [← hlen]
    exact ⟨h2 (by omega), h3⟩
  | cons t ts ih =>
    intro pre ibest hsplit hpos h1 h2 h3 h4
    have hlen : (finetune_table.getD 0 []).length = pre.length + (ts.length + 1) := by
      rw [← hsplit, List.length_append, List.length_cons]
    have ht : (finetune_table.getD 0 []).getD pre.length 0 = t := by
      rw [← hsplit, List.getD_eq_getElem?_getD, List.getElem?_append_right (le_refl _)]
      simp
    simp only [noteLoop]
    by_cases hpt : p = t
    · rw [if_pos hpt]
      refine ⟨by omega, fun j hj => ?_⟩
      rw [ht, hpt]
      simp only [sub_self, Int.natAbs_zero, Nat.zero_le, true_and]
      intro hz
      by_contra hlt
      have hjl : j < pre.length := by omega
      apply h4 j hjl
      have : ((t : Int) - ((finetune_table.getD 0 []).getD j 0 : Nat)) = 0 :=
        Int.natAbs_eq_zero.mp hz
      rw [hpt]
      omega
    · rw [if_neg hpt]
      have key := ih (pre ++ [t])
        (if Int.natAbs ((p : Int) - (t : Int))
              < Int.natAbs ((p : Int) - ((finetune_table.getD 0 []).getD ibest 0 : Nat))
         then pre.length else ibest)
        (by rw [List.append_assoc]; exact hsplit) hpos
        (by intro h; simp at h)
        (by
          intro _
          rw [List.length_append, List.length_singleton]
          split_ifs
          · omega
          · rcases Nat.eq_zero_or_pos pre.length with h0 | h0
            · rw [h1 h0]; omega
            · have := h2 h0; omega)
        (by
          intro j hj
          rw [List.length_append, List.length_singleton] at hj
          split_ifs with hc
          · rw [ht]
            rcases Nat.lt_or_ge j pre.length with hjl | hjl
            · obtain ⟨a, _⟩ := h3 j hjl
              exact ⟨by omega, fun e => by omega⟩
            · have : j = pre.length := by omega
              subst this
              rw [ht]
              exact ⟨le_refl _, fun _ => le_refl _⟩
          · rcases Nat.lt_or_ge j pre.length with hjl | hjl
            · exact h3 j hjl
            · have : j = pre.length := by omega
              subst this
              rw [ht]
              refine ⟨by omega, fun _ => ?_⟩
              rcases Nat.eq_zero_or_pos pre.length with h0 | h0
              · rw [h1 h0]; omega
              · have := h2 h0; omega)
        (by
          intro j hj
          rw [List.length_append, List.length_singleton] at hj
          rcases Nat.lt_or_ge j pre.length with hjl | hjl
          · exact h4 j hjl
          · have : j = pre.length := by omega
            subst this
            rw [ht]
            exact fun e => hpt e.symm)
      rw [List.length_append, List.length_singleton] at key
      exact key

/-- The header loop: after the passes `i .. i+n-1` the samples of those indices
hold the headers at `20 + 30 * j` and `imod` has advanced by `30 * n`. -/
theorem headerLoop_spec (f : TFile) :
    ∀ (n i : Nat) (s : Fin 31 → TSample), i + n ≤ 31 →
      forLoop (headerBody f) n i (s, 20 + 30 * i) =
        .ok ((fun j => if i ≤ j.val ∧ j.val < i + n then loadSampleHeader f (20 + 30 * j.val)
                       else s j),
             20 + 30 * (i + n)) := by
  intro n
  induction n with
  | zero =>
    intro i s _
    simp only [forLoop]
    congr 2
    funext j
    rw [if_neg (by omega)]
  | succ n ih =>
    intro i s hb
    have hi : i < 31 := by omega
    simp only [forLoop, headerBody, dif_pos hi]
    have e : 20 + 30 * i + 30 = 20 + 30 * (i + 1) := by ring
    rw [e, ih (i + 1) _ (by omega)]
    congr 2
    · funext j
      by_cases h1 : i + 1 ≤ j.val ∧ j.val < i + 1 + n
      · rw [if_pos h1, if_pos (by omega)]
      · rw [if_neg h1]
        by_cases h2 : j = ⟨i, hi⟩
        · subst h2
          rw [Function.update_same, if_pos (by dsimp only; omega)]
        · rw [Function.update_noteq h2]
          have : j.val ≠ i := fun h => h2 (Fin.ext h)
          rw [if_neg (by omega)]
    · ring

/-- One pass of a `for` loop. -/
theorem forLoop_succ {σ : Type} (body : Nat → σ → Except Fault σ) (n i : Nat) (s : σ) :
    forLoop body (n + 1) i s =
      match body i s with
      | .error e => .error e
      | .ok s1 => forLoop body n (i + 1) s1 := rfl

/-- The slot loop: from `imod = base + 4 * i` (inside the file) the passes
`i .. i+n-1` read the slots at `base + 4 * ch` when the last of them ends
inside the file, and fault otherwise. -/
theorem slotLoop_spec (f : TFile) (base : Nat) :
    ∀ (n i : Nat) (row : Fin 4 → TChannelData), i + n ≤ 4 → base + 4 * i ≤ f.lfich →
      forLoop (slotBody f) n i (row, base + 4 * i) =
        if base + 4 * (i + n) ≤ f.lfich then
          .ok ((fun ch => if i ≤ ch.val ∧ ch.val < i + n then loadSlot f (base + 4 * ch.val)
                          else row ch),
               base + 4 * (i + n))
        else .error .outOfBounds := by
  intro n
  induction n with
  | zero =>
    intro i row _ hle
    simp only [forLoop]
    rw [if_pos (by omega)]
    congr 2
    funext ch
    rw [if_neg (by omega)]
  | succ n ih =>
    intro i row hb hle
    have hi : i < 4 := by omega
    rw [forLoop_succ]
    simp only [slotBody]
    by_cases h1 : base + 4 * i + 3 < f.lfich
    · rw [if_pos h1, dif_pos hi]
      dsimp only
      have e : base + 4 * i + 4 = base + 4 * (i + 1) := by ring
      rw [e, ih (i + 1) _ (by omega) (by omega)]
      have e2 : i + 1 + n = i + (n + 1) := by ring
      rw [e2]
      by_cases h2 : base + 4 * (i + (n + 1)) ≤ f.lfich
      · rw [if_pos h2, if_pos h2]
        congr 2
        funext ch
        by_cases h3 : i + 1 ≤ ch.val ∧ ch.val < i + (n + 1)
        · rw [if_pos h3, if_pos (by omega)]
        · rw [if_neg h3]
          by_cases h4 : ch = ⟨i, hi⟩
          · subst h4
            rw [Function.update_same, if_pos (by dsimp only; omega)]
          · rw [Function.update_noteq h4]
            have : ch.val ≠ i := fun h => h4 (Fin.ext h)
            rw [if_neg (by omega)]
      · rw [if_neg h2, if_neg h2]
    · rw [if_neg h1, if_neg (by omega)]

/-- The row loop: from `imod = base + 16 * i` (inside the file) the passes
`i .. i+n-1` read the rows at `base + 16 * patrow` when the last of them
ends inside the file, and fault otherwise. -/
theorem rowLoop_spec (f : TFile) (base : Nat) :
    ∀ (n i : Nat) (pat : Fin 64 → TRow), i + n ≤ 64 → base + 16 * i ≤ f.lfich →
      forLoop (rowBody f) n i (pat, base + 16 * i) =
        if base + 16 * (i + n) ≤ f.lfich then
          .ok ((fun r => if i ≤ r.val ∧ r.val < i + n then
                           { chan := fun ch => loadSlot f (base + 16 * r.val + 4 * ch.val) }
                         else pat r),
               base + 16 * (i + n))
        else .error .outOfBounds := by
  intro n
  induction n with
  | zero =>
    intro i pat _ hle
    simp only [forLoop]
    rw [if_pos (by omega)]
    congr 2
    funext r
    rw [if_neg (by omega)]
  | succ n ih =>
    intro i pat hb hle
    have hi : i < 64 := by omega
    have hslots := slotLoop_spec f (base + 16 * i) 4 0 (pat ⟨i, hi⟩).chan (by omega) (by omega)
    simp only [Nat.mul_zero, Nat.add_zero, Nat.zero_add] at hslots
    rw [forLoop_succ]
    simp only [rowBody, dif_pos hi, hslots]
    by_cases h1 : base + 16 * i + 4 * 4 ≤ f.lfich
    · rw [if_pos h1]
      dsimp only
      have e : base + 16 * i + 4 * 4 = base + 16 * (i + 1) := by ring
      rw [e, ih (i + 1) _ (by omega) (by omega)]
      have e2 : i + 1 + n = i + (n + 1) := by ring
      rw [e2]
      by_cases h2 : base + 16 * (i + (n + 1)) ≤ f.lfich
      · rw [if_pos h2, if_pos h2]
        congr 2
        funext r
        by_cases h3 : i + 1 ≤ r.val ∧ r.val < i + (n + 1)
        · rw [if_pos h3, if_pos (by omega)]
        · rw [if_neg h3]
          by_cases h4 : r = ⟨i, hi⟩
          · subst h4
            rw [Function.update_same, if_pos (by dsimp only; omega)]
            congr 1
            funext ch
            rw [if_pos (by omega)]
          · rw [Function.update_noteq h4]
            have : r.val ≠ i := fun h => h4 (Fin.ext h)
            rw [if_neg (by omega)]
      · rw [if_neg h2, if_neg h2]
    · rw [if_neg h1, if_neg (by omega)]

/-- The pattern loop: from `imod = base + 1024 * i` (inside the file) the passes
`i .. i+n-1` append the patterns at `base + 1024 * k` when the last of them
ends inside the file, and fault otherwise. -/
theorem patternLoop_spec (f : TFile) (base : Nat) :
    ∀ (n i : Nat) (pats : List TPattern), base + 1024 * i ≤ f.lfich →
      forLoop (patternBody f) n i (pats, base + 1024 * i) =
        if base + 1024 * (i + n) ≤ f.lfich then
          .ok (pats ++ (List.range' i n).map (fun k =>
                 { row := fun r =>
                     { chan := fun ch =>
                         loadSlot f (base + 1024 * k + 16 * r.val + 4 * ch.val) } }),
               base + 1024 * (i + n))
        else .error .outOfBounds := by
  intro n
  induction n with
  | zero =>
    intro i pats hle
    simp only [forLoop]
    rw [if_pos (by omega)]
    simp
  | succ n ih =>
    intro i pats hle
    have hrows := rowLoop_spec f (base + 1024 * i) 64 0 blankPattern.row (by omega) (by omega)
    simp only [Nat.mul_zero, Nat.add_zero, Nat.zero_add] at hrows
    rw [forLoop_succ]
    simp only [patternBody, hrows]
    by_cases h1 : base + 1024 * i + 16 * 64 ≤ f.lfich
    · rw [if_pos h1]
      dsimp only
      have e : base + 1024 * i + 16 * 64 = base + 1024 * (i + 1) := by ring
      rw [e, ih (i + 1) _ (by omega)]
      have e2 : i + 1 + n = i + (n + 1) := by ring
      rw [e2]
      by_cases h2 : base + 1024 * (i + (n + 1)) ≤ f.lfich
      · rw [if_pos h2, if_pos h2]
        congr 2
        rw [List.append_assoc]
        congr 1
        rw [List.range'_succ, List.map_cons, List.singleton_append]
        congr 2
        funext r
        rw [if_pos ⟨Nat.zero_le _, r.isLt⟩]
      · rw [if_neg h2, if_neg h2]
    · rw [if_neg h1, if_neg (by omega)]

/-- Sum of the first `k + 1` values of a sequence. -/
theorem sum_range_succ_map (L : Nat → Nat) (k : Nat) :
    ((List.range (k + 1)).map L).sum = ((List.range k).map L).sum + L k := by
  simp [List.range_succ]

/-- Partial sums of a sequence of naturals grow. -/
theorem sum_range_mono (L : Nat → Nat) (a : Nat) :
    ∀ n, ((List.range a).map L).sum ≤ ((List.range (a + n)).map L).sum := by
  intro n
  induction n with
  | zero => exact le_refl _
  | succ n ih =>
    have e : a + (n + 1) = (a + n) + 1 := by ring
    rw [e, sum_range_succ_map]
    omega

/-- Partial sums stop growing where the sequence is zero. -/
theorem sum_range_zero_tail (L : Nat → Nat) (a : Nat) (hz : ∀ j, a ≤ j → L j = 0) :
    ∀ n, ((List.range (a + n)).map L).sum = ((List.range a).map L).sum := by
  intro n
  induction n with
  | zero => rfl
  | succ n ih =>
    have e : a + (n + 1) = (a + n) + 1 := by ring
    rw [e, sum_range_succ_map, ih, hz (a + n) (by omega), Nat.add_zero]

/-- The sample-data loop: with `L` the lengths of the samples and
`imod = base + L 0 + .. + L (i-1)` (inside the file), the passes `i .. i+n-1`
copy the data of every sample with a length above 0 from its own start
when the last block ends inside the file, and fault otherwise. -/
theorem dataLoop_spec (f : TFile) (L : Nat → Nat) (base : Nat) :
    ∀ (n i : Nat) (s : Fin 31 → TSample), i + n ≤ 31 →
      (∀ j : Fin 31, (s j).Samplelength = L j.val) →
      base + ((List.range i).map L).sum ≤ f.lfich →
      forLoop (dataBody f) n i (s, base + ((List.range i).map L).sum) =
        if base + ((List.range (i + n)).map L).sum ≤ f.lfich then
          .ok ((fun j =>
                  if i ≤ j.val ∧ j.val < i + n ∧ 0 < L j.val then
                    { s j with
                      Sampledata := some ((List.range (L j.val)).map fun k =>
                        if k < 2 then 0
                        else f.byteAt (base + ((List.range j.val).map L).sum + k)) }
                  else s j),
               base + ((List.range (i + n)).map L).sum)
        else .error .outOfBounds := by
  intro n
  induction n with
  | zero =>
    intro i s _ _ hle
    simp only [forLoop]
    rw [if_pos (by simpa using hle)]
    congr 2
    funext j
    rw [if_neg (by omega)]
  | succ n ih =>
    intro i s hb hL hle
    have hi : i < 31 := by omega
    have hLi : (s ⟨i, hi⟩).Samplelength = L i := hL ⟨i, hi⟩
    have e2 : i + 1 + n = i + (n + 1) := by ring
    have hmono := sum_range_mono L (i + 1) n
    rw [e2] at hmono
    have hs1 := sum_range_succ_map L i
    rw [forLoop_succ]
    simp only [dataBody, dif_pos hi, hLi]
    by_cases h0 : L i > 0
    · rw [if_pos h0]
      by_cases h1 : base + ((List.range i).map L).sum + L i ≤ f.lfich
      · rw [if_pos h1]
        dsimp only
        have e : base + ((List.range i).map L).sum + L i
            = base + ((List.range (i + 1)).map L).sum := by omega
        rw [e, ih (i + 1) _ (by omega)
          (by
            intro j
            by_cases hj : j = ⟨i, hi⟩
            · subst hj; rw [Function.update_same]
            · rw [Function.update_noteq hj]; exact hL j)
          (by omega)]
        rw [e2]
        by_cases h2 : base + ((List.range (i + (n + 1))).map L).sum ≤ f.lfich
        · rw [if_pos h2, if_pos h2]
          congr 2
          funext j
          by_cases hj : j = ⟨i, hi⟩
          · subst hj
            have hc1 : ¬ (i + 1 ≤ i ∧ i < i + (n + 1) ∧ 0 < L i) := by omega
            have hc2 : i ≤ i ∧ i < i + (n + 1) ∧ 0 < L i := by omega
            rw [if_neg hc1, if_pos hc2, Function.update_same, hLi]
          · have hne : j.val ≠ i := fun h => hj (Fin.ext h)
            rw [Function.update_noteq hj]
            by_cases h3 : i + 1 ≤ j.val ∧ j.val < i + (n + 1) ∧ 0 < L j.val
            · rw [if_pos h3, if_pos (by omega)]
            · rw [if_neg h3, if_neg (by omega)]
        · rw [if_neg h2, if_neg h2]
      · rw [if_neg h1, if_neg (by omega)]
    · rw [if_neg h0]
      have hz : L i = 0 := by omega
      have e : base + ((List.range i).map L).sum
          = base + ((List.range (i + 1)).map L).sum := by omega
      dsimp only
      rw [e, ih (i + 1) s (by omega) hL (by omega), e2]
      by_cases h2 : base + ((List.range (i + (n + 1))).map L).sum ≤ f.lfich
      · rw [if_pos h2, if_pos h2]
        congr 2
        funext j
        by_cases hj : j.val = i
        · rw [if_neg (by omega), if_neg (by rw [hj]; omega)]
        · by_cases h3 : i + 1 ≤ j.val ∧ j.val < i + (n + 1) ∧ 0 < L j.val
          · rw [if_pos h3, if_pos (by omega)]
          · rw [if_neg h3, if_neg (by omega)]
      · rw [if_neg h2, if_neg h2]

/-- The number of sample headers is 15 or 31. -/
theorem numSamples_le (f : TFile) : numSamples f ≤ 31 ∧ 15 ≤ numSamples f := by
  unfold numSamples
  split_ifs <;> omega

/-- The pattern data starts inside the first 1084 bytes. -/
theorem patternStart_le (f : TFile) : patternStart f ≤ 1084 := by
  unfold patternStart songInfoStart numSamples
  split_ifs <;> omega

/-- The statement-by-statement `LoadMOD_loops` and the closed form `LoadMOD`
are the same function: the loops reach every header, slot and data block at
the offset the closed form names, and one of them reads outside the file
exactly when the closed form returns the fault. -/
theorem LoadMOD_loops_eq (f : TFile) : LoadMOD_loops f = LoadMOD f := by
  unfold LoadMOD_loops LoadMOD
  by_cases h0 : f.lfich < 1084
  · rw [if_pos h0, if_pos h0]
  rw [if_neg h0, if_neg h0]
  obtain ⟨hns, _⟩ := numSamples_le f
  have hps := patternStart_le f
  have hh := headerLoop_spec f (numSamples f) 0 (fun _ => zeroSample) (by omega)
  simp only [Nat.mul_zero, Nat.add_zero, Nat.zero_add] at hh
  rw [hh]
  dsimp only
  have hsample : (fun j : Fin 31 =>
      if 0 ≤ j.val ∧ j.val < numSamples f then loadSampleHeader f (20 + 30 * j.val)
      else zeroSample) = fun j => headerOf f j.val := by
    funext j
    unfold headerOf
    by_cases hj : j.val < numSamples f
    · rw [if_pos ⟨Nat.zero_le _, hj⟩, if_pos hj]
    · rw [if_neg (by omega), if_neg hj]
  rw [hsample]
  have hnp : numPatternsAt f (20 + 30 * numSamples f + 2) = numPatterns f := rfl
  have hstart : 20 + 30 * numSamples f + 2 + 128 + (if numSamples f = 31 then 4 else 0)
      = patternStart f := rfl
  rw [hnp, hstart]
  have hp := patternLoop_spec f (patternStart f) (numPatterns f) 0 [] (by omega)
  simp only [Nat.mul_zero, Nat.add_zero, Nat.zero_add, List.nil_append] at hp
  rw [hp]
  by_cases h1 : patternStart f + 1024 * numPatterns f ≤ f.lfich
  · rw [if_pos h1, if_neg (by omega)]
    dsimp only
    have hz : ∀ j, numSamples f ≤ j → (headerOf f j).Samplelength = 0 := by
      intro j hj
      unfold headerOf
      rw [if_neg (by omega)]
      rfl
    have hd := dataLoop_spec f (fun j => (headerOf f j).Samplelength)
      (patternStart f + 1024 * numPatterns f) (numSamples f) 0 (fun j => headerOf f j.val)
      (by omega) (fun _ => rfl) (by simpa using h1)
    simp only [Nat.zero_add, List.range_zero, List.map_nil, List.sum_nil, Nat.add_zero] at hd
    rw [hd]
    have htail := sum_range_zero_tail (fun j => (headerOf f j).Samplelength) (numSamples f) hz
      (31 - numSamples f)
    have e31 : numSamples f + (31 - numSamples f) = 31 := by omega
    rw [e31] at htail
    have hsd : sampleDataStart f 31 = patternStart f + 1024 * numPatterns f
        + ((List.range (numSamples f)).map (fun j => (headerOf f j).Samplelength)).sum := by
      unfold sampleDataStart
      rw [htail]
    by_cases h2 : patternStart f + 1024 * numPatterns f
        + ((List.range (numSamples f)).map (fun j => (headerOf f j).Samplelength)).sum ≤ f.lfich
    · rw [if_pos h2, if_neg (by omega)]
      dsimp only
      have hA : (fun j : Fin 31 =>
          if 0 ≤ j.val ∧ j.val < numSamples f ∧ 0 < (headerOf f j.val).Samplelength then
            { headerOf f j.val with
              Sampledata := some ((List.range (headerOf f j.val).Samplelength).map fun k =>
                if k < 2 then 0
                else f.byteAt (patternStart f + 1024 * numPatterns f
                  + ((List.range j.val).map (fun j => (headerOf f j).Samplelength)).sum + k)) }
          else headerOf f j.val)
          = fun i : Fin 31 =>
            if (headerOf f i.val).Samplelength > 0 then
              { headerOf f i.val with
                Sampledata := some ((List.range (headerOf f i.val).Samplelength).map fun k =>
                  if k < 2 then 0 else f.byteAt (sampleDataStart f i.val + k)) }
            else headerOf f i.val := by
        funext j
        by_cases hj : 0 < (headerOf f j.val).Samplelength
        · have hjn : j.val < numSamples f := by
            by_contra hc
            rw [hz j.val (by omega)] at hj
            omega
          rw [if_pos ⟨Nat.zero_le _, hjn, hj⟩, if_pos hj]
          rfl
        · rw [if_neg (by omega), if_neg (by omega)]
      have hB : (List.range' 0 (numPatterns f)).map (fun k =>
          ({ row := fun r =>
              { chan := fun ch =>
                  loadSlot f (patternStart f + 1024 * k + 16 * r.val + 4 * ch.val) } } : TPattern))
          = (List.range (numPatterns f)).map (loadPattern f) := by
        rw [List.range_eq_range']
        rfl
      rw [hA, hB]
      rfl
    · rw [if_neg h2, if_pos (by omega)]
  · rw [if_neg h1, if_pos (by omega)]

/-- A module returned by `LoadMOD_loops`: the file holds the header, the
patterns and the sample data, and the fields are the closed forms of
`LoadMOD`. -/
theorem LoadMOD_loops_fields (f : TFile) (m : TModule) (h : LoadMOD_loops f = .ok m) :
    1084 ≤ f.lfich ∧ patternStart f + 1024 * numPatterns f ≤ f.lfich ∧
    sampleDataStart f 31 ≤ f.lfich ∧
    m.Songname = Sanitize ((List.range 20).map (fun k => f.byteAt k) ++ [0]) 20 ∧
    (∀ i : Fin 31, m.sample i =
      if (headerOf f i.val).Samplelength > 0 then
        { headerOf f i.val with
          Sampledata := some ((List.range (headerOf f i.val).Samplelength).map fun k =>
            if k < 2 then 0 else f.byteAt (sampleDataStart f i.val + k)) }
      else headerOf f i.val) ∧
    (∀ k : Fin 128, m.Songpositions k = f.byteAt (songInfoStart f + 2 + k.val)) ∧
    m.Songlength = f.byteAt (songInfoStart f) ∧
    m.pattern = (List.range (numPatterns f)).map (loadPattern f) ∧
    m.Numpatterns = numPatterns f := by
  rw [LoadMOD_loops_eq] at h
  unfold LoadMOD at h
  by_cases h1 : f.lfich < 1084
  · rw [if_pos h1] at h; cases h
  rw [if_neg h1] at h
  by_cases h2 : f.lfich < patternStart f + 1024 * numPatterns f
  · rw [if_pos h2] at h; cases h
  rw [if_neg h2] at h
  by_cases h3 : f.lfich < sampleDataStart f 31
  · rw [if_pos h3] at h; cases h
  rw [if_neg h3] at h
  cases h
  exact ⟨by omega, by omega, by omega, rfl, fun _ => rfl, fun _ => rfl, rfl, rfl, rfl⟩

/-- The masks and shifts of the slot decoding, on bytes. -/
theorem byte_masks : ∀ a : Fin 256,
    (a.val &&& 0xF0) = a.val / 16 % 16 * 16 ∧ (a.val &&& 0x0F) = a.val % 16 ∧
    a.val >>> 4 = a.val / 16 % 16 := by
  decide!

/-- Joining a high nibble and a low nibble with `|`. -/
theorem nibble_or : ∀ x y : Fin 16, (x.val * 16) ||| y.val = x.val * 16 + y.val := by
  decide!

/-- Joining a nibble shifted by 8 and a byte with `|`. -/
theorem nibble_byte_or : ∀ (x : Fin 16) (y : Fin 256),
    (x.val <<< 8) ||| y.val = x.val * 256 + y.val := by
  decide!

/-- The marks `M.K.` and `FLT4` give 31 sample headers and patterns from
offset 1084. -/
theorem magic_layout (f : TFile)
    (hm : (f.byteAt 1080 = 77 ∧ f.byteAt 1081 = 46 ∧ f.byteAt 1082 = 75 ∧ f.byteAt 1083 = 46)
      ∨ (f.byteAt 1080 = 70 ∧ f.byteAt 1081 = 76 ∧ f.byteAt 1082 = 84 ∧ f.byteAt 1083 = 52)) :
    numSamples f = 31 ∧ songInfoStart f = 950 ∧ patternStart f = 1084 := by
  have hn : numSamples f = 31 := by
    unfold numSamples
    rw [if_pos hm]
  refine ⟨hn, ?_, ?_⟩
  · unfold songInfoStart; rw [hn]
  · unfold patternStart songInfoStart; rw [hn]; rfl

/-- The four fields `loadSlot` decodes from the bytes at `imod`. -/
theorem loadSlot_fields (f : TFile) (imod : Nat) :
    (loadSlot f imod).Samplenumber
      = f.byteAt imod / 16 % 16 * 16 + f.byteAt (imod + 2) / 16 % 16 ∧
    (loadSlot f imod).Noteperiod = f.byteAt imod % 16 * 256 + f.byteAt (imod + 1) ∧
    (loadSlot f imod).Effect = f.byteAt (imod + 2) % 16 ∧
    (loadSlot f imod).EffectArg = f.byteAt (imod + 3) := by
  unfold loadSlot NotePeriodToNoteName
  dsimp only
  split_ifs <;> exact ⟨rfl, rfl, rfl, rfl⟩

/-- `LoadMOD_loops` returns a module whenever the file holds the header, the
patterns and the sample data. -/
theorem LoadMOD_loops_complete (f : TFile) (h1 : 1084 ≤ f.lfich)
    (h2 : patternStart f + 1024 * numPatterns f ≤ f.lfich)
    (h3 : sampleDataStart f 31 ≤ f.lfich) : ∃ m, LoadMOD_loops f = .ok m := by
  rw [LoadMOD_loops_eq]
  unfold LoadMOD
  rw [if_neg (by omega), if_neg (by omega), if_neg (by omega)]
  exact ⟨_, rfl⟩

/-- The loop that finds the largest entry: the result bounds the start value
and every element, and is one of them. -/
theorem foldl_max_spec (l : List Nat) :
    ∀ init : Nat,
      init ≤ l.foldl (fun best x => if x > best then x else best) init ∧
      (∀ x ∈ l, x ≤ l.foldl (fun best x => if x > best then x else best) init) ∧
      (l.foldl (fun best x => if x > best then x else best) init = init ∨
        l.foldl (fun best x => if x > best then x else best) init ∈ l) := by
  induction l with
  | nil => intro init; simp
  | cons a t ih =>
    intro init
    rw [List.foldl_cons]
    obtain ⟨h1, h2, h3⟩ := ih (if a > init then a else init)
    have hge : init ≤ (if a > init then a else init) ∧ a ≤ (if a > init then a else init) := by
      split_ifs <;> omega
    refine ⟨by omega, ?_, ?_⟩
    · intro x hx
      rcases List.mem_cons.mp hx with rfl | hx
      · omega
      · exact h2 x hx
    · rcases h3 with h3 | h3
      · rw [h3]
        by_cases hc : a > init
        · rw [if_pos hc]; exact Or.inr (List.mem_cons_self _ _)
        · rw [if_neg hc]; exact Or.inl rfl
      · exact Or.inr (List.mem_cons_of_mem _ h3)

/-- The value `numPatterns` in terms of the 128 song positions: one more than
the largest of them, in a `uint8_t`. -/
theorem numPatterns_max (f : TFile) :
    ∃ M, (∀ k : Fin 128, f.byteAt (songInfoStart f + 2 + k.val) ≤ M) ∧
      (∃ k : Fin 128, f.byteAt (songInfoStart f + 2 + k.val) = M) ∧ M ≤ 255 ∧
      numPatterns f = (M + 1) % 256 := by
  obtain ⟨h1, h2, h3⟩ := foldl_max_spec
    ((List.range 127).map (fun k => f.byteAt (songInfoStart f + 2 + (k + 1))))
    (f.byteAt (songInfoStart f + 2))
  refine ⟨_, ?_, ?_, ?_, rfl⟩
  · intro k
    rcases Nat.eq_zero_or_pos k.val with h0 | h0
    · rw [h0]; exact h1
    · apply h2
      rw [List.mem_map]
      refine ⟨k.val - 1, List.mem_range.mpr (by have := k.isLt; omega), ?_⟩
      congr 2
      omega
  · rcases h3 with h3 | h3
    · exact ⟨0, h3.symm⟩
    · rw [List.mem_map] at h3
      obtain ⟨j, hj, he⟩ := h3
      exact ⟨⟨j + 1, by have := List.mem_range.mp hj; omega⟩, he⟩
  · rcases h3 with h3 | h3
    · rw [h3]
      have := (f.buffer (songInfoStart f + 2)).isLt
      unfold TFile.byteAt
      omega
    · rw [List.mem_map] at h3
      obtain ⟨j, hj, he⟩ := h3
      rw [← he]
      have := (f.buffer (songInfoStart f + 2 + (j + 1))).isLt
      unfold TFile.byteAt
      omega

/-- On a file shorter than its header, its patterns or its sample data need,
one of the reads of `LoadMOD_loops` is outside the file. -/
theorem LoadMOD_loops_truncated (f : TFile)
    (h : f.lfich < 1084 ∨ f.lfich < patternStart f + 1024 * numPatterns f
      ∨ f.lfich < sampleDataStart f 31) :
    LoadMOD_loops f = .error .outOfBounds := by
  rw [LoadMOD_loops_eq]
  unfold LoadMOD
  by_cases h1 : f.lfich < 1084
  · rw [if_pos h1]
  rw [if_neg h1]
  by_cases h2 : f.lfich < patternStart f + 1024 * numPatterns f
  · rw [if_pos h2]
  rw [if_neg h2]
  by_cases h3 : f.lfich < sampleDataStart f 31
  · rw [if_pos h3]
  exact absurd h (by omega)

/-- A mixing pass on a channel that has wrapped on a sample without a loop
(repeat point 0, repeat length at most 2, first two data bytes 0): the pass
fetches index 0 or 1, adds 0 to the mix and leaves the channel in the same
condition. -/
theorem silent_step (sz : Nat) (m : TModule) (k : Fin 31) (data : List Nat) (c : TChanPlay)
    (hd : (m.sample k).Sampledata = some data) (h0 : data[0]? = some 0)
    (h1 : data[1]? = some 0) (hrp : (m.sample k).Repeatpoint = 0)
    (hrl : (m.sample k).Repeatlength ≤ 2) (hsz : 2 ≤ sz)
    (hs : c.sample = some k) (hp : c.position ≤ 1) (he : c.end_ = (m.sample k).Repeatlength) :
    ∃ c1, mixChannel sz m c = .ok (c1, 0) ∧ c1.sample = some k ∧ c1.position ≤ 1 ∧
      c1.end_ = (m.sample k).Repeatlength ∧ c1.fase = c.fase ∧ c1.volume = c.volume := by
  have hget : data[c.position]? = some 0 := by
    rcases Nat.eq_zero_or_pos c.position with hz | hz
    · rw [hz]; exact h0
    · have : c.position = 1 := by omega
      rw [this]; exact h1
  have hpow : (4 : Nat) ≤ 2 ^ sz := by
    calc (4 : Nat) = 2 ^ 2 := by norm_num
      _ ≤ 2 ^ sz := Nat.pow_le_pow_right (by norm_num) hsz
  have hm : toInt8 0 * c.volume = 0 := by
    simp [toInt8]
  simp only [mixChannel, hs, hd, hget, hm]
  by_cases hw : (c.faseacum + c.fase) % 2 ^ sz / 32768 ≥ c.end_
  · rw [if_pos hw]
    refine ⟨_, rfl, rfl, ?_, ?_, rfl, rfl⟩
    · dsimp only; omega
    · dsimp only
      rw [hrp, Nat.zero_add]
      exact Nat.mod_eq_of_lt (by omega)
  · rw [if_neg hw]
    refine ⟨_, rfl, rfl, ?_, he, rfl, rfl⟩
    dsimp only
    omega

/-- A run of mixing passes on a channel that has wrapped on a sample without
a loop stays in that condition. -/
theorem silent_run (sz : Nat) (m : TModule) (k : Fin 31) (data : List Nat)
    (hd : (m.sample k).Sampledata = some data) (h0 : data[0]? = some 0)
    (h1 : data[1]? = some 0) (hrp : (m.sample k).Repeatpoint = 0)
    (hrl : (m.sample k).Repeatlength ≤ 2) (hsz : 2 ≤ sz) :
    ∀ (n : Nat) (c : TChanPlay), c.sample = some k → c.position ≤ 1 →
      c.end_ = (m.sample k).Repeatlength →
      ∃ c2, mixChannelSteps sz m n c = .ok c2 ∧ c2.sample = some k ∧ c2.position ≤ 1 ∧
        c2.end_ = (m.sample k).Repeatlength ∧ c2.fase = c.fase ∧ c2.volume = c.volume := by
  intro n
  induction n with
  | zero => intro c hs hp he; exact ⟨c, rfl, hs, hp, he, rfl, rfl⟩
  | succ n ih =>
    intro c hs hp he
    obtain ⟨c1, e1, s1, p1, e1e, f1, v1⟩ :=
      silent_step sz m k data c hd h0 h1 hrp hrl hsz hs hp he
    obtain ⟨c2, e2, s2, p2, e2e, f2, v2⟩ := ih c1 s1 p1 e1e
    refine ⟨c2, ?_, s2, p2, e2e, f2.trans f1, v2.trans v1⟩
    simp only [mixChannelSteps, e1]
    exact e2

/-- Every entry of `waveforms` is in `-255 .. 255`. -/
theorem waveLookup_range (t : Int) (pos : Nat) (w : Int) (h : waveLookup t pos = .ok w) :
    -255 ≤ w ∧ w ≤ 255 := by
  have hall : ∀ r ∈ waveforms, ∀ v ∈ r, -255 ≤ v ∧ v ≤ 255 := by decide
  unfold waveLookup at h
  split_ifs at h
  split at h
  · cases h
  · rename_i r hr
    split at h
    · cases h
    · rename_i v hv
      cases h
      exact hall r (List.getElem?_mem hr) w (List.getElem?_mem hv)

/-- Truncating division by 64 of a product of a wave entry and an `int8_t`. -/
theorem tdiv64_range (x : Int) (h1 : -32640 ≤ x) (h2 : x ≤ 32640) :
    -510 ≤ Int.tdiv x 64 ∧ Int.tdiv x 64 ≤ 510 := by
  rcases le_or_lt 0 x with h | h
  · rw [Int.tdiv_eq_ediv h (by norm_num)]; omega
  · have : Int.tdiv x 64 = -((-x) / 64) := by
      rw [← Int.tdiv_eq_ediv (by omega) (by norm_num), Int.neg_tdiv, neg_neg]
    rw [this]; omega

/-- A value in the `int16_t` range is stored unchanged. -/
theorem i16_of_range (x : Int) (h1 : -32768 ≤ x) (h2 : x ≤ 32767) : i16 x = x := by
  unfold i16
  omega

/-- A stored `int16_t` is in its range. -/
theorem i16_range (x : Int) : -32768 ≤ i16 x ∧ i16 x ≤ 32767 := by
  unfold i16
  omega

/-- Storing a channel whose position tracks its accumulator keeps that
property on all channels. -/
theorem sync_setChan (mp : TModPlay) (ch : Fin 4) (c : TChanPlay)
    (h : ∀ c2, chanSync (mp.chan c2)) (hc : chanSync c) :
    ∀ c2, chanSync ((mp.setChan ch c).chan c2) := by
  intro c2
  by_cases e : c2 = ch
  · subst e; rw [setChan_same]; exact hc
  · rw [setChan_other _ _ _ _ e]; exact h c2

/-- Position 0 with accumulator 0. -/
theorem chanSync_zero (c : TChanPlay) (h1 : c.position = 0) (h2 : c.faseacum = 0) :
    chanSync c := by
  unfold chanSync
  rw [h1, h2]

/-- `DoArpeggio_00` keeps the schedule fields, and keeps the position of every
channel at the integer part of its accumulator. -/
theorem frame_Arpeggio (sz : Nat) (chd : TChannelData) (mp mp2 : TModPlay) (ch : Fin 4)
    (e : DoArpeggio_00 sz chd mp ch = .ok mp2) :
    ((∀ c, chanSync (mp.chan c)) → ∀ c, chanSync (mp2.chan c)) ∧ sameSchedule mp mp2 := by
  unfold DoArpeggio_00 at e
  dsimp only at e
  (repeat' split at e) <;>
    first
    | (cases e; done)
    | (cases e
       first
      | exact ⟨fun h => h, ⟨rfl, rfl, rfl, rfl, rfl, rfl, rfl⟩⟩
      | exact ⟨fun h => sync_setChan mp ch _ h (h ch), ⟨rfl, rfl, rfl, rfl, rfl, rfl, rfl⟩⟩)

/-- `DoSlideUp_01` keeps the schedule fields, and keeps the position of every
channel at the integer part of its accumulator. -/
theorem frame_SlideUp (sz : Nat) (chd : TChannelData) (mp mp2 : TModPlay) (ch : Fin 4)
    (e : DoSlideUp_01 sz chd mp ch = .ok mp2) :
    ((∀ c, chanSync (mp.chan c)) → ∀ c, chanSync (mp2.chan c)) ∧ sameSchedule mp mp2 := by
  unfold DoSlideUp_01 at e
  dsimp only at e
  (repeat' split at e) <;>
    first
    | (cases e; done)
    | (cases e
       first
      | exact ⟨fun h => h, ⟨rfl, rfl, rfl, rfl, rfl, rfl, rfl⟩⟩
      | exact ⟨fun h => sync_setChan mp ch _ h (h ch), ⟨rfl, rfl, rfl, rfl, rfl, rfl, rfl⟩⟩)

/-- `DoSlideDown_02` keeps the schedule fields, and keeps the position of every
channel at the integer part of its accumulator. -/
theorem frame_SlideDown (sz : Nat) (chd : TChannelData) (mp mp2 : TModPlay) (ch : Fin 4)
    (e : DoSlideDown_02 sz chd mp ch = .ok mp2) :
    ((∀ c, chanSync (mp.chan c)) → ∀ c, chanSync (mp2.chan c)) ∧ sameSchedule mp mp2 := by
  unfold DoSlideDown_02 at e
  dsimp only at e
  (repeat' split at e) <;>
    first
    | (cases e; done)
    | (cases e
       first
      | exact ⟨fun h => h, ⟨rfl, rfl, rfl, rfl, rfl, rfl, rfl⟩⟩
      | exact ⟨fun h => sync_setChan mp ch _ h (h ch), ⟨rfl, rfl, rfl, rfl, rfl, rfl, rfl⟩⟩)

/-- `DoSlideToNote_03` keeps the schedule fields, and keeps the position of every
channel at the integer part of its accumulator. -/
theorem frame_SlideToNote (sz : Nat) (chd : TChannelData) (mp mp2 : TModPlay) (ch : Fin 4)
    (e : DoSlideToNote_03 sz chd mp ch = .ok mp2) :
    ((∀ c, chanSync (mp.chan c)) → ∀ c, chanSync (mp2.chan c)) ∧ sameSchedule mp mp2 := by
  unfold DoSlideToNote_03 at e
  dsimp only at e
  (repeat' split at e) <;>
    first
    | (cases e; done)
    | (cases e
       first
      | exact ⟨fun h => h, ⟨rfl, rfl, rfl, rfl, rfl, rfl, rfl⟩⟩
      | exact ⟨fun h => sync_setChan mp ch _ h (h ch), ⟨rfl, rfl, rfl, rfl, rfl, rfl, rfl⟩⟩)

/-- `DoVibrato_04` keeps the schedule fields, and keeps the position of every
channel at the integer part of its accumulator. -/
theorem frame_Vibrato (sz : Nat) (chd : TChannelData) (mp mp2 : TModPlay) (ch : Fin 4)
    (e : DoVibrato_04 sz chd mp ch = .ok mp2) :
    ((∀ c, chanSync (mp.chan c)) → ∀ c, chanSync (mp2.chan c)) ∧ sameSchedule mp mp2 := by
  unfold DoVibrato_04 at e
  dsimp only at e
  (repeat' split at e) <;>
    first
    | (cases e; done)
    | (cases e
       first
      | exact ⟨fun h => h, ⟨rfl, rfl, rfl, rfl, rfl, rfl, rfl⟩⟩
      | exact ⟨fun h => sync_setChan mp ch _ h (h ch), ⟨rfl, rfl, rfl, rfl, rfl, rfl, rfl⟩⟩)

/-- `DoTremolo_07` keeps the schedule fields, and keeps the position of every
channel at the integer part of its accumulator. -/
theorem frame_Tremolo (chd : TChannelData) (mp mp2 : TModPlay) (ch : Fin 4)
    (e : DoTremolo_07 chd mp ch = .ok mp2) :
    ((∀ c, chanSync (mp.chan c)) → ∀ c, chanSync (mp2.chan c)) ∧ sameSchedule mp mp2 := by
  unfold DoTremolo_07 at e
  dsimp only at e
  (repeat' split at e) <;>
    first
    | (cases e; done)
    | (cases e
       first
      | exact ⟨fun h => h, ⟨rfl, rfl, rfl, rfl, rfl, rfl, rfl⟩⟩
      | exact ⟨fun h => sync_setChan mp ch _ h (h ch), ⟨rfl, rfl, rfl, rfl, rfl, rfl, rfl⟩⟩)

/-- `DoDelayNote_14_13` keeps the schedule fields, and keeps the position of every
channel at the integer part of its accumulator. -/
theorem frame_DelayNote (sz : Nat) (chd : TChannelData) (mp mp2 : TModPlay) (ch : Fin 4)
    (e : DoDelayNote_14_13 sz chd mp ch = .ok mp2) :
    ((∀ c, chanSync (mp.chan c)) → ∀ c, chanSync (mp2.chan c)) ∧ sameSchedule mp mp2 := by
  unfold DoDelayNote_14_13 at e
  dsimp only at e
  (repeat' split at e) <;>
    first
    | (cases e; done)
    | (cases e
       first
      | exact ⟨fun h => h, ⟨rfl, rfl, rfl, rfl, rfl, rfl, rfl⟩⟩
      | exact ⟨fun h => sync_setChan mp ch _ h (h ch), ⟨rfl, rfl, rfl, rfl, rfl, rfl, rfl⟩⟩
      | exact ⟨fun h => sync_setChan mp ch _ h (chanSync_zero _ rfl rfl), ⟨rfl, rfl, rfl, rfl, rfl, rfl, rfl⟩⟩)

/-- `DoVolumeSlide_10` keeps the schedule fields, and keeps the position of every
channel at the integer part of its accumulator. -/
theorem frame_VolumeSlide (chd : TChannelData) (mp : TModPlay) (ch : Fin 4) :
    ((∀ c, chanSync (mp.chan c)) → ∀ c, chanSync ((DoVolumeSlide_10 chd mp ch).chan c)) ∧
    sameSchedule mp (DoVolumeSlide_10 chd mp ch) := by
  unfold DoVolumeSlide_10
  dsimp only
  (repeat' split) <;>
    first
      | exact ⟨fun h => h, ⟨rfl, rfl, rfl, rfl, rfl, rfl, rfl⟩⟩
      | exact ⟨fun h => sync_setChan mp ch _ h (h ch), ⟨rfl, rfl, rfl, rfl, rfl, rfl, rfl⟩⟩

/-- `DoVolume_12` keeps the schedule fields, and keeps the position of every
channel at the integer part of its accumulator. -/
theorem frame_Volume (chd : TChannelData) (mp : TModPlay) (ch : Fin 4) :
    ((∀ c, chanSync (mp.chan c)) → ∀ c, chanSync ((DoVolume_12 chd mp ch).chan c)) ∧
    sameSchedule mp (DoVolume_12 chd mp ch) := by
  unfold DoVolume_12
  dsimp only
  (repeat' split) <;>
    first
      | exact ⟨fun h => h, ⟨rfl, rfl, rfl, rfl, rfl, rfl, rfl⟩⟩
      | exact ⟨fun h => sync_setChan mp ch _ h (h ch), ⟨rfl, rfl, rfl, rfl, rfl, rfl, rfl⟩⟩

/-- `DoNoteRetrig_14_09` keeps the schedule fields, and keeps the position of every
channel at the integer part of its accumulator. -/
theorem frame_NoteRetrig (chd : TChannelData) (mp : TModPlay) (ch : Fin 4) :
    ((∀ c, chanSync (mp.chan c)) → ∀ c, chanSync ((DoNoteRetrig_14_09 chd mp ch).chan c)) ∧
    sameSchedule mp (DoNoteRetrig_14_09 chd mp ch) := by
  unfold DoNoteRetrig_14_09
  dsimp only
  (repeat' split) <;>
    first
      | exact ⟨fun h => h, ⟨rfl, rfl, rfl, rfl, rfl, rfl, rfl⟩⟩
      | exact ⟨fun h => sync_setChan mp ch _ h (h ch), ⟨rfl, rfl, rfl, rfl, rfl, rfl, rfl⟩⟩
      | exact ⟨fun h => sync_setChan mp ch _ h (chanSync_zero _ rfl rfl), ⟨rfl, rfl, rfl, rfl, rfl, rfl, rfl⟩⟩

/-- `DoFineVolumeSlideUp_14_10` keeps the schedule fields, and keeps the position of every
channel at the integer part of its accumulator. -/
theorem frame_FineVolumeSlideUp (chd : TChannelData) (mp : TModPlay) (ch : Fin 4) :
    ((∀ c, chanSync (mp.chan c)) → ∀ c, chanSync ((DoFineVolumeSlideUp_14_10 chd mp ch).chan c)) ∧
    sameSchedule mp (DoFineVolumeSlideUp_14_10 chd mp ch) := by
  unfold DoFineVolumeSlideUp_14_10
  dsimp only
  (repeat' split) <;>
    first
      | exact ⟨fun h => h, ⟨rfl, rfl, rfl, rfl, rfl, rfl, rfl⟩⟩
      | exact ⟨fun h => sync_setChan mp ch _ h (h ch), ⟨rfl, rfl, rfl, rfl, rfl, rfl, rfl⟩⟩

/-- `DoFineVolumeSlideDown_14_11` keeps the schedule fields, and keeps the position of every
channel at the integer part of its accumulator. -/
theorem frame_FineVolumeSlideDown (chd : TChannelData) (mp : TModPlay) (ch : Fin 4) :
    ((∀ c, chanSync (mp.chan c)) → ∀ c, chanSync ((DoFineVolumeSlideDown_14_11 chd mp ch).chan c)) ∧
    sameSchedule mp (DoFineVolumeSlideDown_14_11 chd mp ch) := by
  unfold DoFineVolumeSlideDown_14_11
  dsimp only
  (repeat' split) <;>
    first
      | exact ⟨fun h => h, ⟨rfl, rfl, rfl, rfl, rfl, rfl, rfl⟩⟩
      | exact ⟨fun h => sync_setChan mp ch _ h (h ch), ⟨rfl, rfl, rfl, rfl, rfl, rfl, rfl⟩⟩

/-- `DoCutNote_14_12` keeps the schedule fields, and keeps the position of every
channel at the integer part of its accumulator. -/
theorem frame_CutNote (chd : TChannelData) (mp : TModPlay) (ch : Fin 4) :
    ((∀ c, chanSync (mp.chan c)) → ∀ c, chanSync ((DoCutNote_14_12 chd mp ch).chan c)) ∧
    sameSchedule mp (DoCutNote_14_12 chd mp ch) := by
  unfold DoCutNote_14_12
  dsimp only
  (repeat' split) <;>
    first
      | exact ⟨fun h => h, ⟨rfl, rfl, rfl, rfl, rfl, rfl, rfl⟩⟩
      | exact ⟨fun h => sync_setChan mp ch _ h (h ch), ⟨rfl, rfl, rfl, rfl, rfl, rfl, rfl⟩⟩
/-- Keeping the schedule fields is transitive. -/
theorem sameSchedule_trans (a b c : TModPlay) (h1 : sameSchedule a b) (h2 : sameSchedule b c) :
    sameSchedule a c :=
  ⟨h2.1.trans h1.1, h2.2.1.trans h1.2.1, h2.2.2.1.trans h1.2.2.1,
    h2.2.2.2.1.trans h1.2.2.2.1, h2.2.2.2.2.1.trans h1.2.2.2.2.1,
    h2.2.2.2.2.2.1.trans h1.2.2.2.2.2.1, h2.2.2.2.2.2.2.trans h1.2.2.2.2.2.2⟩

/-- `DoSlideToNoteAndVolumeSlide_05` keeps the schedule fields, and keeps the
position of every channel at the integer part of its accumulator. -/
theorem frame_SlideToNoteAndVolumeSlide (sz : Nat) (chd : TChannelData) (mp mp2 : TModPlay)
    (ch : Fin 4) (e : DoSlideToNoteAndVolumeSlide_05 sz chd mp ch = .ok mp2) :
    ((∀ c, chanSync (mp.chan c)) → ∀ c, chanSync (mp2.chan c)) ∧ sameSchedule mp mp2 := by
  unfold DoSlideToNoteAndVolumeSlide_05 at e
  dsimp only at e
  split at e
  · cases e
  · rename_i mp1 h1
    cases e
    have k : ((∀ c, chanSync (mp.chan c)) → ∀ c, chanSync (mp1.chan c)) ∧
        sameSchedule mp mp1 := by
      by_cases ht : mp.tick = 0
      · rw [if_pos ht] at h1
        by_cases hn : chd.Noteperiod ≠ 0
        · rw [if_pos hn] at h1
          split at h1
          · cases h1
          · cases h1
            exact ⟨fun h => sync_setChan mp ch _ h (h ch), ⟨rfl, rfl, rfl, rfl, rfl, rfl, rfl⟩⟩
        · rw [if_neg hn] at h1
          cases h1
          exact ⟨fun h => h, ⟨rfl, rfl, rfl, rfl, rfl, rfl, rfl⟩⟩
      · rw [if_neg ht] at h1
        exact frame_SlideToNote sz chd mp mp1 ch h1
    exact ⟨fun h => (frame_VolumeSlide chd mp1 ch).1 (k.1 h),
      sameSchedule_trans _ _ _ k.2 (frame_VolumeSlide chd mp1 ch).2⟩

/-- `DoVibratoAndVolumeSlide_06` keeps the schedule fields, and keeps the
position of every channel at the integer part of its accumulator. -/
theorem frame_VibratoAndVolumeSlide (sz : Nat) (chd : TChannelData) (mp mp2 : TModPlay)
    (ch : Fin 4) (e : DoVibratoAndVolumeSlide_06 sz chd mp ch = .ok mp2) :
    ((∀ c, chanSync (mp.chan c)) → ∀ c, chanSync (mp2.chan c)) ∧ sameSchedule mp mp2 := by
  unfold DoVibratoAndVolumeSlide_06 at e
  dsimp only at e
  split at e
  · cases e
  · rename_i mp1 h1
    cases e
    have k : ((∀ c, chanSync (mp.chan c)) → ∀ c, chanSync (mp1.chan c)) ∧
        sameSchedule mp mp1 := by
      by_cases ht : mp.tick = 0
      · rw [if_pos ht] at h1
        by_cases hv : mp.vbretrig = 1
        · rw [if_pos hv] at h1
          cases h1
          exact ⟨fun h => sync_setChan mp ch _ h (h ch), ⟨rfl, rfl, rfl, rfl, rfl, rfl, rfl⟩⟩
        · rw [if_neg hv] at h1
          cases h1
          exact ⟨fun h => h, ⟨rfl, rfl, rfl, rfl, rfl, rfl, rfl⟩⟩
      · rw [if_neg ht] at h1
        exact frame_Vibrato sz chd mp mp1 ch h1
    exact ⟨fun h => (frame_VolumeSlide chd mp1 ch).1 (k.1 h),
      sameSchedule_trans _ _ _ k.2 (frame_VolumeSlide chd mp1 ch).2⟩

/-- `DoFineSlideUp_14_01` keeps the schedule fields (it sets `tick` to 1 and
back to 0), and keeps the position of every channel at the integer part of
its accumulator. -/
theorem frame_FineSlideUp (sz : Nat) (chd : TChannelData) (mp mp2 : TModPlay) (ch : Fin 4)
    (e : DoFineSlideUp_14_01 sz chd mp ch = .ok mp2) :
    ((∀ c, chanSync (mp.chan c)) → ∀ c, chanSync (mp2.chan c)) ∧ sameSchedule mp mp2 := by
  unfold DoFineSlideUp_14_01 at e
  dsimp only at e
  by_cases ht : mp.tick = 0
  · rw [if_pos ht] at e
    split at e
    · cases e
    · rename_i mp3 h3
      cases e
      obtain ⟨k1, k2⟩ := frame_SlideUp sz chd _ mp3 ch h3
      exact ⟨fun h => k1 (sync_setChan { mp with tick := 1 } ch _ h (h ch)),
        ⟨k2.1, ht.symm, k2.2.2.1, k2.2.2.2.1, k2.2.2.2.2.1, k2.2.2.2.2.2.1, k2.2.2.2.2.2.2⟩⟩
  · rw [if_neg ht] at e
    cases e
    exact ⟨fun h => h, ⟨rfl, rfl, rfl, rfl, rfl, rfl, rfl⟩⟩

/-- `DoFineSlideDown_14_02` keeps the schedule fields (it sets `tick` to 1 and
back to 0), and keeps the position of every channel at the integer part of
its accumulator. -/
theorem frame_FineSlideDown (sz : Nat) (chd : TChannelData) (mp mp2 : TModPlay) (ch : Fin 4)
    (e : DoFineSlideDown_14_02 sz chd mp ch = .ok mp2) :
    ((∀ c, chanSync (mp.chan c)) → ∀ c, chanSync (mp2.chan c)) ∧ sameSchedule mp mp2 := by
  unfold DoFineSlideDown_14_02 at e
  dsimp only at e
  by_cases ht : mp.tick = 0
  · rw [if_pos ht] at e
    split at e
    · cases e
    · rename_i mp3 h3
      cases e
      obtain ⟨k1, k2⟩ := frame_SlideDown sz chd _ mp3 ch h3
      exact ⟨fun h => k1 (sync_setChan { mp with tick := 1 } ch _ h (h ch)),
        ⟨k2.1, ht.symm, k2.2.2.1, k2.2.2.2.1, k2.2.2.2.2.1, k2.2.2.2.2.2.1, k2.2.2.2.2.2.2⟩⟩
  · rw [if_neg ht] at e
    cases e
    exact ⟨fun h => h, ⟨rfl, rfl, rfl, rfl, rfl, rfl, rfl⟩⟩

/-- `DoSampleOffset_09` keeps the schedule fields; unless it stores an offset
(tick 0, argument other than 0) it keeps the channels. -/
theorem frame_SampleOffset (sz : Nat) (chd : TChannelData) (mp : TModPlay) (ch : Fin 4) :
    (¬ (mp.tick = 0 ∧ chd.EffectArg ≠ 0) → DoSampleOffset_09 sz chd mp ch = mp) ∧
    sameSchedule mp (DoSampleOffset_09 sz chd mp ch) := by
  unfold DoSampleOffset_09
  dsimp only
  by_cases ht : mp.tick = 0
  · rw [if_pos ht]
    by_cases ha : chd.EffectArg ≠ 0
    · rw [if_pos ha]
      exact ⟨fun h => absurd ⟨ht, ha⟩ h, ⟨rfl, rfl, rfl, rfl, rfl, rfl, rfl⟩⟩
    · rw [if_neg ha]
      exact ⟨fun _ => rfl, ⟨rfl, rfl, rfl, rfl, rfl, rfl, rfl⟩⟩
  · rw [if_neg ht]
    exact ⟨fun _ => rfl, ⟨rfl, rfl, rfl, rfl, rfl, rfl, rfl⟩⟩

/-- The effects 11, 13 and 15 leave the channels alone. -/
theorem frame_jump_chan (sz : Nat) (chd : TChannelData) (mp : TModPlay) :
    (DoJumpSongposition_11 chd mp).chan = mp.chan ∧
    (DoPatternBreak_13 chd mp).chan = mp.chan ∧
    (DoSetSpeedBPM_15 sz chd mp).chan = mp.chan := by
  unfold DoJumpSongposition_11 DoPatternBreak_13 DoSetSpeedBPM_15
  refine ⟨?_, ?_, ?_⟩ <;> split_ifs <;> rfl

/-- A module is the same as itself. -/
theorem sameModule_refl (m : TModule) : sameModule m m :=
  ⟨rfl, rfl, rfl, fun _ => ⟨rfl, rfl⟩⟩

/-- Keeping the module's song data is transitive. -/
theorem sameModule_trans (a b c : TModule) (h1 : sameModule a b) (h2 : sameModule b c) :
    sameModule a c :=
  ⟨h2.1.trans h1.1, h2.2.1.trans h1.2.1, h2.2.2.1.trans h1.2.2.1,
    fun k => ⟨(h2.2.2.2 k).1.trans (h1.2.2.2 k).1, (h2.2.2.2 k).2.trans (h1.2.2.2 k).2⟩⟩

/-- `DoSetFinetune_14_05` changes the finetune of one sample only. -/
theorem frame_SetFinetune (chd : TChannelData) (m m2 : TModule) (mp : TModPlay) (ch : Fin 4)
    (e : DoSetFinetune_14_05 chd m mp ch = .ok m2) : sameModule m m2 := by
  unfold DoSetFinetune_14_05 at e
  split at e
  · cases e
  · rename_i k hk
    cases e
    refine ⟨rfl, rfl, rfl, fun j => ?_⟩
    dsimp only
    by_cases hj : j = k
    · subst hj; rw [Function.update_same]; exact ⟨rfl, rfl⟩
    · rw [Function.update_noteq hj]; exact ⟨rfl, rfl⟩

/-- `ProcessEffect` keeps the module's song data; unless it stores a sample
offset (effect 9 at tick 0 with an argument other than 0) it keeps the
position of every channel at the integer part of its accumulator; and for
an effect other than 11, 13 and 15 it keeps the schedule fields. -/
theorem frame_ProcessEffect (sz rnd : Nat) (chd : TChannelData) (m m2 : TModule)
    (mp mp2 : TModPlay) (ch : Fin 4)
    (e : ProcessEffect sz rnd chd m mp ch = .ok (m2, mp2)) :
    sameModule m m2 ∧
    (¬ (chd.Effect = 9 ∧ mp.tick = 0 ∧ chd.EffectArg ≠ 0) →
      (∀ c, chanSync (mp.chan c)) → ∀ c, chanSync (mp2.chan c)) ∧
    (chd.Effect ≠ 11 → chd.Effect ≠ 13 → chd.Effect ≠ 15 → sameSchedule mp mp2) := by
  have keep : ∀ r : Except Fault TModPlay,
      (match r with
        | .error e => (.error e : Except Fault (TModule × TModPlay))
        | .ok mp1 => .ok (m, mp1)) = .ok (m2, mp2) →
      (∀ mp1, r = .ok mp1 →
        ((∀ c, chanSync (mp.chan c)) → ∀ c, chanSync (mp1.chan c)) ∧ sameSchedule mp mp1) →
      sameModule m m2 ∧
      (¬ (chd.Effect = 9 ∧ mp.tick = 0 ∧ chd.EffectArg ≠ 0) →
        (∀ c, chanSync (mp.chan c)) → ∀ c, chanSync (mp2.chan c)) ∧
      (chd.Effect ≠ 11 → chd.Effect ≠ 13 → chd.Effect ≠ 15 → sameSchedule mp mp2) := by
    intro r hr hk
    cases r with
    | error x => cases hr
    | ok mp1 =>
      cases hr
      exact ⟨sameModule_refl m, fun _ => (hk _ rfl).1, fun _ _ _ => (hk _ rfl).2⟩
  unfold ProcessEffect at e
  dsimp only at e
  by_cases c0 : chd.Effect = 0
  · rw [if_pos c0] at e
    exact keep _ e (fun mp1 h1 => frame_Arpeggio sz chd mp mp1 ch h1)
  rw [if_neg c0] at e
  by_cases c1 : chd.Effect = 1
  · rw [if_pos c1] at e
    exact keep _ e (fun mp1 h1 => frame_SlideUp sz chd mp mp1 ch h1)
  rw [if_neg c1] at e
  by_cases c2 : chd.Effect = 2
  · rw [if_pos c2] at e
    exact keep _ e (fun mp1 h1 => frame_SlideDown sz chd mp mp1 ch h1)
  rw [if_neg c2] at e
  by_cases c3 : chd.Effect = 3
  · rw [if_pos c3] at e
    exact keep _ e (fun mp1 h1 => frame_SlideToNote sz chd mp mp1 ch h1)
  rw [if_neg c3] at e
  by_cases c4 : chd.Effect = 4
  · rw [if_pos c4] at e
    exact keep _ e (fun mp1 h1 => frame_Vibrato sz chd mp mp1 ch h1)
  rw [if_neg c4] at e
  by_cases c5 : chd.Effect = 5
  · rw [if_pos c5] at e
    exact keep _ e (fun mp1 h1 => frame_SlideToNoteAndVolumeSlide sz chd mp mp1 ch h1)
  rw [if_neg c5] at e
  by_cases c6 : chd.Effect = 6
  · rw [if_pos c6] at e
    exact keep _ e (fun mp1 h1 => frame_VibratoAndVolumeSlide sz chd mp mp1 ch h1)
  rw [if_neg c6] at e
  by_cases c7 : chd.Effect = 7
  · rw [if_pos c7] at e
    exact keep _ e (fun mp1 h1 => frame_Tremolo chd mp mp1 ch h1)
  rw [if_neg c7] at e
  by_cases c9 : chd.Effect = 9
  · rw [if_pos c9] at e
    cases e
    exact ⟨sameModule_refl m,
      fun hn h => by
        rw [(frame_SampleOffset sz chd mp ch).1 (fun k => hn ⟨c9, k.1, k.2⟩)]; exact h,
      fun _ _ _ => (frame_SampleOffset sz chd mp ch).2⟩
  rw [if_neg c9] at e
  by_cases c10 : chd.Effect = 10
  · rw [if_pos c10] at e
    cases e
    exact ⟨sameModule_refl m, fun _ => (frame_VolumeSlide chd mp ch).1,
      fun _ _ _ => (frame_VolumeSlide chd mp ch).2⟩
  rw [if_neg c10] at e
  by_cases c11 : chd.Effect = 11
  · rw [if_pos c11] at e
    cases e
    exact ⟨sameModule_refl m,
      fun _ h => by rw [(frame_jump_chan sz chd mp).1]; exact h,
      fun h11 h13 h15 => absurd c11 h11⟩
  rw [if_neg c11] at e
  by_cases c12 : chd.Effect = 12
  · rw [if_pos c12] at e
    cases e
    exact ⟨sameModule_refl m, fun _ => (frame_Volume chd mp ch).1,
      fun _ _ _ => (frame_Volume chd mp ch).2⟩
  rw [if_neg c12] at e
  by_cases c13 : chd.Effect = 13
  · rw [if_pos c13] at e
    cases e
    exact ⟨sameModule_refl m,
      fun _ h => by rw [(frame_jump_chan sz chd mp).2.1]; exact h,
      fun h11 h13 h15 => absurd c13 h13⟩
  rw [if_neg c13] at e
  by_cases c14 : chd.Effect = 14
  · rw [if_pos c14] at e
    by_cases s1 : chd.EffectArg / 16 % 16 = 1
    · rw [if_pos s1] at e
      exact keep _ e (fun mp1 h1 => frame_FineSlideUp sz chd mp mp1 ch h1)
    rw [if_neg s1] at e
    by_cases s2 : chd.EffectArg / 16 % 16 = 2
    · rw [if_pos s2] at e
      exact keep _ e (fun mp1 h1 => frame_FineSlideDown sz chd mp mp1 ch h1)
    rw [if_neg s2] at e
    by_cases s4 : chd.EffectArg / 16 % 16 = 4
    · rw [if_pos s4] at e
      cases e
      exact ⟨sameModule_refl m, fun _ h => h, fun _ _ _ => ⟨rfl, rfl, rfl, rfl, rfl, rfl, rfl⟩⟩
    rw [if_neg s4] at e
    by_cases s5 : chd.EffectArg / 16 % 16 = 5
    · rw [if_pos s5] at e
      split at e
      · cases e
      · rename_i m1 h1
        cases e
        exact ⟨frame_SetFinetune chd m _ mp ch h1, fun _ h => h, fun _ _ _ => ⟨rfl, rfl, rfl, rfl, rfl, rfl, rfl⟩⟩
    rw [if_neg s5] at e
    by_cases s7 : chd.EffectArg / 16 % 16 = 7
    · rw [if_pos s7] at e
      cases e
      exact ⟨sameModule_refl m, fun _ h => h, fun _ _ _ => ⟨rfl, rfl, rfl, rfl, rfl, rfl, rfl⟩⟩
    rw [if_neg s7] at e
    by_cases s9 : chd.EffectArg / 16 % 16 = 9
    · rw [if_pos s9] at e
      cases e
      exact ⟨sameModule_refl m, fun _ => (frame_NoteRetrig chd mp ch).1,
        fun _ _ _ => (frame_NoteRetrig chd mp ch).2⟩
    rw [if_neg s9] at e
    by_cases s10 : chd.EffectArg / 16 % 16 = 10
    · rw [if_pos s10] at e
      cases e
      exact ⟨sameModule_refl m, fun _ => (frame_FineVolumeSlideUp chd mp ch).1,
        fun _ _ _ => (frame_FineVolumeSlideUp chd mp ch).2⟩
    rw [if_neg s10] at e
    by_cases s11 : chd.EffectArg / 16 % 16 = 11
    · rw [if_pos s11] at e
      cases e
      exact ⟨sameModule_refl m, fun _ => (frame_FineVolumeSlideDown chd mp ch).1,
        fun _ _ _ => (frame_FineVolumeSlideDown chd mp ch).2⟩
    rw [if_neg s11] at e
    by_cases s12 : chd.EffectArg / 16 % 16 = 12
    · rw [if_pos s12] at e
      cases e
      exact ⟨sameModule_refl m, fun _ => (frame_CutNote chd mp ch).1,
        fun _ _ _ => (frame_CutNote chd mp ch).2⟩
    rw [if_neg s12] at e
    by_cases s13 : chd.EffectArg / 16 % 16 = 13
    · rw [if_pos s13] at e
      exact keep _ e (fun mp1 h1 => frame_DelayNote sz chd mp mp1 ch h1)
    rw [if_neg s13] at e
    cases e
    exact ⟨sameModule_refl m, fun _ h => h, fun _ _ _ => ⟨rfl, rfl, rfl, rfl, rfl, rfl, rfl⟩⟩
  rw [if_neg c14] at e
  by_cases c15 : chd.Effect = 15
  · rw [if_pos c15] at e
    cases e
    exact ⟨sameModule_refl m,
      fun _ h => by rw [(frame_jump_chan sz chd mp).2.2]; exact h,
      fun h11 h13 h15 => absurd c15 h15⟩
  rw [if_neg c15] at e
  cases e
  exact ⟨sameModule_refl m, fun _ h => h, fun _ _ _ => ⟨rfl, rfl, rfl, rfl, rfl, rfl, rfl⟩⟩
/-- The slot `PlayTick` reads: the song position is inside `Songpositions`,
the pattern it names exists, and the slot is one of that pattern. -/
theorem currentSlot_spec (m : TModule) (mp : TModPlay) (ch : Fin 4) (chd : TChannelData)
    (e : currentSlot m mp ch = .ok chd) :
    0 ≤ mp.songpos ∧ ∃ (h : mp.songpos.toNat < 128) (pat : TPattern) (r : Fin 64),
      m.pattern[m.Songpositions ⟨mp.songpos.toNat, h⟩]? = some pat ∧
      chd = (pat.row r).chan ch := by
  unfold currentSlot at e
  by_cases h1 : mp.songpos < 0
  · rw [if_pos h1] at e; cases e
  rw [if_neg h1] at e
  by_cases h2 : mp.songpos.toNat < 128
  · rw [dif_pos h2] at e
    split at e
    · cases e
    · rename_i pat hp
      by_cases h3 : mp.patrow < 0
      · rw [if_pos h3] at e; cases e
      rw [if_neg h3] at e
      by_cases h4 : mp.patrow.toNat < 64
      · rw [dif_pos h4] at e
        cases e
        exact ⟨by omega, h2, pat, _, hp, rfl⟩
      · rw [dif_neg h4] at e; cases e
  · rw [dif_neg h2] at e; cases e

/-- The slot read depends on the patterns, the song positions and the place
in the song only. -/
theorem currentSlot_congr (m m2 : TModule) (mp mp2 : TModPlay) (ch : Fin 4)
    (hm : sameModule m m2) (hs : sameSchedule mp mp2) :
    currentSlot m2 mp2 ch = currentSlot m mp ch := by
  unfold currentSlot
  rw [hm.1, hm.2.2.1, hs.2.2.1, hs.2.2.2.1]

/-- Row setup keeps the position at the integer part of the accumulator: a
new note zeroes both, a new sample touches neither. -/
theorem rowSetup_sync (sz : Nat) (m : TModule) (mp : TModPlay) (chd : TChannelData)
    (c c2 : TChanPlay) (hc : chanSync c) (e : rowSetup sz m mp chd c = .ok c2) :
    chanSync c2 := by
  unfold rowSetup at e
  split at e
  · cases e
  · rename_i c1 h1
    have hc1 : chanSync c1 := by
      unfold bindSample at h1
      split_ifs at h1
      · cases h1; exact hc
      · cases h1; exact hc
    unfold triggerNote at e
    split_ifs at e
    · split at e
      · cases e
      · split at e
        · cases e
        · cases e
          exact chanSync_zero _ rfl rfl
    · cases e; exact hc1

/-- One channel of the channel loop: the module's song data is kept, and
with `chd` the slot read, the positions keep tracking the accumulators
unless `chd` stores a sample offset, and the schedule fields are kept
unless `chd` carries effect 11, 13 or 15. -/
theorem frame_processChannel (sz rnd : Nat) (m m2 : TModule) (mp mp2 : TModPlay) (ch : Fin 4)
    (e : processChannel sz rnd m mp ch = .ok (m2, mp2)) :
    sameModule m m2 ∧ ∃ chd, currentSlot m mp ch = .ok chd ∧
      (¬ (chd.Effect = 9 ∧ mp.tick = 0 ∧ chd.EffectArg ≠ 0) →
        (∀ c, chanSync (mp.chan c)) → ∀ c, chanSync (mp2.chan c)) ∧
      (chd.Effect ≠ 11 → chd.Effect ≠ 13 → chd.Effect ≠ 15 → sameSchedule mp mp2) := by
  unfold processChannel at e
  split at e
  · cases e
  · rename_i chd hs
    by_cases ht : mp.tick = 0
    · rw [if_pos ht] at e
      split at e
      · cases e
      · rename_i c hc
        obtain ⟨k1, k2, k3⟩ := frame_ProcessEffect sz rnd chd m m2 _ mp2 ch e
        exact ⟨k1, chd, hs,
          fun hn h => k2 hn (sync_setChan mp ch c h (rowSetup_sync sz m mp chd _ c (h ch) hc)),
          fun a b d => k3 a b d⟩
    · rw [if_neg ht] at e
      obtain ⟨k1, k2, k3⟩ := frame_ProcessEffect sz rnd chd m m2 mp mp2 ch e
      exact ⟨k1, chd, hs, k2, k3⟩

/-- The condition on effect 9 reads the patterns only. -/
theorem noOffset_of_same (m m2 : TModule) (h : noOffset m) (e : sameModule m m2) :
    noOffset m2 := by
  unfold noOffset
  rw [e.1]
  exact h

/-- The condition on the repeat points is kept with the song data. -/
theorem repeatFits_of_same (sz : Nat) (m m2 : TModule) (h : repeatFits sz m)
    (e : sameModule m m2) : repeatFits sz m2 := by
  intro k
  rw [(e.2.2.2 k).1]
  exact h k

/-- The condition on the effects 11, 13 and 15 is kept with the song data. -/
theorem plainSong_of_same (m m2 : TModule) (h : plainSong m) (e : sameModule m m2) :
    plainSong m2 := by
  unfold plainSong
  rw [e.1, e.2.1, e.2.2.1]
  exact h

/-- A slot read from a module without sample offsets is not one. -/
theorem currentSlot_noOffset (m : TModule) (mp : TModPlay) (ch : Fin 4) (chd : TChannelData)
    (h : noOffset m) (e : currentSlot m mp ch = .ok chd) :
    ¬ (chd.Effect = 9 ∧ mp.tick = 0 ∧ chd.EffectArg ≠ 0) := by
  obtain ⟨_, _, pat, r, hp, hc⟩ := currentSlot_spec m mp ch chd e
  rw [hc]
  exact fun k => h pat (List.getElem?_mem hp) r ch ⟨k.1, k.2.2⟩

/-- A slot read inside the song of a module without jumps carries none of the
effects 11, 13 and 15. -/
theorem currentSlot_plain (m : TModule) (mp : TModPlay) (ch : Fin 4) (chd : TChannelData)
    (h : plainSong m) (hs : mp.songpos < (m.Songlength : Int))
    (e : currentSlot m mp ch = .ok chd) :
    chd.Effect ≠ 11 ∧ chd.Effect ≠ 13 ∧ chd.Effect ≠ 15 := by
  obtain ⟨h0, h128, pat, r, hp, hc⟩ := currentSlot_spec m mp ch chd e
  rw [hc]
  exact h ⟨mp.songpos.toNat, h128⟩ (by dsimp only; omega) pat hp r ch

/-- The channel loop keeps the module's song data; in a module without sample
offsets the positions keep tracking the accumulators; and inside the song
of a module without jumps the schedule fields are kept. -/
theorem frame_processChannels (sz : Nat) (rnd : Fin 4 → Nat) (m m2 : TModule)
    (mp mp2 : TModPlay) (e : processChannels sz rnd m mp = .ok (m2, mp2)) :
    sameModule m m2 ∧
    (noOffset m → (∀ c, chanSync (mp.chan c)) → ∀ c, chanSync (mp2.chan c)) ∧
    (plainSong m → mp.songpos < (m.Songlength : Int) → sameSchedule mp mp2) := by
  unfold processChannels at e
  split at e
  · cases e
  · rename_i ma mpa ea
    obtain ⟨a1, da, sa, a2, a3⟩ := frame_processChannel sz _ m ma mp mpa 0 ea
    split at e
    · cases e
    · rename_i mb mpb eb
      obtain ⟨b1, db, sb, b2, b3⟩ := frame_processChannel sz _ ma mb mpa mpb 1 eb
      split at e
      · cases e
      · rename_i mc mpc ec
        obtain ⟨c1, dc, sc, c2, c3⟩ := frame_processChannel sz _ mb mc mpb mpc 2 ec
        obtain ⟨d1, dd, sd, d2, d3⟩ := frame_processChannel sz _ mc m2 mpc mp2 3 e
        have ab := sameModule_trans _ _ _ a1 b1
        have ac := sameModule_trans _ _ _ ab c1
        refine ⟨sameModule_trans _ _ _ ac d1, ?_, ?_⟩
        · intro hn h
          exact d2 (currentSlot_noOffset mc mpc 3 dd (noOffset_of_same m mc hn ac) sd)
            (c2 (currentSlot_noOffset mb mpb 2 dc (noOffset_of_same m mb hn ab) sc)
              (b2 (currentSlot_noOffset ma mpa 1 db (noOffset_of_same m ma hn a1) sb)
                (a2 (currentSlot_noOffset m mp 0 da hn sa) h)))
        · intro hp hs
          obtain ⟨pa1, pa2, pa3⟩ := currentSlot_plain m mp 0 da hp hs sa
          have ka := a3 pa1 pa2 pa3
          rw [currentSlot_congr m ma mp mpa 1 a1 ka] at sb
          obtain ⟨pb1, pb2, pb3⟩ := currentSlot_plain m mp 1 db hp hs sb
          have kb := sameSchedule_trans _ _ _ ka (b3 pb1 pb2 pb3)
          rw [currentSlot_congr m mb mp mpb 2 ab kb] at sc
          obtain ⟨pc1, pc2, pc3⟩ := currentSlot_plain m mp 2 dc hp hs sc
          have kc := sameSchedule_trans _ _ _ kb (c3 pc1 pc2 pc3)
          rw [currentSlot_congr m mc mp mpc 3 ac kc] at sd
          obtain ⟨pd1, pd2, pd3⟩ := currentSlot_plain m mp 3 dd hp hs sd
          exact sameSchedule_trans _ _ _ kc (d3 pd1 pd2 pd3)

/-- A mixing pass of one channel: a skipped channel is unchanged, and a
channel that fetched has its position at the integer part of its
accumulator. -/
theorem mixChannel_sync (sz : Nat) (m : TModule) (c c2 : TChanPlay) (x : Int)
    (hrp : repeatFits sz m) (e : mixChannel sz m c = .ok (c2, x)) :
    (chanSync c → chanSync c2) ∧
    (∀ k data, c.sample = some k → (m.sample k).Sampledata = some data → chanSync c2) := by
  unfold mixChannel at e
  split at e
  · rename_i hs
    cases e
    exact ⟨fun h => h, fun k data h1 _ => by rw [hs] at h1; cases h1⟩
  · rename_i k hs
    split at e
    · rename_i hd
      cases e
      exact ⟨fun h => h, fun k2 data h1 h2 => by
        rw [hs] at h1; cases h1; rw [hd] at h2; cases h2⟩
    · split at e
      · cases e
      · dsimp only at e
        have key : chanSync c2 := by
          split_ifs at e
          · cases e
            unfold chanSync
            dsimp only
            rw [Nat.mod_eq_of_lt (hrp k), Nat.mul_div_cancel _ (by norm_num)]
          · cases e
            rfl
        exact ⟨fun _ => key, fun _ _ _ _ => key⟩

/-- A mixing pass keeps the positions of the four channels at the integer
parts of their accumulators. -/
theorem mixSample_sync (sz : Nat) (m : TModule) (cs cs2 : Fin 4 → TChanPlay) (b : Nat)
    (hrp : repeatFits sz m) (hc : ∀ ch, chanSync (cs ch))
    (e : mixSample sz m cs = .ok (cs2, b)) : ∀ ch, chanSync (cs2 ch) := by
  unfold mixSample at e
  split at e
  · cases e
  · rename_i c0 s0 e0
    split at e
    · cases e
    · rename_i c1 s1 e1
      split at e
      · cases e
      · rename_i c2 s2 e2
        split at e
        · cases e
        · rename_i c3 s3 e3
          cases e
          have k0 := (mixChannel_sync sz m _ _ _ hrp e0).1 (hc 0)
          have k1 := (mixChannel_sync sz m _ _ _ hrp e1).1 (hc 1)
          have k2 := (mixChannel_sync sz m _ _ _ hrp e2).1 (hc 2)
          have k3 := (mixChannel_sync sz m _ _ _ hrp e3).1 (hc 3)
          intro ch
          fin_cases ch <;> simp [Function.update] <;> assumption

/-- The mixing loop keeps the positions of the four channels at the integer
parts of their accumulators. -/
theorem mixLoop_sync (sz : Nat) (m : TModule) (hrp : repeatFits sz m) :
    ∀ (n i : Nat) (cs cs2 : Fin 4 → TChanPlay) (buf : List Nat),
      (∀ ch, chanSync (cs ch)) → mixLoop sz m n i cs = .ok (cs2, buf) →
      ∀ ch, chanSync (cs2 ch) := by
  intro n
  induction n with
  | zero =>
    intro i cs cs2 buf hc e
    cases e; exact hc
  | succ n ih =>
    intro i cs cs2 buf hc e
    unfold mixLoop at e
    split at e
    · cases e
    · rename_i cs1 b e1
      split_ifs at e
      split at e
      · cases e
      · rename_i cs3 rest e3
        cases e
        exact ih (i + 1) cs1 _ rest (mixSample_sync sz m cs cs1 b hrp hc e1) e3

/-- The part of `PlayTick` after the row advance: the module's song data is
kept, one block is handed to the sink, `tick` goes up by one; in a module
without sample offsets whose repeat points fit the positions keep tracking
the accumulators; inside the song of a module without jumps the other
schedule fields are kept. -/
theorem frame_tickBody (sz : Nat) (rnd : Fin 4 → Nat) (m : TModule) (mp : TModPlay)
    (r : TickResult) (e : tickBody sz rnd m mp = .ok r) :
    sameModule m r.mod ∧ (∃ buf, r.audio = some buf) ∧
    (noOffset m → repeatFits sz m → (∀ c, chanSync (mp.chan c)) →
      ∀ c, chanSync (r.mplay.chan c)) ∧
    (plainSong m → mp.songpos < (m.Songlength : Int) →
      r.mplay.finished = mp.finished ∧ r.mplay.tick = mp.tick + 1 ∧
      r.mplay.patrow = mp.patrow ∧ r.mplay.songpos = mp.songpos ∧
      r.mplay.newsongpos = mp.newsongpos ∧ r.mplay.newpatrow = mp.newpatrow ∧
      r.mplay.ticksperdiv = mp.ticksperdiv) := by
  unfold tickBody at e
  dsimp only at e
  have h0 : sameSchedule mp (if mp.tick = 0 then { mp with newrow := 1 } else mp) ∧
      (if mp.tick = 0 then { mp with newrow := 1 } else mp).chan = mp.chan := by
    split_ifs
    · exact ⟨⟨rfl, rfl, rfl, rfl, rfl, rfl, rfl⟩, rfl⟩
    · exact ⟨⟨rfl, rfl, rfl, rfl, rfl, rfl, rfl⟩, rfl⟩
  split at e
  · cases e
  · rename_i m1 mp1 e1
    obtain ⟨k1, k2, k3⟩ := frame_processChannels sz rnd m m1 _ mp1 e1
    split at e
    · cases e
    · rename_i cs buf e2
      cases e
      refine ⟨k1, ⟨buf, rfl⟩, ?_, ?_⟩
      · intro hn hrp h
        exact mixLoop_sync sz m1 (repeatFits_of_same sz m m1 hrp k1) _ _ _ _ _
          (k2 hn (by rw [h0.2]; exact h)) e2
      · intro hp hs
        have k := sameSchedule_trans _ _ _ h0.1 (k3 hp (by rw [h0.1.2.2.2.1]; exact hs))
        exact ⟨k.1, by dsimp only; rw [k.2.1], k.2.2.1, k.2.2.2.1, k.2.2.2.2.1,
          k.2.2.2.2.2.1, k.2.2.2.2.2.2⟩

/-- The row advance leaves the channels alone. -/
theorem advanceRow_chan (mp : TModPlay) : (advanceRow mp).chan = mp.chan := by
  unfold advanceRow
  dsimp only
  split_ifs <;> rfl

/-- `PlayTick` keeps the module's song data; in a module without sample
offsets whose repeat points fit it keeps the positions at the integer parts
of the accumulators. -/
theorem sync_PlayTick (sz : Nat) (rnd : Fin 4 → Nat) (m : TModule) (mp : TModPlay)
    (r : TickResult) (hn : noOffset m) (hrp : repeatFits sz m)
    (h : ∀ c, chanSync (mp.chan c)) (e : PlayTick sz rnd m mp = .ok r) :
    sameModule m r.mod ∧ ∀ c, chanSync (r.mplay.chan c) := by
  unfold PlayTick at e
  by_cases hf : mp.finished ≠ 0
  · rw [if_pos hf] at e
    cases e; exact ⟨sameModule_refl m, h⟩
  rw [if_neg hf] at e
  by_cases ht : mp.tick ≥ mp.ticksperdiv
  · rw [if_pos ht] at e
    by_cases hs : (advanceRow mp).songpos ≥ (m.Songlength : Int)
    · rw [if_pos hs] at e
      cases e
      exact ⟨sameModule_refl m, by
        show ∀ c, chanSync ((advanceRow mp).chan c)
        rw [advanceRow_chan]; exact h⟩
    · rw [if_neg hs] at e
      obtain ⟨k1, _, k3, _⟩ := frame_tickBody sz rnd m _ r e
      exact ⟨k1, k3 hn hrp (by rw [advanceRow_chan]; exact h)⟩
  · rw [if_neg ht] at e
    obtain ⟨k1, _, k3, _⟩ := frame_tickBody sz rnd m mp r e
    exact ⟨k1, k3 hn hrp h⟩

/-- A sequence of calls of `PlayTick` on a module without sample offsets whose
repeat points fit keeps the positions at the integer parts of the
accumulators. -/
theorem sync_runTicks (sz : Nat) :
    ∀ (rnds : List (Fin 4 → Nat)) (m m2 : TModule) (mp mp2 : TModPlay) (bufs : List (List Nat)),
      noOffset m → repeatFits sz m → (∀ c, chanSync (mp.chan c)) →
      runTicks sz m mp rnds = .ok (m2, mp2, bufs) →
      sameModule m m2 ∧ ∀ c, chanSync (mp2.chan c) := by
  intro rnds
  induction rnds with
  | nil =>
    intro m m2 mp mp2 bufs _ _ h e
    cases e; exact ⟨sameModule_refl m, h⟩
  | cons rnd rest ih =>
    intro m m2 mp mp2 bufs hn hrp h e
    unfold runTicks at e
    split at e
    · cases e
    · rename_i r e1
      obtain ⟨i1, p1⟩ := sync_PlayTick sz rnd m mp r hn hrp h e1
      split at e
      · cases e
      · rename_i m3 mp3 bufs3 e3
        obtain ⟨i3, p3⟩ := ih r.mod m3 r.mplay mp3 bufs3 (noOffset_of_same m r.mod hn i1)
          (repeatFits_of_same sz m r.mod hrp i1) p1 e3
        cases e
        exact ⟨sameModule_trans _ _ _ i1 i3, p3⟩

/-- The repeat point `LoadMOD` stores is twice a 16-bit word: shifted left by
15 it fits 32 bits. -/
theorem loaded_repeatFits (sz : Nat) (f : TFile) (m : TModule) (hsz : 32 ≤ sz)
    (h : LoadMOD_loops f = .ok m) : repeatFits sz m := by
  obtain ⟨_, _, _, _, hs, _⟩ := LoadMOD_loops_fields f m h
  intro k
  have hpow : (2 : Nat) ^ 32 ≤ 2 ^ sz := Nat.pow_le_pow_right (by norm_num) hsz
  have hb : (m.sample k).Repeatpoint ≤ 131070 := by
    rw [hs k]
    have b1 : ∀ i, f.byteAt i < 256 := fun i => by
      unfold TFile.byteAt; exact (f.buffer i).isLt
    have := b1 (20 + 30 * k.val + 26)
    have := b1 (20 + 30 * k.val + 27)
    unfold headerOf loadSampleHeader zeroSample
    dsimp only
    split_ifs <;> dsimp only <;> omega
  have : (2 : Nat) ^ 32 = 4294967296 := by norm_num
  omega

/-- The row advance on the schedule after `n` calls, when the six ticks of the
row are played: `tick` is 0 and the place in the song is the next row in
lexicographic order, row `n / 6 % 64` at position `n / 384`. -/
theorem sched_advanceRow (mp : TModPlay) (n : Nat) (h : scheduleAt n mp)
    (ht : mp.tick ≥ mp.ticksperdiv) :
    n ≠ 0 ∧ (advanceRow mp).finished = 0 ∧ (advanceRow mp).newsongpos = -1 ∧
    (advanceRow mp).newpatrow = -1 ∧ (advanceRow mp).ticksperdiv = 6 ∧
    (advanceRow mp).tick = 0 ∧
    (advanceRow mp).patrow = ((n / 6 % 64 : Nat) : Int) ∧
    (advanceRow mp).songpos = ((n / 384 : Nat) : Int) ∧
    (advanceRow mp).tambufplay = mp.tambufplay := by
  obtain ⟨h1, h2, h3, h4, h5, h6, h7⟩ := h
  have hn0 : n ≠ 0 := by
    intro k
    rw [if_pos k] at h5
    rw [h4, h5] at ht
    omega
  rw [if_neg hn0] at h5
  rw [h4, h5] at ht
  refine ⟨hn0, ?_⟩
  unfold advanceRow
  dsimp only
  rw [if_neg (by rw [h2, h3]; omega)]
  by_cases h63 : mp.patrow ≥ 63
  · rw [if_pos h63]
    dsimp only
    rw [h6] at h63
    rw [h7]
    exact ⟨h1, h2, h3, h4, rfl, by omega, by omega, rfl⟩
  · rw [if_neg h63]
    dsimp only
    rw [h6] at h63 ⊢
    rw [h7]
    exact ⟨h1, h2, h3, h4, rfl, by omega, by omega, rfl⟩

/-- One call of `PlayTick` inside the song of a module without jumps: from the
schedule after `n` calls it plays a tick, hands one block to the sink and
leaves the schedule after `n + 1` calls. -/
theorem sched_PlayTick (sz : Nat) (rnd : Fin 4 → Nat) (m : TModule) (mp : TModPlay)
    (r : TickResult) (n : Nat) (hn : n < 384 * m.Songlength) (hp : plainSong m)
    (h : scheduleAt n mp) (e : PlayTick sz rnd m mp = .ok r) :
    sameModule m r.mod ∧ (∃ buf, r.audio = some buf) ∧ scheduleAt (n + 1) r.mplay := by
  have hadv := sched_advanceRow mp n h
  obtain ⟨h1, h2, h3, h4, h5, h6, h7⟩ := h
  unfold PlayTick at e
  rw [if_neg (by rw [h1]; exact fun k => k rfl)] at e
  by_cases ht : mp.tick ≥ mp.ticksperdiv
  · rw [if_pos ht] at e
    obtain ⟨hn0, a1, a2, a3, a4, a5, a6, a7, _⟩ := hadv ht
    have hs : (advanceRow mp).songpos < (m.Songlength : Int) := by
      rw [a7]; omega
    rw [if_neg (by omega)] at e
    obtain ⟨k1, k2, _, k4⟩ := frame_tickBody sz rnd m _ r e
    obtain ⟨b1, b2, b3, b4, b5, b6, b7⟩ := k4 hp hs
    rw [h4, h5, if_neg hn0] at ht
    refine ⟨k1, k2, b1.trans a1, b5.trans a2, b6.trans a3, b7.trans a4, ?_, ?_, ?_⟩
    · rw [b2, a5, if_neg (by omega)]
      omega
    · rw [b3, a6]
      omega
    · rw [b4, a7]
      omega
  · rw [if_neg ht] at e
    have hs : mp.songpos < (m.Songlength : Int) := by
      rw [h7]; omega
    obtain ⟨k1, k2, _, k4⟩ := frame_tickBody sz rnd m mp r e
    obtain ⟨b1, b2, b3, b4, b5, b6, b7⟩ := k4 hp hs
    rw [h4, h5] at ht
    refine ⟨k1, k2, b1.trans h1, b5.trans h2, b6.trans h3, b7.trans h4, ?_, ?_, ?_⟩
    · rw [b2, h5, if_neg (show ¬ (n + 1 = 0) by omega)]
      split_ifs at ht ⊢ <;> omega
    · rw [b3, h6]
      split_ifs at ht <;> omega
    · rw [b4, h7]
      split_ifs at ht <;> omega

/-- A run of calls of `PlayTick` inside the song of a module without jumps:
every call hands one block to the sink and the schedule moves on by the
number of calls. -/
theorem sched_runTicks (sz : Nat) :
    ∀ (rnds : List (Fin 4 → Nat)) (m m2 : TModule) (mp mp2 : TModPlay)
      (bufs : List (List Nat)) (n : Nat),
      n + rnds.length ≤ 384 * m.Songlength → plainSong m → scheduleAt n mp →
      runTicks sz m mp rnds = .ok (m2, mp2, bufs) →
      sameModule m m2 ∧ bufs.length = rnds.length ∧ scheduleAt (n + rnds.length) mp2 := by
  intro rnds
  induction rnds with
  | nil =>
    intro m m2 mp mp2 bufs n _ _ h e
    cases e; exact ⟨sameModule_refl m, rfl, h⟩
  | cons rnd rest ih =>
    intro m m2 mp mp2 bufs n hn hp h e
    rw [List.length_cons] at hn
    unfold runTicks at e
    split at e
    · cases e
    · rename_i r e1
      obtain ⟨i1, ⟨buf, hb⟩, s1⟩ := sched_PlayTick sz rnd m mp r n (by omega) hp h e1
      split at e
      · cases e
      · rename_i m3 mp3 bufs3 e3
        obtain ⟨i3, l3, s3⟩ := ih r.mod m3 r.mplay mp3 bufs3 (n + 1)
          (by rw [i1.2.1]; omega) (plainSong_of_same m r.mod hp i1) s1 e3
        cases e
        refine ⟨sameModule_trans _ _ _ i1 i3, ?_, ?_⟩
        · rw [hb]
          simp only [List.length_cons, l3]
        · rw [List.length_cons]
          rw [show n + (rest.length + 1) = n + 1 + rest.length by omega]
          exact s3

/-- The call of `PlayTick` after the last tick of the song: the row advance
leaves the song, the call sets `finished` and hands nothing to the sink. -/
theorem sched_final (sz : Nat) (rnd : Fin 4 → Nat) (m : TModule) (mp : TModPlay)
    (hL : 1 ≤ m.Songlength) (h : scheduleAt (384 * m.Songlength) mp) :
    PlayTick sz rnd m mp
      = .ok { mod := m, mplay := { advanceRow mp with finished := 1 }, audio := none } ∧
    (advanceRow mp).songpos = (m.Songlength : Int) ∧ (advanceRow mp).patrow = 0 := by
  obtain ⟨h1, h2, h3, h4, h5, h6, h7⟩ := h
  rw [if_neg (by omega)] at h5
  have ha : (advanceRow mp).songpos = (m.Songlength : Int) ∧ (advanceRow mp).patrow = 0 := by
    unfold advanceRow
    dsimp only
    rw [if_neg (by rw [h2, h3]; omega), if_pos (by rw [h6]; omega)]
    dsimp only
    rw [h7]
    exact ⟨by omega, rfl⟩
  refine ⟨?_, ha⟩
  unfold PlayTick
  rw [if_neg (by rw [h1]; exact fun k => k rfl), if_pos (by rw [h4, h5]; omega),
    if_pos (by rw [ha.1])]

/-- A song of empty slots carries none of the effects 11, 13 and 15. -/
theorem silentSong_plain (m : TModule) (h : silentSong m) : plainSong m := by
  intro p hp pat hpat r c
  obtain ⟨pat2, h2, hall⟩ := h p hp
  rw [hpat] at h2
  cases h2
  obtain ⟨_, _, he, _⟩ := hall r c
  rw [he]
  exact ⟨by norm_num, by norm_num, by norm_num⟩

/-- Inside a song of empty slots the slot read exists and is empty. -/
theorem silent_currentSlot (m : TModule) (mp : TModPlay) (ch : Fin 4) (h : silentSong m)
    (hL : m.Songlength ≤ 128) (hs0 : 0 ≤ mp.songpos) (hs1 : mp.songpos < (m.Songlength : Int))
    (hr0 : 0 ≤ mp.patrow) (hr1 : mp.patrow < 64) :
    ∃ chd, currentSlot m mp ch = .ok chd ∧ chd.Samplenumber = 0 ∧ chd.Noteperiod = 0 ∧
      chd.Effect = 0 ∧ chd.EffectArg = 0 := by
  have h128 : mp.songpos.toNat < 128 := by omega
  obtain ⟨pat, hpat, hall⟩ := h ⟨mp.songpos.toNat, h128⟩ (by dsimp only; omega)
  have h64 : mp.patrow.toNat < 64 := by omega
  refine ⟨(pat.row ⟨mp.patrow.toNat, h64⟩).chan ch, ?_, hall _ ch⟩
  unfold currentSlot
  rw [if_neg (by omega), dif_pos h128, hpat]
  dsimp only
  rw [if_neg (by omega), dif_pos h64]

/-- Inside a song of empty slots the processing of a channel changes nothing. -/
theorem silent_processChannel (sz rnd : Nat) (m : TModule) (mp : TModPlay) (ch : Fin 4)
    (h : silentSong m) (hL : m.Songlength ≤ 128) (hs0 : 0 ≤ mp.songpos)
    (hs1 : mp.songpos < (m.Songlength : Int)) (hr0 : 0 ≤ mp.patrow) (hr1 : mp.patrow < 64) :
    processChannel sz rnd m mp ch = .ok (m, mp) := by
  obtain ⟨chd, hc, a1, a2, a3, a4⟩ := silent_currentSlot m mp ch h hL hs0 hs1 hr0 hr1
  have hpe : ∀ mp1 : TModPlay, ProcessEffect sz rnd chd m mp1 ch = .ok (m, mp1) := by
    intro mp1
    simp [ProcessEffect, a3, DoArpeggio_00, a4]
  have hrow : rowSetup sz m mp chd (mp.chan ch) = .ok (mp.chan ch) := by
    simp [rowSetup, bindSample, triggerNote, a1, a2]
  unfold processChannel
  rw [hc]
  dsimp only
  rw [hrow]
  dsimp only
  rw [setChan_self, hpe]
  split_ifs <;> rfl

/-- Inside a song of empty slots the channel loop changes nothing. -/
theorem silent_processChannels (sz : Nat) (rnd : Fin 4 → Nat) (m : TModule) (mp : TModPlay)
    (h : silentSong m) (hL : m.Songlength ≤ 128) (hs0 : 0 ≤ mp.songpos)
    (hs1 : mp.songpos < (m.Songlength : Int)) (hr0 : 0 ≤ mp.patrow) (hr1 : mp.patrow < 64) :
    processChannels sz rnd m mp = .ok (m, mp) := by
  unfold processChannels
  simp only [silent_processChannel sz _ m mp _ h hL hs0 hs1 hr0 hr1]

/-- With no sample bound the mixing loop returns a block and leaves the
channels as they are, provided the block fits `sbuffer`. -/
theorem mixLoop_unbound (sz : Nat) (m : TModule) (cs : Fin 4 → TChanPlay)
    (h : ∀ ch, (cs ch).sample = none) :
    ∀ (n i : Nat), n + i ≤ 44100 → ∃ buf, mixLoop sz m n i cs = .ok (cs, buf) := by
  have hm : ∀ ch, mixChannel sz m (cs ch) = .ok (cs ch, 0) := by
    intro ch
    unfold mixChannel
    rw [h ch]
  have hs : ∃ b, mixSample sz m cs = .ok (cs, b) := by
    refine ⟨u8 (128 + Int.tdiv (0 + 0 + 0 + 0 + 0) (4 * 64)), ?_⟩
    unfold mixSample
    simp only [hm]
    simp only [Function.update_eq_self]
  obtain ⟨b, hb⟩ := hs
  intro n
  induction n with
  | zero => intro i _; exact ⟨[], rfl⟩
  | succ n ih =>
    intro i hi
    obtain ⟨rest, e2⟩ := ih (i + 1) (by omega)
    refine ⟨b :: rest, ?_⟩
    simp only [mixLoop, hb]
    rw [if_neg (by omega)]
    simp only [e2]

/-- Inside a song of empty slots, with no sample bound and a block that fits
`sbuffer`, the part of `PlayTick` after the row advance returns; the module
is unchanged, no sample gets bound and the block length is kept. -/
theorem silent_tickBody (sz : Nat) (rnd : Fin 4 → Nat) (m : TModule) (mp : TModPlay)
    (h : silentSong m) (hL : m.Songlength ≤ 128) (hs0 : 0 ≤ mp.songpos)
    (hs1 : mp.songpos < (m.Songlength : Int)) (hr0 : 0 ≤ mp.patrow) (hr1 : mp.patrow < 64)
    (hu : ∀ ch, (mp.chan ch).sample = none) (hb : mp.tambufplay ≤ 44100) :
    ∃ r, tickBody sz rnd m mp = .ok r ∧ r.mod = m ∧
      (∀ ch, (r.mplay.chan ch).sample = none) ∧ r.mplay.tambufplay = mp.tambufplay := by
  have key : ∀ mp0 : TModPlay, mp0.songpos = mp.songpos → mp0.patrow = mp.patrow →
      mp0.chan = mp.chan → mp0.tambufplay = mp.tambufplay →
      ∃ r, (match processChannels sz rnd m mp0 with
          | .error e => (.error e : Except Fault TickResult)
          | .ok (m1, mp1) =>
            match mixLoop sz m1 mp1.tambufplay 0 mp1.chan with
            | .error e => .error e
            | .ok (cs, buf) =>
              .ok { mod := m1
                    mplay := { mp1 with chan := cs, tick := mp1.tick + 1 }
                    audio := some buf }) = .ok r ∧ r.mod = m ∧
        (∀ ch, (r.mplay.chan ch).sample = none) ∧ r.mplay.tambufplay = mp.tambufplay := by
    intro mp0 e1 e2 e3 e4
    rw [silent_processChannels sz rnd m mp0 h hL (by rw [e1]; exact hs0)
      (by rw [e1]; exact hs1) (by rw [e2]; exact hr0) (by rw [e2]; exact hr1)]
    dsimp only
    obtain ⟨buf, hbuf⟩ := mixLoop_unbound sz m mp0.chan (by rw [e3]; exact hu)
      mp0.tambufplay 0 (by rw [e4]; omega)
    rw [hbuf]
    exact ⟨_, rfl, rfl, by dsimp only; rw [e3]; exact hu, e4⟩
  unfold tickBody
  dsimp only
  split_ifs
  · exact key _ rfl rfl rfl rfl
  · exact key _ rfl rfl rfl rfl

/-- Inside a song of empty slots, with no sample bound and a block that fits
`sbuffer`, a call of `PlayTick` on the schedule returns. -/
theorem silent_PlayTick (sz : Nat) (rnd : Fin 4 → Nat) (m : TModule) (mp : TModPlay)
    (n : Nat) (hn : n < 384 * m.Songlength) (h : silentSong m) (hL : m.Songlength ≤ 128)
    (hsch : scheduleAt n mp) (hu : ∀ ch, (mp.chan ch).sample = none)
    (hb : mp.tambufplay ≤ 44100) :
    ∃ r, PlayTick sz rnd m mp = .ok r ∧ r.mod = m ∧
      (∀ ch, (r.mplay.chan ch).sample = none) ∧ r.mplay.tambufplay = mp.tambufplay := by
  have hadv := sched_advanceRow mp n hsch
  obtain ⟨h1, h2, h3, h4, h5, h6, h7⟩ := hsch
  unfold PlayTick
  rw [if_neg (by rw [h1]; exact fun k => k rfl)]
  by_cases ht : mp.tick ≥ mp.ticksperdiv
  · rw [if_pos ht]
    obtain ⟨hn0, a1, a2, a3, a4, a5, a6, a7, a8⟩ := hadv ht
    rw [if_neg (by rw [a7]; omega)]
    obtain ⟨r, e, k1, k2, k3⟩ := silent_tickBody sz rnd m (advanceRow mp) h hL
      (by rw [a7]; omega) (by rw [a7]; omega) (by rw [a6]; omega) (by rw [a6]; omega)
      (by rw [advanceRow_chan]; exact hu) (by rw [a8]; exact hb)
    exact ⟨r, e, k1, k2, k3.trans a8⟩
  · rw [if_neg ht]
    exact silent_tickBody sz rnd m mp h hL (by rw [h7]; omega) (by rw [h7]; omega)
      (by rw [h6]; omega) (by rw [h6]; omega) hu hb

/-- Inside a song of empty slots, with no sample bound and a block that fits
`sbuffer`, every run of calls of `PlayTick` that stays inside the song
returns, with the module unchanged. -/
theorem silent_runTicks (sz : Nat) (m : TModule) (h : silentSong m)
    (hL : m.Songlength ≤ 128) :
    ∀ (rnds : List (Fin 4 → Nat)) (mp : TModPlay) (n : Nat),
      n + rnds.length ≤ 384 * m.Songlength → scheduleAt n mp →
      (∀ ch, (mp.chan ch).sample = none) → mp.tambufplay ≤ 44100 →
      ∃ mp2 bufs, runTicks sz m mp rnds = .ok (m, mp2, bufs) := by
  intro rnds
  induction rnds with
  | nil =>
    intro mp n _ _ _ _
    exact ⟨mp, [], rfl⟩
  | cons rnd rest ih =>
    intro mp n hn hsch hu hb
    rw [List.length_cons] at hn
    obtain ⟨r, e, k1, k2, k3⟩ := silent_PlayTick sz rnd m mp n (by omega) h hL hsch hu hb
    obtain ⟨_, _, s1⟩ := sched_PlayTick sz rnd m mp r n (by omega) (silentSong_plain m h) hsch e
    obtain ⟨mp2, bufs, e2⟩ := ih r.mplay (n + 1) (by omega) s1 k2 (by rw [k3]; exact hb)
    unfold runTicks
    rw [e]
    dsimp only
    rw [k1, e2]
    exact ⟨_, _, rfl⟩

/-- Storing a channel that meets `chanVol` keeps the invariant. -/
theorem vol_setChan (mp : TModPlay) (ch : Fin 4) (c : TChanPlay)
    (h : volInv mp) (hc : chanVol c) : volInv (mp.setChan ch c) := by
  refine ⟨h.1, h.2.1, fun c2 => ?_⟩
  by_cases e : c2 = ch
  · subst e; rw [setChan_same]; exact hc
  · rw [setChan_other _ _ _ _ e]; exact h.2.2 c2

/-- The invariant reads the tremolo waveform selector and the channels only. -/
theorem volInv_of_eq (mp mp2 : TModPlay) (h : volInv mp) (e1 : mp2.trwave = mp.trwave)
    (e2 : mp2.chan = mp.chan) : volInv mp2 := by
  unfold volInv
  rw [e1, e2]
  exact h

/-- `DoArpeggio_00` keeps the ranges of the volume and tremolo fields. -/
theorem vol_Arpeggio (sz : Nat) (chd : TChannelData) (mp mp2 : TModPlay) (ch : Fin 4)
    (h : volInv mp) (e : DoArpeggio_00 sz chd mp ch = .ok mp2) : volInv mp2 := by
  unfold DoArpeggio_00 at e
  dsimp only at e
  (repeat' split at e) <;>
    first
    | (cases e; done)
    | (cases e
       first
      | exact h
      | exact vol_setChan mp ch _ h (by have hc := h.2.2 ch; unfold chanVol at hc ⊢; dsimp only [u8]; omega))

/-- `DoSlideUp_01` keeps the ranges of the volume and tremolo fields. -/
theorem vol_SlideUp (sz : Nat) (chd : TChannelData) (mp mp2 : TModPlay) (ch : Fin 4)
    (h : volInv mp) (e : DoSlideUp_01 sz chd mp ch = .ok mp2) : volInv mp2 := by
  unfold DoSlideUp_01 at e
  dsimp only at e
  (repeat' split at e) <;>
    first
    | (cases e; done)
    | (cases e
       first
      | exact h
      | exact vol_setChan mp ch _ h (by have hc := h.2.2 ch; unfold chanVol at hc ⊢; dsimp only [u8]; omega))

/-- `DoSlideDown_02` keeps the ranges of the volume and tremolo fields. -/
theorem vol_SlideDown (sz : Nat) (chd : TChannelData) (mp mp2 : TModPlay) (ch : Fin 4)
    (h : volInv mp) (e : DoSlideDown_02 sz chd mp ch = .ok mp2) : volInv mp2 := by
  unfold DoSlideDown_02 at e
  dsimp only at e
  (repeat' split at e) <;>
    first
    | (cases e; done)
    | (cases e
       first
      | exact h
      | exact vol_setChan mp ch _ h (by have hc := h.2.2 ch; unfold chanVol at hc ⊢; dsimp only [u8]; omega))

/-- `DoSlideToNote_03` keeps the ranges of the volume and tremolo fields. -/
theorem vol_SlideToNote (sz : Nat) (chd : TChannelData) (mp mp2 : TModPlay) (ch : Fin 4)
    (h : volInv mp) (e : DoSlideToNote_03 sz chd mp ch = .ok mp2) : volInv mp2 := by
  unfold DoSlideToNote_03 at e
  dsimp only at e
  (repeat' split at e) <;>
    first
    | (cases e; done)
    | (cases e
       first
      | exact h
      | exact vol_setChan mp ch _ h (by have hc := h.2.2 ch; unfold chanVol at hc ⊢; dsimp only [u8]; omega))

/-- `DoVibrato_04` keeps the ranges of the volume and tremolo fields. -/
theorem vol_Vibrato (sz : Nat) (chd : TChannelData) (mp mp2 : TModPlay) (ch : Fin 4)
    (h : volInv mp) (e : DoVibrato_04 sz chd mp ch = .ok mp2) : volInv mp2 := by
  unfold DoVibrato_04 at e
  dsimp only at e
  (repeat' split at e) <;>
    first
    | (cases e; done)
    | (cases e
       first
      | exact h
      | exact vol_setChan mp ch _ h (by have hc := h.2.2 ch; unfold chanVol at hc ⊢; dsimp only [u8]; omega))

/-- `DoTremolo_07` keeps the ranges of the volume and tremolo fields. -/
theorem vol_Tremolo (chd : TChannelData) (mp mp2 : TModPlay) (ch : Fin 4)
    (h : volInv mp) (e : DoTremolo_07 chd mp ch = .ok mp2) : volInv mp2 := by
  unfold DoTremolo_07 at e
  dsimp only at e
  (repeat' split at e) <;>
    first
    | (cases e; done)
    | (cases e
       first
      | exact h
      | exact vol_setChan mp ch _ h (by have hc := h.2.2 ch; unfold chanVol at hc ⊢; dsimp only [u8]; omega))

/-- `DoDelayNote_14_13` keeps the ranges of the volume and tremolo fields. -/
theorem vol_DelayNote (sz : Nat) (chd : TChannelData) (mp mp2 : TModPlay) (ch : Fin 4)
    (h : volInv mp) (e : DoDelayNote_14_13 sz chd mp ch = .ok mp2) : volInv mp2 := by
  unfold DoDelayNote_14_13 at e
  dsimp only at e
  (repeat' split at e) <;>
    first
    | (cases e; done)
    | (cases e
       first
      | exact h
      | exact vol_setChan mp ch _ h (by have hc := h.2.2 ch; unfold chanVol at hc ⊢; dsimp only [u8]; omega))

/-- `DoVolumeSlide_10` keeps the ranges of the volume and tremolo fields. -/
theorem vol_VolumeSlide (chd : TChannelData) (mp : TModPlay) (ch : Fin 4)
    (h : volInv mp) : volInv (DoVolumeSlide_10 chd mp ch) := by
  unfold DoVolumeSlide_10
  dsimp only
  (repeat' split) <;>
    first
      | exact h
      | exact vol_setChan mp ch _ h (by have hc := h.2.2 ch; unfold chanVol at hc ⊢; dsimp only [u8]; omega)

/-- `DoVolume_12` keeps the ranges of the volume and tremolo fields. -/
theorem vol_Volume (chd : TChannelData) (mp : TModPlay) (ch : Fin 4) (ha : chd.EffectArg < 256)
    (h : volInv mp) : volInv (DoVolume_12 chd mp ch) := by
  unfold DoVolume_12
  dsimp only
  (repeat' split) <;>
    first
      | exact h
      | exact vol_setChan mp ch _ h (by have hc := h.2.2 ch; unfold chanVol at hc ⊢; dsimp only [u8]; omega)

/-- `DoSampleOffset_09` keeps the ranges of the volume and tremolo fields. -/
theorem vol_SampleOffset (sz : Nat) (chd : TChannelData) (mp : TModPlay) (ch : Fin 4)
    (h : volInv mp) : volInv (DoSampleOffset_09 sz chd mp ch) := by
  unfold DoSampleOffset_09
  dsimp only
  (repeat' split) <;>
    first
      | exact h
      | exact vol_setChan mp ch _ h (by have hc := h.2.2 ch; unfold chanVol at hc ⊢; dsimp only [u8]; omega)

/-- `DoNoteRetrig_14_09` keeps the ranges of the volume and tremolo fields. -/
theorem vol_NoteRetrig (chd : TChannelData) (mp : TModPlay) (ch : Fin 4)
    (h : volInv mp) : volInv (DoNoteRetrig_14_09 chd mp ch) := by
  unfold DoNoteRetrig_14_09
  dsimp only
  (repeat' split) <;>
    first
      | exact h
      | exact vol_setChan mp ch _ h (by have hc := h.2.2 ch; unfold chanVol at hc ⊢; dsimp only [u8]; omega)

/-- `DoFineVolumeSlideUp_14_10` keeps the ranges of the volume and tremolo fields. -/
theorem vol_FineVolumeSlideUp (chd : TChannelData) (mp : TModPlay) (ch : Fin 4)
    (h : volInv mp) : volInv (DoFineVolumeSlideUp_14_10 chd mp ch) := by
  unfold DoFineVolumeSlideUp_14_10
  dsimp only
  (repeat' split) <;>
    first
      | exact h
      | exact vol_setChan mp ch _ h (by have hc := h.2.2 ch; unfold chanVol at hc ⊢; dsimp only [u8]; omega)

/-- `DoFineVolumeSlideDown_14_11` keeps the ranges of the volume and tremolo fields. -/
theorem vol_FineVolumeSlideDown (chd : TChannelData) (mp : TModPlay) (ch : Fin 4)
    (h : volInv mp) : volInv (DoFineVolumeSlideDown_14_11 chd mp ch) := by
  unfold DoFineVolumeSlideDown_14_11
  dsimp only
  (repeat' split) <;>
    first
      | exact h
      | exact vol_setChan mp ch _ h (by have hc := h.2.2 ch; unfold chanVol at hc ⊢; dsimp only [u8]; omega)

/-- `DoCutNote_14_12` keeps the ranges of the volume and tremolo fields. -/
theorem vol_CutNote (chd : TChannelData) (mp : TModPlay) (ch : Fin 4)
    (h : volInv mp) : volInv (DoCutNote_14_12 chd mp ch) := by
  unfold DoCutNote_14_12
  dsimp only
  (repeat' split) <;>
    first
      | exact h
      | exact vol_setChan mp ch _ h (by have hc := h.2.2 ch; unfold chanVol at hc ⊢; dsimp only [u8]; omega)
/-- `DoSlideToNoteAndVolumeSlide_05` keeps the ranges of the volume and tremolo
fields. -/
theorem vol_SlideToNoteAndVolumeSlide (sz : Nat) (chd : TChannelData) (mp mp2 : TModPlay)
    (ch : Fin 4) (h : volInv mp)
    (e : DoSlideToNoteAndVolumeSlide_05 sz chd mp ch = .ok mp2) : volInv mp2 := by
  unfold DoSlideToNoteAndVolumeSlide_05 at e
  dsimp only at e
  split at e
  · cases e
  · rename_i mp1 h1
    cases e
    apply vol_VolumeSlide
    by_cases ht : mp.tick = 0
    · rw [if_pos ht] at h1
      by_cases hn : chd.Noteperiod ≠ 0
      · rw [if_pos hn] at h1
        split at h1
        · cases h1
        · cases h1
          exact vol_setChan mp ch _ h (h.2.2 ch)
      · rw [if_neg hn] at h1
        cases h1; exact h
    · rw [if_neg ht] at h1
      exact vol_SlideToNote sz chd mp mp1 ch h h1

/-- `DoVibratoAndVolumeSlide_06` keeps the ranges of the volume and tremolo
fields. -/
theorem vol_VibratoAndVolumeSlide (sz : Nat) (chd : TChannelData) (mp mp2 : TModPlay)
    (ch : Fin 4) (h : volInv mp)
    (e : DoVibratoAndVolumeSlide_06 sz chd mp ch = .ok mp2) : volInv mp2 := by
  unfold DoVibratoAndVolumeSlide_06 at e
  dsimp only at e
  split at e
  · cases e
  · rename_i mp1 h1
    cases e
    apply vol_VolumeSlide
    by_cases ht : mp.tick = 0
    · rw [if_pos ht] at h1
      by_cases hv : mp.vbretrig = 1
      · rw [if_pos hv] at h1
        cases h1; exact vol_setChan mp ch _ h (h.2.2 ch)
      · rw [if_neg hv] at h1
        cases h1; exact h
    · rw [if_neg ht] at h1
      exact vol_Vibrato sz chd mp mp1 ch h h1

/-- `DoFineSlideUp_14_01` keeps the ranges of the volume and tremolo fields. -/
theorem vol_FineSlideUp (sz : Nat) (chd : TChannelData) (mp mp2 : TModPlay) (ch : Fin 4)
    (h : volInv mp) (e : DoFineSlideUp_14_01 sz chd mp ch = .ok mp2) : volInv mp2 := by
  unfold DoFineSlideUp_14_01 at e
  dsimp only at e
  by_cases ht : mp.tick = 0
  · rw [if_pos ht] at e
    split at e
    · cases e
    · rename_i mp3 h3
      cases e
      have h1 : volInv { mp with tick := 1 } := volInv_of_eq mp _ h rfl rfl
      have h2 := vol_setChan { mp with tick := 1 } ch
        { ({ mp with tick := 1 } : TModPlay).chan ch with
          pslide := ((chd.EffectArg % 16 : Nat) : Int) } h1 (h.2.2 ch)
      exact volInv_of_eq mp3 _ (vol_SlideUp sz chd _ mp3 ch h2 h3) rfl rfl
  · rw [if_neg ht] at e
    cases e; exact h

/-- `DoFineSlideDown_14_02` keeps the ranges of the volume and tremolo fields. -/
theorem vol_FineSlideDown (sz : Nat) (chd : TChannelData) (mp mp2 : TModPlay) (ch : Fin 4)
    (h : volInv mp) (e : DoFineSlideDown_14_02 sz chd mp ch = .ok mp2) : volInv mp2 := by
  unfold DoFineSlideDown_14_02 at e
  dsimp only at e
  by_cases ht : mp.tick = 0
  · rw [if_pos ht] at e
    split at e
    · cases e
    · rename_i mp3 h3
      cases e
      have h1 : volInv { mp with tick := 1 } := volInv_of_eq mp _ h rfl rfl
      have h2 := vol_setChan { mp with tick := 1 } ch
        { ({ mp with tick := 1 } : TModPlay).chan ch with
          pslide := ((chd.EffectArg % 16 : Nat) : Int) } h1 (h.2.2 ch)
      exact volInv_of_eq mp3 _ (vol_SlideDown sz chd _ mp3 ch h2 h3) rfl rfl
  · rw [if_neg ht] at e
    cases e; exact h

/-- The effects 11, 13, 14.4 and 15 keep the ranges of the volume and tremolo
fields; effect 14.7 stores a tremolo waveform selector of 0, 1 or 2. -/
theorem vol_global (sz rnd : Nat) (chd : TChannelData) (mp : TModPlay) (h : volInv mp) :
    volInv (DoJumpSongposition_11 chd mp) ∧ volInv (DoPatternBreak_13 chd mp) ∧
    volInv (DoSetSpeedBPM_15 sz chd mp) ∧ volInv (DoSetVibratoWaveform_14_04 rnd chd mp) ∧
    volInv (DoSetTremoloWaveform_14_07 rnd chd mp) := by
  refine ⟨?_, ?_, ?_, ?_, ?_⟩
  · exact volInv_of_eq mp _ h (by unfold DoJumpSongposition_11; split_ifs <;> rfl)
      (by unfold DoJumpSongposition_11; split_ifs <;> rfl)
  · exact volInv_of_eq mp _ h (by unfold DoPatternBreak_13; split_ifs <;> rfl)
      (by unfold DoPatternBreak_13; split_ifs <;> rfl)
  · exact volInv_of_eq mp _ h (by unfold DoSetSpeedBPM_15; split_ifs <;> rfl)
      (by unfold DoSetSpeedBPM_15; split_ifs <;> rfl)
  · exact volInv_of_eq mp _ h rfl rfl
  · refine ⟨?_, ?_, h.2.2⟩
    · unfold DoSetTremoloWaveform_14_07
      dsimp only
      split_ifs <;> omega
    · unfold DoSetTremoloWaveform_14_07
      dsimp only
      split_ifs <;> omega

/-- `ProcessEffect` with a byte argument keeps the ranges of the volume and
tremolo fields. -/
theorem vol_ProcessEffect (sz rnd : Nat) (chd : TChannelData) (m m2 : TModule)
    (mp mp2 : TModPlay) (ch : Fin 4) (ha : chd.EffectArg < 256) (h : volInv mp)
    (e : ProcessEffect sz rnd chd m mp ch = .ok (m2, mp2)) : volInv mp2 := by
  have keep : ∀ r : Except Fault TModPlay,
      (match r with
        | .error e => (.error e : Except Fault (TModule × TModPlay))
        | .ok mp1 => .ok (m, mp1)) = .ok (m2, mp2) →
      (∀ mp1, r = .ok mp1 → volInv mp1) → volInv mp2 := by
    intro r hr hk
    cases r with
    | error x => cases hr
    | ok mp1 => cases hr; exact hk _ rfl
  obtain ⟨g11, g13, g15, g4, g7⟩ := vol_global sz rnd chd mp h
  unfold ProcessEffect at e
  dsimp only at e
  by_cases c0 : chd.Effect = 0
  · rw [if_pos c0] at e
    exact keep _ e (fun mp1 h1 => vol_Arpeggio sz chd mp mp1 ch h h1)
  rw [if_neg c0] at e
  by_cases c1 : chd.Effect = 1
  · rw [if_pos c1] at e
    exact keep _ e (fun mp1 h1 => vol_SlideUp sz chd mp mp1 ch h h1)
  rw [if_neg c1] at e
  by_cases c2 : chd.Effect = 2
  · rw [if_pos c2] at e
    exact keep _ e (fun mp1 h1 => vol_SlideDown sz chd mp mp1 ch h h1)
  rw [if_neg c2] at e
  by_cases c3 : chd.Effect = 3
  · rw [if_pos c3] at e
    exact keep _ e (fun mp1 h1 => vol_SlideToNote sz chd mp mp1 ch h h1)
  rw [if_neg c3] at e
  by_cases c4 : chd.Effect = 4
  · rw [if_pos c4] at e
    exact keep _ e (fun mp1 h1 => vol_Vibrato sz chd mp mp1 ch h h1)
  rw [if_neg c4] at e
  by_cases c5 : chd.Effect = 5
  · rw [if_pos c5] at e
    exact keep _ e (fun mp1 h1 => vol_SlideToNoteAndVolumeSlide sz chd mp mp1 ch h h1)
  rw [if_neg c5] at e
  by_cases c6 : chd.Effect = 6
  · rw [if_pos c6] at e
    exact keep _ e (fun mp1 h1 => vol_VibratoAndVolumeSlide sz chd mp mp1 ch h h1)
  rw [if_neg c6] at e
  by_cases c7 : chd.Effect = 7
  · rw [if_pos c7] at e
    exact keep _ e (fun mp1 h1 => vol_Tremolo chd mp mp1 ch h h1)
  rw [if_neg c7] at e
  by_cases c9 : chd.Effect = 9
  · rw [if_pos c9] at e
    cases e; exact vol_SampleOffset sz chd mp ch h
  rw [if_neg c9] at e
  by_cases c10 : chd.Effect = 10
  · rw [if_pos c10] at e
    cases e; exact vol_VolumeSlide chd mp ch h
  rw [if_neg c10] at e
  by_cases c11 : chd.Effect = 11
  · rw [if_pos c11] at e
    cases e; exact g11
  rw [if_neg c11] at e
  by_cases c12 : chd.Effect = 12
  · rw [if_pos c12] at e
    cases e; exact vol_Volume chd mp ch ha h
  rw [if_neg c12] at e
  by_cases c13 : chd.Effect = 13
  · rw [if_pos c13] at e
    cases e; exact g13
  rw [if_neg c13] at e
  by_cases c14 : chd.Effect = 14
  · rw [if_pos c14] at e
    by_cases s1 : chd.EffectArg / 16 % 16 = 1
    · rw [if_pos s1] at e
      exact keep _ e (fun mp1 h1 => vol_FineSlideUp sz chd mp mp1 ch h h1)
    rw [if_neg s1] at e
    by_cases s2 : chd.EffectArg / 16 % 16 = 2
    · rw [if_pos s2] at e
      exact keep _ e (fun mp1 h1 => vol_FineSlideDown sz chd mp mp1 ch h h1)
    rw [if_neg s2] at e
    by_cases s4 : chd.EffectArg / 16 % 16 = 4
    · rw [if_pos s4] at e
      cases e; exact g4
    rw [if_neg s4] at e
    by_cases s5 : chd.EffectArg / 16 % 16 = 5
    · rw [if_pos s5] at e
      split at e
      · cases e
      · cases e; exact h
    rw [if_neg s5] at e
    by_cases s7 : chd.EffectArg / 16 % 16 = 7
    · rw [if_pos s7] at e
      cases e; exact g7
    rw [if_neg s7] at e
    by_cases s9 : chd.EffectArg / 16 % 16 = 9
    · rw [if_pos s9] at e
      cases e; exact vol_NoteRetrig chd mp ch h
    rw [if_neg s9] at e
    by_cases s10 : chd.EffectArg / 16 % 16 = 10
    · rw [if_pos s10] at e
      cases e; exact vol_FineVolumeSlideUp chd mp ch h
    rw [if_neg s10] at e
    by_cases s11 : chd.EffectArg / 16 % 16 = 11
    · rw [if_pos s11] at e
      cases e; exact vol_FineVolumeSlideDown chd mp ch h
    rw [if_neg s11] at e
    by_cases s12 : chd.EffectArg / 16 % 16 = 12
    · rw [if_pos s12] at e
      cases e; exact vol_CutNote chd mp ch h
    rw [if_neg s12] at e
    by_cases s13 : chd.EffectArg / 16 % 16 = 13
    · rw [if_pos s13] at e
      exact keep _ e (fun mp1 h1 => vol_DelayNote sz chd mp mp1 ch h h1)
    rw [if_neg s13] at e
    cases e; exact h
  rw [if_neg c14] at e
  by_cases c15 : chd.Effect = 15
  · rw [if_pos c15] at e
    cases e; exact g15
  rw [if_neg c15] at e
  cases e; exact h

/-- The condition on the sample volumes is kept with the song data. -/
theorem sampleBytes_of_same (m m2 : TModule) (h : sampleBytes m) (e : sameModule m m2) :
    sampleBytes m2 := by
  intro k
  rw [(e.2.2.2 k).2]
  exact h k

/-- Row setup keeps the ranges of the volume and tremolo fields: a new sample
stores its volume, a byte. -/
theorem rowSetup_chanVol (sz : Nat) (m : TModule) (mp : TModPlay) (chd : TChannelData)
    (c c2 : TChanPlay) (hv : sampleBytes m) (hc : chanVol c)
    (e : rowSetup sz m mp chd c = .ok c2) : chanVol c2 := by
  unfold rowSetup at e
  split at e
  · cases e
  · rename_i c1 h1
    have hc1 : chanVol c1 := by
      unfold bindSample at h1
      split_ifs at h1 with a b
      · cases h1
        have := hv ⟨chd.Samplenumber - 1, b⟩
        unfold chanVol at hc ⊢
        dsimp only
        omega
      · cases h1; exact hc
    unfold triggerNote at e
    split_ifs at e
    · split at e
      · cases e
      · split at e
        · cases e
        · cases e
          exact hc1
    · cases e; exact hc1

/-- One channel of the channel loop keeps the ranges of the volume and tremolo
fields. -/
theorem vol_processChannel (sz rnd : Nat) (m m2 : TModule) (mp mp2 : TModPlay) (ch : Fin 4)
    (hb : slotBytes m) (hv : sampleBytes m) (h : volInv mp)
    (e : processChannel sz rnd m mp ch = .ok (m2, mp2)) : volInv mp2 := by
  unfold processChannel at e
  split at e
  · cases e
  · rename_i chd hs
    have ha := currentSlot_arg m mp ch chd hb hs
    split_ifs at e
    · split at e
      · cases e
      · rename_i c hc
        exact vol_ProcessEffect sz rnd chd m m2 _ mp2 ch ha
          (vol_setChan mp ch c h (rowSetup_chanVol sz m mp chd _ c hv (h.2.2 ch) hc)) e
    · exact vol_ProcessEffect sz rnd chd m m2 mp mp2 ch ha h e

/-- The channel loop keeps the ranges of the volume and tremolo fields. -/
theorem vol_processChannels (sz : Nat) (rnd : Fin 4 → Nat) (m m2 : TModule)
    (mp mp2 : TModPlay) (hb : slotBytes m) (hv : sampleBytes m) (h : volInv mp)
    (e : processChannels sz rnd m mp = .ok (m2, mp2)) : volInv mp2 := by
  unfold processChannels at e
  split at e
  · cases e
  · rename_i ma mpa ea
    have sa := (frame_processChannel sz _ m ma mp mpa 0 ea).1
    have ia := vol_processChannel sz _ m ma mp mpa 0 hb hv h ea
    split at e
    · cases e
    · rename_i mb mpb eb
      have sb := sameModule_trans _ _ _ sa (frame_processChannel sz _ ma mb mpa mpb 1 eb).1
      have ib := vol_processChannel sz _ ma mb mpa mpb 1 (slotBytes_of_eq m ma hb sa.1)
        (sampleBytes_of_same m ma hv sa) ia eb
      split at e
      · cases e
      · rename_i mc mpc ec
        have sc := sameModule_trans _ _ _ sb (frame_processChannel sz _ mb mc mpb mpc 2 ec).1
        have ic := vol_processChannel sz _ mb mc mpb mpc 2 (slotBytes_of_eq m mb hb sb.1)
          (sampleBytes_of_same m mb hv sb) ib ec
        exact vol_processChannel sz _ mc m2 mpc mp2 3 (slotBytes_of_eq m mc hb sc.1)
          (sampleBytes_of_same m mc hv sc) ic e

/-- A mixing pass of one channel leaves the volume and tremolo fields alone. -/
theorem mixChannel_chanVol (sz : Nat) (m : TModule) (c c2 : TChanPlay) (x : Int)
    (hc : chanVol c) (e : mixChannel sz m c = .ok (c2, x)) : chanVol c2 := by
  unfold mixChannel at e
  split at e
  · cases e; exact hc
  · split at e
    · cases e; exact hc
    · split at e
      · cases e
      · dsimp only at e
        split_ifs at e <;> (cases e; exact hc)

/-- A mixing pass leaves the volume and tremolo fields of the four channels
alone. -/
theorem mixSample_chanVol (sz : Nat) (m : TModule) (cs cs2 : Fin 4 → TChanPlay) (b : Nat)
    (hc : ∀ ch, chanVol (cs ch)) (e : mixSample sz m cs = .ok (cs2, b)) :
    ∀ ch, chanVol (cs2 ch) := by
  unfold mixSample at e
  split at e
  · cases e
  · rename_i c0 s0 e0
    split at e
    · cases e
    · rename_i c1 s1 e1
      split at e
      · cases e
      · rename_i c2 s2 e2
        split at e
        · cases e
        · rename_i c3 s3 e3
          cases e
          have k0 := mixChannel_chanVol sz m _ _ _ (hc 0) e0
          have k1 := mixChannel_chanVol sz m _ _ _ (hc 1) e1
          have k2 := mixChannel_chanVol sz m _ _ _ (hc 2) e2
          have k3 := mixChannel_chanVol sz m _ _ _ (hc 3) e3
          intro ch
          fin_cases ch <;> simp [Function.update] <;> assumption

/-- The mixing loop leaves the volume and tremolo fields of the four channels
alone. -/
theorem mixLoop_chanVol (sz : Nat) (m : TModule) :
    ∀ (n i : Nat) (cs cs2 : Fin 4 → TChanPlay) (buf : List Nat),
      (∀ ch, chanVol (cs ch)) → mixLoop sz m n i cs = .ok (cs2, buf) →
      ∀ ch, chanVol (cs2 ch) := by
  intro n
  induction n with
  | zero =>
    intro i cs cs2 buf hc e
    cases e; exact hc
  | succ n ih =>
    intro i cs cs2 buf hc e
    unfold mixLoop at e
    split at e
    · cases e
    · rename_i cs1 b e1
      split_ifs at e
      split at e
      · cases e
      · rename_i cs3 rest e3
        cases e
        exact ih (i + 1) cs1 _ rest (mixSample_chanVol sz m cs cs1 b hc e1) e3

/-- The part of `PlayTick` after the row advance keeps the ranges of the volume
and tremolo fields. -/
theorem vol_tickBody (sz : Nat) (rnd : Fin 4 → Nat) (m : TModule) (mp : TModPlay)
    (r : TickResult) (hb : slotBytes m) (hv : sampleBytes m) (h : volInv mp)
    (e : tickBody sz rnd m mp = .ok r) : volInv r.mplay := by
  unfold tickBody at e
  dsimp only at e
  have h0 : volInv (if mp.tick = 0 then { mp with newrow := 1 } else mp) := by
    split_ifs
    · exact volInv_of_eq mp _ h rfl rfl
    · exact h
  split at e
  · cases e
  · rename_i m1 mp1 e1
    have i1 := vol_processChannels sz rnd m m1 _ mp1 hb hv h0 e1
    split at e
    · cases e
    · rename_i cs buf e2
      cases e
      exact ⟨i1.1, i1.2.1, mixLoop_chanVol sz m1 _ _ _ _ _ i1.2.2 e2⟩

/-- `PlayTick` keeps the ranges of the volume and tremolo fields. -/
theorem vol_PlayTick (sz : Nat) (rnd : Fin 4 → Nat) (m : TModule) (mp : TModPlay)
    (r : TickResult) (hb : slotBytes m) (hv : sampleBytes m) (h : volInv mp)
    (e : PlayTick sz rnd m mp = .ok r) : volInv r.mplay ∧ sameModule m r.mod := by
  have ha : volInv (advanceRow mp) := by
    refine volInv_of_eq mp _ h ?_ (advanceRow_chan mp)
    unfold advanceRow
    dsimp only
    split_ifs <;> rfl
  unfold PlayTick at e
  by_cases hf : mp.finished ≠ 0
  · rw [if_pos hf] at e
    cases e; exact ⟨h, sameModule_refl m⟩
  rw [if_neg hf] at e
  by_cases ht : mp.tick ≥ mp.ticksperdiv
  · rw [if_pos ht] at e
    by_cases hs : (advanceRow mp).songpos ≥ (m.Songlength : Int)
    · rw [if_pos hs] at e
      cases e
      exact ⟨volInv_of_eq (advanceRow mp) _ ha rfl rfl, sameModule_refl m⟩
    · rw [if_neg hs] at e
      exact ⟨vol_tickBody sz rnd m _ r hb hv ha e, (frame_tickBody sz rnd m _ r e).1⟩
  · rw [if_neg ht] at e
    exact ⟨vol_tickBody sz rnd m mp r hb hv h e, (frame_tickBody sz rnd m mp r e).1⟩

/-- A sequence of calls of `PlayTick` keeps the ranges of the volume and
tremolo fields. -/
theorem vol_runTicks (sz : Nat) :
    ∀ (rnds : List (Fin 4 → Nat)) (m m2 : TModule) (mp mp2 : TModPlay) (bufs : List (List Nat)),
      slotBytes m → sampleBytes m → volInv mp → runTicks sz m mp rnds = .ok (m2, mp2, bufs) →
      volInv mp2 := by
  intro rnds
  induction rnds with
  | nil =>
    intro m m2 mp mp2 bufs _ _ h e
    cases e; exact h
  | cons rnd rest ih =>
    intro m m2 mp mp2 bufs hb hv h e
    unfold runTicks at e
    split at e
    · cases e
    · rename_i r e1
      obtain ⟨i1, p1⟩ := vol_PlayTick sz rnd m mp r hb hv h e1
      split at e
      · cases e
      · rename_i m3 mp3 bufs3 e3
        have i3 := ih r.mod m3 r.mplay mp3 bufs3 (slotBytes_of_eq m r.mod hb p1.1)
          (sampleBytes_of_same m r.mod hv p1) i1 e3
        cases e
        exact i3

/-- The state `BeginPlayMOD` establishes meets the ranges of the volume and
tremolo fields. -/
theorem vol_beginInit (sz sfreq : Nat) (mp : TModPlay) : volInv (beginInit sz sfreq mp) := by
  refine ⟨le_refl _, by norm_num [beginInit], fun ch => ?_⟩
  unfold chanVol beginInit zeroChan
  dsimp only
  omega

set_option maxRecDepth 100000 in
/-- With the tremolo selector in `0 .. 2` and a position below 64 the read of
`waveforms` is inside the table. -/
theorem waveLookup_total (t : Int) (pos : Nat) (h0 : 0 ≤ t) (h2 : t ≤ 2) (hp : pos < 64) :
    ∃ w, waveLookup t pos = .ok w := by
  have key : ∀ (k : Fin 3) (p : Fin 64),
      (waveLookup (k.val : Int) p.val).toOption.isSome = true := by
    decide!
  have hk := key ⟨t.toNat, by omega⟩ ⟨pos, hp⟩
  dsimp only at hk
  rw [Int.toNat_of_nonneg h0] at hk
  cases hw : waveLookup t pos with
  | error x => rw [hw] at hk; cases hk
  | ok w => exact ⟨w, rfl⟩

/-- A module `LoadMOD` returns holds bytes as effect arguments and as sample
volumes. -/
theorem loaded_bytes (f : TFile) (m : TModule) (h : LoadMOD_loops f = .ok m) :
    slotBytes m ∧ sampleBytes m := by
  obtain ⟨_, _, _, _, hs, _, _, hp, _⟩ := LoadMOD_loops_fields f m h
  have b1 : ∀ i, f.byteAt i < 256 := fun i => by
    unfold TFile.byteAt; exact (f.buffer i).isLt
  constructor
  · intro pat hpat r c
    rw [hp] at hpat
    obtain ⟨i, _, hi⟩ := List.mem_map.mp hpat
    rw [← hi]
    unfold loadPattern
    dsimp only
    rw [(loadSlot_fields f _).2.2.2]
    exact b1 _
  · intro k
    rw [hs k]
    have := b1 (20 + 30 * k.val + 25)
    unfold headerOf loadSampleHeader zeroSample
    dsimp only
    split_ifs <;> dsimp only <;> omega

/-- Where the position tracks the accumulator.  For a module `LoadMOD`
returns and a `size_t` of at least 32 bits, (1) a mixing pass of a channel
that fetches a sample leaves `position = faseacum >> 15`; (2) effect 9 at
tick 0 with an argument other than 0 stores `(arg * 256) << 15` into the
accumulator and changes nothing else, the position included; (3) the
processing of one channel whose slot is not such a sample offset keeps
`position = faseacum >> 15` on all channels; (4) if no slot of the module
is such a sample offset, after every run of `PlayTick` calls from the
state `BeginPlayMOD` establishes every channel has
`position = faseacum >> 15`, and so has every channel at the moment the
mixing loop of the next call starts. -/
theorem sync_reachable (sz : Nat) (f : TFile) (m : TModule)
    (hsz : 32 ≤ sz) (hl : LoadMOD_loops f = .ok m) :
    (∀ (c c2 : TChanPlay) (x : Int) (k : Fin 31) (data : List Nat),
      c.sample = some k → (m.sample k).Sampledata = some data →
      mixChannel sz m c = .ok (c2, x) → c2.position = c2.faseacum / 32768) ∧
    (∀ (rnd : Nat) (chd : TChannelData) (mp : TModPlay) (ch : Fin 4),
      chd.Effect = 9 → mp.tick = 0 → chd.EffectArg ≠ 0 →
      ProcessEffect sz rnd chd m mp ch
        = .ok (m, mp.setChan ch
            { mp.chan ch with faseacum := (chd.EffectArg * 256 * 32768) % 2 ^ sz })) ∧
    (∀ (rnd : Nat) (mp mp2 : TModPlay) (ch : Fin 4) (m2 : TModule) (chd : TChannelData),
      currentSlot m mp ch = .ok chd →
      ¬ (chd.Effect = 9 ∧ mp.tick = 0 ∧ chd.EffectArg ≠ 0) →
      processChannel sz rnd m mp ch = .ok (m2, mp2) →
      (∀ c, (mp.chan c).position = (mp.chan c).faseacum / 32768) →
      ∀ c, (mp2.chan c).position = (mp2.chan c).faseacum / 32768) ∧
    (noOffset m →
      ∀ (sfreq : Nat) (mp0 : TModPlay) (rnds : List (Fin 4 → Nat)) (m2 : TModule)
        (mp2 : TModPlay) (bufs : List (List Nat)),
        runTicks sz m (beginInit sz sfreq mp0) rnds = .ok (m2, mp2, bufs) →
        (∀ c, (mp2.chan c).position = (mp2.chan c).faseacum / 32768) ∧
        ∀ (rnd : Fin 4 → Nat) (mpx : TModPlay) (m3 : TModule) (mp3 : TModPlay),
          mpx.chan = mp2.chan → processChannels sz rnd m2 mpx = .ok (m3, mp3) →
          ∀ c, (mp3.chan c).position = (mp3.chan c).faseacum / 32768) := by
  have hrp := loaded_repeatFits sz f m hsz hl
  refine ⟨?_, ?_, ?_, ?_⟩
  · intro c c2 x k data hs hd e
    exact (mixChannel_sync sz m c c2 x hrp e).2 k data hs hd
  · intro rnd chd mp ch he ht ha
    simp only [ProcessEffect, he, DoSampleOffset_09, if_pos ht]
    norm_num [ha]
  · intro rnd mp mp2 ch m2 chd hs hn e h
    obtain ⟨_, chd2, hs2, k2, _⟩ := frame_processChannel sz rnd m m2 mp mp2 ch e
    rw [hs] at hs2
    cases hs2
    exact k2 hn h
  · intro hno sfreq mp0 rnds m2 mp2 bufs e
    obtain ⟨k1, k2⟩ := sync_runTicks sz rnds m m2 _ mp2 bufs hno hrp
      (fun _ => chanSync_zero _ rfl rfl) e
    refine ⟨k2, ?_⟩
    intro rnd mpx m3 mp3 hx e3
    exact (frame_processChannels sz rnd m2 m3 mpx mp3 e3).2.1 (noOffset_of_same m m2 hno k1)
      (by rw [hx]; exact k2)

set_option maxRecDepth 100000 in
/-- An instance of `sync_reachable`: `fileNote` loads, none of its slots is a
sample offset, the first seven calls of `PlayTick` return, and the state
they leave has `position = faseacum >> 15` on the four channels. -/
theorem sync_reachable_fileNote :
    (∃ m, LoadMOD_loops fileNote = .ok m ∧ noOffset m) ∧
    (stateOf (playFile 32 100 fileNote (List.replicate 7 (fun _ => 0)))).isSome = true ∧
    ∀ mp2, stateOf (playFile 32 100 fileNote (List.replicate 7 (fun _ => 0))) = some mp2 →
      ∀ c, (mp2.chan c).position = (mp2.chan c).faseacum / 32768 := by
  obtain ⟨m, hm⟩ := LoadMOD_loops_complete fileNote (by decide!) (by decide!) (by decide!)
  have hno : noOffset m := by
    unfold noOffset
    rw [(LoadMOD_loops_fields fileNote m hm).2.2.2.2.2.2.2.1]
    decide!
  obtain ⟨_, _, _, hd⟩ := sync_reachable 32 fileNote m (le_refl _) hm
  refine ⟨⟨m, hm, hno⟩, by decide!, ?_⟩
  intro mp2 h2
  rw [LoadMOD_loops_eq] at hm
  unfold playFile at h2
  rw [hm] at h2
  dsimp only at h2
  unfold stateOf at h2
  split at h2
  · cases h2
  · rename_i m2 mp3 bufs e
    cases h2
    exact (hd hno 100 mplayStatic _ m2 _ bufs e).1

/-- The slot `PlayTick` reads exists only for a row inside the pattern. -/
theorem currentSlot_row (m : TModule) (mp : TModPlay) (ch : Fin 4) (chd : TChannelData)
    (e : currentSlot m mp ch = .ok chd) : 0 ≤ mp.patrow ∧ mp.patrow ≤ 63 := by
  unfold currentSlot at e
  by_cases h1 : mp.songpos < 0
  · rw [if_pos h1] at e; cases e
  rw [if_neg h1] at e
  by_cases h2 : mp.songpos.toNat < 128
  · rw [dif_pos h2] at e
    split at e
    · cases e
    · by_cases h3 : mp.patrow < 0
      · rw [if_pos h3] at e; cases e
      rw [if_neg h3] at e
      by_cases h4 : mp.patrow.toNat < 64
      · exact ⟨by omega, by omega⟩
      · rw [dif_neg h4] at e; cases e
  · rw [dif_neg h2] at e; cases e

/-- No effect changes the place in the song: `patrow` and `songpos` are
assigned by the row advance only. -/
theorem place_ProcessEffect (sz rnd : Nat) (chd : TChannelData) (m m2 : TModule)
    (mp mp2 : TModPlay) (ch : Fin 4)
    (e : ProcessEffect sz rnd chd m mp ch = .ok (m2, mp2)) :
    mp2.patrow = mp.patrow ∧ mp2.songpos = mp.songpos := by
  by_cases c11 : chd.Effect = 11
  · simp [ProcessEffect, c11] at e
    rw [← e.2]
    unfold DoJumpSongposition_11
    split_ifs <;> exact ⟨rfl, rfl⟩
  by_cases c13 : chd.Effect = 13
  · simp [ProcessEffect, c13] at e
    rw [← e.2]
    unfold DoPatternBreak_13
    split_ifs <;> exact ⟨rfl, rfl⟩
  by_cases c15 : chd.Effect = 15
  · simp [ProcessEffect, c15] at e
    rw [← e.2]
    unfold DoSetSpeedBPM_15
    split_ifs <;> exact ⟨rfl, rfl⟩
  have k := (frame_ProcessEffect sz rnd chd m m2 mp mp2 ch e).2.2 c11 c13 c15
  exact ⟨k.2.2.1, k.2.2.2.1⟩

/-- One channel of the channel loop reads a row inside the pattern and keeps
the place in the song. -/
theorem place_processChannel (sz rnd : Nat) (m m2 : TModule) (mp mp2 : TModPlay) (ch : Fin 4)
    (e : processChannel sz rnd m mp ch = .ok (m2, mp2)) :
    (0 ≤ mp.patrow ∧ mp.patrow ≤ 63) ∧ mp2.patrow = mp.patrow ∧ mp2.songpos = mp.songpos := by
  unfold processChannel at e
  split at e
  · cases e
  · rename_i chd hs
    refine ⟨currentSlot_row m mp ch chd hs, ?_⟩
    split_ifs at e
    · split at e
      · cases e
      · have k := place_ProcessEffect sz rnd chd m m2 _ mp2 ch e
        exact k
    · exact place_ProcessEffect sz rnd chd m m2 mp mp2 ch e

/-- The channel loop reads a row inside the pattern and keeps the place in the
song. -/
theorem place_processChannels (sz : Nat) (rnd : Fin 4 → Nat) (m m2 : TModule)
    (mp mp2 : TModPlay) (e : processChannels sz rnd m mp = .ok (m2, mp2)) :
    (0 ≤ mp.patrow ∧ mp.patrow ≤ 63) ∧ mp2.patrow = mp.patrow ∧ mp2.songpos = mp.songpos := by
  unfold processChannels at e
  split at e
  · cases e
  · rename_i ma mpa ea
    obtain ⟨ra, pa, sa⟩ := place_processChannel sz _ m ma mp mpa 0 ea
    split at e
    · cases e
    · rename_i mb mpb eb
      obtain ⟨_, pb, sb⟩ := place_processChannel sz _ ma mb mpa mpb 1 eb
      split at e
      · cases e
      · rename_i mc mpc ec
        obtain ⟨_, pc, sc⟩ := place_processChannel sz _ mb mc mpb mpc 2 ec
        obtain ⟨_, pd, sd⟩ := place_processChannel sz _ mc m2 mpc mp2 3 e
        exact ⟨ra, pd.trans (pc.trans (pb.trans pa)), sd.trans (sc.trans (sb.trans sa))⟩

/-- The part of `PlayTick` after the row advance returns only for a row inside
the pattern, and keeps the place in the song. -/
theorem place_tickBody (sz : Nat) (rnd : Fin 4 → Nat) (m : TModule) (mp : TModPlay)
    (r : TickResult) (e : tickBody sz rnd m mp = .ok r) :
    (0 ≤ mp.patrow ∧ mp.patrow ≤ 63) ∧ r.mplay.patrow = mp.patrow ∧
    r.mplay.songpos = mp.songpos := by
  unfold tickBody at e
  dsimp only at e
  have h0 : (if mp.tick = 0 then { mp with newrow := 1 } else mp).patrow = mp.patrow ∧
      (if mp.tick = 0 then { mp with newrow := 1 } else mp).songpos = mp.songpos := by
    split_ifs <;> exact ⟨rfl, rfl⟩
  split at e
  · cases e
  · rename_i m1 mp1 e1
    obtain ⟨k1, k2, k3⟩ := place_processChannels sz rnd m m1 _ mp1 e1
    split at e
    · cases e
    · cases e
      rw [h0.1] at k1 k2
      rw [h0.2] at k3
      exact ⟨k1, k2, k3⟩

/-- `PlayTick` keeps the row inside the pattern while the song has not
finished. -/
theorem row_PlayTick (sz : Nat) (rnd : Fin 4 → Nat) (m : TModule) (mp : TModPlay)
    (r : TickResult) (h : mp.finished = 0 → 0 ≤ mp.patrow ∧ mp.patrow ≤ 63)
    (e : PlayTick sz rnd m mp = .ok r) :
    r.mplay.finished = 0 → 0 ≤ r.mplay.patrow ∧ r.mplay.patrow ≤ 63 := by
  unfold PlayTick at e
  by_cases hf : mp.finished ≠ 0
  · rw [if_pos hf] at e
    cases e; exact h
  rw [if_neg hf] at e
  by_cases ht : mp.tick ≥ mp.ticksperdiv
  · rw [if_pos ht] at e
    by_cases hs : (advanceRow mp).songpos ≥ (m.Songlength : Int)
    · rw [if_pos hs] at e
      cases e
      intro k
      exact absurd k (by norm_num)
    · rw [if_neg hs] at e
      obtain ⟨k1, k2, _⟩ := place_tickBody sz rnd m _ r e
      intro _
      rw [k2]; exact k1
  · rw [if_neg ht] at e
    obtain ⟨k1, k2, _⟩ := place_tickBody sz rnd m mp r e
    intro _
    rw [k2]; exact k1

/-- A sequence of calls of `PlayTick` keeps the row inside the pattern while
the song has not finished. -/
theorem row_runTicks (sz : Nat) :
    ∀ (rnds : List (Fin 4 → Nat)) (m m2 : TModule) (mp mp2 : TModPlay) (bufs : List (List Nat)),
      (mp.finished = 0 → 0 ≤ mp.patrow ∧ mp.patrow ≤ 63) →
      runTicks sz m mp rnds = .ok (m2, mp2, bufs) →
      mp2.finished = 0 → 0 ≤ mp2.patrow ∧ mp2.patrow ≤ 63 := by
  intro rnds
  induction rnds with
  | nil =>
    intro m m2 mp mp2 bufs h e
    cases e; exact h
  | cons rnd rest ih =>
    intro m m2 mp mp2 bufs h e
    unfold runTicks at e
    split at e
    · cases e
    · rename_i r e1
      have i1 := row_PlayTick sz rnd m mp r h e1
      split at e
      · cases e
      · rename_i m3 mp3 bufs3 e3
        have i3 := ih r.mod m3 r.mplay mp3 bufs3 i1 e3
        cases e
        exact i3

/-- The note trigger of row setup where it returns.  For a slot whose sample number is one
`mod.sample` holds (at most 31), row setup first binds the sample (`c1`);
then, if `Noteperiod != 0` and the effect is neither 3 nor 5, with `p` the
entry `finetune_table[finetune][NoteIndex]` and `f` the phase computed from
`p`, it returns the channel with `noteperiod = noteperiodslideto = p`,
`faseacum = 0`, `position = 0` and `fase = f`; if `Noteperiod = 0` or the
effect is 3 or 5 it returns a channel whose `noteperiod`, `faseacum`,
`position` and `fase` are unchanged. -/
theorem rowSetup_note_trigger (sz : Nat) (m : TModule) (mp : TModPlay) (chd : TChannelData)
    (c : TChanPlay) (hs : chd.Samplenumber ≤ 31) :
    ∃ c1, bindSample m chd c = .ok c1 ∧
      (chd.Noteperiod ≠ 0 → chd.Effect ≠ 3 → chd.Effect ≠ 5 →
        ∀ p f, ftLookup c1.finetune chd.NoteIndex = .ok p →
          calcFase sz mp.format mp.sfreq p = .ok f →
          ∃ c2, rowSetup sz m mp chd c = .ok c2 ∧ c2.finetune = c1.finetune ∧
            c2.noteperiod = p ∧ c2.noteperiodslideto = p ∧ c2.faseacum = 0 ∧
            c2.position = 0 ∧ c2.fase = f) ∧
      (chd.Noteperiod = 0 ∨ chd.Effect = 3 ∨ chd.Effect = 5 →
        ∃ c2, rowSetup sz m mp chd c = .ok c2 ∧ c2.noteperiod = c.noteperiod ∧
          c2.faseacum = c.faseacum ∧ c2.position = c.position ∧ c2.fase = c.fase) := by
  by_cases h0 : chd.Samplenumber = 0
  · refine ⟨c, by simp [bindSample, h0], ?_, ?_⟩
    · intro hn h3 h5 p f hp hf
      refine ⟨{ c with noteperiodslideto := p, noteperiod := p, faseacum := 0,
                       position := 0, fase := f }, ?_, rfl, rfl, rfl, rfl, rfl, rfl⟩
      simp [rowSetup, bindSample, h0, triggerNote, hn, h3, h5, hp, hf]
    · intro h
      refine ⟨c, ?_, rfl, rfl, rfl, rfl⟩
      have : ¬ (chd.Noteperiod ≠ 0 ∧ chd.Effect ≠ 3 ∧ chd.Effect ≠ 5) := by
        rintro ⟨a, b, d⟩; rcases h with h | h | h <;> contradiction
      simp only [rowSetup, bindSample, h0, triggerNote, if_neg this]
      simp
  · have hlt : chd.Samplenumber - 1 < 31 := by omega
    have hb : bindSample m chd c = .ok
        { c with
          sample := some ⟨chd.Samplenumber - 1, hlt⟩
          finetune := (m.sample ⟨chd.Samplenumber - 1, hlt⟩).Finetune
          end_ := (m.sample ⟨chd.Samplenumber - 1, hlt⟩).Samplelength
          volume := (m.sample ⟨chd.Samplenumber - 1, hlt⟩).Volume
          volbase := (m.sample ⟨chd.Samplenumber - 1, hlt⟩).Volume } := by
      simp only [bindSample, if_pos h0, dif_pos hlt]
    refine ⟨_, hb, ?_, ?_⟩
    · intro hn h3 h5 p f hp hf
      refine ⟨{ c with
                sample := some ⟨chd.Samplenumber - 1, hlt⟩
                finetune := (m.sample ⟨chd.Samplenumber - 1, hlt⟩).Finetune
                end_ := (m.sample ⟨chd.Samplenumber - 1, hlt⟩).Samplelength
                volume := (m.sample ⟨chd.Samplenumber - 1, hlt⟩).Volume
                volbase := (m.sample ⟨chd.Samplenumber - 1, hlt⟩).Volume
                noteperiodslideto := p, noteperiod := p, faseacum := 0,
                position := 0, fase := f }, ?_, rfl, rfl, rfl, rfl, rfl, rfl⟩
      simp only [rowSetup, hb, triggerNote]
      rw [if_pos ⟨hn, h3, h5⟩]
      simp only [] at hp
      simp only [hp, hf]
    · intro h
      have : ¬ (chd.Noteperiod ≠ 0 ∧ chd.Effect ≠ 3 ∧ chd.Effect ≠ 5) := by
        rintro ⟨a, b, d⟩; rcases h with h | h | h <;> contradiction
      refine ⟨{ c with
                sample := some ⟨chd.Samplenumber - 1, hlt⟩
                finetune := (m.sample ⟨chd.Samplenumber - 1, hlt⟩).Finetune
                end_ := (m.sample ⟨chd.Samplenumber - 1, hlt⟩).Samplelength
                volume := (m.sample ⟨chd.Samplenumber - 1, hlt⟩).Volume
                volbase := (m.sample ⟨chd.Samplenumber - 1, hlt⟩).Volume },
              ?_, rfl, rfl, rfl, rfl⟩
      simp only [rowSetup, hb, triggerNote, if_neg this]

set_option maxRecDepth 100000 in
/-- An instance of `rowSetup_note_trigger`: the slot `01 AC 10 00` of `fileNote`
(sample 1, period 428) on a fresh channel at 100 Hz: the period and slide
target become 428, the accumulator and position 0, the phase 2715529. -/
theorem rowSetup_note_trigger_fileNote :
    (loadSlot fileNote 1084).Samplenumber ≤ 31 ∧
    ∃ c2, rowSetup 32 (moduleOf fileNote) (beginInit 32 100 mplayStatic)
        (loadSlot fileNote 1084) zeroChan = .ok c2 ∧
      c2.noteperiod = 428 ∧ c2.noteperiodslideto = 428 ∧ c2.faseacum = 0 ∧
      c2.position = 0 ∧ c2.fase = 2715529 := by
  refine ⟨by decide!, ?_⟩
  obtain ⟨c1, hb, h1, _⟩ := rowSetup_note_trigger 32 (moduleOf fileNote)
    (beginInit 32 100 mplayStatic) (loadSlot fileNote 1084) zeroChan (by decide!)
  have hft : (bindSample (moduleOf fileNote) (loadSlot fileNote 1084) zeroChan).map
      (fun c => c.finetune) = .ok 0 := by decide!
  rw [hb] at hft
  have hft0 : c1.finetune = 0 := by
    simpa [Except.map] using hft
  obtain ⟨c2, h2, _, a1, a2, a3, a4, a5⟩ := h1 (by decide!) (by decide!) (by decide!) 428 2715529
    (by rw [hft0]; decide!) (by decide!)
  exact ⟨c2, h2, a1, a2, a3, a4, a5⟩

/-- The slide up where the table read is inside the table.  For a channel whose `pslide` is not negative
(it holds an effect argument) and whose period is a `uint16_t`, with `lim`
the entry `finetune_table[chan.finetune][35]`: at a tick other than 0 effect
1 stores `noteperiod = max (noteperiod - pslide) lim` and the phase computed
from that period, and changes nothing else; at tick 0 it only stores
`pslide = EffectArg`.  Every state reached from the one `BeginPlayMOD`
establishes by calls of `PlayTick` (on a module whose effect arguments are
bytes) meets the two range conditions on every channel. -/
theorem slideUp_clamps (sz rnd : Nat) (chd : TChannelData) (m : TModule) (mp : TModPlay)
    (ch : Fin 4) (lim : Nat) (he : chd.Effect = 1) (hps : 0 ≤ (mp.chan ch).pslide)
    (hn : (mp.chan ch).noteperiod < 65536)
    (hl : ftLookup (mp.chan ch).finetune 35 = .ok lim) :
    (mp.tick ≠ 0 →
      ProcessEffect sz rnd chd m mp ch =
        (calcFase sz mp.format mp.sfreq
            (max (((mp.chan ch).noteperiod : Int) - (mp.chan ch).pslide) (lim : Int)).toNat).map
          (fun f => (m, mp.setChan ch
            { mp.chan ch with
              noteperiod :=
                (max (((mp.chan ch).noteperiod : Int) - (mp.chan ch).pslide) (lim : Int)).toNat
              fase := f }))) ∧
    (mp.tick = 0 →
      ProcessEffect sz rnd chd m mp ch =
        .ok (m, mp.setChan ch { mp.chan ch with pslide := (chd.EffectArg : Int) })) ∧
    (∀ (sfreq : Nat) (m0 : TModule) (mp0 : TModPlay) (rnds : List (Fin 4 → Nat))
        (bufs : List (List Nat)),
      slotBytes m0 → runTicks sz m0 (beginInit sz sfreq mp0) rnds = .ok (m, mp, bufs) →
      ∀ c, 0 ≤ (mp.chan c).pslide ∧ (mp.chan c).noteperiod < 65536) := by
  have hpe : ProcessEffect sz rnd chd m mp ch =
      (DoSlideUp_01 sz chd mp ch).map (fun mp1 => (m, mp1)) := by
    simp only [ProcessEffect, he]
    norm_num
    cases DoSlideUp_01 sz chd mp ch <;> rfl
  refine ⟨?_, ?_, ?_⟩
  · intro ht
    have key : (if ((mp.chan ch).noteperiod : Int) - (mp.chan ch).pslide ≥ (lim : Int) then
          u16 (((mp.chan ch).noteperiod : Int) - (mp.chan ch).pslide) else lim)
        = (max (((mp.chan ch).noteperiod : Int) - (mp.chan ch).pslide) (lim : Int)).toNat := by
      by_cases hc : ((mp.chan ch).noteperiod : Int) - (mp.chan ch).pslide ≥ (lim : Int)
      · rw [if_pos hc, max_eq_left hc]
        have := u16_of_range (((mp.chan ch).noteperiod : Int) - (mp.chan ch).pslide)
          (by omega) (by omega)
        omega
      · rw [if_neg hc, max_eq_right (by omega)]
        simp
    rw [hpe]
    simp only [DoSlideUp_01, if_neg ht, hl, key]
    cases calcFase sz mp.format mp.sfreq _ <;> rfl
  · intro ht
    rw [hpe]
    simp only [DoSlideUp_01, if_pos ht]
    rfl
  · intro sfreq m0 mp0 rnds bufs hb hrun c
    obtain ⟨⟨_, _, hc⟩, _⟩ :=
      inv_runTicks sz (sfreq % 2 ^ 32) rnds m0 m _ mp bufs hb (inv_beginInit sz sfreq mp0) hrun
    exact ⟨(hc c).1, (hc c).2.1⟩

/-- An instance of `slideUp_clamps`: PAL at 32000 Hz, period 120 and
`pslide = 3` at tick 1 give period `117 = max (120 - 3) 113`. -/
theorem slideUp_clamps_example :
    (slideSlot 3).Effect = 1 ∧ 0 ≤ (stateSlide.chan 0).pslide ∧
    (stateSlide.chan 0).noteperiod < 65536 ∧
    ftLookup (stateSlide.chan 0).finetune 35 = .ok 113 ∧ stateSlide.tick ≠ 0 ∧
    max (((stateSlide.chan 0).noteperiod : Int) - (stateSlide.chan 0).pslide) 113 = 117 ∧
    ProcessEffect 32 0 (slideSlot 3) modStatic stateSlide 0 =
      (calcFase 32 stateSlide.format stateSlide.sfreq
          (max (((stateSlide.chan 0).noteperiod : Int) - (stateSlide.chan 0).pslide)
            ((113 : Nat) : Int)).toNat).map
        (fun f => (modStatic, stateSlide.setChan 0
          { stateSlide.chan 0 with
            noteperiod :=
              (max (((stateSlide.chan 0).noteperiod : Int) - (stateSlide.chan 0).pslide)
                ((113 : Nat) : Int)).toNat
            fase := f })) :=
  ⟨rfl, by decide, by decide, by decide, by decide, by decide,
   (slideUp_clamps 32 0 (slideSlot 3) modStatic stateSlide 0 113 rfl (by decide)
      (by decide) (by decide)).1 (by decide)⟩

/-- The schedule of a song without jumps.  For a module with song length
`L` in `1..128` whose played patterns carry no effect 11, 13 or 15, from a
state with `tick = 0`, `songpos = 0`, `patrow = 0`,
`newsongpos = newpatrow = -1`, `ticksperdiv = 6` and `finished = 0`: every
run of `k <= 384 * L` calls of `PlayTick` that returns (no fault) has handed
`k` blocks to the sink, one per call, and leaves `finished = 0`; call
number `k` played tick `(k-1) % 6` of row `(k-1) / 6 % 64` at song position
`(k-1) / 384`, so the rows are visited in lexicographic order for six ticks
each; after `384 * L` calls the next call returns without a block, with
`finished = 1`, `songpos = L` and `patrow = 0`.  Such runs do return: when
the played patterns hold empty slots only, no sample is bound and the
block fits `sbuffer`, every run of at most `384 * L` calls returns. -/
theorem schedule_without_jumps (sz : Nat) (m : TModule) (mp : TModPlay)
    (hL1 : 1 ≤ m.Songlength) (hL2 : m.Songlength ≤ 128) (hp : plainSong m)
    (ht : mp.tick = 0) (hs : mp.songpos = 0) (hr : mp.patrow = 0)
    (hns : mp.newsongpos = -1) (hnr : mp.newpatrow = -1) (hd : mp.ticksperdiv = 6)
    (hf : mp.finished = 0) :
    (∀ (rnds : List (Fin 4 → Nat)) (m2 : TModule) (mp2 : TModPlay) (bufs : List (List Nat)),
      rnds.length ≤ 384 * m.Songlength →
      runTicks sz m mp rnds = .ok (m2, mp2, bufs) →
      bufs.length = rnds.length ∧ mp2.finished = 0 ∧
      (1 ≤ rnds.length →
        mp2.tick = (((rnds.length - 1) % 6 + 1 : Nat) : Int) ∧
        mp2.patrow = (((rnds.length - 1) / 6 % 64 : Nat) : Int) ∧
        mp2.songpos = (((rnds.length - 1) / 384 : Nat) : Int)) ∧
      (rnds.length = 384 * m.Songlength →
        ∀ rnd, ∃ mp3,
          PlayTick sz rnd m2 mp2 = .ok { mod := m2, mplay := mp3, audio := none } ∧
          mp3.finished = 1 ∧ mp3.songpos = (m.Songlength : Int) ∧ mp3.patrow = 0)) ∧
    (silentSong m → (∀ ch, (mp.chan ch).sample = none) → mp.tambufplay ≤ 44100 →
      ∀ rnds : List (Fin 4 → Nat), rnds.length ≤ 384 * m.Songlength →
        ∃ mp2 bufs, runTicks sz m mp rnds = .ok (m, mp2, bufs)) := by
  have h0 : scheduleAt 0 mp := ⟨hf, hns, hnr, hd, ht, hr, hs⟩
  constructor
  · intro rnds m2 mp2 bufs hl e
    obtain ⟨k1, k2, k3⟩ := sched_runTicks sz rnds m m2 mp mp2 bufs 0 (by omega) hp h0 e
    rw [Nat.zero_add] at k3
    refine ⟨k2, k3.1, ?_, ?_⟩
    · intro h1
      obtain ⟨_, _, _, _, a5, a6, a7⟩ := k3
      rw [if_neg (by omega)] at a5
      exact ⟨a5, a6, a7⟩
    · intro hlen rnd
      rw [hlen, ← k1.2.1] at k3
      obtain ⟨b1, b2, b3⟩ := sched_final sz rnd m2 mp2 (by rw [k1.2.1]; exact hL1) k3
      exact ⟨_, b1, rfl, b2.trans (by rw [k1.2.1]), b3⟩
  · intro hsil hu hb rnds hl
    exact silent_runTicks sz m hsil hL2 rnds mp 0 (by omega) h0 hu hb

set_option maxRecDepth 100000 in
/-- Instances of `schedule_without_jumps`: on `modSilent` (one song position, one
pattern of empty slots) the 384 calls of `PlayTick` after `BeginPlayMOD`
at 100 Hz return, hand 384 blocks to the sink and stop at tick 6 of row 63
with `finished = 0`; call 385 hands nothing over and sets `finished`.  On
`fileNote` (a note on a looping sample in row 0, song length 1) the first
seven calls return and leave tick 1 of row 1. -/
theorem schedule_without_jumps_examples :
    (modSilent.Songlength = 1 ∧ plainSong modSilent ∧
      ∃ m2 mp2 bufs,
        runTicks 32 modSilent (beginInit 32 100 mplayStatic) (List.replicate 384 (fun _ => 0))
          = .ok (m2, mp2, bufs) ∧
        bufs.length = 384 ∧ mp2.finished = 0 ∧ mp2.tick = 6 ∧ mp2.patrow = 63 ∧
        mp2.songpos = 0 ∧
        ∃ mp3,
          PlayTick 32 (fun _ => 0) m2 mp2 = .ok { mod := m2, mplay := mp3, audio := none } ∧
          mp3.finished = 1 ∧ mp3.songpos = 1 ∧ mp3.patrow = 0) ∧
    (∃ m, LoadMOD_loops fileNote = .ok m ∧ m.Songlength = 1 ∧ plainSong m) ∧
    (stateOf (playFile 32 100 fileNote (List.replicate 7 (fun _ => 0)))).isSome = true ∧
    ∀ mp2, stateOf (playFile 32 100 fileNote (List.replicate 7 (fun _ => 0))) = some mp2 →
      mp2.finished = 0 ∧ mp2.tick = 1 ∧ mp2.patrow = 1 ∧ mp2.songpos = 0 := by
  have rest : (∃ m, LoadMOD_loops fileNote = .ok m ∧ m.Songlength = 1 ∧ plainSong m) ∧
      (stateOf (playFile 32 100 fileNote (List.replicate 7 (fun _ => 0)))).isSome = true ∧
      ∀ mp2, stateOf (playFile 32 100 fileNote (List.replicate 7 (fun _ => 0))) = some mp2 →
        mp2.finished = 0 ∧ mp2.tick = 1 ∧ mp2.patrow = 1 ∧ mp2.songpos = 0 := by
    obtain ⟨m, hm⟩ := LoadMOD_loops_complete fileNote (by decide!) (by decide!) (by decide!)
    obtain ⟨_, _, _, _, _, hpos, hlen, hpat, _⟩ := LoadMOD_loops_fields fileNote m hm
    have hL : m.Songlength = 1 := hlen.trans (by decide!)
    have hall : ∀ (r : Fin 64) (c : Fin 4),
        (((loadPattern fileNote 0).row r).chan c).Effect ≠ 11 ∧
        (((loadPattern fileNote 0).row r).chan c).Effect ≠ 13 ∧
        (((loadPattern fileNote 0).row r).chan c).Effect ≠ 15 := by
      decide!
    have e1 : numPatterns fileNote = 1 := by decide!
    have e2 : fileNote.byteAt (songInfoStart fileNote + 2 + 0) = 0 := by decide!
    have hpl : plainSong m := by
      intro p hp pat hpat2 r c
      rw [hL] at hp
      have p0 : p = ⟨0, by norm_num⟩ := Fin.ext (show p.val = 0 by omega)
      subst p0
      rw [hpat, hpos, e1, e2] at hpat2
      simp at hpat2
      rw [← hpat2]
      exact hall r c
    refine ⟨⟨m, hm, hL, hpl⟩, by decide!, ?_⟩
    intro mp2 h2
    rw [LoadMOD_loops_eq] at hm
    unfold playFile at h2
    rw [hm] at h2
    dsimp only at h2
    unfold stateOf at h2
    split at h2
    · cases h2
    · rename_i m2 mp3 bufs e
      cases h2
      obtain ⟨_, k2, k3, _⟩ := (schedule_without_jumps 32 m (beginInit 32 100 mplayStatic)
        (by omega) (by omega) hpl rfl rfl rfl rfl rfl rfl rfl).1 _ m2 _ bufs
        (by rw [List.length_replicate]; omega) e
      rw [List.length_replicate] at k3
      obtain ⟨t1, t2, t3⟩ := k3 (by norm_num)
      exact ⟨k2, t1, t2, t3⟩
  have hsil : silentSong modSilent := by
    intro p _
    exact ⟨blankPattern, rfl, fun _ _ => ⟨rfl, rfl, rfl, rfl⟩⟩
  have hpl : plainSong modSilent := silentSong_plain modSilent hsil
  obtain ⟨hrun, htot⟩ := schedule_without_jumps 32 modSilent (beginInit 32 100 mplayStatic)
    (by decide) (by decide) hpl rfl rfl rfl rfl rfl rfl rfl
  obtain ⟨mp2, bufs, e⟩ := htot hsil (fun _ => rfl) (by decide)
    (List.replicate 384 (fun _ => 0)) (by rw [List.length_replicate]; decide)
  obtain ⟨k1, k2, k3, k4⟩ := hrun _ _ _ _ (by rw [List.length_replicate]; decide) e
  rw [List.length_replicate] at k1 k3 k4
  obtain ⟨t1, t2, t3⟩ := k3 (by norm_num)
  obtain ⟨mp3, f1, f2, f3, f4⟩ := k4 rfl (fun _ => 0)
  exact ⟨⟨rfl, hpl, _, mp2, bufs, e, k1, k2, t1, t2, t3, mp3, f1, f2, f3, f4⟩, rest⟩

/-! ### The claims -/

/-- Claim C1: row advance.  For every state with `finished = 0`,
`tick >= ticksperdiv` and a row of the pattern in `patrow` (at most 63),
`PlayTick` first performs the row advance: `tick = 0`; a non-negative
`newpatrow` / `newsongpos` is adopted and cleared to `-1`; otherwise
`patrow = 63` gives `patrow = 0` and `songpos + 1`, and any other `patrow`
is increased by one.  If then `songpos >= Songlength`, the call returns
with `finished = 1` and hands no block to the sink; otherwise it continues
with the rest of the tick from the advanced state.  Every state with
`finished = 0` reached from the one `BeginPlayMOD` establishes by calls of
`PlayTick` has `patrow` in `0 .. 63`. -/
theorem C1_row_advance (sz : Nat) (rnd : Fin 4 → Nat) (m : TModule) (mp : TModPlay)
    (hfin : mp.finished = 0) (htick : mp.tick ≥ mp.ticksperdiv) (hrow : mp.patrow ≤ 63) :
    (advanceRow mp).tick = 0 ∧
    (mp.newpatrow ≥ 0 →
      (advanceRow mp).patrow = mp.newpatrow ∧ (advanceRow mp).newpatrow = -1) ∧
    (mp.newsongpos ≥ 0 →
      (advanceRow mp).songpos = mp.newsongpos ∧ (advanceRow mp).newsongpos = -1) ∧
    (mp.newpatrow < 0 → mp.newsongpos ≥ 0 →
      (advanceRow mp).patrow = mp.patrow ∧ (advanceRow mp).newpatrow = mp.newpatrow) ∧
    (mp.newsongpos < 0 → mp.newpatrow ≥ 0 →
      (advanceRow mp).songpos = mp.songpos ∧ (advanceRow mp).newsongpos = mp.newsongpos) ∧
    (mp.newpatrow < 0 → mp.newsongpos < 0 → mp.patrow = 63 →
      (advanceRow mp).patrow = 0 ∧ (advanceRow mp).songpos = mp.songpos + 1 ∧
      (advanceRow mp).newpatrow = mp.newpatrow ∧
      (advanceRow mp).newsongpos = mp.newsongpos) ∧
    (mp.newpatrow < 0 → mp.newsongpos < 0 → mp.patrow ≠ 63 →
      (advanceRow mp).patrow = mp.patrow + 1 ∧ (advanceRow mp).songpos = mp.songpos ∧
      (advanceRow mp).newpatrow = mp.newpatrow ∧
      (advanceRow mp).newsongpos = mp.newsongpos) ∧
    ((advanceRow mp).songpos ≥ (m.Songlength : Int) →
      PlayTick sz rnd m mp =
        .ok { mod := m, mplay := { advanceRow mp with finished := 1 }, audio := none }) ∧
    ((advanceRow mp).songpos < (m.Songlength : Int) →
      PlayTick sz rnd m mp = tickBody sz rnd m (advanceRow mp)) ∧
    (∀ (sfreq : Nat) (m0 : TModule) (mp0 : TModPlay) (rnds : List (Fin 4 → Nat))
        (bufs : List (List Nat)),
      runTicks sz m0 (beginInit sz sfreq mp0) rnds = .ok (m, mp, bufs) →
      0 ≤ mp.patrow ∧ mp.patrow ≤ 63) := by
  refine ⟨?_, ?_, ?_, ?_, ?_, ?_, ?_, ?_, ?_, ?_⟩
  · unfold advanceRow; dsimp only; split_ifs <;> rfl
  · intro h
    unfold advanceRow; dsimp only
    split_ifs <;> first | exact ⟨rfl, rfl⟩ | (dsimp only at *; omega)
  · intro h
    unfold advanceRow; dsimp only
    split_ifs <;> first | exact ⟨rfl, rfl⟩ | (dsimp only at *; omega)
  · intro h1 h2
    unfold advanceRow; dsimp only
    split_ifs <;> first | exact ⟨rfl, rfl⟩ | (dsimp only at *; omega)
  · intro h1 h2
    unfold advanceRow; dsimp only
    split_ifs <;> first | exact ⟨rfl, rfl⟩ | (dsimp only at *; omega)
  · intro h1 h2 h3
    unfold advanceRow; dsimp only
    split_ifs <;> first | exact ⟨rfl, rfl, rfl, rfl⟩ | (dsimp only at *; omega)
  · intro h1 h2 h3
    unfold advanceRow; dsimp only
    split_ifs <;> first | exact ⟨rfl, rfl, rfl, rfl⟩ | (dsimp only at *; omega)
  · intro h
    unfold PlayTick
    rw [if_neg (by simp [hfin]), if_pos htick, if_pos h]
  · intro h
    unfold PlayTick
    rw [if_neg (by simp [hfin]), if_pos htick, if_neg (by omega)]
  · intro sfreq m0 mp0 rnds bufs e
    exact row_runTicks sz rnds m0 m _ mp bufs
      (fun _ => ⟨le_refl _, by norm_num [beginInit]⟩) e hfin

/-- Witness for `C1_row_advance`, on `modSilent` (one song position) from the
state `BeginPlayMOD (100)` establishes.  After 384 calls of `PlayTick` the
state has `finished = 0`, `tick = 6 = ticksperdiv` and `patrow = 63`: the
advance gives `tick = 0`, row 0 of the next song position, which is past
the song, so call 385 returns with `finished = 1` and no block.  After 6
calls the state has `patrow = 0`: the advance gives row 1 of the same
position and call 7 continues with the rest of the tick. -/
theorem C1_row_advance_witness :
    (∃ mp bufs,
      runTicks 32 modSilent (beginInit 32 100 mplayStatic) (List.replicate 384 (fun _ => 0))
        = .ok (modSilent, mp, bufs) ∧
      mp.finished = 0 ∧ mp.tick ≥ mp.ticksperdiv ∧ mp.patrow = 63 ∧
      (advanceRow mp).tick = 0 ∧ (advanceRow mp).patrow = 0 ∧
      (advanceRow mp).songpos = mp.songpos + 1 ∧
      PlayTick 32 (fun _ => 0) modSilent mp =
        .ok { mod := modSilent, mplay := { advanceRow mp with finished := 1 },
              audio := none }) ∧
    (∃ mp bufs,
      runTicks 32 modSilent (beginInit 32 100 mplayStatic) (List.replicate 6 (fun _ => 0))
        = .ok (modSilent, mp, bufs) ∧
      mp.finished = 0 ∧ mp.tick ≥ mp.ticksperdiv ∧ mp.patrow = 0 ∧
      (advanceRow mp).tick = 0 ∧ (advanceRow mp).patrow = 1 ∧
      (advanceRow mp).songpos = mp.songpos ∧
      PlayTick 32 (fun _ => 0) modSilent mp = tickBody 32 (fun _ => 0) modSilent (advanceRow mp)) := by
  have hsil : silentSong modSilent := by
    intro p _
    exact ⟨blankPattern, rfl, fun _ _ => ⟨rfl, rfl, rfl, rfl⟩⟩
  have h0 : scheduleAt 0 (beginInit 32 100 mplayStatic) := ⟨rfl, rfl, rfl, rfl, rfl, rfl, rfl⟩
  have run : ∀ n, n ≤ 384 → ∃ mp bufs,
      runTicks 32 modSilent (beginInit 32 100 mplayStatic) (List.replicate n (fun _ => 0))
        = .ok (modSilent, mp, bufs) ∧ scheduleAt n mp := by
    intro n hn
    have hlen : 0 + (List.replicate n (fun _ : Fin 4 => 0)).length ≤ 384 * modSilent.Songlength := by
      rw [List.length_replicate]
      exact (show 0 + n ≤ 384 * 1 by omega)
    obtain ⟨mp, bufs, e⟩ := silent_runTicks 32 modSilent hsil (by decide)
      (List.replicate n (fun _ => 0)) (beginInit 32 100 mplayStatic) 0 hlen h0
      (fun _ => rfl) (by decide)
    obtain ⟨_, _, s⟩ := sched_runTicks 32 _ modSilent modSilent _ mp bufs 0 hlen
      (silentSong_plain modSilent hsil) h0 e
    rw [List.length_replicate, Nat.zero_add] at s
    exact ⟨mp, bufs, e, s⟩
  constructor
  · obtain ⟨mp, bufs, e, f0, ns, nr, t6, tk, pr, sp⟩ := run 384 (le_refl _)
    have tk6 : mp.tick = 6 := by rw [tk]; norm_num
    have pr63 : mp.patrow = 63 := by rw [pr]; norm_num
    have h := C1_row_advance 32 (fun _ => 0) modSilent mp f0 (by rw [tk6, t6])
      (by rw [pr63])
    obtain ⟨a1, a2, a3⟩ := h.2.2.2.2.2.1 (by rw [nr]; norm_num) (by rw [ns]; norm_num) pr63
    refine ⟨mp, bufs, e, f0, by rw [tk6, t6], pr63, h.1, a1, a2, ?_⟩
    refine h.2.2.2.2.2.2.2.1 ?_
    rw [a2, sp]
    norm_num [modSilent]
  · obtain ⟨mp, bufs, e, f0, ns, nr, t6, tk, pr, sp⟩ := run 6 (by norm_num)
    have tk6 : mp.tick = 6 := by rw [tk]; norm_num
    have pr0 : mp.patrow = 0 := by rw [pr]; norm_num
    have h := C1_row_advance 32 (fun _ => 0) modSilent mp f0 (by rw [tk6, t6])
      (by rw [pr0]; norm_num)
    obtain ⟨a1, a2, a3⟩ := h.2.2.2.2.2.2.1 (by rw [nr]; norm_num) (by rw [ns]; norm_num)
      (by rw [pr0]; norm_num)
    refine ⟨mp, bufs, e, f0, by rw [tk6, t6], pr0, h.1, by rw [a1, pr0]; norm_num, a2, ?_⟩
    refine h.2.2.2.2.2.2.2.2.1 ?_
    rw [a2, sp]
    norm_num [modSilent]

set_option maxRecDepth 100000 in
/-- Claim C2 (failing input): row 0, channel 0 of `fileFinetune31` is the slot
`01 AC 10 00`: sample 1, period 428 (note index 12), effect 0, so the note
is to be triggered.  The finetune byte of sample 1 is `0x1F` and `LoadMOD`
stores it whole; row setup copies 31 into `chan.finetune` and the read of
`finetune_table[31][12]` is outside the 16 rows of the table: row setup
faults, no period, accumulator, position or phase is stored, and the first
call of `PlayTick` returns nothing. -/
theorem C2_failing_input_note_finetune31 :
    (currentSlot (moduleOf fileFinetune31) (beginInit 32 100 mplayStatic) 0).map
      (fun chd => (chd.Samplenumber, chd.Noteperiod, chd.NoteIndex, chd.Effect))
      = .ok (1, 428, 12, 0) ∧
    (loadSlot fileFinetune31 1084).Noteperiod ≠ 0 ∧
    (loadSlot fileFinetune31 1084).Effect ≠ 3 ∧ (loadSlot fileFinetune31 1084).Effect ≠ 5 ∧
    (beginInit 32 100 mplayStatic).tick = 0 ∧
    (bindSample (moduleOf fileFinetune31) (loadSlot fileFinetune31 1084)
        ((beginInit 32 100 mplayStatic).chan 0)).map (fun c => c.finetune) = .ok 31 ∧
    finetune_table.length = 16 ∧ ftLookup 31 12 = .error .outOfBounds ∧
    (rowSetup 32 (moduleOf fileFinetune31) (beginInit 32 100 mplayStatic)
        (loadSlot fileFinetune31 1084) ((beginInit 32 100 mplayStatic).chan 0)).map
      (fun c => (c.noteperiod, c.noteperiodslideto, c.faseacum, c.position, c.fase))
      = .error .outOfBounds ∧
    (processChannel 32 0 (moduleOf fileFinetune31) (beginInit 32 100 mplayStatic) 0).map
      (fun r => (r.2.chan 0).noteperiod) = .error .outOfBounds ∧
    (stateOf (playFile 32 100 fileFinetune31 [fun _ => 0])).map
      (fun mp => (mp.chan 0).noteperiod) = none := by
  decide!

/-- Claim C3: sample bind at tick 0.  For a slot with sample number `n` in
`1..31`, row setup binds `sample` to `&mod.sample[n-1]` and copies that
sample's `Finetune`, `Samplelength` (into `end`) and `Volume` (into `volume`
and `volbase`); for `n = 0` the five fields are unchanged.  The note part
of row setup that follows keeps the five fields, and row setup returns
whenever that part does (always when the slot triggers no note). -/
theorem C3_sample_bind (sz : Nat) (m : TModule) (mp : TModPlay) (chd : TChannelData)
    (c : TChanPlay) :
    (∀ h : chd.Samplenumber - 1 < 31, chd.Samplenumber ≠ 0 →
      ∃ c1, bindSample m chd c = .ok c1 ∧
        c1.sample = some ⟨chd.Samplenumber - 1, h⟩ ∧
        c1.finetune = (m.sample ⟨chd.Samplenumber - 1, h⟩).Finetune ∧
        c1.end_ = (m.sample ⟨chd.Samplenumber - 1, h⟩).Samplelength ∧
        c1.volume = (m.sample ⟨chd.Samplenumber - 1, h⟩).Volume ∧
        c1.volbase = (m.sample ⟨chd.Samplenumber - 1, h⟩).Volume ∧
        rowSetup sz m mp chd c = triggerNote sz mp.format mp.sfreq chd c1) ∧
    (chd.Samplenumber = 0 →
      bindSample m chd c = .ok c ∧
      rowSetup sz m mp chd c = triggerNote sz mp.format mp.sfreq chd c) ∧
    (∀ c1 c2, triggerNote sz mp.format mp.sfreq chd c1 = .ok c2 →
      c2.sample = c1.sample ∧ c2.finetune = c1.finetune ∧ c2.end_ = c1.end_ ∧
      c2.volume = c1.volume ∧ c2.volbase = c1.volbase) ∧
    (∀ c1, ¬ (chd.Noteperiod ≠ 0 ∧ chd.Effect ≠ 3 ∧ chd.Effect ≠ 5) →
      triggerNote sz mp.format mp.sfreq chd c1 = .ok c1) ∧
    (∀ c1 p f, ftLookup c1.finetune chd.NoteIndex = .ok p →
      calcFase sz mp.format mp.sfreq p = .ok f →
      ∃ c2, triggerNote sz mp.format mp.sfreq chd c1 = .ok c2) := by
  refine ⟨?_, ?_, ?_, ?_, ?_⟩
  · intro h h0
    refine ⟨_, by simp only [bindSample, if_pos h0, dif_pos h]; rfl, rfl, rfl, rfl, rfl, rfl, ?_⟩
    simp only [rowSetup, bindSample, if_pos h0, dif_pos h]
  · intro h0
    constructor
    · simp [bindSample, h0]
    · simp [rowSetup, bindSample, h0]
  · intro c1 c2 h
    unfold triggerNote at h
    split_ifs at h with hc
    · cases hp : ftLookup c1.finetune chd.NoteIndex with
      | error e => simp [hp] at h
      | ok p =>
        cases hf : calcFase sz mp.format mp.sfreq p with
        | error e => simp [hp, hf] at h
        | ok f =>
          simp only [hp, hf, Except.ok.injEq] at h
          subst h
          exact ⟨rfl, rfl, rfl, rfl, rfl⟩
    · simp only [Except.ok.injEq] at h
      subst h
      exact ⟨rfl, rfl, rfl, rfl, rfl⟩
  · intro c1 h
    simp only [triggerNote, if_neg h]
  · intro c1 p f hp hf
    unfold triggerNote
    split_ifs with hc
    · exact ⟨_, by simp only [hp, hf]; rfl⟩
    · exact ⟨_, rfl⟩

set_option maxRecDepth 100000 in
/-- Witness for `C3_sample_bind`: the slot `01 AC 10 00` of `fileNote` binds
sample 1 of the file: finetune 0, end 8, volume and base volume 64. -/
theorem C3_sample_bind_witness :
    (loadSlot fileNote 1084).Samplenumber - 1 < 31 ∧
    (loadSlot fileNote 1084).Samplenumber ≠ 0 ∧
    ∃ c1, bindSample (moduleOf fileNote) (loadSlot fileNote 1084) zeroChan = .ok c1 ∧
      c1.sample = some 0 ∧ c1.finetune = 0 ∧ c1.end_ = 8 ∧ c1.volume = 64 ∧
      c1.volbase = 64 := by
  refine ⟨by decide!, by decide!, ?_⟩
  obtain ⟨c1, hb, a1, a2, a3, a4, a5, _⟩ :=
    (C3_sample_bind 32 (moduleOf fileNote) (beginInit 32 100 mplayStatic)
      (loadSlot fileNote 1084) zeroChan).1 (by decide!) (by decide!)
  refine ⟨c1, hb, ?_, ?_, ?_, ?_, ?_⟩
  · rw [a1]; decide!
  · rw [a2]; decide!
  · rw [a3]; decide!
  · rw [a4]; decide!
  · rw [a5]; decide!

/-- Claim C4 (as stated, refuted on a target with a 32-bit `size_t`): with
`sfreq = 1`, `period = 1` and format PAL the stored phase is the quotient
`116224655360` reduced modulo `2^32`, not the quotient. -/
theorem C4_counterexample_size32 :
    0 < 1 ∧ 0 < 1 ∧ 1 * 1 < 2 ^ 32 ∧
    calcFase 32 PAL 1 1 = .ok 260538368 ∧
    3546895 * 2 ^ 15 / (1 * 1) = 116224655360 ∧
    calcFase 32 PAL 1 1 ≠ .ok (3546895 * 2 ^ 15 / (1 * 1)) := by
  refine ⟨by decide, by decide, by decide, by decide, by decide, ?_⟩
  intro h
  have h2 : calcFase 32 PAL 1 1 = .ok 260538368 := by decide
  rw [h2] at h
  simp at h

/-- Claim C4 (amended): for `sfreq > 0`, `period > 0` and
`sfreq * period < 2^32` the phase expression returns, with `clock = 3546895`
for PAL and `3579545` otherwise, the quotient
`floor (clock * 2^15 / (sfreq * period))` reduced modulo `2^sz` (`sz` the
width of `size_t`); the quotient is below `2^37`, so the stored phase is the
quotient itself when `size_t` has at least 37 bits, and for a narrower
`size_t` when the quotient is below `2^sz` (for 32 bits: when
`sfreq * period >= 28`).  Every site that recomputes the phase stores the
value of this one expression: row setup, slide up, slide down and tone
portamento for the period they store, vibrato for the period displaced by
the waveform, arpeggio for the period chosen by `tick % 3`, delay note for
the channel's period. -/
theorem C4_phase_formula (sz format sfreq period : Nat)
    (hs : 0 < sfreq) (hp : 0 < period) (hlt : sfreq * period < 2 ^ 32) :
    (calcFase sz format sfreq period =
      .ok (((if format = PAL then 3546895 else 3579545) * 2 ^ 15 / (sfreq * period)) % 2 ^ sz) ∧
     (if format = PAL then 3546895 else 3579545) * 2 ^ 15 / (sfreq * period) < 2 ^ 37 ∧
     ((if format = PAL then 3546895 else 3579545) * 2 ^ 15 / (sfreq * period) < 2 ^ sz →
       calcFase sz format sfreq period =
         .ok ((if format = PAL then 3546895 else 3579545) * 2 ^ 15 / (sfreq * period))) ∧
     (37 ≤ sz →
       calcFase sz format sfreq period =
         .ok ((if format = PAL then 3546895 else 3579545) * 2 ^ 15 / (sfreq * period))) ∧
     (28 ≤ sfreq * period → 32 ≤ sz →
       calcFase sz format sfreq period =
         .ok ((if format = PAL then 3546895 else 3579545) * 2 ^ 15 / (sfreq * period)))) ∧
    (∀ (chd : TChannelData) (c c2 : TChanPlay),
      chd.Noteperiod ≠ 0 ∧ chd.Effect ≠ 3 ∧ chd.Effect ≠ 5 →
      triggerNote sz format sfreq chd c = .ok c2 →
      calcFase sz format sfreq c2.noteperiod = .ok c2.fase) ∧
    (∀ (chd : TChannelData) (mp mp2 : TModPlay) (ch : Fin 4), mp.tick ≠ 0 →
      DoSlideUp_01 sz chd mp ch = .ok mp2 →
      calcFase sz mp.format mp.sfreq (mp2.chan ch).noteperiod = .ok (mp2.chan ch).fase) ∧
    (∀ (chd : TChannelData) (mp mp2 : TModPlay) (ch : Fin 4), mp.tick ≠ 0 →
      DoSlideDown_02 sz chd mp ch = .ok mp2 →
      calcFase sz mp.format mp.sfreq (mp2.chan ch).noteperiod = .ok (mp2.chan ch).fase) ∧
    (∀ (chd : TChannelData) (mp mp2 : TModPlay) (ch : Fin 4), mp.tick ≠ 0 →
      DoSlideToNote_03 sz chd mp ch = .ok mp2 →
      calcFase sz mp.format mp.sfreq (mp2.chan ch).noteperiod = .ok (mp2.chan ch).fase) ∧
    (∀ (chd : TChannelData) (mp mp2 : TModPlay) (ch : Fin 4), mp.tick ≠ 0 →
      DoVibrato_04 sz chd mp ch = .ok mp2 →
      ∃ w, waveLookup mp.vbwave (mp.chan ch).vbpos = .ok w ∧
        calcFase sz mp.format mp.sfreq
          (u16 (((mp.chan ch).noteperiod : Int) + Int.tdiv (w * (mp.chan ch).vbamp) 128))
          = .ok (mp2.chan ch).fase) ∧
    (∀ (chd : TChannelData) (mp mp2 : TModPlay) (ch : Fin 4), mp.tick ≠ 0 →
      chd.EffectArg ≠ 0 → DoArpeggio_00 sz chd mp ch = .ok mp2 →
      calcFase sz mp.format mp.sfreq
        (if Int.tmod mp.tick 3 = 0 then (mp.chan ch).noteperiod
         else if Int.tmod mp.tick 3 = 1 then
           ((mp.chan ch).noteperiod * pot.getD (chd.EffectArg % 16) 0 / 16777216) % 65536
         else if Int.tmod mp.tick 3 = 2 then
           ((mp.chan ch).noteperiod * pot.getD (chd.EffectArg / 16 % 16) 0 / 16777216) % 65536
         else (mp.chan ch).noteperiod)
        = .ok (mp2.chan ch).fase) ∧
    (∀ (chd : TChannelData) (mp mp2 : TModPlay) (ch : Fin 4),
      mp.tick = 1 + ((chd.EffectArg % 16 : Nat) : Int) →
      DoDelayNote_14_13 sz chd mp ch = .ok mp2 →
      calcFase sz mp.format mp.sfreq (mp.chan ch).noteperiod = .ok (mp2.chan ch).fase) := by
  refine ⟨calcFase_formula sz format sfreq period hs hp hlt, ?_, ?_, ?_, ?_, ?_, ?_, ?_⟩
  · intro chd c c2 hc h
    exact triggerNote_fase sz format sfreq chd c c2 hc h
  · intro chd mp mp2 ch ht h
    exact slideUp_fase sz chd mp mp2 ch ht h
  · intro chd mp mp2 ch ht h
    exact slideDown_fase sz chd mp mp2 ch ht h
  · intro chd mp mp2 ch ht h
    exact slideToNote_fase sz chd mp mp2 ch ht h
  · intro chd mp mp2 ch ht h
    obtain ⟨w, hw, hf, _⟩ := vibrato_fase sz chd mp mp2 ch ht h
    exact ⟨w, hw, hf⟩
  · intro chd mp mp2 ch ht ha h
    exact (arpeggio_fase sz chd mp mp2 ch ht ha h).1
  · intro chd mp mp2 ch ht h
    exact (delayNote_fase sz chd mp mp2 ch ht h).1

/-- Witness for `C4_phase_formula`: PAL, 32000 Hz, period 428 (C-2) on a
32-bit `size_t` gives the phase 8486. -/
theorem C4_phase_formula_witness :
    0 < 32000 ∧ 0 < 428 ∧ 32000 * 428 < 2 ^ 32 ∧ calcFase 32 PAL 32000 428 = .ok 8486 :=
  ⟨by decide, by decide, by decide,
   (C4_phase_formula 32 PAL 32000 428 (by decide) (by decide) (by decide)).1.1.trans
     (by decide)⟩

/-- Claim C5: every block `PlayTick` hands to the sink has `tambufplay` bytes;
byte `i` is produced by one mixing pass from the channels reached after `i`
passes, and when the four volumes lie in `0 .. 64` it is the integer
`128 + mezcla / 256` (truncating division) with `mezcla` the sum of
`Sampledata[position] * volume` over the channels the loop does not skip,
an integer in `0 .. 255` (no wraparound in the `uint8_t` store); it is `128`
when no channel has a bound sample.  The mixing loop does return such a
block whenever every fetch is in bounds and the block fits `sbuffer`. -/
theorem C5_mixed_output (sz : Nat) (rnd : Fin 4 → Nat) (m : TModule) (mp : TModPlay) :
    (∀ r buf, PlayTick sz rnd m mp = .ok r → r.audio = some buf →
      buf.length = r.mplay.tambufplay ∧
      ∃ mp1 : TModPlay,
        mixLoop sz r.mod mp1.tambufplay 0 mp1.chan = .ok (r.mplay.chan, buf) ∧
        ∀ i, i < buf.length → ∃ csi cs2 b,
          mixStates sz r.mod i mp1.chan = .ok csi ∧
          mixSample sz r.mod csi = .ok (cs2, b) ∧ buf[i]? = some b ∧
          ((∀ ch, 0 ≤ (r.mplay.chan ch).volume ∧ (r.mplay.chan ch).volume ≤ 64) →
            (b : Int) = 128 + Int.tdiv (muestraOf r.mod (csi 0) + muestraOf r.mod (csi 1)
                + muestraOf r.mod (csi 2) + muestraOf r.mod (csi 3)) 256 ∧
            0 ≤ 128 + Int.tdiv (muestraOf r.mod (csi 0) + muestraOf r.mod (csi 1)
                + muestraOf r.mod (csi 2) + muestraOf r.mod (csi 3)) 256 ∧
            128 + Int.tdiv (muestraOf r.mod (csi 0) + muestraOf r.mod (csi 1)
                + muestraOf r.mod (csi 2) + muestraOf r.mod (csi 3)) 256 ≤ 255) ∧
          ((∀ ch, (r.mplay.chan ch).sample = none) → b = 128)) ∧
    (∀ (n i : Nat) (cs : Fin 4 → TChanPlay), (∀ ch, fetchInBounds sz m (cs ch)) →
      n + i ≤ 44100 → ∃ cs2 buf, mixLoop sz m n i cs = .ok (cs2, buf) ∧ buf.length = n) := by
  constructor
  · intro r buf h hb
    obtain ⟨mp1, hloop, hr⟩ := PlayTick_audio sz rnd m mp r buf h hb
    obtain ⟨hlen, hfin, hbytes⟩ := mixLoop_spec sz r.mod _ _ _ _ _ hloop
    have htam : r.mplay.tambufplay = mp1.tambufplay := by rw [hr]
    refine ⟨by rw [hlen, htam], mp1, hloop, ?_⟩
    intro i hi
    obtain ⟨csi, cs2, b, a1, a2, a3⟩ := hbytes i (by omega)
    have kfin := mixStates_keeps sz r.mod _ _ _ hfin
    have ki := mixStates_keeps sz r.mod _ _ _ a1
    have hsp := mixSample_spec sz r.mod csi cs2 b a2
    refine ⟨csi, cs2, b, a1, a2, a3, ?_, ?_⟩
    · intro hv
      have hvi : ∀ ch, 0 ≤ (csi ch).volume ∧ (csi ch).volume ≤ 64 := by
        intro ch
        rw [(ki ch).1, ← (kfin ch).1]
        exact hv ch
      have r0 := muestraOf_range r.mod (csi 0) (hvi 0).1 (hvi 0).2
      have r1 := muestraOf_range r.mod (csi 1) (hvi 1).1 (hvi 1).2
      have r2 := muestraOf_range r.mod (csi 2) (hvi 2).1 (hvi 2).2
      have r3 := muestraOf_range r.mod (csi 3) (hvi 3).1 (hvi 3).2
      have hrange := tdiv_mix_range (muestraOf r.mod (csi 0) + muestraOf r.mod (csi 1)
        + muestraOf r.mod (csi 2) + muestraOf r.mod (csi 3)) (by omega) (by omega)
      refine ⟨?_, hrange.1, hrange.2⟩
      rw [hsp.1]
      unfold u8
      rw [Int.toNat_of_nonneg (Int.emod_nonneg _ (by norm_num)),
        Int.emod_eq_of_lt hrange.1 (by omega)]
    · intro hn
      have hni : ∀ ch, (csi ch).sample = none := by
        intro ch
        rw [(ki ch).2, ← (kfin ch).2]
        exact hn ch
      rw [hsp.1, muestraOf_unbound _ _ (hni 0), muestraOf_unbound _ _ (hni 1),
        muestraOf_unbound _ _ (hni 2), muestraOf_unbound _ _ (hni 3)]
      decide
  · intro n i cs hsafe hfit
    obtain ⟨cs2, buf, e⟩ := mixLoop_total sz m n i cs hsafe hfit
    exact ⟨cs2, buf, e, (mixLoop_spec sz m n i cs cs2 buf e).1⟩

set_option maxRecDepth 100000 in
/-- Witness for `C5_mixed_output`: the first call of `PlayTick` on `fileNote`
at 100 Hz hands a block of `tambufplay = 2` bytes to the sink, and the
mixing loop returns a block of three bytes from the all-zero channels. -/
theorem C5_mixed_output_witness :
    (∃ r buf, PlayTick 32 (fun _ => 0) (moduleOf fileNote) (beginInit 32 100 mplayStatic)
        = .ok r ∧ r.audio = some buf ∧ buf.length = r.mplay.tambufplay ∧ buf = [128, 140]) ∧
    (∃ cs2 buf, mixLoop 32 (moduleOf fileNote) 3 0 (fun _ => zeroChan) = .ok (cs2, buf) ∧
      buf.length = 3) := by
  constructor
  · have hev : (PlayTick 32 (fun _ => 0) (moduleOf fileNote)
        (beginInit 32 100 mplayStatic)).map (fun r => r.audio) = .ok (some [128, 140]) := by
      decide!
    cases hr : PlayTick 32 (fun _ => 0) (moduleOf fileNote) (beginInit 32 100 mplayStatic) with
    | error e => rw [hr] at hev; cases hev
    | ok r =>
      rw [hr] at hev
      have ha : r.audio = some [128, 140] := by simpa [Except.map] using hev
      exact ⟨r, [128, 140], rfl, ha,
        ((C5_mixed_output 32 (fun _ => 0) (moduleOf fileNote)
          (beginInit 32 100 mplayStatic)).1 r [128, 140] hr ha).1, rfl⟩
  · exact (C5_mixed_output 32 (fun _ => 0) (moduleOf fileNote)
      (beginInit 32 100 mplayStatic)).2 3 0 (fun _ => zeroChan)
      (fun _ => by simp [fetchInBounds, zeroChan]) (by decide)

set_option maxRecDepth 100000 in
/-- Claim C6 (failing input): `fileVolume80` has effect 12 with argument 80 on
row 0, channel 0.  After the first call of `PlayTick` that channel has
`volume = 80` and `volbase = 80`, above 64. -/
theorem C6_failing_input_volume80 :
    (loadSlot fileVolume80 1084).Effect = 12 ∧ (loadSlot fileVolume80 1084).EffectArg = 80 ∧
    (stateOf (playFile 32 100 fileVolume80 [fun _ => 0])).map
      (fun mp => ((mp.chan 0).volume, (mp.chan 0).volbase)) = some (80, 80) := by
  decide!

set_option maxRecDepth 100000 in
/-- Claim C7 (failing inputs): `filePortamento` has period 428 with tone
portamento at speed 8 on row 0, channel 0, a channel that has no period
yet.  After the second call of `PlayTick` that channel has
`noteperiod = 8` with finetune 0, below `finetune_table[0][35] = 113`.
`fileFinetuneSwitch` plays C-1 (period 856) with sample 1 (finetune 0) on
row 0 and names sample 2 (finetune 1) without a note on row 1: after the
seventh call the channel has `noteperiod = 856` with finetune 1, above
`finetune_table[1][0] = 850`. -/
theorem C7_failing_input_portamento :
    (stateOf (playFile 32 100 filePortamento [fun _ => 0, fun _ => 0])).map
      (fun mp => ((mp.chan 0).noteperiod, (mp.chan 0).finetune)) = some (8, 0) ∧
    ftLookup 0 35 = .ok 113 ∧ ftLookup 0 0 = .ok 856 ∧
    (stateOf (playFile 32 100 fileFinetuneSwitch (List.replicate 7 (fun _ => 0)))).map
      (fun mp => ((mp.chan 0).noteperiod, (mp.chan 0).finetune, mp.patrow)) = some (856, 1, 1) ∧
    ftLookup 1 35 = .ok 113 ∧ ftLookup 1 0 = .ok 850 := by
  decide!

set_option maxRecDepth 100000 in
/-- Claim C8 (failing input): `fileSampleSwitch` starts sample 1 (8 bytes,
looping over bytes 4..7) on row 0 and names sample 2 (2 bytes) without a
note on row 1.  After row 0 the channel is at `position = 4` with
`end = 8`; row setup of row 1 binds sample 2 and sets `end = 2` but keeps
`position = 4`, so the next fetch has `position >= end` and reads
`Sampledata[4]` of a block of 2 bytes: the seventh call of `PlayTick`
faults. -/
theorem C8_failing_input_sample_switch :
    (stateOf (playFile 32 100 fileSampleSwitch (List.replicate 6 (fun _ => 0)))).map
      (fun mp => ((mp.chan 0).position, (mp.chan 0).end_, mp.tick, mp.patrow))
      = some (4, 8, 6, 0) ∧
    ((moduleOf fileSampleSwitch).sample 1).Sampledata = some [0, 0] ∧
    ((stateOf (playFile 32 100 fileSampleSwitch (List.replicate 6 (fun _ => 0)))).bind
      fun mp => (rowSetup 32 (moduleOf fileSampleSwitch) mp (loadSlot fileSampleSwitch 1100)
        (mp.chan 0)).toOption.map fun c => (c.sample, c.position, c.end_))
      = some (some 1, 4, 2) ∧
    audioOf (playFile 32 100 fileSampleSwitch (List.replicate 7 (fun _ => 0)))
      = .error .outOfBounds := by
  decide!

set_option maxRecDepth 100000 in
/-- Claim C9 (failing input): `fileArpeggio` has an arpeggio (effect 0,
argument 0x37) on row 0, channel 0, a channel that has no period yet.  The
first call of `PlayTick` (tick 0) returns a block; in the second (tick 1)
the arpeggio recomputes the phase from period 0 and the divisor
`sfreq * 0` is zero. -/
theorem C9_failing_input_arpeggio :
    (loadSlot fileArpeggio 1084).Effect = 0 ∧ (loadSlot fileArpeggio 1084).EffectArg = 55 ∧
    audioOf (playFile 32 100 fileArpeggio [fun _ => 0]) = .ok [[128, 128]] ∧
    audioOf (playFile 32 100 fileArpeggio [fun _ => 0, fun _ => 0]) = .error .divByZero := by
  decide!

set_option maxRecDepth 100000 in
/-- Claim C10 (failing input): `LoadMOD` accepts `fileSample32`, whose slot
`20 00 00 00` on row 0, channel 0 it decodes to sample number 32.  Row
setup reads `mod.sample[31]`, outside `sample[31]`: the first call of
`PlayTick` faults. -/
theorem C10_failing_input_sample32 :
    (LoadMOD fileSample32).map (fun _ => ()) = .ok () ∧
    (loadSlot fileSample32 1084).Samplenumber = 32 ∧
    (bindSample (moduleOf fileSample32) (loadSlot fileSample32 1084)
      { zeroChan with volume := 64 }).map (fun _ => ()) = .error .outOfBounds ∧
    audioOf (playFile 32 100 fileSample32 [fun _ => 0]) = .error .outOfBounds := by
  decide!

/-- Claim C11 (as stated, refuted): the state `BeginPlayMOD (300000000)`
establishes has `bpm = 125` and `tambufplay = 273376`, as the product
`sfreq * 15` is taken in 32 bits (it is `205032704`), while
`floor (sfreq * 15 / (6 * bpm))` is `6000000`. -/
theorem C11_counterexample_begin_state_wraps :
    (beginInit 32 300000000 mplayStatic).sfreq = 300000000 ∧
    (beginInit 32 300000000 mplayStatic).bpm = 125 ∧
    (beginInit 32 300000000 mplayStatic).tambufplay = 273376 ∧
    300000000 * 15 % 2 ^ 32 = 205032704 ∧
    300000000 * 15 / (6 * 125) = 6000000 := by
  decide

/-- Claim C11 (amended): in the state `BeginPlayMOD (sfreq)` establishes and
in every state reached from it by calls of `PlayTick` on a module whose
effect arguments are bytes, `sfreq` is the rate given (as a `uint32_t`),
`bpm` is in `32..255`, and
`tambufplay = ((sfreq * 15) mod 2^32) / (6 * bpm)` as stored into a `size_t`,
with the constant 6 whatever `ticksperdiv` is; that is
`floor (sfreq * 15 / (6 * bpm))` whenever `sfreq * 15 < 2^32` and `size_t`
has 32 bits or more. -/
theorem C11_buffer_length (sz sfreq : Nat) (m m2 : TModule) (mp0 mp2 : TModPlay)
    (rnds : List (Fin 4 → Nat)) (bufs : List (List Nat)) (hb : slotBytes m)
    (hrun : runTicks sz m (beginInit sz sfreq mp0) rnds = .ok (m2, mp2, bufs)) :
    (beginInit sz sfreq mp0).bpm = 125 ∧
    (beginInit sz sfreq mp0).tambufplay
      = (((beginInit sz sfreq mp0).sfreq * 15) % 2 ^ 32 / (6 * 125)) % 2 ^ sz ∧
    mp2.sfreq = sfreq % 2 ^ 32 ∧ 32 ≤ mp2.bpm ∧ mp2.bpm < 256 ∧
    mp2.tambufplay = ((mp2.sfreq * 15) % 2 ^ 32 / (6 * mp2.bpm.toNat)) % 2 ^ sz ∧
    (mp2.sfreq * 15 < 2 ^ 32 → 32 ≤ sz →
      (mp2.tambufplay : Int) = (mp2.sfreq : Int) * 15 / (6 * mp2.bpm)) := by
  obtain ⟨⟨h1, ⟨h2, h3, h4⟩, _⟩, _⟩ :=
    inv_runTicks sz (sfreq % 2 ^ 32) rnds m m2 _ mp2 bufs hb (inv_beginInit sz sfreq mp0) hrun
  refine ⟨rfl, rfl, h1, h2, h3, h4, ?_⟩
  intro hs hz
  have hb0 : (0 : Int) ≤ mp2.bpm := by omega
  have hq : mp2.sfreq * 15 / (6 * mp2.bpm.toNat) < 2 ^ sz :=
    lt_of_le_of_lt (Nat.div_le_self _ _)
      (lt_of_lt_of_le hs (Nat.pow_le_pow_right (by norm_num) hz))
  rw [h4, Nat.mod_eq_of_lt hs, Nat.mod_eq_of_lt hq]
  push_cast
  rw [Int.toNat_of_nonneg hb0]

set_option maxRecDepth 100000 in
/-- Witness for `C11_buffer_length`: at 100 Hz, one call of `PlayTick` on a
module whose first row holds effect 15 with argument 40 leaves `bpm = 40`
and `tambufplay = 6 = floor (100 * 15 / (6 * 40))`. -/
theorem C11_buffer_length_witness :
    slotBytes modSpeed40 ∧
    ∃ m2 mp2 bufs,
      runTicks 32 modSpeed40 (beginInit 32 100 mplayStatic) [fun _ => 0] = .ok (m2, mp2, bufs) ∧
      mp2.bpm = 40 ∧ mp2.tambufplay = 6 ∧ 100 * 15 / (6 * 40) = 6 ∧
      mp2.tambufplay = ((mp2.sfreq * 15) % 2 ^ 32 / (6 * mp2.bpm.toNat)) % 2 ^ 32 :=
  have hb : slotBytes modSpeed40 := by
    intro pat hp r c
    rw [List.mem_singleton.mp hp]
    exact (show (40 : Nat) < 256 by norm_num)
  ⟨hb, _, _, _, rfl, by decide!, by decide!, by decide,
   (C11_buffer_length 32 100 modSpeed40 _ mplayStatic _ [fun _ => 0] _ hb rfl).2.2.2.2.2.1⟩

/-- Claim C12 (as stated, refuted): `BeginPlayMOD` does not assign `tick`.  On
the static `mplay` of the program the state it establishes has `tick = 0`,
not `ticksperdiv = 6`; on a state left with `tick = 3` it has `tick = 3`. -/
theorem C12_counterexample_tick_not_set :
    (beginInit 32 32000 mplayStatic).tick = 0 ∧
    (beginInit 32 32000 mplayStatic).ticksperdiv = 6 ∧
    (beginInit 32 32000 mplayStatic).tick ≠ (beginInit 32 32000 mplayStatic).ticksperdiv ∧
    (beginInit 32 32000 { mplayStatic with tick := 3 }).tick = 3 := by
  decide

/-- Claim C12 (amended): whatever the state before the call, the state
`BeginPlayMOD` establishes has `ticksperdiv = 6`, `songpos = 0`,
`patrow = 0`, `newsongpos = newpatrow = -1` and `finished = 0`; `tick` (as
`newrow` and `format`) is not assigned and keeps its value, which is `0` on
the zero-initialised static `mplay` of the program.  From there the first
call of `PlayTick` performs no row advance: it plays row 0 of song position
0 directly. -/
theorem C12_initial_state (sz sfreq : Nat) (rnd : Fin 4 → Nat) (m : TModule) (mp : TModPlay) :
    (beginInit sz sfreq mp).ticksperdiv = 6 ∧
    (beginInit sz sfreq mp).songpos = 0 ∧
    (beginInit sz sfreq mp).patrow = 0 ∧
    (beginInit sz sfreq mp).newsongpos = -1 ∧
    (beginInit sz sfreq mp).newpatrow = -1 ∧
    (beginInit sz sfreq mp).finished = 0 ∧
    (beginInit sz sfreq mp).tick = mp.tick ∧
    (beginInit sz sfreq mp).newrow = mp.newrow ∧
    (beginInit sz sfreq mp).format = mp.format ∧
    (beginInit sz sfreq mplayStatic).tick = 0 ∧
    PlayTick sz rnd m (beginInit sz sfreq mplayStatic)
      = tickBody sz rnd m (beginInit sz sfreq mplayStatic) ∧
    currentSlot m (beginInit sz sfreq mplayStatic) 0
      = currentSlot m { beginInit sz sfreq mplayStatic with songpos := 0, patrow := 0 } 0 := by
  refine ⟨rfl, rfl, rfl, rfl, rfl, rfl, rfl, rfl, rfl, rfl, ?_, rfl⟩
  unfold PlayTick
  rw [if_neg (by simp [beginInit]), if_neg (by simp [beginInit, mplayStatic])]

/-- Claim C13: pattern break is BCD.  For every effect argument `a` (a byte),
effect 13 at tick 0 sets `newsongpos = songpos + 1` and
`newpatrow = 10 * (a >> 4) + (a & 15)` and changes nothing else; at any
other tick it changes nothing. -/
theorem C13_pattern_break (sz rnd : Nat) (chd : TChannelData) (m : TModule) (mp : TModPlay)
    (ch : Fin 4) (he : chd.Effect = 13) (ha : chd.EffectArg < 256) :
    (mp.tick = 0 →
      ProcessEffect sz rnd chd m mp ch =
        .ok (m, { mp with
                  newsongpos := mp.songpos + 1
                  newpatrow := ((10 * (chd.EffectArg >>> 4) + (chd.EffectArg &&& 15) : Nat) : Int) })) ∧
    (mp.tick ≠ 0 → ProcessEffect sz rnd chd m mp ch = .ok (m, mp)) := by
  have h1 : chd.EffectArg >>> 4 = chd.EffectArg / 16 := by
    rw [Nat.shiftRight_eq_div_pow]
  have h2 : chd.EffectArg &&& 15 = chd.EffectArg % 16 := Nat.and_pow_two_sub_one_eq_mod _ 4
  have h3 : chd.EffectArg / 16 % 16 = chd.EffectArg / 16 := Nat.mod_eq_of_lt (by omega)
  constructor
  · intro ht
    simp only [ProcessEffect, he, DoPatternBreak_13, if_pos ht]
    simp only [h1, h2, h3]
    norm_num
    exact mul_comm _ _
  · intro ht
    simp only [ProcessEffect, he, DoPatternBreak_13, if_neg ht]
    norm_num

/-- Witness for `C13_pattern_break`: argument `0x23` gives row 23 (not 35) of
the next song position. -/
theorem C13_pattern_break_witness :
    (13 : Nat) = 13 ∧ (0x23 : Nat) < 256 ∧
    ProcessEffect 32 0
        { Samplenumber := 0, Noteperiod := 0, Effect := 13, EffectArg := 0x23, NoteIndex := 0,
          Note := [32, 32, 0], Octave := 0 }
        modStatic (beginInit 32 32000 mplayStatic) 0 =
      .ok (modStatic, { beginInit 32 32000 mplayStatic with newsongpos := 1, newpatrow := 23 }) :=
  ⟨rfl, by decide,
   ((C13_pattern_break 32 0
        { Samplenumber := 0, Noteperiod := 0, Effect := 13, EffectArg := 0x23, NoteIndex := 0,
          Note := [32, 32, 0], Octave := 0 }
        modStatic (beginInit 32 32000 mplayStatic) 0 rfl (by decide)).1 rfl).trans
     (by rfl)⟩

/-- Claim C14 (as stated, refuted): in the state `BeginPlayMOD (286331154)`
establishes, effect 15 with argument 125 at tick 0 stores `tambufplay = 0`:
the product `sfreq * 15` is taken in 32 bits (it is `14`), while
`floor (sfreq * 15 / (6 * 125))` is `5726623`. -/
theorem C14_counterexample_product_wraps :
    (beginInit 32 286331154 mplayStatic).tick = 0 ∧
    (beginInit 32 286331154 mplayStatic).sfreq = 286331154 ∧
    (DoSetSpeedBPM_15 32 (speedSlot 125) (beginInit 32 286331154 mplayStatic)).bpm = 125 ∧
    (DoSetSpeedBPM_15 32 (speedSlot 125) (beginInit 32 286331154 mplayStatic)).tambufplay = 0 ∧
    286331154 * 15 / (6 * 125) = 5726623 := by
  decide

/-- Claim C14 (amended): effect 15 at tick 0 with an argument below 32 sets
`ticksperdiv` to it and changes nothing else (so `bpm` and `tambufplay`
stay); with an argument of 32 or more it sets `bpm` to it and `tambufplay`
to `(sfreq * 15 mod 2^32) / (6 * arg)` and changes nothing else (so
`ticksperdiv` stays); that is `floor (sfreq * 15 / (6 * arg))` whenever
`sfreq * 15 < 2^32`.  Arguments `0x04` and `0x7D` applied at tick 0 of the
same row, in either order, leave `ticksperdiv = 4` and `bpm = 125`. -/
theorem C14_speed_bpm (sz rnd : Nat) (chd : TChannelData) (m : TModule) (mp : TModPlay)
    (ch : Fin 4) (he : chd.Effect = 15) (ht : mp.tick = 0) :
    (chd.EffectArg < 32 →
      ProcessEffect sz rnd chd m mp ch = .ok (m, { mp with ticksperdiv := chd.EffectArg })) ∧
    (32 ≤ chd.EffectArg →
      ProcessEffect sz rnd chd m mp ch =
        .ok (m, { mp with
                  bpm := chd.EffectArg
                  tambufplay :=
                    ((mp.sfreq * 15) % 2 ^ 32 / ((6 * chd.EffectArg) % 2 ^ 32)) % 2 ^ sz })) ∧
    (32 ≤ chd.EffectArg → chd.EffectArg < 256 → mp.sfreq * 15 < 2 ^ 32 → 32 ≤ sz →
      ((mp.sfreq * 15) % 2 ^ 32 / ((6 * chd.EffectArg) % 2 ^ 32)) % 2 ^ sz
        = mp.sfreq * 15 / (6 * chd.EffectArg)) ∧
    (∀ a b : Fin 4,
      (DoSetSpeedBPM_15 sz (speedSlot 0x7D) (DoSetSpeedBPM_15 sz (speedSlot 0x04) mp)).ticksperdiv = 4 ∧
      (DoSetSpeedBPM_15 sz (speedSlot 0x7D) (DoSetSpeedBPM_15 sz (speedSlot 0x04) mp)).bpm = 125 ∧
      (DoSetSpeedBPM_15 sz (speedSlot 0x04) (DoSetSpeedBPM_15 sz (speedSlot 0x7D) mp)).ticksperdiv = 4 ∧
      (DoSetSpeedBPM_15 sz (speedSlot 0x04) (DoSetSpeedBPM_15 sz (speedSlot 0x7D) mp)).bpm = 125 ∧
      ProcessEffect sz rnd (speedSlot 0x04) m mp a
        = .ok (m, DoSetSpeedBPM_15 sz (speedSlot 0x04) mp) ∧
      ProcessEffect sz rnd (speedSlot 0x7D) m (DoSetSpeedBPM_15 sz (speedSlot 0x04) mp) b
        = .ok (m, DoSetSpeedBPM_15 sz (speedSlot 0x7D) (DoSetSpeedBPM_15 sz (speedSlot 0x04) mp)) ∧
      ProcessEffect sz rnd (speedSlot 0x7D) m mp a
        = .ok (m, DoSetSpeedBPM_15 sz (speedSlot 0x7D) mp) ∧
      ProcessEffect sz rnd (speedSlot 0x04) m (DoSetSpeedBPM_15 sz (speedSlot 0x7D) mp) b
        = .ok (m, DoSetSpeedBPM_15 sz (speedSlot 0x04) (DoSetSpeedBPM_15 sz (speedSlot 0x7D) mp))) := by
  refine ⟨?_, ?_, ?_, ?_⟩
  · intro ha
    simp only [ProcessEffect, he, DoSetSpeedBPM_15, if_pos ht, if_pos ha]
    norm_num
  · intro ha
    simp only [ProcessEffect, he, DoSetSpeedBPM_15, if_pos ht, if_neg (not_lt.mpr ha)]
    norm_num
  · intro ha hb hs hz
    have h6 : (6 * chd.EffectArg) % 2 ^ 32 = 6 * chd.EffectArg := Nat.mod_eq_of_lt (by omega)
    rw [Nat.mod_eq_of_lt hs, h6]
    apply Nat.mod_eq_of_lt
    apply lt_of_le_of_lt (Nat.div_le_self _ _)
    exact lt_of_lt_of_le hs (Nat.pow_le_pow_right (by norm_num) hz)
  · intro a b
    refine ⟨?_, ?_, ?_, ?_, ?_, ?_, ?_, ?_⟩ <;>
      simp [ProcessEffect, DoSetSpeedBPM_15, speedSlot, ht]

/-- Witness for `C14_speed_bpm`: argument 125 at tick 0 of the state
`BeginPlayMOD (32000)` establishes sets `bpm = 125` and `tambufplay = 640`. -/
theorem C14_speed_bpm_witness :
    (speedSlot 125).Effect = 15 ∧ (beginInit 32 32000 mplayStatic).tick = 0 ∧
    32 ≤ (speedSlot 125).EffectArg ∧
    ProcessEffect 32 0 (speedSlot 125) modStatic (beginInit 32 32000 mplayStatic) 0 =
      .ok (modStatic, { beginInit 32 32000 mplayStatic with bpm := 125, tambufplay := 640 }) :=
  ⟨rfl, rfl, by decide,
   ((C14_speed_bpm 32 0 (speedSlot 125) modStatic (beginInit 32 32000 mplayStatic) 0 rfl rfl).2.1
      (by decide)).trans (by rfl)⟩

set_option maxRecDepth 100000 in
/-- Claim C15 (failing input): sample 1 of `fileFinetune31Slide` has the
finetune byte `0x1F`, which `LoadMOD` stores whole; row 0, channel 0 is
`00 00 11 08`: sample 1 without a note, slide up by 8.  The first call of
`PlayTick` (tick 0) binds the sample (`chan.finetune = 31`), stores
`pslide = 8` and returns a block.  In the second call (tick 1) effect 1
reads `finetune_table[31][35]`, outside the 16 rows of the table: the call
faults, no period and no phase is stored. -/
theorem C15_failing_input_finetune31_slide :
    fileFinetune31Slide.byteAt 44 = 0x1F ∧
    (loadSlot fileFinetune31Slide 1084).Samplenumber = 1 ∧
    (loadSlot fileFinetune31Slide 1084).Noteperiod = 0 ∧
    (loadSlot fileFinetune31Slide 1084).Effect = 1 ∧
    (loadSlot fileFinetune31Slide 1084).EffectArg = 8 ∧
    audioOf (playFile 32 100 fileFinetune31Slide [fun _ => 0]) = .ok [[128, 128]] ∧
    (stateOf (playFile 32 100 fileFinetune31Slide [fun _ => 0])).map
      (fun mp => (mp.tick, (mp.chan 0).finetune, (mp.chan 0).pslide, (mp.chan 0).noteperiod))
      = some (1, 31, 8, 0) ∧
    finetune_table.length = 16 ∧ ftLookup 31 35 = .error .outOfBounds ∧
    ((stateOf (playFile 32 100 fileFinetune31Slide [fun _ => 0])).map
      (fun mp => (ProcessEffect 32 0 (loadSlot fileFinetune31Slide 1084)
        (moduleOf fileFinetune31Slide) mp 0).map (fun r => (r.2.chan 0).noteperiod)))
      = some (.error .outOfBounds) ∧
    audioOf (playFile 32 100 fileFinetune31Slide [fun _ => 0, fun _ => 0])
      = .error .outOfBounds := by
  decide!

set_option maxRecDepth 100000 in
/-- Claim C16 (as stated, refuted): `fileSlideUp` starts period 120 with
finetune 0 and effect 1, argument 10.  After the tick-1 step (second call
of `PlayTick`) the period is already 113, not 110: `120 - 10` is below
`finetune_table[0][35] = 113`. -/
theorem C16_counterexample_clamp_at_tick1 :
    (stateOf (playFile 32 100 fileSlideUp [fun _ => 0])).map
      (fun mp => ((mp.chan 0).noteperiod, (mp.chan 0).finetune, (mp.chan 0).pslide,
        mp.ticksperdiv, mp.tick)) = some (120, 0, 10, 6, 1) ∧
    (stateOf (playFile 32 100 fileSlideUp [fun _ => 0, fun _ => 0])).map
      (fun mp => ((mp.chan 0).noteperiod, mp.tick)) = some (113, 2) ∧
    ftLookup 0 35 = .ok 113 := by
  decide!

/-- Claim C16 (amended): on a channel with `noteperiod = 120` and finetune 0,
effect 1 with argument 10 stores `pslide = 10` at tick 0; the tick-1 step
sets `noteperiod = 113 = finetune_table[0][35]` (as `120 - 10 = 110` is below
it) and the tick-2 step leaves 113, each with the phase recomputed from
113. -/
theorem C16_slide_up_scenario (sz : Nat) (chd : TChannelData) (mp : TModPlay) (ch : Fin 4)
    (f : Nat) (ha : chd.EffectArg = 10) (hn : (mp.chan ch).noteperiod = 120)
    (hft : (mp.chan ch).finetune = 0) (hf : calcFase sz mp.format mp.sfreq 113 = .ok f) :
    DoSlideUp_01 sz chd { mp with tick := 0 } ch
      = .ok ({ mp with tick := 0 }.setChan ch { mp.chan ch with pslide := 10 }) ∧
    DoSlideUp_01 sz chd
        ({ mp with tick := 1 }.setChan ch { mp.chan ch with pslide := 10 }) ch
      = .ok ({ mp with tick := 1 }.setChan ch
              { mp.chan ch with pslide := 10, noteperiod := 113, fase := f }) ∧
    DoSlideUp_01 sz chd
        ({ mp with tick := 2 }.setChan ch
          { mp.chan ch with pslide := 10, noteperiod := 113, fase := f }) ch
      = .ok ({ mp with tick := 2 }.setChan ch
              { mp.chan ch with pslide := 10, noteperiod := 113, fase := f }) := by
  have h35 : ftLookup 0 35 = .ok 113 := by decide
  refine ⟨?_, ?_, ?_⟩
  · simp [DoSlideUp_01, ha]
  · simp [DoSlideUp_01, setChan_same, hft, h35, hn, hf, TModPlay.setChan]
  · simp [DoSlideUp_01, setChan_same, hft, h35, hf, TModPlay.setChan]

/-- Witness for `C16_slide_up_scenario`: PAL at 32000 Hz, where the phase of
period 113 is 32141. -/
theorem C16_slide_up_scenario_witness :
    (speedSlot 10).EffectArg = 10 ∧ (stateS2.chan 0).noteperiod = 120 ∧
    (stateS2.chan 0).finetune = 0 ∧ calcFase 32 stateS2.format stateS2.sfreq 113 = .ok 32141 ∧
    DoSlideUp_01 32 (speedSlot 10)
        ({ stateS2 with tick := 1 }.setChan 0 { zeroChan with noteperiod := 120, pslide := 10 }) 0
      = .ok ({ stateS2 with tick := 1 }.setChan 0
              { zeroChan with pslide := 10, noteperiod := 113, fase := 32141 }) :=
  ⟨rfl, rfl, rfl, by decide,
   (C16_slide_up_scenario 32 (speedSlot 10) stateS2 0 32141 rfl rfl rfl (by decide)).2.1⟩

/-- Claim C18 (as stated, refuted): at tick 1 with argument `0x37` (high
nibble 3, low nibble 7) and period 428, the arpeggio computes the phase
from `428 * pot[7] / 2^24 = 285` (the low nibble), not from
`428 * pot[3] / 2^24 = 359`. -/
theorem C18_counterexample_low_nibble_first :
    stateArp.tick = 1 ∧ arpSlot.EffectArg / 16 % 16 = 3 ∧ arpSlot.EffectArg % 16 = 7 ∧
    428 * pot.getD 7 0 / 2 ^ 24 = 285 ∧ 428 * pot.getD 3 0 / 2 ^ 24 = 359 ∧
    (DoArpeggio_00 32 arpSlot stateArp 0).map (fun r => (r.chan 0).fase)
      = calcFase 32 stateArp.format stateArp.sfreq 285 ∧
    calcFase 32 stateArp.format stateArp.sfreq 285 = .ok 12743 ∧
    calcFase 32 stateArp.format stateArp.sfreq 359 = .ok 10117 := by
  decide

/-- Claim C18 (amended): for a tick `t != 0` and an argument `!= 0` with high
nibble `x` and low nibble `y`, effect 0 stores the phase computed from
`noteperiod` when `t % 3 = 0`, from `noteperiod * pot[y] / 2^24` when
`t % 3 = 1`, and from `noteperiod * pot[x] / 2^24` when `t % 3 = 2` (`%` is
the C remainder, which is the usual one for the ticks `t > 0` the player
counts); the channel is otherwise unchanged, `noteperiod` included. -/
theorem C18_arpeggio_order (sz rnd : Nat) (chd : TChannelData) (m : TModule) (mp : TModPlay)
    (ch : Fin 4) (he : chd.Effect = 0) (ht : mp.tick ≠ 0) (ha : chd.EffectArg ≠ 0)
    (hn : (mp.chan ch).noteperiod < 65536) :
    ProcessEffect sz rnd chd m mp ch
      = (DoArpeggio_00 sz chd mp ch).map (fun mp1 => (m, mp1)) ∧
    (Int.tmod mp.tick 3 = 0 →
      DoArpeggio_00 sz chd mp ch =
        (calcFase sz mp.format mp.sfreq (mp.chan ch).noteperiod).map
          (fun f => mp.setChan ch { mp.chan ch with fase := f })) ∧
    (Int.tmod mp.tick 3 = 1 →
      DoArpeggio_00 sz chd mp ch =
        (calcFase sz mp.format mp.sfreq
            ((mp.chan ch).noteperiod * pot.getD (chd.EffectArg % 16) 0 / 2 ^ 24)).map
          (fun f => mp.setChan ch { mp.chan ch with fase := f })) ∧
    (Int.tmod mp.tick 3 = 2 →
      DoArpeggio_00 sz chd mp ch =
        (calcFase sz mp.format mp.sfreq
            ((mp.chan ch).noteperiod * pot.getD (chd.EffectArg / 16 % 16) 0 / 2 ^ 24)).map
          (fun f => mp.setChan ch { mp.chan ch with fase := f })) ∧
    (0 < mp.tick → Int.tmod mp.tick 3 = mp.tick % 3) := by
  have hpot : ∀ i, pot.getD i 0 ≤ 16777216 := by
    intro i
    by_cases h : i < 16
    · interval_cases i <;> decide
    · have : pot.getD i 0 = 0 := by
        rw [List.getD_eq_default]
        simp [pot]; omega
      omega
  have hsmall : ∀ i, (mp.chan ch).noteperiod * pot.getD i 0 / 16777216 < 65536 := by
    intro i
    have := hpot i
    apply Nat.div_lt_of_lt_mul
    calc (mp.chan ch).noteperiod * pot.getD i 0
        ≤ (mp.chan ch).noteperiod * 16777216 := Nat.mul_le_mul_left _ this
      _ < 16777216 * 65536 := by omega
  have hmap : ∀ p : Nat,
      (match calcFase sz mp.format mp.sfreq p with
        | .error e => (.error e : Except Fault TModPlay)
        | .ok f => .ok (mp.setChan ch { mp.chan ch with fase := f }))
      = (calcFase sz mp.format mp.sfreq p).map
          (fun f => mp.setChan ch { mp.chan ch with fase := f }) := by
    intro p
    cases calcFase sz mp.format mp.sfreq p <;> rfl
  refine ⟨?_, ?_, ?_, ?_, ?_⟩
  · simp only [ProcessEffect, he]
    cases DoArpeggio_00 sz chd mp ch <;> rfl
  · intro h0
    simp only [DoArpeggio_00, if_pos ht, if_pos ha, if_pos h0]
    exact hmap _
  · intro h1
    have h0 : ¬ Int.tmod mp.tick 3 = 0 := by rw [h1]; decide
    simp only [DoArpeggio_00, if_pos ht, if_pos ha, if_neg h0, if_pos h1]
    rw [Nat.mod_eq_of_lt (hsmall _)]
    exact hmap _
  · intro h2
    have h0 : ¬ Int.tmod mp.tick 3 = 0 := by rw [h2]; decide
    have h1 : ¬ Int.tmod mp.tick 3 = 1 := by rw [h2]; decide
    simp only [DoArpeggio_00, if_pos ht, if_pos ha, if_neg h0, if_neg h1, if_pos h2]
    rw [Nat.mod_eq_of_lt (hsmall _)]
    exact hmap _
  · intro hpos
    rw [Int.tmod_eq_emod (le_of_lt hpos) (by norm_num)]

/-- Witness for `C18_arpeggio_order`: tick 1, argument `0x37`, period 428 at
32000 Hz stores the phase 12743 of period 285. -/
theorem C18_arpeggio_order_witness :
    arpSlot.Effect = 0 ∧ stateArp.tick ≠ 0 ∧ arpSlot.EffectArg ≠ 0 ∧
    (stateArp.chan 0).noteperiod < 65536 ∧ Int.tmod stateArp.tick 3 = 1 ∧
    DoArpeggio_00 32 arpSlot stateArp 0
      = .ok (stateArp.setChan 0 { zeroChan with noteperiod := 428, fase := 12743 }) :=
  ⟨rfl, by decide, by decide, by decide, by decide,
   ((C18_arpeggio_order 32 0 arpSlot modStatic stateArp 0 rfl (by decide) (by decide)
      (by decide)).2.2.1 (by decide)).trans (by rfl)⟩

/-- Claim C19: loop boundary.  For a channel bound to a sample whose data
block holds its `Samplelength` bytes, with `Repeatlength > 0` (so also for
every `Repeatlength > 2`) and `Repeatpoint + Repeatlength <= Samplelength`,
started at position 0 (phase accumulator below `1 << 15`) with
`end = Samplelength` and `fase = 1 << 15`, and a `size_t` wide enough for
`(Samplelength + 1) << 15`: every run of `n` passes of the mixing loop
returns, and the position pass `n` fetches is `n` while `n < Samplelength`
and `Repeatpoint + (n - Samplelength) % Repeatlength` from then on; that
position is inside the data block and the pass adds the byte found there,
scaled by the channel volume, to the mix. -/
theorem C19_loop_boundary (sz : Nat) (m : TModule) (c : TChanPlay) (k : Fin 31)
    (data : List Nat) (hs : c.sample = some k) (hd : (m.sample k).Sampledata = some data)
    (hl : (m.sample k).Samplelength ≤ data.length)
    (hr : 0 < (m.sample k).Repeatlength)
    (hb : (m.sample k).Repeatpoint + (m.sample k).Repeatlength ≤ (m.sample k).Samplelength)
    (hz : ((m.sample k).Samplelength + 1) * 32768 ≤ 2 ^ sz)
    (hp : c.position = 0) (hf : c.faseacum < 32768)
    (he : c.end_ = (m.sample k).Samplelength) (hfa : c.fase = 32768) (n : Nat) :
    ∃ c2, mixChannelSteps sz m n c = .ok c2 ∧
      c2.position = (if n < (m.sample k).Samplelength then n
                     else (m.sample k).Repeatpoint
                       + (n - (m.sample k).Samplelength) % (m.sample k).Repeatlength) ∧
      c2.position < data.length ∧
      ∃ c3, mixChannel sz m c2 = .ok (c3, toInt8 (data.getD c2.position 0) * c.volume) := by
  have hL : 0 < (m.sample k).Samplelength := by omega
  have h0 : loopInv m k c.faseacum 0 c :=
    ⟨hs, hfa, Or.inl ⟨hL, hp, by omega, he⟩⟩
  obtain ⟨c2, e, hi, hv⟩ := loopInv_run sz m k data c.faseacum hd hl hr hb hz hf n 0 c h0
  rw [Nat.zero_add] at hi
  have hpos : c2.position = (if n < (m.sample k).Samplelength then n
      else (m.sample k).Repeatpoint
        + (n - (m.sample k).Samplelength) % (m.sample k).Repeatlength) := by
    rcases hi.2.2 with ⟨a, b, _, _⟩ | ⟨a, b, _, _⟩
    · rw [if_pos a, b]
    · rw [if_neg (by omega), b]
  have hlt : c2.position < data.length := by
    rw [hpos]
    have := Nat.mod_lt (n - (m.sample k).Samplelength) hr
    split <;> omega
  obtain ⟨c3, x, e3, _, _⟩ := loopInv_step sz m k data c.faseacum hd hl hr hb hz hf n c2 hi
  have hx := (mixChannel_spec sz m c2 c3 x e3).1
  refine ⟨c2, e, hpos, hlt, c3, ?_⟩
  rw [e3, hx]
  simp only [muestraOf, hi.1, hd, hv]

/-- Witness for `C19_loop_boundary`: length 8, repeat point 4, repeat length
4.  Pass 12 fetches position 4, and passes 0..12 fetch
0,1,2,3,4,5,6,7,4,5,6,7,4. -/
theorem C19_loop_boundary_witness :
    chanLoop8.sample = some 0 ∧ (modLoop8.sample 0).Samplelength = 8 ∧
    (modLoop8.sample 0).Repeatpoint = 4 ∧ (modLoop8.sample 0).Repeatlength = 4 ∧
    chanLoop8.position = 0 ∧ chanLoop8.faseacum = 0 ∧ chanLoop8.end_ = 8 ∧
    chanLoop8.fase = 32768 ∧
    (List.range 13).map
        (fun n => (mixChannelSteps 32 modLoop8 n chanLoop8).map (fun c => c.position))
      = [0, 1, 2, 3, 4, 5, 6, 7, 4, 5, 6, 7, 4].map Except.ok ∧
    (∃ c2, mixChannelSteps 32 modLoop8 12 chanLoop8 = .ok c2 ∧ c2.position = 4 ∧
      c2.position < 8 ∧
      ∃ c3, mixChannel 32 modLoop8 c2 = .ok (c3, toInt8 ([5, 7, 100, 156, 50, 206, 127, 128].getD c2.position 0) * 64)) :=
  ⟨rfl, rfl, rfl, rfl, rfl, rfl, rfl, rfl, by decide,
   C19_loop_boundary 32 modLoop8 chanLoop8 0 [5, 7, 100, 156, 50, 206, 127, 128] rfl rfl
     (by decide) (by decide) (by decide) (by decide) rfl (by decide) rfl rfl 12⟩

set_option maxRecDepth 100000 in
/-- Claim C20 (as stated, refuted): `fileNoMagic` has 1624 bytes and zeros at
1080..1083, neither `M.K.` nor `FLT4`; `LoadMOD` does not fail on it but
returns a module, read with 15 sample headers (song length 0, one
pattern). -/
theorem C20_counterexample_no_magic_loads :
    1084 ≤ fileNoMagic.lfich ∧
    (List.range 4).map (fun k => fileNoMagic.byteAt (1080 + k)) = [0, 0, 0, 0] ∧
    numSamples fileNoMagic = 15 ∧
    (LoadMOD fileNoMagic).map (fun m => (m.Songlength, m.Numpatterns, m.pattern.length))
      = .ok (0, 1, 1) := by
  decide!

/-- Claim C20 (amended): the bytes 1080..1083 only select the number of sample
headers, 31 for `M.K.` or `FLT4` and 15 for anything else; `LoadMOD` never
fails on them.  For a file of at least 1084 bytes without one of the two
marks it returns a module exactly when the patterns (from offset 600) and
the sample data lie inside the file, and that module has the song length
of byte 470, the song positions of bytes 472..599 and empty samples
16..31. -/
theorem C20_magic_selects_sample_count (f : TFile) (hlen : 1084 ≤ f.lfich)
    (hm : ¬ ((f.byteAt 1080 = 77 ∧ f.byteAt 1081 = 46 ∧ f.byteAt 1082 = 75 ∧ f.byteAt 1083 = 46)
      ∨ (f.byteAt 1080 = 70 ∧ f.byteAt 1081 = 76 ∧ f.byteAt 1082 = 84 ∧ f.byteAt 1083 = 52))) :
    numSamples f = 15 ∧ patternStart f = 600 ∧
    ((∃ m, LoadMOD f = .ok m) ↔
      600 + 1024 * numPatterns f ≤ f.lfich ∧ sampleDataStart f 31 ≤ f.lfich) ∧
    (∀ m, LoadMOD f = .ok m →
      m.Songlength = f.byteAt 470 ∧ (∀ k : Fin 128, m.Songpositions k = f.byteAt (472 + k.val)) ∧
      m.Numpatterns = numPatterns f ∧ m.pattern.length = numPatterns f ∧
      (∀ i : Fin 31, 15 ≤ i.val → (m.sample i).Samplelength = 0 ∧
        (m.sample i).Sampledata = none)) := by
  have hn : numSamples f = 15 := by
    unfold numSamples
    rw [if_neg hm]
  have hps : patternStart f = 600 := by
    simp [patternStart, songInfoStart, hn]
  refine ⟨hn, hps, ?_, ?_⟩
  · constructor
    · rintro ⟨m, h⟩
      unfold LoadMOD at h
      split_ifs at h with h1 h2 h3
      rw [hps] at h2
      omega
    · rintro ⟨h2, h3⟩
      unfold LoadMOD
      rw [if_neg (by omega), if_neg (by rw [hps]; omega), if_neg (by omega)]
      exact ⟨_, rfl⟩
  · intro m h
    unfold LoadMOD at h
    split_ifs at h with h1 h2 h3
    simp only [Except.ok.injEq] at h
    subst h
    refine ⟨by simp [songInfoStart, hn], ?_, rfl, by simp, ?_⟩
    · intro k
      simp [songInfoStart, hn]
    · intro i hi
      have hz : headerOf f i.val = zeroSample := by
        unfold headerOf
        rw [if_neg (by rw [hn]; omega)]
      simp [hz, zeroSample]

set_option maxRecDepth 100000 in
/-- Witness for `C20_magic_selects_sample_count`: `fileNoMagic` is read with 15
sample headers and `LoadMOD` returns a module for it. -/
theorem C20_magic_selects_sample_count_witness :
    1084 ≤ fileNoMagic.lfich ∧ numSamples fileNoMagic = 15 ∧ patternStart fileNoMagic = 600 ∧
    ∃ m, LoadMOD fileNoMagic = .ok m :=
  have h := C20_magic_selects_sample_count fileNoMagic (by decide!) (by decide!)
  ⟨by decide!, h.1, h.2.1, h.2.2.1.mpr (by decide!)⟩

set_option maxRecDepth 100000 in
/-- Claim C21 (failing input): `fileTruncated` has 1084 bytes, the mark `M.K.`
and song positions that name pattern 0, so its patterns would end at offset
2108.  `LoadMOD` has no test of the length: the pattern loop starts at
`imod = 1084` and its first slot reads `buffer[1084 .. 1087]`, outside the
1084 bytes that were allocated and read. -/
theorem C21_failing_input_truncated :
    fileTruncated.lfich = 1084 ∧ numSamples fileTruncated = 31 ∧
    patternStart fileTruncated = 1084 ∧ numPatterns fileTruncated = 1 ∧
    (slotBody fileTruncated 0 ((blankPattern.row 0).chan, 1084)).map (fun st => st.2)
      = .error .outOfBounds ∧
    (LoadMOD_loops fileTruncated).toOption.isNone = true ∧
    (LoadMOD_loops fileTruncated).map (fun m => m.Numpatterns) = .error .outOfBounds := by
  decide!

/-- Claim C22: slot decoding.  For every `M.K.` or `FLT4` file that `LoadMOD`
loads, every pattern `p < Numpatterns`, row `r` and channel `c`: the four
bytes `b0..b3` at offset `1084 + 1024*p + 16*r + 4*c` are inside the file,
and the loaded slot has `Samplenumber = (b0 & 0xF0) | (b2 >> 4)`,
`Noteperiod = ((b0 & 0x0F) << 8) | b1`, `Effect = b2 & 0x0F` and
`EffectArg = b3`. -/
theorem C22_slot_decoding (f : TFile) (m : TModule)
    (hm : (f.byteAt 1080 = 77 ∧ f.byteAt 1081 = 46 ∧ f.byteAt 1082 = 75 ∧ f.byteAt 1083 = 46)
      ∨ (f.byteAt 1080 = 70 ∧ f.byteAt 1081 = 76 ∧ f.byteAt 1082 = 84 ∧ f.byteAt 1083 = 52))
    (hl : LoadMOD_loops f = .ok m) (p : Nat) (hp : p < m.Numpatterns) (r : Fin 64) (c : Fin 4) :
    1084 + 1024 * p + 16 * r.val + 4 * c.val + 3 < f.lfich ∧
    ∃ pat, m.pattern[p]? = some pat ∧
      ((pat.row r).chan c).Samplenumber
        = (f.byteAt (1084 + 1024 * p + 16 * r.val + 4 * c.val) &&& 0xF0)
          ||| (f.byteAt (1084 + 1024 * p + 16 * r.val + 4 * c.val + 2) >>> 4) ∧
      ((pat.row r).chan c).Noteperiod
        = ((f.byteAt (1084 + 1024 * p + 16 * r.val + 4 * c.val) &&& 0x0F) <<< 8)
          ||| f.byteAt (1084 + 1024 * p + 16 * r.val + 4 * c.val + 1) ∧
      ((pat.row r).chan c).Effect
        = f.byteAt (1084 + 1024 * p + 16 * r.val + 4 * c.val + 2) &&& 0x0F ∧
      ((pat.row r).chan c).EffectArg
        = f.byteAt (1084 + 1024 * p + 16 * r.val + 4 * c.val + 3) := by
  obtain ⟨_, _, hps⟩ := magic_layout f hm
  obtain ⟨_, h2, _, _, _, _, _, hpat, hnp⟩ := LoadMOD_loops_fields f m hl
  rw [hnp] at hp
  rw [hps] at h2
  have hr := r.isLt
  have hc := c.isLt
  refine ⟨by omega, loadPattern f p, ?_, ?_⟩
  · rw [hpat, List.getElem?_map, List.getElem?_range hp]
    rfl
  · have hs := loadSlot_fields f (1084 + 1024 * p + 16 * r.val + 4 * c.val)
    have e : ((loadPattern f p).row r).chan c
        = loadSlot f (1084 + 1024 * p + 16 * r.val + 4 * c.val) := by
      simp only [loadPattern, hps]
    rw [e]
    obtain ⟨a1, a2, a3⟩ := byte_masks (f.buffer (1084 + 1024 * p + 16 * r.val + 4 * c.val))
    obtain ⟨b1, b2, b3⟩ :=
      byte_masks (f.buffer (1084 + 1024 * p + 16 * r.val + 4 * c.val + 2))
    have l0 : f.byteAt (1084 + 1024 * p + 16 * r.val + 4 * c.val) % 16 < 16 :=
      Nat.mod_lt _ (by norm_num)
    have l1 : f.byteAt (1084 + 1024 * p + 16 * r.val + 4 * c.val) / 16 % 16 < 16 :=
      Nat.mod_lt _ (by norm_num)
    have l2 : f.byteAt (1084 + 1024 * p + 16 * r.val + 4 * c.val + 2) / 16 % 16 < 16 :=
      Nat.mod_lt _ (by norm_num)
    have o1 := nibble_or ⟨_, l1⟩ ⟨_, l2⟩
    have o2 := nibble_byte_or ⟨_, l0⟩
      (f.buffer (1084 + 1024 * p + 16 * r.val + 4 * c.val + 1))
    simp only [TFile.byteAt] at *
    rw [hs.1, hs.2.1, hs.2.2.1, hs.2.2.2, a1, a2, b2, b3, o1, o2]
    exact ⟨rfl, rfl, rfl, rfl⟩

set_option maxRecDepth 100000 in
/-- Witness for `C22_slot_decoding`: in `fileNote` the bytes at 1084 are
`01 AC 10 00`; the slot of pattern 0, row 0, channel 0 is sample 1, period
428, effect 0, argument 0. -/
theorem C22_slot_decoding_witness :
    ∃ m, LoadMOD_loops fileNote = .ok m ∧ 0 < m.Numpatterns ∧
      ∃ pat, m.pattern[0]? = some pat ∧
        ((pat.row 0).chan 0).Samplenumber = 1 ∧ ((pat.row 0).chan 0).Noteperiod = 428 ∧
        ((pat.row 0).chan 0).Effect = 0 ∧ ((pat.row 0).chan 0).EffectArg = 0 := by
  obtain ⟨m, hm⟩ := LoadMOD_loops_complete fileNote (by decide!) (by decide!) (by decide!)
  have hn : 0 < m.Numpatterns := by
    rw [(LoadMOD_loops_fields fileNote m hm).2.2.2.2.2.2.2.2]
    decide!
  obtain ⟨_, pat, h1, h2, h3, h4, h5⟩ :=
    C22_slot_decoding fileNote m (by decide!) hm 0 hn 0 0
  exact ⟨m, hm, hn, pat, h1, h2.trans (by decide!), h3.trans (by decide!),
    h4.trans (by decide!), h5.trans (by decide!)⟩

set_option maxRecDepth 100000 in
/-- Claim C23 (as stated, refuted): the first header of `fileEmptySample`
declares length 0 and has the bytes 64 (volume), `00 01` (repeat point) and
`00 01` (repeat length); the loaded sample has volume 0, repeat point 0 and
repeat length 0, not 64, 2 and 2. -/
theorem C23_counterexample_empty_header :
    (fileEmptySample.byteAt 42, fileEmptySample.byteAt 43) = (0, 0) ∧
    fileEmptySample.byteAt 45 = 64 ∧
    2 * (256 * fileEmptySample.byteAt 46 + fileEmptySample.byteAt 47) = 2 ∧
    2 * (256 * fileEmptySample.byteAt 48 + fileEmptySample.byteAt 49) = 2 ∧
    (LoadMOD_loops fileEmptySample).map
        (fun m => ((m.sample 0).Samplelength, (m.sample 0).Volume, (m.sample 0).Repeatpoint,
          (m.sample 0).Repeatlength))
      = .ok (0, 0, 0, 0) := by
  decide!

/-- Claim C23 (amended): for every `M.K.` or `FLT4` file that `LoadMOD` loads
and each of the 31 headers `i` at offset `h = 20 + 30*i`, the loaded sample
has `Samplelength = 2*(256*byte[h+22] + byte[h+23])`; when that length is
above 0 it has `Volume = byte[h+25]`,
`Repeatpoint = 2*(256*byte[h+26] + byte[h+27])` and
`Repeatlength = 2*(256*byte[h+28] + byte[h+29])`; when the length is 0 the
other bytes of the header are not read: volume, finetune, repeat point and
repeat length are 0 and there is no data. -/
theorem C23_sample_header (f : TFile) (m : TModule)
    (hm : (f.byteAt 1080 = 77 ∧ f.byteAt 1081 = 46 ∧ f.byteAt 1082 = 75 ∧ f.byteAt 1083 = 46)
      ∨ (f.byteAt 1080 = 70 ∧ f.byteAt 1081 = 76 ∧ f.byteAt 1082 = 84 ∧ f.byteAt 1083 = 52))
    (hl : LoadMOD_loops f = .ok m) (i : Fin 31) :
    (m.sample i).Samplelength
      = 2 * (256 * f.byteAt (20 + 30 * i.val + 22) + f.byteAt (20 + 30 * i.val + 23)) ∧
    (0 < (m.sample i).Samplelength →
      (m.sample i).Volume = f.byteAt (20 + 30 * i.val + 25) ∧
      (m.sample i).Repeatpoint
        = 2 * (256 * f.byteAt (20 + 30 * i.val + 26) + f.byteAt (20 + 30 * i.val + 27)) ∧
      (m.sample i).Repeatlength
        = 2 * (256 * f.byteAt (20 + 30 * i.val + 28) + f.byteAt (20 + 30 * i.val + 29))) ∧
    ((m.sample i).Samplelength = 0 →
      (m.sample i).Volume = 0 ∧ (m.sample i).Finetune = 0 ∧ (m.sample i).Repeatpoint = 0 ∧
      (m.sample i).Repeatlength = 0 ∧ (m.sample i).Sampledata = none) := by
  obtain ⟨hn, _, _⟩ := magic_layout f hm
  obtain ⟨_, _, _, _, hs, _⟩ := LoadMOD_loops_fields f m hl
  have hh : headerOf f i.val = loadSampleHeader f (20 + 30 * i.val) := by
    unfold headerOf
    rw [if_pos (by rw [hn]; exact i.isLt)]
  have hlen : (m.sample i).Samplelength
      = 2 * (f.byteAt (20 + 30 * i.val + 22) * 256 + f.byteAt (20 + 30 * i.val + 23)) := by
    rw [hs i, hh]
    split_ifs <;> rfl
  refine ⟨by rw [hlen]; ring, ?_, ?_⟩
  · intro hpos
    rw [hlen] at hpos
    rw [hs i, hh]
    have hp2 : (loadSampleHeader f (20 + 30 * i.val)).Samplelength > 0 := hpos
    rw [if_pos hp2]
    simp only [loadSampleHeader, if_pos hpos]
    refine ⟨trivial, ?_, ?_⟩ <;> ring
  · intro hz
    rw [hlen] at hz
    rw [hs i, hh]
    have hp2 : ¬ (loadSampleHeader f (20 + 30 * i.val)).Samplelength > 0 := by
      change ¬ (2 * (f.byteAt (20 + 30 * i.val + 22) * 256
        + f.byteAt (20 + 30 * i.val + 23)) > 0)
      omega
    rw [if_neg hp2]
    have hz2 : ¬ (2 * (f.byteAt (20 + 30 * i.val + 22) * 256
        + f.byteAt (20 + 30 * i.val + 23)) > 0) := by omega
    simp only [loadSampleHeader, if_neg hz2]
    exact ⟨trivial, trivial, trivial, trivial, trivial⟩

set_option maxRecDepth 100000 in
/-- Witness for `C23_sample_header`: the first header of `fileNote` declares 8
bytes, volume 64, repeat point 4 and repeat length 4. -/
theorem C23_sample_header_witness :
    ∃ m, LoadMOD_loops fileNote = .ok m ∧ (m.sample 0).Samplelength = 8 ∧
      (m.sample 0).Volume = 64 ∧ (m.sample 0).Repeatpoint = 4 ∧
      (m.sample 0).Repeatlength = 4 := by
  obtain ⟨m, hm⟩ := LoadMOD_loops_complete fileNote (by decide!) (by decide!) (by decide!)
  obtain ⟨h1, h2, _⟩ := C23_sample_header fileNote m (by decide!) hm 0
  have h8 : (m.sample 0).Samplelength = 8 := h1.trans (by decide!)
  obtain ⟨h3, h4, h5⟩ := h2 (by rw [h8]; norm_num)
  exact ⟨m, hm, h8, h3.trans (by decide!), h4.trans (by decide!), h5.trans (by decide!)⟩

set_option maxRecDepth 100000 in
/-- Claim C24 (failing input): the finetune byte of sample 1 of
`fileFinetune31` is `0x1F`.  `LoadMOD` stores the whole byte:
`Finetune = 31`, not the low nibble 15.  Row 0 plays sample 1 at period
428: row setup copies 31 into `chan.finetune` and reads
`finetune_table[31][12]`, outside the 16 rows of the table, so the first
call of `PlayTick` faults. -/
theorem C24_failing_input_finetune31 :
    fileFinetune31.byteAt 44 = 0x1F ∧ fileFinetune31.byteAt 44 % 16 = 15 ∧
    (LoadMOD_loops fileFinetune31).map (fun m => (m.sample 0).Finetune) = .ok 31 ∧
    (bindSample (moduleOf fileFinetune31) (loadSlot fileFinetune31 1084) zeroChan).map
      (fun c => c.finetune) = .ok 31 ∧
    (loadSlot fileFinetune31 1084).NoteIndex = 12 ∧
    ftLookup 31 12 = .error .outOfBounds ∧
    audioOf (playFile 32 100 fileFinetune31 [fun _ => 0]) = .error .outOfBounds := by
  decide!

/-- Claim C25: sample data placement.  For every `M.K.` or `FLT4` file that
`LoadMOD` loads and every sample `i` with length `L > 0`, with
`start = 1084 + 1024 * Numpatterns +` the sum of the lengths of the samples
before `i`: the block `start .. start + L - 1` is inside the file, the
loaded data has exactly `L` bytes, `data[0] = data[1] = 0` and
`data[k] = byte[start + k]` for `2 <= k < L`; a sample with length 0 has no
data. -/
theorem C25_sample_data (f : TFile) (m : TModule)
    (hm : (f.byteAt 1080 = 77 ∧ f.byteAt 1081 = 46 ∧ f.byteAt 1082 = 75 ∧ f.byteAt 1083 = 46)
      ∨ (f.byteAt 1080 = 70 ∧ f.byteAt 1081 = 76 ∧ f.byteAt 1082 = 84 ∧ f.byteAt 1083 = 52))
    (hl : LoadMOD_loops f = .ok m) (i : Fin 31) :
    (0 < (m.sample i).Samplelength →
      1084 + 1024 * m.Numpatterns
          + ((List.range i.val).map
              (fun j => if h : j < 31 then (m.sample ⟨j, h⟩).Samplelength else 0)).sum
          + (m.sample i).Samplelength ≤ f.lfich ∧
      ∃ data, (m.sample i).Sampledata = some data ∧
        data.length = (m.sample i).Samplelength ∧
        data[0]? = some 0 ∧ data[1]? = some 0 ∧
        ∀ k, 2 ≤ k → k < (m.sample i).Samplelength →
          data[k]? = some (f.byteAt (1084 + 1024 * m.Numpatterns
            + ((List.range i.val).map
                (fun j => if h : j < 31 then (m.sample ⟨j, h⟩).Samplelength else 0)).sum
            + k))) ∧
    ((m.sample i).Samplelength = 0 → (m.sample i).Sampledata = none) := by
  obtain ⟨hn, _, hps⟩ := magic_layout f hm
  obtain ⟨_, _, h3, _, hs, _, _, _, hnp⟩ := LoadMOD_loops_fields f m hl
  have hlenall : ∀ j : Fin 31, (m.sample j).Samplelength = (headerOf f j.val).Samplelength := by
    intro j
    rw [hs j]
    split_ifs <;> rfl
  have hsum : ((List.range i.val).map
      (fun j => if h : j < 31 then (m.sample ⟨j, h⟩).Samplelength else 0))
      = (List.range i.val).map (fun j => (headerOf f j).Samplelength) := by
    apply List.map_congr_left
    intro j hj
    have hj31 : j < 31 := lt_trans (List.mem_range.mp hj) i.isLt
    rw [dif_pos hj31]
    exact hlenall ⟨j, hj31⟩
  have hstart : 1084 + 1024 * m.Numpatterns
      + ((List.range i.val).map
          (fun j => if h : j < 31 then (m.sample ⟨j, h⟩).Samplelength else 0)).sum
      = sampleDataStart f i.val := by
    rw [hsum, hnp]
    unfold sampleDataStart
    rw [hps]
  have hdata : (headerOf f i.val).Sampledata = none := by
    unfold headerOf
    split_ifs <;> rfl
  rw [hstart, hlenall i]
  constructor
  · intro hpos
    have hmono := sum_range_mono (fun j => (headerOf f j).Samplelength) (i.val + 1)
      (31 - (i.val + 1))
    have e31 : i.val + 1 + (31 - (i.val + 1)) = 31 := by have := i.isLt; omega
    rw [e31, sum_range_succ_map] at hmono
    refine ⟨?_, (List.range (headerOf f i.val).Samplelength).map
      (fun k => if k < 2 then 0 else f.byteAt (sampleDataStart f i.val + k)), ?_, ?_, ?_, ?_, ?_⟩
    · unfold sampleDataStart at h3 ⊢
      omega
    · rw [hs i, if_pos hpos]
    · rw [List.length_map, List.length_range]
    · have h2 : 2 ≤ (headerOf f i.val).Samplelength := by
        have : (headerOf f i.val).Samplelength % 2 = 0 := by
          unfold headerOf
          split_ifs
          · simp [loadSampleHeader]
          · rfl
        omega
      rw [List.getElem?_map, List.getElem?_range (by omega)]
      rfl
    · have h2 : 2 ≤ (headerOf f i.val).Samplelength := by
        have : (headerOf f i.val).Samplelength % 2 = 0 := by
          unfold headerOf
          split_ifs
          · simp [loadSampleHeader]
          · rfl
        omega
      rw [List.getElem?_map, List.getElem?_range (by omega)]
      rfl
    · intro k hk2 hkl
      rw [List.getElem?_map, List.getElem?_range hkl]
      simp only [Option.map_some', if_neg (show ¬ k < 2 by omega)]
  · intro hz
    rw [hs i, if_neg (by omega)]
    exact hdata

set_option maxRecDepth 100000 in
/-- Witness for `C25_sample_data`: sample 1 of `fileNote` has 8 bytes, read
from offset 2108 on: `00 00 64 9C 32 CE 7F 80` with the first two forced to
0 (the file has 5 and 7 there). -/
theorem C25_sample_data_witness :
    (fileNote.byteAt 2108, fileNote.byteAt 2109, fileNote.byteAt 2110) = (5, 7, 100) ∧
    ∃ m, LoadMOD_loops fileNote = .ok m ∧ (m.sample 0).Samplelength = 8 ∧
      ∃ data, (m.sample 0).Sampledata = some data ∧ data.length = 8 ∧
        data[0]? = some 0 ∧ data[1]? = some 0 ∧ data[2]? = some 100 := by
  obtain ⟨m, hm⟩ := LoadMOD_loops_complete fileNote (by decide!) (by decide!) (by decide!)
  have hf := LoadMOD_loops_fields fileNote m hm
  have h8 : (m.sample 0).Samplelength = 8 := by
    rw [hf.2.2.2.2.1 0]
    decide!
  have hn : m.Numpatterns = 1 := hf.2.2.2.2.2.2.2.2.trans (by decide!)
  obtain ⟨_, data, h1, h2, h3, h4, h5⟩ :=
    (C25_sample_data fileNote m (by decide!) hm 0).1 (by rw [h8]; norm_num)
  have e : fileNote.byteAt (1084 + 1024 * 1
      + ((List.range 0).map
          (fun j => if h : j < 31 then (m.sample ⟨j, h⟩).Samplelength else 0)).sum + 2)
      = 100 := by
    simp only [List.range_zero, List.map_nil, List.sum_nil]
    decide!
  have h52 := h5 2 (le_refl _) (by rw [h8]; norm_num)
  rw [hn] at h52
  exact ⟨by decide!, m, hm, h8, data, h1, h2.trans h8, h3, h4, h52.trans (congrArg some e)⟩

/-- Claim C26: note index is the nearest base-table entry.  For a slot with
`Noteperiod = p != 0`, `NotePeriodToNoteName` sets `NoteIndex` to an index
`i < 36` of `finetune_table[0]` with `|p - table[0][i]| <= |p - table[0][j]|`
for every `j < 36`, and `i <= j` for every `j` at the same distance (the
smallest index that minimises the distance); if `p` occurs in row 0 then
`table[0][NoteIndex] = p`.  The other fields read from the file are kept. -/
theorem C26_note_index (chd : TChannelData) (hp : chd.Noteperiod ≠ 0) :
    (NotePeriodToNoteName chd).NoteIndex < 36 ∧
    (∀ j, j < 36 →
      Int.natAbs ((chd.Noteperiod : Int)
          - ((finetune_table.getD 0 []).getD (NotePeriodToNoteName chd).NoteIndex 0 : Nat))
        ≤ Int.natAbs ((chd.Noteperiod : Int) - ((finetune_table.getD 0 []).getD j 0 : Nat))) ∧
    (∀ j, j < 36 →
      Int.natAbs ((chd.Noteperiod : Int) - ((finetune_table.getD 0 []).getD j 0 : Nat))
        = Int.natAbs ((chd.Noteperiod : Int)
            - ((finetune_table.getD 0 []).getD (NotePeriodToNoteName chd).NoteIndex 0 : Nat)) →
      (NotePeriodToNoteName chd).NoteIndex ≤ j) ∧
    (∀ j, j < 36 → (finetune_table.getD 0 []).getD j 0 = chd.Noteperiod →
      (finetune_table.getD 0 []).getD (NotePeriodToNoteName chd).NoteIndex 0 = chd.Noteperiod) ∧
    (NotePeriodToNoteName chd).Noteperiod = chd.Noteperiod ∧
    (NotePeriodToNoteName chd).Samplenumber = chd.Samplenumber ∧
    (NotePeriodToNoteName chd).Effect = chd.Effect ∧
    (NotePeriodToNoteName chd).EffectArg = chd.EffectArg := by
  have hlen : (finetune_table.getD 0 []).length = 36 := by decide
  obtain ⟨hlt, hmin⟩ := noteLoop_nearest chd.Noteperiod (finetune_table.getD 0 []) [] 0 rfl
    (by rw [hlen]; norm_num) (fun _ => rfl) (fun h => absurd h (by simp))
    (fun j hj => absurd hj (by simp)) (fun j hj => absurd hj (by simp))
  rw [hlen] at hlt hmin
  simp only [List.length_nil] at hlt hmin
  have hidx : (NotePeriodToNoteName chd).NoteIndex
      = noteLoop chd.Noteperiod 0 0 (finetune_table.getD 0 []) := by
    simp only [NotePeriodToNoteName, if_neg hp]
    exact Nat.mod_eq_of_lt (by omega)
  have hkeep : (NotePeriodToNoteName chd).Noteperiod = chd.Noteperiod ∧
      (NotePeriodToNoteName chd).Samplenumber = chd.Samplenumber ∧
      (NotePeriodToNoteName chd).Effect = chd.Effect ∧
      (NotePeriodToNoteName chd).EffectArg = chd.EffectArg := by
    unfold NotePeriodToNoteName
    rw [if_neg hp]
    exact ⟨rfl, rfl, rfl, rfl⟩
  rw [hidx]
  refine ⟨hlt, fun j hj => (hmin j hj).1, fun j hj => (hmin j hj).2, ?_, hkeep⟩
  intro j hj he
  have h := (hmin j hj).1
  rw [he, sub_self, Int.natAbs_zero] at h
  have h0 := Int.natAbs_eq_zero.mp (Nat.le_zero.mp h)
  omega

set_option maxRecDepth 100000 in
/-- Witness for `C26_note_index`: period 430, which is not in the table, gets
index 12, the entry 428 (C-2); the neighbours 453 and 404 are farther. -/
theorem C26_note_index_witness :
    (periodSlot 430).Noteperiod ≠ 0 ∧
    (NotePeriodToNoteName (periodSlot 430)).NoteIndex = 12 ∧
    (finetune_table.getD 0 []).getD 11 0 = 453 ∧ (finetune_table.getD 0 []).getD 12 0 = 428 ∧
    (finetune_table.getD 0 []).getD 13 0 = 404 ∧
    (NotePeriodToNoteName (periodSlot 430)).NoteIndex < 36 :=
  ⟨by decide, by decide!, by decide, by decide, by decide,
   (C26_note_index (periodSlot 430) (by decide)).1⟩

set_option maxRecDepth 100000 in
/-- Claim C27 (as stated, refuted): the first song position of
`filePattern255` is 255, so the largest position plus one is 256;
`LoadMOD` stores `Numpatterns = 0` (the field is a `uint8_t`) and loads no
pattern. -/
theorem C27_counterexample_position_255 :
    filePattern255.byteAt 952 = 255 ∧
    (LoadMOD_loops filePattern255).map
        (fun m => (m.Songpositions 0, m.Numpatterns, m.pattern.length))
      = .ok (255, 0, 0) := by
  decide!

/-- Claim C27 (amended): for every file that `LoadMOD` loads, with `M` the
largest of the 128 loaded song positions (the bytes at offset 952 of an
`M.K.` or `FLT4` file, at offset 472 of any other; each is at most 255):
`Numpatterns = (M + 1) mod 256` and exactly that many patterns are loaded;
so `Numpatterns = M + 1` whenever `M <= 254`, and `Numpatterns = 0` with no
pattern loaded when `M = 255`. -/
theorem C27_num_patterns (f : TFile) (m : TModule) (hl : LoadMOD_loops f = .ok m) :
    ∃ M, (∀ k : Fin 128, m.Songpositions k ≤ M) ∧ (∃ k : Fin 128, m.Songpositions k = M) ∧
      M ≤ 255 ∧
      m.Numpatterns = (M + 1) % 256 ∧ m.pattern.length = m.Numpatterns ∧
      (M ≤ 254 → m.Numpatterns = M + 1) ∧
      (M = 255 → m.Numpatterns = 0 ∧ m.pattern = []) ∧
      (numSamples f = 31 → ∀ k : Fin 128, m.Songpositions k = f.byteAt (952 + k.val)) ∧
      (numSamples f = 15 → ∀ k : Fin 128, m.Songpositions k = f.byteAt (472 + k.val)) := by
  obtain ⟨_, _, _, _, _, hpos, _, hpat, hnp⟩ := LoadMOD_loops_fields f m hl
  obtain ⟨M, h1, h2, h3, h4⟩ := numPatterns_max f
  have hlen : m.pattern.length = m.Numpatterns := by
    rw [hpat, hnp, List.length_map, List.length_range]
  refine ⟨M, ?_, ?_, h3, by rw [hnp, h4], hlen, ?_, ?_, ?_, ?_⟩
  · intro k; rw [hpos k]; exact h1 k
  · obtain ⟨k, hk⟩ := h2
    exact ⟨k, by rw [hpos k]; exact hk⟩
  · intro hM
    rw [hnp, h4]
    omega
  · intro hM
    have h0 : m.Numpatterns = 0 := by rw [hnp, h4, hM]
    exact ⟨h0, List.eq_nil_of_length_eq_zero (by rw [hlen, h0])⟩
  · intro hn k
    rw [hpos k]
    unfold songInfoStart
    rw [hn]
  · intro hn k
    rw [hpos k]
    unfold songInfoStart
    rw [hn]

set_option maxRecDepth 100000 in
/-- Witness for `C27_num_patterns`: `fileNote` names pattern 0 at every song
position and is loaded with one pattern. -/
theorem C27_num_patterns_witness :
    ∃ m, LoadMOD_loops fileNote = .ok m ∧ m.Numpatterns = 1 ∧ m.pattern.length = 1 ∧
      ∃ M, (∀ k : Fin 128, m.Songpositions k ≤ M) ∧ m.Numpatterns = (M + 1) % 256 := by
  obtain ⟨m, hm⟩ := LoadMOD_loops_complete fileNote (by decide!) (by decide!) (by decide!)
  have hn : m.Numpatterns = 1 :=
    (LoadMOD_loops_fields fileNote m hm).2.2.2.2.2.2.2.2.trans (by decide!)
  obtain ⟨M, h1, _, _, h4, h5, _⟩ := C27_num_patterns fileNote m hm
  exact ⟨m, hm, hn, h5.trans hn, M, h1, h4⟩

set_option maxRecDepth 100000 in
/-- Claim C28 (failing input): the song name of `fileLongName` is twenty
printable characters `A` and its first sample name twenty-two characters
`B`.  `LoadMOD` calls `Sanitize (mod.Songname, 20)` and
`Sanitize (mod.sample[i].Samplename, 22)`, which store the terminator at
index 19 and 21: the loaded song name is nineteen `A` and the sample name
twenty-one `B`; the last character of each is lost. -/
theorem C28_failing_input_long_name :
    (List.range 20).map (fun k => fileLongName.byteAt k) = List.replicate 20 65 ∧
    (List.range 22).map (fun k => fileLongName.byteAt (20 + k)) = List.replicate 22 66 ∧
    (LoadMOD_loops fileLongName).map (fun m => (m.Songname, (m.sample 0).Samplename))
      = .ok (List.replicate 19 65 ++ [0, 0], List.replicate 21 66 ++ [0, 0]) ∧
    (LoadMOD_loops fileLongName).map (fun m => (m.Songname.getD 19 0, fileLongName.byteAt 19))
      = .ok (0, 65) ∧
    (LoadMOD_loops fileLongName).map
        (fun m => ((m.sample 0).Samplename.getD 21 0, fileLongName.byteAt 41))
      = .ok (0, 66) := by
  decide!

set_option maxRecDepth 100000 in
/-- Claim C29 (failing input): sample 1 of `fileLoopPastEnd` declares length 8,
repeat point 8 and repeat length 4.  `LoadMOD` copies the three values
without a test, so the loaded sample has `Repeatlength > 2` and
`Repeatpoint + Repeatlength = 12 > 8`.  Row 0 plays it: after the first
mixing pass the channel is past `end` and is sent to `position = 8` with
`end = 12`, and the second pass reads `Sampledata[8]` of a block of 8
bytes: the first call of `PlayTick` faults. -/
theorem C29_failing_input_loop_past_end :
    (LoadMOD_loops fileLoopPastEnd).map
        (fun m => ((m.sample 0).Samplelength, (m.sample 0).Repeatpoint,
          (m.sample 0).Repeatlength, (m.sample 0).Sampledata.map List.length))
      = .ok (8, 8, 4, some 8) ∧
    ((rowSetup 32 (moduleOf fileLoopPastEnd) (beginInit 32 100 mplayStatic)
        (loadSlot fileLoopPastEnd 1084) ((beginInit 32 100 mplayStatic).chan 0)).bind
      (fun c => mixChannelSteps 32 (moduleOf fileLoopPastEnd) 1 c)).map
        (fun c => (c.position, c.end_))
      = .ok (8, 12) ∧
    ((rowSetup 32 (moduleOf fileLoopPastEnd) (beginInit 32 100 mplayStatic)
        (loadSlot fileLoopPastEnd 1084) ((beginInit 32 100 mplayStatic).chan 0)).bind
      (fun c => mixChannelSteps 32 (moduleOf fileLoopPastEnd) 2 c)).map
        (fun c => c.position)
      = .error .outOfBounds ∧
    (beginInit 32 100 mplayStatic).tambufplay = 2 ∧
    audioOf (playFile 32 100 fileLoopPastEnd [fun _ => 0]) = .error .outOfBounds := by
  decide!

set_option exponentiation.threshold 400 in
/-- Claim C30 (as stated, refuted): `pot[3] = 14107900` is not the integer
nearest to `2^24 / 2^(3/12)` (that is 14107901):
`(2 * pot[3] + 1)^12 * 2^3 < 2^300`, so `pot[3] + 1/2` is still below the
ratio.  The same holds at the indices 5, 8, 11 and 13. -/
theorem C30_counterexample_not_nearest :
    pot.getD 3 0 = 14107900 ∧
    ¬ (2 ^ 300 ≤ (2 * pot.getD 3 0 + 1) ^ 12 * 2 ^ 3) ∧
    (2 * 14107901 - 1) ^ 12 * 2 ^ 3 ≤ 2 ^ 300 ∧ 2 ^ 300 ≤ (2 * 14107901 + 1) ^ 12 * 2 ^ 3 ∧
    (List.range 16).filter
        (fun i => ¬ ((2 * pot.getD i 0 - 1) ^ 12 * 2 ^ i ≤ 2 ^ 300 ∧
                     2 ^ 300 ≤ (2 * pot.getD i 0 + 1) ^ 12 * 2 ^ i))
      = [3, 5, 8, 11, 13] := by
  decide

set_option exponentiation.threshold 400 in
/-- Claim C30 (amended): the table has 16 entries and for every `i` in `0..15`
`pot[i]` is `2^24 / 2^(i/12)` rounded down:
`pot[i]^12 * 2^i <= 2^288 < (pot[i] + 1)^12 * 2^i`; it is also the nearest
integer at every index other than 3, 5, 8, 11 and 13. -/
theorem C30_pot_table :
    pot.length = 16 ∧
    (∀ i : Fin 16,
      pot.getD i.val 0 ^ 12 * 2 ^ i.val ≤ 2 ^ 288 ∧
      2 ^ 288 < (pot.getD i.val 0 + 1) ^ 12 * 2 ^ i.val) ∧
    (List.range 16).filter
        (fun i => (2 * pot.getD i 0 - 1) ^ 12 * 2 ^ i ≤ 2 ^ 300 ∧
                  2 ^ 300 ≤ (2 * pot.getD i 0 + 1) ^ 12 * 2 ^ i)
      = [0, 1, 2, 4, 6, 7, 9, 10, 12, 14, 15] := by
  decide

/-- Claim C31 (as stated, refuted): when `LoadMOD` fails (it returns 0) `main`
returns 0, and when `BeginPlayMOD` fails (it returns 0) `main` returns 0:
not a non-zero exit code. -/
theorem C31_counterexample_failure_exit_zero :
    main true 0 1 [] = some 0 ∧ main true 1 0 [] = some 0 := by
  decide

/-- Claim C31 (amended): every `return` of `main` returns 0.  Without a file
name, when `LoadMOD` does not return 1 and when `BeginPlayMOD` does not
return 1, `main` returns 0 at once; otherwise it returns 0 when the
monitoring loop ends (the song has finished or the key 27 was read) and
does not return while the loop runs. -/
theorem C31_exit_codes (named : Bool) (res begin : Int) (turns : List (Int × Option Nat)) :
    (∀ c, main named res begin turns = some c → c = 0) ∧
    main false res begin turns = some 0 ∧
    (res ≠ 1 → main named res begin turns = some 0) ∧
    (begin ≠ 1 → main named res begin turns = some 0) ∧
    (named = true → res = 1 → begin = 1 → monitorLoop turns = true →
      main named res begin turns = some 0) ∧
    (named = true → res = 1 → begin = 1 → monitorLoop turns = false →
      main named res begin turns = none) := by
  refine ⟨?_, ?_, ?_, ?_, ?_, ?_⟩
  · intro c h
    unfold main at h
    split_ifs at h <;> (cases h; rfl)
  · simp [main]
  · intro h; unfold main; split_ifs <;> rfl
  · intro h; unfold main; split_ifs <;> rfl
  · intro h1 h2 h3 h4
    simp [main, h1, h2, h3, h4]
  · intro h1 h2 h3 h4
    simp [main, h1, h2, h3, h4]

set_option maxRecDepth 100000 in
/-- Claim C32 (failing input): `filePatternBreak64` has song length 2 and a
pattern break with argument `0x64` on row 0.  The six calls of `PlayTick`
that play row 0 leave `newpatrow = 64`, `newsongpos = 1` and
`finished = 0`; the row advance of the seventh call sets `patrow = 64` at
song position 1, inside the song, so the call goes on with `finished = 0`
and reads `row[64]` of a pattern of 64 rows: it faults. -/
theorem C32_failing_input_pattern_break64 :
    (moduleOf filePatternBreak64).Songlength = 2 ∧
    (loadSlot filePatternBreak64 1084).Effect = 13 ∧
    (loadSlot filePatternBreak64 1084).EffectArg = 0x64 ∧
    (stateOf (playFile 32 100 filePatternBreak64 (List.replicate 6 (fun _ => 0)))).map
      (fun mp => (mp.tick, mp.patrow, mp.newpatrow, mp.newsongpos, mp.finished))
      = some (6, 0, 64, 1, 0) ∧
    (stateOf (playFile 32 100 filePatternBreak64 (List.replicate 6 (fun _ => 0)))).map
      (fun mp => ((advanceRow mp).patrow, (advanceRow mp).songpos, (advanceRow mp).finished))
      = some (64, 1, 0) ∧
    ((stateOf (playFile 32 100 filePatternBreak64 (List.replicate 6 (fun _ => 0)))).map
      (fun mp => (currentSlot (moduleOf filePatternBreak64) (advanceRow mp) 0).map
        (fun chd => chd.Effect)))
      = some (.error .outOfBounds) ∧
    audioOf (playFile 32 100 filePatternBreak64 (List.replicate 7 (fun _ => 0)))
      = .error .outOfBounds := by
  decide!

set_option maxRecDepth 100000 in
/-- Claim C33 (failing input): sample 1 of `fileSampleOffset` has 512 bytes
with byte 0 equal to 0 and byte 256 equal to 50; row 0 plays it at period
428 with effect 9 and argument 1 (offset 256).  In the first call of
`PlayTick` the channel loop triggers the note (position 0, accumulator 0)
and effect 9 then stores `(1 * 256) << 15 = 8388608` into the accumulator
alone: when the mixing loop starts, channel 0 has position 0 while
`faseacum >> 15 = 256`.  The first pass fetches byte 0 of the sample, not
byte 256: the first byte of the block is `128`, where the sample at the
offset gives `128 + 50 * 64 / 256 = 140`; after the call the position is
again `faseacum >> 15`. -/
theorem C33_failing_input_sample_offset :
    (loadSlot fileSampleOffset 1084).Samplenumber = 1 ∧
    (loadSlot fileSampleOffset 1084).Effect = 9 ∧
    (loadSlot fileSampleOffset 1084).EffectArg = 1 ∧
    ((moduleOf fileSampleOffset).sample 0).Samplelength = 512 ∧
    ((moduleOf fileSampleOffset).sample 0).Sampledata.bind (fun d => d[0]?) = some 0 ∧
    ((moduleOf fileSampleOffset).sample 0).Sampledata.bind (fun d => d[256]?) = some 50 ∧
    ((LoadMOD fileSampleOffset).bind (fun m =>
        processChannels 32 (fun _ => 0) m
          { beginInit 32 100 mplayStatic with newrow := 1 })).map
      (fun r => ((r.2.chan 0).position, (r.2.chan 0).faseacum,
        (r.2.chan 0).faseacum >>> 15, (r.2.chan 0).volume))
      = .ok (0, 8388608, 256, 64) ∧
    (audioOf (playFile 32 100 fileSampleOffset [fun _ => 0])).map
      (fun bufs => bufs.map (fun b => b.head?)) = .ok [some 128] ∧
    128 + 50 * 64 / 256 = 140 ∧
    (stateOf (playFile 32 100 fileSampleOffset [fun _ => 0])).map
      (fun mp => ((mp.chan 0).position, (mp.chan 0).faseacum >>> 15)) = some (421, 421) := by
  decide!

set_option maxRecDepth 100000 in
/-- Claim C34 (failing input): a note of index 10 (period 480) played on a
sample of finetune -8 gets the period `finetune_table[8][10] = 504`, and on
a sample of finetune -7 the period `finetune_table[9][10] = 505`: the
period rises with the finetune.  The same happens at note index 17 from
finetune -4 (`finetune_table[12][17] = 330`) to finetune -3
(`finetune_table[13][17] = 338`).  These are the only two rises along the
row order `8, 9, .., 15, 0, 1, .., 7`.  The table shows both entries to be
out of line: the row of finetune -8 is the row of finetune 0 moved by one
note everywhere but at index 10 (504 against 508), and a period is twice
the period one octave up, within 1, everywhere but at the three places that
involve these two entries. -/
theorem C34_failing_input_finetune_rises :
    (loadSlot fileFinetuneMinus8 1084).NoteIndex = 10 ∧
    (loadSlot fileFinetuneMinus7 1084).NoteIndex = 10 ∧
    ((moduleOf fileFinetuneMinus8).sample 0).Finetune = 8 ∧
    ((moduleOf fileFinetuneMinus7).sample 0).Finetune = 9 ∧
    (stateOf (playFile 32 100 fileFinetuneMinus8 [fun _ => 0])).map
      (fun mp => (mp.chan 0).noteperiod) = some 504 ∧
    (stateOf (playFile 32 100 fileFinetuneMinus7 [fun _ => 0])).map
      (fun mp => (mp.chan 0).noteperiod) = some 505 ∧
    ftLookup 8 10 = .ok 504 ∧ ftLookup 9 10 = .ok 505 ∧
    ftLookup 12 17 = .ok 330 ∧ ftLookup 13 17 = .ok 338 ∧
    finetuneOrder.getD 0 0 = 8 ∧ finetuneOrder.getD 1 0 = 9 ∧
    finetuneOrder.getD 4 0 = 12 ∧ finetuneOrder.getD 5 0 = 13 ∧
    finetune_table.length = 16 ∧ finetune_table.all (fun r => r.length = 36) = true ∧
    finetuneRises = [(10, 8, 9), (17, 12, 13)] ∧
    finetuneShiftBreaks = [9] ∧ ftLookup 0 9 = .ok 508 ∧
    finetuneOctaveBreaks = [(8, 10), (13, 5), (13, 17)] ∧
    ftLookup 8 22 = .ok 254 ∧ ftLookup 13 5 = .ok 655 ∧ ftLookup 13 29 = .ok 164 := by
  decide!

/-- Claim C35: volume slide step.  For a channel with `0 <= volume <= 64`
whose slide amounts are not negative (they hold the nibbles stored at tick
0), at a tick other than 0 effect 10 stores a volume `v` and `volbase = v`
and changes nothing else, where `v` is `volume + vslideup` when
`vslideup != 0` and `volume + vslideup <= 64`, otherwise
`volume - vslidedown` when `vslidedown != 0` and `volume - vslidedown >= 0`,
otherwise `volume`; in all cases `0 <= v <= 64`.  Every state reached from
the one `BeginPlayMOD` establishes by calls of `PlayTick` (on a module
whose effect arguments and sample volumes are bytes) has slide amounts of
`0 .. 15` on every channel. -/
theorem C35_volume_slide (sz rnd : Nat) (chd : TChannelData) (m : TModule) (mp : TModPlay)
    (ch : Fin 4) (he : chd.Effect = 10) (ht : mp.tick ≠ 0)
    (hv0 : 0 ≤ (mp.chan ch).volume) (hv64 : (mp.chan ch).volume ≤ 64)
    (hu : 0 ≤ (mp.chan ch).vslideup) (hd : 0 ≤ (mp.chan ch).vslidedown) :
    (∃ v : Int,
      ProcessEffect sz rnd chd m mp ch
        = .ok (m, mp.setChan ch { mp.chan ch with volume := v, volbase := v }) ∧
      ((mp.chan ch).vslideup ≠ 0 ∧ (mp.chan ch).volume + (mp.chan ch).vslideup ≤ 64 →
        v = (mp.chan ch).volume + (mp.chan ch).vslideup) ∧
      (¬ ((mp.chan ch).vslideup ≠ 0 ∧ (mp.chan ch).volume + (mp.chan ch).vslideup ≤ 64) →
        (mp.chan ch).vslidedown ≠ 0 ∧ (mp.chan ch).volume - (mp.chan ch).vslidedown ≥ 0 →
        v = (mp.chan ch).volume - (mp.chan ch).vslidedown) ∧
      (¬ ((mp.chan ch).vslideup ≠ 0 ∧ (mp.chan ch).volume + (mp.chan ch).vslideup ≤ 64) →
        ¬ ((mp.chan ch).vslidedown ≠ 0 ∧ (mp.chan ch).volume - (mp.chan ch).vslidedown ≥ 0) →
        v = (mp.chan ch).volume) ∧
      0 ≤ v ∧ v ≤ 64) ∧
    (∀ (sfreq : Nat) (m0 : TModule) (mp0 : TModPlay) (rnds : List (Fin 4 → Nat))
        (bufs : List (List Nat)),
      slotBytes m0 → sampleBytes m0 →
      runTicks sz m0 (beginInit sz sfreq mp0) rnds = .ok (m, mp, bufs) →
      ∀ c, 0 ≤ (mp.chan c).vslideup ∧ (mp.chan c).vslideup ≤ 15 ∧
        0 ≤ (mp.chan c).vslidedown ∧ (mp.chan c).vslidedown ≤ 15) := by
  have hpe : ProcessEffect sz rnd chd m mp ch = .ok (m, DoVolumeSlide_10 chd mp ch) := by
    simp only [ProcessEffect, he]
    norm_num
  refine ⟨?_, fun sfreq m0 mp0 rnds bufs hb hv e c =>
    have k := (vol_runTicks sz rnds m0 m _ mp bufs hb hv (vol_beginInit sz sfreq mp0) e).2.2 c
    ⟨k.1, k.2.1, k.2.2.1, k.2.2.2.1⟩⟩
  rw [hpe]
  simp only [DoVolumeSlide_10, if_neg ht]
  by_cases h1 : (mp.chan ch).vslideup ≠ 0 ∧ (mp.chan ch).volume + (mp.chan ch).vslideup ≤ 64
  · refine ⟨(mp.chan ch).volume + (mp.chan ch).vslideup, ?_, fun _ => rfl,
      fun h => absurd h1 h, fun h => absurd h1 h, by omega, by omega⟩
    rw [if_pos h1]
  · by_cases h2 : (mp.chan ch).vslidedown ≠ 0
        ∧ (mp.chan ch).volume - (mp.chan ch).vslidedown ≥ 0
    · refine ⟨(mp.chan ch).volume - (mp.chan ch).vslidedown, ?_, fun h => absurd h h1,
        fun _ _ => rfl, fun _ h => absurd h2 h, by omega, by omega⟩
      rw [if_neg h1, if_pos h2]
    · refine ⟨(mp.chan ch).volume, ?_, fun h => absurd h h1, fun _ h => absurd h h2,
        fun _ _ => rfl, hv0, hv64⟩
      rw [if_neg h1, if_neg h2]

/-- Witness for `C35_volume_slide`: volume 60 with `vslideup = 3` at tick 1
becomes 63. -/
theorem C35_volume_slide_witness :
    (volSlot 0x30).Effect = 10 ∧ stateVolume.tick ≠ 0 ∧ (stateVolume.chan 0).volume = 60 ∧
    (stateVolume.chan 0).vslideup = 3 ∧ (stateVolume.chan 0).vslidedown = 0 ∧
    ∃ v : Int,
      ProcessEffect 32 0 (volSlot 0x30) modStatic stateVolume 0
        = .ok (modStatic, stateVolume.setChan 0
            { stateVolume.chan 0 with volume := v, volbase := v }) ∧ v = 63 := by
  obtain ⟨v, h1, h2, _⟩ := (C35_volume_slide 32 0 (volSlot 0x30) modStatic stateVolume 0 rfl
    (by decide) (by decide) (by decide) (by decide) (by decide)).1
  exact ⟨rfl, by decide, rfl, rfl, rfl, v, h1, (h2 (by decide)).trans (by decide)⟩

/-- Claim C36: tremolo clamps and restores.  At a tick other than 0, with `w`
the entry `waveforms[trwave][trpos]`, effect 7 stores a volume `v` with
`0 <= v <= 64` and `trpos = (trpos + trspeed) & 63`, which is below 64, and
changes nothing else (`volbase` is kept); `v` is
`volbase + trunc (w * tramp / 64)` clamped to `0..64` whenever `tramp` is an
`int8_t` and `volbase` is inside `-32000 .. 32000`, where the intermediate
`int16_t` holds the sum.  Every state reached from the one `BeginPlayMOD`
establishes by calls of `PlayTick` (on a module whose effect arguments and
sample volumes are bytes) has, on every channel, a read of `waveforms`
inside the table, a depth of `0 .. 15`, a base volume of `0 .. 255` and a
position below 64. -/
theorem C36_tremolo (sz rnd : Nat) (chd : TChannelData) (m : TModule) (mp : TModPlay)
    (ch : Fin 4) (w : Int) (he : chd.Effect = 7) (ht : mp.tick ≠ 0)
    (hw : waveLookup mp.trwave (mp.chan ch).trpos = .ok w) :
    (∃ v : Int,
      ProcessEffect sz rnd chd m mp ch
        = .ok (m, mp.setChan ch
            { mp.chan ch with
              trpos := ((((mp.chan ch).trpos : Int) + (mp.chan ch).trspeed) % 64).toNat
              volume := v }) ∧
      0 ≤ v ∧ v ≤ 64 ∧
      ((((mp.chan ch).trpos : Int) + (mp.chan ch).trspeed) % 64).toNat < 64 ∧
      (0 ≤ (mp.chan ch).trspeed →
        ((((mp.chan ch).trpos : Int) + (mp.chan ch).trspeed) % 64).toNat
          = ((mp.chan ch).trpos + (mp.chan ch).trspeed.toNat) &&& 63) ∧
      (-128 ≤ (mp.chan ch).tramp → (mp.chan ch).tramp ≤ 127 →
        -32000 ≤ (mp.chan ch).volbase → (mp.chan ch).volbase ≤ 32000 →
        v = max 0 (min 64 ((mp.chan ch).volbase
              + Int.tdiv (w * (mp.chan ch).tramp) 64)))) ∧
    (∀ (sfreq : Nat) (m0 : TModule) (mp0 : TModPlay) (rnds : List (Fin 4 → Nat))
        (bufs : List (List Nat)),
      slotBytes m0 → sampleBytes m0 →
      runTicks sz m0 (beginInit sz sfreq mp0) rnds = .ok (m, mp, bufs) →
      ∀ c, (∃ w2, waveLookup mp.trwave (mp.chan c).trpos = .ok w2) ∧
        0 ≤ (mp.chan c).tramp ∧ (mp.chan c).tramp ≤ 15 ∧
        0 ≤ (mp.chan c).volbase ∧ (mp.chan c).volbase ≤ 255 ∧ (mp.chan c).trpos < 64) := by
  have hpe : ProcessEffect sz rnd chd m mp ch
      = (DoTremolo_07 chd mp ch).map (fun mp1 => (m, mp1)) := by
    simp only [ProcessEffect, he]
    norm_num
    cases DoTremolo_07 chd mp ch <;> rfl
  refine ⟨?_, fun sfreq m0 mp0 rnds bufs hb hv e c =>
    have k := vol_runTicks sz rnds m0 m _ mp bufs hb hv (vol_beginInit sz sfreq mp0) e
    have kc := k.2.2 c
    ⟨waveLookup_total _ _ k.1 k.2.1 kc.2.2.2.2.2.2.1, kc.2.2.2.2.1, kc.2.2.2.2.2.1,
      kc.2.2.2.2.2.2.2.2.2.1, kc.2.2.2.2.2.2.2.2.2.2, kc.2.2.2.2.2.2.1⟩⟩
  have hmod0 := Int.emod_nonneg (((mp.chan ch).trpos : Int) + (mp.chan ch).trspeed)
    (show (64 : Int) ≠ 0 by norm_num)
  have hmod1 := Int.emod_lt_of_pos (((mp.chan ch).trpos : Int) + (mp.chan ch).trspeed)
    (show (0 : Int) < 64 by norm_num)
  have hu8 : u8 ((((mp.chan ch).trpos : Int) + (mp.chan ch).trspeed) % 64)
      = ((((mp.chan ch).trpos : Int) + (mp.chan ch).trspeed) % 64).toNat := by
    unfold u8
    rw [Int.emod_eq_of_lt hmod0 (by omega)]
  refine ⟨if i16 ((mp.chan ch).volbase + Int.tdiv (w * (mp.chan ch).tramp) 64) < 0 then 0
      else if i16 ((mp.chan ch).volbase + Int.tdiv (w * (mp.chan ch).tramp) 64) > 64 then 64
      else i16 ((mp.chan ch).volbase + Int.tdiv (w * (mp.chan ch).tramp) 64), ?_, ?_, ?_, ?_,
      ?_, ?_⟩
  · rw [hpe]
    simp only [DoTremolo_07, if_neg ht, hw, hu8]
    rfl
  · split_ifs <;> omega
  · split_ifs <;> omega
  · omega
  · intro hs
    have e : ((mp.chan ch).trpos : Int) + (mp.chan ch).trspeed
        = (((mp.chan ch).trpos + (mp.chan ch).trspeed.toNat : Nat) : Int) := by
      rw [Nat.cast_add, Int.toNat_of_nonneg hs]
    have h63 : (63 : Nat) = 2 ^ 6 - 1 := by norm_num
    rw [e, h63, Nat.and_pow_two_sub_one_eq_mod]
    omega
  · intro a1 a2 b1 b2
    obtain ⟨w1, w2⟩ := waveLookup_range _ _ _ hw
    have hprod : -32640 ≤ w * (mp.chan ch).tramp ∧ w * (mp.chan ch).tramp ≤ 32640 := by
      constructor <;> nlinarith
    obtain ⟨t1, t2⟩ := tdiv64_range _ hprod.1 hprod.2
    rw [i16_of_range _ (by omega) (by omega)]
    split_ifs with c1 c2
    · rw [min_eq_right (by omega), max_eq_left (by omega)]
    · rw [min_eq_left (by omega), max_eq_right (by omega)]
    · rw [min_eq_right (by omega), max_eq_right (by omega)]

/-- Witness for `C36_tremolo`: base volume 60, depth 8 and the sine entry -49
at position 62 give volume `60 + trunc (-392 / 64) = 54`; with speed 4 the
position becomes `(62 + 4) & 63 = 2`. -/
theorem C36_tremolo_witness :
    (tremoloSlot 0).Effect = 7 ∧ stateTremolo.tick ≠ 0 ∧
    waveLookup stateTremolo.trwave (stateTremolo.chan 0).trpos = .ok (-49) ∧
    max 0 (min 64 ((stateTremolo.chan 0).volbase
      + Int.tdiv (-49 * (stateTremolo.chan 0).tramp) 64)) = 54 ∧
    ((((stateTremolo.chan 0).trpos : Int) + (stateTremolo.chan 0).trspeed) % 64).toNat = 2 ∧
    ∃ v : Int,
      ProcessEffect 32 0 (tremoloSlot 0) modStatic stateTremolo 0
        = .ok (modStatic, stateTremolo.setChan 0
            { stateTremolo.chan 0 with
              trpos := ((((stateTremolo.chan 0).trpos : Int)
                + (stateTremolo.chan 0).trspeed) % 64).toNat
              volume := v }) ∧ v = 54 := by
  obtain ⟨v, h1, _, _, _, _, h6⟩ := (C36_tremolo 32 0 (tremoloSlot 0) modStatic stateTremolo 0
    (-49) rfl (by decide) (by decide)).1
  exact ⟨rfl, by decide, by decide, by decide, by decide, v, h1,
    (h6 (by decide) (by decide) (by decide) (by decide)).trans (by decide)⟩

/-- Claim C37: non-looping samples fall silent.  For a channel bound to a
sample whose data starts with two bytes 0 (as `LoadMOD` leaves it), with
`Repeatpoint = 0` and `Repeatlength <= 2`, and for every value of `fase`:
a mixing pass in which the position passes `end` leaves `position = 0`,
`faseacum = 0` and `end = Repeatlength`; and from a channel in that
condition (`position <= 1`, `end = Repeatlength`) every run of passes
returns, stays in that condition with `fase` and `volume` untouched, and
the next pass fetches index 0 or 1 and adds 0 to the mix. -/
theorem C37_silent_after_wrap (sz : Nat) (m : TModule) (c : TChanPlay) (k : Fin 31)
    (data : List Nat) (hs : c.sample = some k) (hd : (m.sample k).Sampledata = some data)
    (h0 : data[0]? = some 0) (h1 : data[1]? = some 0)
    (hrp : (m.sample k).Repeatpoint = 0) (hrl : (m.sample k).Repeatlength ≤ 2)
    (hsz : 2 ≤ sz) :
    (∀ c2 x, mixChannel sz m c = .ok (c2, x) →
      (c.faseacum + c.fase) % 2 ^ sz / 32768 ≥ c.end_ →
      c2.sample = some k ∧ c2.position = 0 ∧ c2.faseacum = 0 ∧
      c2.end_ = (m.sample k).Repeatlength) ∧
    (c.position ≤ 1 → c.end_ = (m.sample k).Repeatlength →
      ∀ n, ∃ c2, mixChannelSteps sz m n c = .ok c2 ∧ c2.sample = some k ∧
        c2.position ≤ 1 ∧ c2.end_ = (m.sample k).Repeatlength ∧
        c2.fase = c.fase ∧ c2.volume = c.volume ∧
        data[c2.position]? = some 0 ∧
        ∃ c3, mixChannel sz m c2 = .ok (c3, 0)) := by
  have hpow : (4 : Nat) ≤ 2 ^ sz := by
    calc (4 : Nat) = 2 ^ 2 := by norm_num
      _ ≤ 2 ^ sz := Nat.pow_le_pow_right (by norm_num) hsz
  constructor
  · intro c2 x e hw
    simp only [mixChannel, hs, hd] at e
    split at e
    · cases e
    · rw [if_pos hw] at e
      cases e
      refine ⟨rfl, hrp, ?_, ?_⟩
      · dsimp only; rw [hrp]; rfl
      · dsimp only
        rw [hrp, Nat.zero_add]
        exact Nat.mod_eq_of_lt (by omega)
  · intro hp he n
    obtain ⟨c2, e2, s2, p2, e2e, f2, v2⟩ :=
      silent_run sz m k data hd h0 h1 hrp hrl hsz n c hs hp he
    obtain ⟨c3, e3, _⟩ := silent_step sz m k data c2 hd h0 h1 hrp hrl hsz s2 p2 e2e
    refine ⟨c2, e2, s2, p2, e2e, f2, v2, ?_, c3, e3⟩
    rcases Nat.eq_zero_or_pos c2.position with hz | hz
    · rw [hz]; exact h0
    · have : c2.position = 1 := by omega
      rw [this]; exact h1

set_option maxRecDepth 100000 in
/-- Witness for `C37_silent_after_wrap`: on `chanOnce` (position 3 of 4, three
positions per pass) the next pass fetches byte 3 (50 at volume 64) and
wraps to `chanOnceWrapped`; from there five more passes leave the channel
at a position of at most 1 and the pass after them adds 0. -/
theorem C37_silent_after_wrap_witness :
    (mixChannel 32 modOnce chanOnce).map
        (fun r => (r.1.position, r.1.faseacum, r.1.end_, r.2))
      = .ok (chanOnceWrapped.position, chanOnceWrapped.faseacum, chanOnceWrapped.end_, 3200) ∧
    chanOnceWrapped.sample = some 0 ∧ chanOnceWrapped.position ≤ 1 ∧
    chanOnceWrapped.end_ = (modOnce.sample 0).Repeatlength ∧
    ∃ c2, mixChannelSteps 32 modOnce 5 chanOnceWrapped = .ok c2 ∧ c2.position ≤ 1 ∧
      ∃ c3, mixChannel 32 modOnce c2 = .ok (c3, 0) := by
  refine ⟨by decide!, rfl, by decide, rfl, ?_⟩
  obtain ⟨c2, e2, _, p2, _, _, _, _, c3, e3⟩ :=
    (C37_silent_after_wrap 32 modOnce chanOnceWrapped 0 [0, 0, 100, 50] rfl rfl rfl rfl rfl
      (by decide) (by decide)).2 (by decide) rfl 5
  exact ⟨c2, e2, p2, c3, e3⟩

set_option maxRecDepth 100000 in
/-- Claim C38 (failing input): `fileArpeggio` loads as a module of song length
1 whose only played pattern carries none of the effects 11, 13 and 15 (row
0, channel 0 is an arpeggio with argument `0x37` and no note, every other
slot is empty), and the state `BeginPlayMOD (100)` establishes on the
static `mplay` is the start state of the claim.  The first call of
`PlayTick` hands a block to the sink; the second call (tick 1 of row 0)
divides by `sfreq * 0` in the arpeggio and hands nothing over: the run
stops after 1 of the 384 calls. -/
theorem C38_failing_input_arpeggio_run :
    (moduleOf fileArpeggio).Songlength = 1 ∧ (moduleOf fileArpeggio).Songpositions 0 = 0 ∧
    (moduleOf fileArpeggio).pattern.length = 1 ∧
    (∀ (r : Fin 64) (c : Fin 4),
      (((loadPattern fileArpeggio 0).row r).chan c).Effect ≠ 11 ∧
      (((loadPattern fileArpeggio 0).row r).chan c).Effect ≠ 13 ∧
      (((loadPattern fileArpeggio 0).row r).chan c).Effect ≠ 15) ∧
    ((beginInit 32 100 mplayStatic).tick, (beginInit 32 100 mplayStatic).songpos,
      (beginInit 32 100 mplayStatic).patrow, (beginInit 32 100 mplayStatic).newsongpos,
      (beginInit 32 100 mplayStatic).newpatrow, (beginInit 32 100 mplayStatic).ticksperdiv,
      (beginInit 32 100 mplayStatic).finished) = (0, 0, 0, -1, -1, 6, 0) ∧
    audioOf (playFile 32 100 fileArpeggio [fun _ => 0]) = .ok [[128, 128]] ∧
    (stateOf (playFile 32 100 fileArpeggio [fun _ => 0])).map
      (fun mp => (mp.tick, mp.patrow, mp.songpos, mp.finished, (mp.chan 0).noteperiod))
      = some (1, 0, 0, 0, 0) ∧
    audioOf (playFile 32 100 fileArpeggio [fun _ => 0, fun _ => 0]) = .error .divByZero ∧
    audioOf (playFile 32 100 fileArpeggio (List.replicate 384 (fun _ => 0)))
      = .error .divByZero := by
  refine ⟨?_, ?_, ?_, ?_, ?_, ?_, ?_, ?_, ?_⟩ <;> decide!

end Modplay
